import Mathlib

/-! Ring-fleet simulators: a shallow embedding.

Two C programs are embedded here:

* `Code/baseline_simulator.c` (namespace `Baseline`): the position-sorted
  gap computation, the largest-gap search, the generation of the loss
  schedule, and the loop of `simulate` (loss phase, spare insertion, speed
  update, position advance) up to the fleet of the final metrics;
* `Code/archive_2026-02-17/fleet_simulator.c` (namespace `FleetSim`): the
  index-ring gap pass, the control law, failure injection, spare
  insertion, the metrics, the loop of `simulate_scenario` and the
  normalisation of a scenario record at load.

Modelling conventions.

* A C `double` is an exact rational (`ℚ`); `fmod`, `fmin`, `fmax`, `fabs`
  are the exact functions.  Rounding is not modelled.
* A C array `Drone *fleet` is a function `Nat → Drone`; the loop bound `n`
  comes from the scenario, as in the source.  A store `fleet[i].f = e` is a
  `Function.update`.
* The `int alive` flag only ever holds 0 or 1 and is a `Bool`.
* The conversion of a `double` to `int` at load (`to_int`) is defined only
  for a value that a 32-bit `int` can hold; the loader returns `undefined`
  otherwise.
* In `compute_gaps` the index `prev_alive`, which uses `-1` for "none yet",
  is an `Option Nat`, as are the indices of `find_largest_gap` and the result
  of `find_dead_drone`; the `target_idx` of `inject_failure` keeps its `-1`.
* `for (i = 0; i < n; i++)` is a left fold over `List.range n`; a loop with
  a bounded number of iterations is a recursion on the iterations left.
* The C library generator is the stream of the values its coming calls
  return; `sqrt`, which is not a rational function, is a parameter.
-/

/-- C `trunc` on an exact quotient: rounding toward zero. -/
def truncQ (q : ℚ) : ℤ := if 0 ≤ q then ⌊q⌋ else ⌈q⌉

/-- C `fmod x y = x - y * trunc (x / y)`; the result has the sign of `x`.
For `y = 0` C returns NaN, the model returns `x`. -/
def fmod (x y : ℚ) : ℚ := x - y * (truncQ (x / y) : ℚ)

namespace Baseline

/-- The `Scenario` record of `baseline_simulator.c`. -/
structure Scenario where
  n : Int
  perimeter : ℚ
  V : ℚ
  Vmax : ℚ
  d_star : ℚ
  d_safe : ℚ
  k_sym : ℚ
  k_sym_rec : ℚ
  k_f : ℚ
  k_b : ℚ
  k_rep : ℚ
  k_f_rec : ℚ
  k_b_rec : ℚ
  alpha : ℚ
  beta : ℚ
  V_cap : ℚ
  epsilon : ℚ
  steps : Int
  dt : ℚ
  num_losses : Int
  seed : Nat
  resilience : Int
  min_spare_delay_steps : Int
  incoming_hold_steps : Int

/-- The `Drone` record of `baseline_simulator.c`. -/
structure Drone where
  s : ℚ
  v : ℚ
  alive : Bool
  mode : Int
  incoming_timer : Int
  gap_f : ℚ
  gap_b : ℚ
deriving DecidableEq

/-- The fleet array. -/
abbrev Fleet := Nat → Drone

/-- The `Ordered` record: a slot index with its position. -/
structure Ordered where
  idx : Nat
  pos : ℚ
deriving DecidableEq

/-- The store `fleet[i].gap_f = g`. -/
def set_gap_f (f : Fleet) (i : Nat) (g : ℚ) : Fleet :=
  Function.update f i { f i with gap_f := g }

/-- The store `fleet[i].gap_b = g`. -/
def set_gap_b (f : Fleet) (i : Nat) (g : ℚ) : Fleet :=
  Function.update f i { f i with gap_b := g }

/-- The comparator `cmp_pos`. -/
def cmp_pos (a b : Ordered) : Int :=
  if a.pos < b.pos then -1 else if a.pos > b.pos then 1 else 0

/-- The library call `qsort(order, n, sizeof(Ordered), cmp_pos)`: the array
is put in an order in which `cmp_pos a b ≤ 0` for `a` before `b`.  The C
library leaves the order of equal keys open; the model is the stable
insertion sort, and `compute_gaps_sorted_sum` below holds for every sorted
permutation. -/
def qsort_pos (l : List Ordered) : List Ordered :=
  l.insertionSort (fun a b => cmp_pos a b ≤ 0)

/-- Number of living slots among the first `n`. -/
def alive_count (fleet : Fleet) (n : Nat) : Nat :=
  ((List.range n).filter (fun i => (fleet i).alive)).length

/-- First loop of `compute_gaps`, fleet part: both gaps are reset. -/
def reset_gaps (fleet : Fleet) (n : Nat) : Fleet :=
  (List.range n).foldl
    (fun f i => set_gap_b (set_gap_f f i 0) i 0) fleet

/-- First loop of `compute_gaps`, `order` part: `order[i] = (i, fleet[i].s)`. -/
def init_order (fleet : Fleet) (n : Nat) : List Ordered :=
  (List.range n).map (fun i => { idx := i, pos := (fleet i).s })

/-- Local variables of the pairing loop of `compute_gaps`. -/
structure GapScan where
  fleet : Fleet
  prev_alive : Option Nat
  prev_pos : ℚ
  first_pos : ℚ
  last_pos : ℚ

/-- One iteration of the pairing loop (source lines 175-188). -/
def gap_scan_step (st : GapScan) (o : Ordered) : GapScan :=
  let idx := o.idx
  if !(st.fleet idx).alive then st
  else
    let pos := o.pos
    let first_pos := if st.first_pos < 0 then pos else st.first_pos
    let fleet :=
      match st.prev_alive with
      | some p =>
        let gap := pos - st.prev_pos
        set_gap_f (set_gap_b st.fleet idx gap) p gap
      | none => st.fleet
    { fleet := fleet, prev_alive := some idx, prev_pos := pos,
      first_pos := first_pos, last_pos := pos }

/-- One iteration of the loop at source lines 193-200. -/
def back_fix_step (order0 : Nat) (prev_alive : Option Nat) (wrap_gap : ℚ)
    (f : Fleet) (o : Ordered) : Fleet :=
  let idx := o.idx
  if !(f idx).alive then f
  else if (f idx).gap_b = 0 ∧ some idx ≠ prev_alive then
    set_gap_b f idx (if idx = order0 then wrap_gap else (f idx).gap_b)
  else f

/-- The loop at source lines 202-209, which stops at its first hit. -/
def set_first_back (order0 : Nat) (wrap_gap : ℚ) : List Ordered → Fleet → Fleet
  | [], f => f
  | o :: rest, f =>
    if !(f o.idx).alive then set_first_back order0 wrap_gap rest f
    else if o.idx = order0 then
      set_gap_b f o.idx wrap_gap
    else set_first_back order0 wrap_gap rest f

/-- The body of `compute_gaps` after the call of `qsort`, for a given
sorted `order` array. -/
def compute_gaps_sorted (order : List Ordered) (fleet : Fleet) (s : Scenario) : Fleet :=
  let n := s.n.toNat
  let cnt := alive_count fleet n
  let st0 : GapScan :=
    { fleet := reset_gaps fleet n, prev_alive := none, prev_pos := 0,
      first_pos := -1, last_pos := -1 }
  let st := order.foldl gap_scan_step st0
  if cnt > 1 then
    let wrap_gap := s.perimeter - st.last_pos + st.first_pos
    let f1 :=
      match st.prev_alive with
      | some p => set_gap_f st.fleet p wrap_gap
      | none => st.fleet
    let order0 := (order.headD { idx := 0, pos := 0 }).idx
    let f2 := order.foldl (back_fix_step order0 st.prev_alive wrap_gap) f1
    set_first_back order0 wrap_gap order f2
  else st.fleet

/-- The function `compute_gaps`. -/
def compute_gaps (fleet : Fleet) (s : Scenario) : Fleet :=
  compute_gaps_sorted (qsort_pos (init_order fleet s.n.toNat)) fleet s

/-- Sum of `gap_f` over the living slots among the first `n`. -/
def sum_gap_f (fleet : Fleet) (n : Nat) : ℚ :=
  ∑ i in (Finset.range n).filter (fun i => (fleet i).alive = true), (fleet i).gap_f

/-- Invariant of the pairing loop of `compute_gaps`, with `rest` the part of
the sorted array still to be visited. -/
structure ScanInv (fleet : Fleet) (n : Nat) (perimeter : ℚ) (st : GapScan)
    (rest : List Ordered) : Prop where
  frame : ∀ i, (st.fleet i).alive = (fleet i).alive
  nonneg : ∀ i, i < n → 0 ≤ (st.fleet i).gap_f
  rest_zero : ∀ o ∈ rest, (st.fleet o.idx).gap_f = 0
  at_none : st.prev_alive = none → st.first_pos = -1 ∧ sum_gap_f st.fleet n = 0
  at_some : ∀ p, st.prev_alive = some p →
    p < n ∧ (fleet p).alive = true ∧ (st.fleet p).gap_f = 0 ∧
    (∀ o ∈ rest, o.idx ≠ p) ∧ 0 ≤ st.first_pos ∧ st.first_pos ≤ st.prev_pos ∧
    st.last_pos = st.prev_pos ∧ st.prev_pos < perimeter ∧
    sum_gap_f st.fleet n = st.prev_pos - st.first_pos ∧
    (∀ o ∈ rest, st.prev_pos ≤ o.pos)

/-! ### `find_largest_gap` and the spare insertion of `simulate` -/

/-- The test `fleet[idx].alive` of the loops over the `order` array. -/
def is_living (fleet : Fleet) (o : Ordered) : Bool := (fleet o.idx).alive

/-- The function `find_dead_drone`: the lowest dormant slot, `none` for the
return value `-1`. -/
def find_dead_drone (fleet : Fleet) (n : Nat) : Option Nat :=
  (List.range n).find? (fun i => !(fleet i).alive)

/-- Local variables of the search loop of `find_largest_gap`; the indices
that use `-1` for "none yet" are `Option Nat`. -/
structure GapSearch where
  best_gap : ℚ
  best_from : Option Nat
  best_pos : ℚ
  first_alive_seen : Bool
  first_pos : ℚ
  first_idx : Option Nat
  prev_pos : ℚ
  prev_idx : Option Nat

/-- The local variables of `find_largest_gap` on entry to its search loop
(source lines 235-242). -/
def gap_search_init : GapSearch :=
  { best_gap := -1.0, best_from := none, best_pos := 0.0, first_alive_seen := false,
    first_pos := 0.0, first_idx := none, prev_pos := 0.0, prev_idx := none }

/-- One iteration of the search loop (source lines 243-261). -/
def gap_search_step (fleet : Fleet) (st : GapSearch) (o : Ordered) : GapSearch :=
  let idx := o.idx
  if !(fleet idx).alive then st
  else
    let pos := o.pos
    let st1 : GapSearch :=
      if !st.first_alive_seen then
        { st with first_alive_seen := true, first_pos := pos, first_idx := some idx }
      else st
    let st2 : GapSearch :=
      match st1.prev_idx with
      | some p =>
        let gap := pos - st1.prev_pos
        if gap > st1.best_gap then
          { st1 with best_gap := gap, best_from := some p, best_pos := st1.prev_pos }
        else st1
      | none => st1
    { st2 with prev_idx := some idx, prev_pos := pos }

/-- The wrap-around test after the search loop (source lines 263-268). -/
def gap_search_wrap (s : Scenario) (st : GapSearch) : GapSearch :=
  let wrap_gap := s.perimeter - st.prev_pos + st.first_pos
  if wrap_gap > st.best_gap then
    { st with best_gap := wrap_gap, best_from := st.prev_idx, best_pos := st.prev_pos }
  else st

/-- The body of `find_largest_gap` after the call of `qsort`, for a given
sorted `order` array: `none` for the return value 0 (the outputs are not
written), `some (from_idx, from_pos, gap_out)` for the return value 1. -/
def find_largest_gap_sorted (order : List Ordered) (fleet : Fleet) (s : Scenario) :
    Option (Nat × ℚ × ℚ) :=
  let st := gap_search_wrap s (order.foldl (gap_search_step fleet) gap_search_init)
  if st.best_gap ≤ 0 then none
  else
    match st.best_from with
    | some b => some (b, st.best_pos, st.best_gap)
    | none => none

/-- The function `find_largest_gap`. -/
def find_largest_gap (fleet : Fleet) (s : Scenario) : Option (Nat × ℚ × ℚ) :=
  let n := s.n.toNat
  if alive_count fleet n < 2 then none
  else find_largest_gap_sorted (qsort_pos (init_order fleet n)) fleet s

/-- The slot that `simulate` writes when it inserts a spare at `insert_pos`
(source lines 329-333). -/
def spare_drone (s : Scenario) (d : Drone) (insert_pos : ℚ) : Drone :=
  { d with alive := true, s := insert_pos, v := s.V, mode := 1,
           incoming_timer := s.incoming_hold_steps }

/-- The position `insert_pos` (source line 328). -/
def insert_pos (s : Scenario) (from_pos gap : ℚ) : ℚ :=
  fmod (from_pos + 0.5 * gap + s.perimeter) s.perimeter

/-- The spare insertion of `simulate` (source lines 322-341), once the test
at line 321 has passed: the fleet and the counter `total_spares_inserted`. -/
def insert_spare (fleet : Fleet) (s : Scenario) (total_spares_inserted : Int) :
    Fleet × Int :=
  match find_largest_gap fleet s with
  | some (_, from_pos, gap) =>
    match find_dead_drone fleet s.n.toNat with
    | some slot =>
      (compute_gaps
        (Function.update fleet slot (spare_drone s (fleet slot) (insert_pos s from_pos gap))) s,
        total_spares_inserted + 1)
    | none => (fleet, total_spares_inserted)
  | none => (fleet, total_spares_inserted)

/-! ### `generate_losses` -/

/-- The `Loss` record. -/
structure Loss where
  step : Int
  idx : Int
deriving DecidableEq

/-- The array `Loss *arr`. -/
abbrev Losses := Nat → Loss

/-- The state of the C library generator: the stream of the values that the
coming calls of `rand()` return. -/
abbrev Rng := Nat → Nat

/-- One call of `rand()`. -/
def rand (r : Rng) : Nat × Rng := (r 0, fun k => r (k + 1))

/-- One iteration of the drawing loop of `generate_losses` (source lines
139-142), on the array and the generator state. -/
def draw_step (s : Scenario) (st : Losses × Rng) (i : Nat) : Losses × Rng :=
  let a := rand st.2
  let b := rand a.2
  (Function.update st.1 i
    { step := Int.tmod (a.1 : Int) (if s.steps > 0 then s.steps else 1)
      idx := Int.tmod (b.1 : Int) (if s.n > 0 then s.n else 1) },
    b.2)

/-- The body of the inner loop of the sort (source lines 146-150). -/
def exchange_step (i : Nat) (arr : Losses) (j : Nat) : Losses :=
  if (arr j).step < (arr i).step then
    let tmp := arr i
    Function.update (Function.update arr i (arr j)) j tmp
  else arr

/-- The inner loop `for (j = i + 1; j < count; j++)`. -/
def exchange_inner (count : Nat) (arr : Losses) (i : Nat) : Losses :=
  (List.range (count - (i + 1))).foldl (fun a t => exchange_step i a (i + 1 + t)) arr

/-- The outer loop `for (i = 0; i < count - 1; i++)`. -/
def exchange_sort (count : Nat) (arr : Losses) : Losses :=
  (List.range (count - 1)).foldl (exchange_inner count) arr

/-- The array after the drawing loop and the generator state left. -/
def draw_losses (s : Scenario) (r : Rng) : Losses × Rng :=
  (List.range s.num_losses.toNat).foldl (draw_step s)
    (fun _ => { step := 0, idx := 0 }, r)

/-- The function `generate_losses`: the array `*losses_out` and `*count_out`.
`srand seed` is the generator state that `srand(seed)` sets; `calloc` gives
an array of zeros. -/
def generate_losses (srand : Nat → Rng) (s : Scenario) : Losses × Int :=
  let count := s.num_losses
  (exchange_sort count.toNat (draw_losses s (srand s.seed)).1, count)

/-- The `count_out` entries of the array that `generate_losses` returns. -/
def losses_list (out : Losses × Int) : List Loss :=
  (List.range out.2.toNat).map out.1

/-- The `i`-th pair that the drawing loop takes from the stream `r`. -/
def drawn_pair (s : Scenario) (r : Rng) (i : Nat) : Loss :=
  { step := Int.tmod (r (2 * i) : Int) (if s.steps > 0 then s.steps else 1)
    idx := Int.tmod (r (2 * i + 1) : Int) (if s.n > 0 then s.n else 1) }

/-- The array `b` holds the entries of `a` with those at the indices
`lo ≤ k < c` rearranged. -/
def Rearr (lo c : Nat) (a b : Losses) : Prop :=
  ∃ σ : Equiv.Perm Nat, (∀ k, (k < lo ∨ c ≤ k) → σ k = k) ∧ ∀ k, b k = a (σ k)

/-! ### `simulate` -/

/-- The fleet after `calloc` and the initialisation loop of `simulate`
(source lines 280-287). -/
def init_fleet (s : Scenario) : Fleet :=
  (List.range s.n.toNat).foldl
    (fun f i => Function.update f i
      { f i with
        s := fmod ((i : ℚ) * (s.perimeter / (s.n : ℚ))) s.perimeter
        v := s.V
        alive := true
        mode := 0
        incoming_timer := 0 })
    (fun _ => { s := 0, v := 0, alive := false, mode := 0, incoming_timer := 0,
                gap_f := 0, gap_b := 0 })

/-- The local variables of `simulate` that live across the steps. -/
structure RunState where
  fleet : Fleet
  loss_idx : Nat
  total_losses_seen : Int
  total_spares_inserted : Int
  last_loss_step : Int

/-- The variables that the loss loop of one step works on. -/
structure LossPhase where
  fleet : Fleet
  loss_idx : Nat
  loss_this_step : Bool
  last_loss_step : Int

/-- The body of the loss loop (source lines 306-312) for the entry `l`. -/
def apply_loss (n : Int) (l : Loss) (step : Int) (st : LossPhase) : LossPhase :=
  let idx := l.idx
  let st1 : LossPhase :=
    if idx ≥ 0 ∧ idx < n ∧ (st.fleet idx.toNat).alive = true then
      { st with
        fleet := Function.update st.fleet idx.toNat { st.fleet idx.toNat with alive := false }
        loss_this_step := true
        last_loss_step := step }
    else st
  { st1 with loss_idx := st1.loss_idx + 1 }

/-- The loop `while (loss_idx < loss_count && losses[loss_idx].step == step)`;
the first argument bounds the number of iterations. -/
def apply_losses (n : Int) (losses : Losses) (loss_count : Int) (step : Int) :
    Nat → LossPhase → LossPhase
  | 0, st => st
  | k + 1, st =>
    if (st.loss_idx : Int) < loss_count ∧ (losses st.loss_idx).step = step then
      apply_losses n losses loss_count step k (apply_loss n (losses st.loss_idx) step st)
    else st

/-- The loss phase of step `step` (source lines 303-313).  The loop runs at
most `loss_count - loss_idx` times. -/
def loss_phase (s : Scenario) (losses : Losses) (loss_count : Int) (st : RunState)
    (step : Nat) : LossPhase :=
  apply_losses s.n losses loss_count step (loss_count - (st.loss_idx : Int)).toNat
    { fleet := st.fleet, loss_idx := st.loss_idx, loss_this_step := false,
      last_loss_step := st.last_loss_step }

/-- The count `dead_now` (source lines 320-323). -/
def dead_count (fleet : Fleet) (n : Nat) : Nat :=
  ((List.range n).filter (fun i => !(fleet i).alive)).length

/-- The spare phase of a step (source lines 318-343): the fleet,
`total_losses_seen` and `total_spares_inserted`. -/
def spare_phase (s : Scenario) (step : Int) (loss_this_step : Bool) (last_loss_step : Int)
    (fleet : Fleet) (total_losses_seen total_spares_inserted : Int) : Fleet × Int × Int :=
  if s.resilience ≠ 0 ∧ loss_this_step = false then
    let dead_now : Int := (dead_count fleet s.n.toNat : Int)
    let seen : Int := if total_losses_seen < dead_now then dead_now else total_losses_seen
    if total_spares_inserted < seen ∧ total_spares_inserted < s.num_losses ∧
        step - last_loss_step ≥ s.min_spare_delay_steps then
      let r := insert_spare fleet s total_spares_inserted
      (r.1, seen, r.2)
    else (fleet, seen, total_spares_inserted)
  else (fleet, total_losses_seen, total_spares_inserted)

/-- The velocity `v` of the speed update before the test on `mode` (source
lines 348-362), from the gaps of the drone. -/
def speed_cmd (s : Scenario) (d_f d_b : ℚ) : ℚ :=
  let rec_flag : Bool := decide (d_f > s.alpha * s.d_star) || decide (d_b < s.beta * s.d_star)
  let k_sym := if rec_flag = true ∧ s.k_sym_rec > 0 then s.k_sym_rec else s.k_sym
  let gap_delta := d_f - d_b
  let v0 := s.V + k_sym * gap_delta
  let v1 :=
    if d_f < s.d_safe then
      let cap := s.V * (d_f / s.d_safe)
      if v0 > cap then cap else v0
    else v0
  let v2 := if d_b < s.d_safe then v1 + s.k_rep * (s.d_safe - d_b) else v1
  let v3 := if rec_flag = true ∧ v2 > s.V_cap then s.V_cap else v2
  let v4 := if v3 < 0 then 0 else v3
  if v4 > s.Vmax then s.Vmax else v4

/-- One iteration of the speed update (source lines 346-371). -/
def speed_step (s : Scenario) (f : Fleet) (i : Nat) : Fleet :=
  if !(f i).alive then f
  else if (f i).mode = 1 ∧ (f i).incoming_timer > 0 then
    Function.update f i
      { f i with
        v := s.V
        incoming_timer := (f i).incoming_timer - 1
        mode := if (f i).incoming_timer - 1 = 0 then 0 else (f i).mode }
  else
    Function.update f i { f i with v := speed_cmd s (f i).gap_f (f i).gap_b }

/-- One iteration of the position advance (source lines 439-442). -/
def advance_step (s : Scenario) (f : Fleet) (i : Nat) : Fleet :=
  if !(f i).alive then f
  else
    Function.update f i
      { f i with s := fmod ((f i).s + (f i).v * s.dt + s.perimeter) s.perimeter }

/-- One iteration of the loop of `simulate` (source lines 302-443); the
summary and the trace only print. -/
def step_body (s : Scenario) (losses : Losses) (loss_count : Int) (st : RunState)
    (step : Nat) : RunState :=
  let lp := loss_phase s losses loss_count st step
  let f1 := compute_gaps lp.fleet s
  let sp := spare_phase s step lp.loss_this_step lp.last_loss_step f1
    st.total_losses_seen st.total_spares_inserted
  let f2 := (List.range s.n.toNat).foldl (speed_step s) sp.1
  let f3 := (List.range s.n.toNat).foldl (advance_step s) f2
  { fleet := f3, loss_idx := lp.loss_idx, total_losses_seen := sp.2.1,
    total_spares_inserted := sp.2.2, last_loss_step := lp.last_loss_step }

/-- The local variables of `simulate` on entry to its loop (source lines
279-292). -/
def run_init (s : Scenario) : RunState :=
  { fleet := init_fleet s, loss_idx := 0, total_losses_seen := 0,
    total_spares_inserted := 0, last_loss_step := -1000000 }

/-- The state of `simulate` after the first `k` steps. -/
def run_steps (s : Scenario) (losses : Losses) (loss_count : Int) (k : Nat) : RunState :=
  (List.range k).foldl (step_body s losses loss_count) (run_init s)

/-- The function `simulate`, up to the `compute_gaps` of the final metrics:
the fleet from which the printed metrics are computed. -/
def simulate (s : Scenario) (losses : Losses) (loss_count : Int) : Fleet :=
  compute_gaps (run_steps s losses loss_count s.steps.toNat).fleet s

end Baseline

/-! ## `fleet_simulator.c`: data model and operations -/

namespace FleetSim

/-- The constant `MAX_SIMULATION_STEPS`. -/
def MAX_SIMULATION_STEPS : Nat := 5000

/-- The C library constant `RAND_MAX` (glibc value). -/
def RAND_MAX : Nat := 2147483647

/-- The `Drone` record of `fleet_simulator.c`. -/
structure Drone where
  x : ℚ
  y : ℚ
  v : ℚ
  v_nom : ℚ
  gap_to_pred : ℚ
  alive : Bool
  state : Int
  time_in_incoming : ℚ
  phase : Int
deriving DecidableEq

/-- The `Scenario` record of `fleet_simulator.c`. -/
structure Scenario where
  perimeter : ℚ
  num_drones : Int
  initial_active : Int
  v_nominal : ℚ
  v_max : ℚ
  sensing_radius : ℚ
  nominal_spacing : ℚ
  balancing_policy : Int
  neighbor_balance_factor : ℚ
  density_threshold : ℚ
  speed_threshold : ℚ
  adaptation_window : ℚ
  spare_trigger_ratio : ℚ
  spare_target_factor : ℚ
  failure_rate : ℚ
  num_failures : Int
  strike_fraction : ℚ
  failure_distribution : Int
  seed : Nat

/-- The `Metrics` record of `fleet_simulator.c`. -/
structure Metrics where
  density : ℚ
  coverage : ℚ
  avg_speed : ℚ
  speed_stddev : ℚ
  max_gap : ℚ
  avg_gap : ℚ
  peak_gap : ℚ
  num_drones_active : ℚ
  formation_stability : ℚ
  energy_consumed : ℚ
  time_to_recover : ℚ
  recovery_slope : ℚ
  oscillation_integral : ℚ
  oscillation_samples : Int
  oscillation_metric : ℚ
deriving DecidableEq

/-- The fleet array. -/
abbrev Fleet := Nat → Drone

/-- The state of the C library generator: the stream of the values that the
coming calls of `rand()` return. -/
abbrev Rng := Nat → Nat

/-- One call of `rand()`. -/
def rand (r : Rng) : Nat × Rng := (r 0, fun k => r (k + 1))

/-- The function `uniform_random`. -/
def uniform_random (lo hi : ℚ) (r : Rng) : ℚ × Rng :=
  let d := rand r
  (lo + (hi - lo) * ((d.1 : ℚ) / (RAND_MAX : ℚ)), d.2)

/-- The function `initialize_fleet`. -/
def initialize_fleet (fleet : Fleet) (scenario : Scenario) : Fleet :=
  let n := scenario.num_drones.toNat
  let spacing := scenario.nominal_spacing
  let perimeter := scenario.perimeter
  (List.range n).foldl
    (fun f i => Function.update f i
      { x := fmod ((i : ℚ) * spacing) perimeter
        y := 0
        v := scenario.v_nominal
        v_nom := scenario.v_nominal
        gap_to_pred := spacing
        alive := decide ((i : Int) < scenario.initial_active)
        state := 0
        time_in_incoming := 0
        phase := 0 })
    fleet

/-! ### `inject_failure` -/

/-- Whether slot `idx` is a valid target: `fleet[idx].alive && fleet[idx].state == 0`. -/
def is_target (fleet : Fleet) (idx : Int) : Bool :=
  (fleet idx.toNat).alive && decide ((fleet idx.toNat).state = 0)

/-- The retry loop `while (attempts < 100)` of the RANDOM mode; the first
argument is the number of attempts left.  The result is `target_idx`
(`-1` when no target was found). -/
def pick_random (fleet : Fleet) (num_drones : Int) : Nat → Rng → Int × Rng
  | 0, r => (-1, r)
  | k + 1, r =>
    let d := rand r
    let idx := Int.tmod (d.1 : Int) num_drones
    if is_target fleet idx then (idx, d.2)
    else pick_random fleet num_drones k d.2

/-- The retry loop of the SPATIAL CLUSTERED mode. -/
def pick_clustered (fleet : Fleet) (num_drones cluster_center cluster_radius : Int) :
    Nat → Rng → Int × Rng
  | 0, r => (-1, r)
  | k + 1, r =>
    let d := rand r
    let offset := Int.tmod (d.1 : Int) (2 * cluster_radius + 1) - cluster_radius
    let idx := Int.tmod (cluster_center + offset + num_drones) num_drones
    if is_target fleet idx then (idx, d.2)
    else pick_clustered fleet num_drones cluster_center cluster_radius k d.2

/-- The loop `while (attempts_to_find_prev < 100)` of the TEMPORAL CASCADE
mode. -/
def pick_cascade (fleet : Fleet) (num_drones : Int) : Nat → Rng → Int × Rng
  | 0, r => (-1, r)
  | k + 1, r =>
    let d := rand r
    let idx := Int.tmod (d.1 : Int) num_drones
    if (fleet idx.toNat).alive = false then
      let succ_idx := Int.tmod (idx + 1) num_drones
      if is_target fleet succ_idx then (succ_idx, d.2)
      else
        let pred_idx := Int.tmod (idx - 1 + num_drones) num_drones
        if is_target fleet pred_idx then (pred_idx, d.2)
        else pick_cascade fleet num_drones k d.2
    else pick_cascade fleet num_drones k d.2

/-- The `switch` of `inject_failure`: the chosen `target_idx`. -/
def choose_target (fleet : Fleet) (scenario : Scenario) (step : Int) (r : Rng) :
    Int × Rng :=
  let nd := scenario.num_drones
  if scenario.failure_distribution = 0 then pick_random fleet nd 100 r
  else if scenario.failure_distribution = 1 then
    let d := rand r
    let cluster_center := Int.tmod (d.1 : Int) nd
    let cluster_radius := Int.tdiv nd 5
    pick_clustered fleet nd cluster_center cluster_radius 100 d.2
  else if scenario.failure_distribution = 2 then
    let cascade_progression := (step : ℚ) / (MAX_SIMULATION_STEPS : ℚ)
    let cascade_factor := cascade_progression * cascade_progression
    let u := uniform_random 0 1 r
    if u.1 < cascade_factor then
      let c := pick_cascade fleet nd 100 u.2
      if c.1 < 0 then pick_random fleet nd 100 c.2 else c
    else (-1, u.2)
  else pick_random fleet nd 100 r

/-- The function `inject_failure`; the result is the fleet, the counter
`*failures_injected` and the generator state. -/
def inject_failure (fleet : Fleet) (scenario : Scenario) (failures_injected : Int)
    (step : Int) (r : Rng) : Fleet × Int × Rng :=
  if failures_injected ≥ scenario.num_failures then (fleet, failures_injected, r)
  else
    let t := choose_target fleet scenario step r
    if t.1 ≥ 0 then
      (Function.update fleet t.1.toNat { fleet t.1.toNat with alive := false },
        failures_injected + 1, t.2)
    else (fleet, failures_injected, t.2)

/-! ### `update_drone_positions` -/

/-- The scan `while (!fleet[pred_idx].alive && pred_idx != i)` of the gap
pass; the first argument bounds the number of iterations. -/
def scan_pred (fleet : Fleet) (n i : Nat) : Nat → Nat → Nat
  | 0, pred_idx => pred_idx
  | k + 1, pred_idx =>
    if (!(fleet pred_idx).alive) && decide (pred_idx ≠ i) then
      scan_pred fleet n i k ((pred_idx + n - 1) % n)
    else pred_idx

/-- The number of iterations that the scan of `scan_pred` executes. -/
def scan_steps (fleet : Fleet) (n i : Nat) : Nat → Nat → Nat
  | 0, _ => 0
  | k + 1, pred_idx =>
    if (!(fleet pred_idx).alive) && decide (pred_idx ≠ i) then
      scan_steps fleet n i k ((pred_idx + n - 1) % n) + 1
    else 0

/-- The nearest living predecessor of slot `i`, as the gap pass finds it.
The scan starts at `(i - 1 + n) % n` and needs fewer than `n` iterations. -/
def find_pred (fleet : Fleet) (n i : Nat) : Nat :=
  scan_pred fleet n i n ((i + n - 1) % n)

/-- One iteration of the first pass (source lines 351-367). -/
def gap_pass_step (scenario : Scenario) (fleet : Fleet) (i : Nat) : Fleet :=
  let n := scenario.num_drones.toNat
  let perimeter := scenario.perimeter
  if !(fleet i).alive then fleet
  else
    let pred_idx := find_pred fleet n i
    let pred_x := (fleet pred_idx).x
    let my_x := (fleet i).x
    let gap := fmod (pred_x - my_x + perimeter) perimeter
    Function.update fleet i { fleet i with gap_to_pred := gap }

/-- The first pass of `update_drone_positions`. -/
def gap_pass (scenario : Scenario) (fleet : Fleet) : Fleet :=
  (List.range scenario.num_drones.toNat).foldl (gap_pass_step scenario) fleet

/-- The flag `recovery_mode` (source line 386). -/
def recovery_mode (nom_spacing gap succ_gap : ℚ) : Bool :=
  decide (gap > 1.2 * nom_spacing) || decide (succ_gap < 0.8 * nom_spacing)

/-- The command `cmd_v` of an agent in state 0 as it leaves the branch
`if (fleet[i].state == 0)` (source lines 379-442), before the bounding;
`gap` is the agent's `gap_to_pred`, `succ_gap` and `succ_state` are read
from slot `(i + 1) % n`. -/
def normal_cmd (scenario : Scenario) (gap succ_gap : ℚ) (succ_state : Int) : ℚ :=
  let nom_spacing := scenario.nominal_spacing
  let gap_error := gap - nom_spacing
  let k_f : ℚ := 0.5
  let k_f_rec : ℚ := 2.0
  let k_b : ℚ := 0.5
  let k_b_rec : ℚ := 2.0
  let recovery := recovery_mode nom_spacing gap succ_gap
  let effective_k_f := if recovery then k_f_rec else k_f
  let effective_k_b := if recovery then k_b_rec else k_b
  let gain_schedule : ℚ :=
    if |gap_error| > 0.1 then 1.0 + 0.5 * (|gap_error| / nom_spacing) else 1.0
  if scenario.balancing_policy = 0 then
    let effective_k_f : ℚ := 0.3 + (if recovery then 0.7 else 0.0)
    scenario.v_nominal + effective_k_f * gap_error
  else if scenario.balancing_policy = 1 then
    let effective_k_f : ℚ := 0.7 + (if recovery then 1.5 else 0.0)
    let gain_schedule : ℚ := 1.0 + 0.8 * (|gap_error| / nom_spacing)
    scenario.v_nominal + effective_k_f * gain_schedule * gap_error
  else if scenario.balancing_policy = 2 then
    let effective_k_f : ℚ := 0.5 + (if recovery then 0.8 else 0.0)
    let gain_schedule : ℚ := 1.0 + 0.4 * (|gap_error| / nom_spacing)
    let back_pressure : ℚ :=
      if succ_state = 0 then 0.3 * (succ_gap - nom_spacing) else 0.0
    scenario.v_nominal + effective_k_f * gain_schedule * gap_error - back_pressure
  else if scenario.balancing_policy = 3 then
    let effective_k_f : ℚ := 0.5 + (if recovery then 0.8 else 0.0)
    let gain_schedule : ℚ := 1.0 + 0.4 * (|gap_error| / nom_spacing)
    let back_pressure : ℚ :=
      if succ_state = 0 then effective_k_b * (succ_gap - nom_spacing) else 0.0
    scenario.v_nominal + effective_k_f * gain_schedule * gap_error - back_pressure
  else scenario.v_nominal + effective_k_f * gain_schedule * gap_error

/-- The branch of an agent whose state is not 0 (source lines 444-505): the
slot with its new `time_in_incoming`, `state` and `phase`, and the command
after the inner bounding.  The block declares its own `dt = 0.1`. -/
def joining_cmd (scenario : Scenario) (d : Drone) (gap gap_to_succ : ℚ) : Drone × ℚ :=
  let nom_spacing := scenario.nominal_spacing
  let dt : ℚ := 0.1
  let t := d.time_in_incoming + dt
  let ramp_time : ℚ := 0.5
  let position_time : ℚ := 1.5
  let min_transition_time : ℚ := 2.0
  let gap_balance_error := |gap - gap_to_succ|
  let spare_centered : Bool :=
    decide (gap_balance_error < 0.2 * nom_spacing) &&
      decide (|gap_to_succ - nom_spacing| < 0.1 * nom_spacing)
  let velocity_close : Bool :=
    decide (|d.v - scenario.v_nominal| < 0.05 * scenario.v_nominal)
  let r : Drone × ℚ :=
    if decide (t > min_transition_time) && spare_centered && velocity_close then
      ({ d with time_in_incoming := t, state := 0, phase := 3 }, scenario.v_nominal)
    else if t < ramp_time then
      let v_entry := 0.6 * scenario.v_nominal
      let target_v := v_entry + (scenario.v_nominal - v_entry) * (t / ramp_time)
      let back_term := 0.3 * (gap_to_succ - nom_spacing)
      ({ d with time_in_incoming := t, phase := 1 }, min (target_v - back_term) target_v)
    else if t < position_time then
      let gap_diff := |gap - gap_to_succ|
      let w_center := nom_spacing / (nom_spacing + gap_diff / 2.0)
      let front_term := 0.2 * w_center * (gap - nom_spacing)
      let back_term := 0.5 * w_center * (gap_to_succ - nom_spacing)
      ({ d with time_in_incoming := t, phase := 2 },
        scenario.v_nominal + front_term - back_term)
    else
      let front_term := 0.5 * (gap - nom_spacing)
      let back_term := 0.5 * (gap_to_succ - nom_spacing)
      ({ d with time_in_incoming := t, phase := 3 },
        scenario.v_nominal + front_term - back_term)
  (r.1, max 0 (min scenario.v_max r.2))

/-- The slot of agent `i` and its command before the bounding at source line
508, for a living agent `i` in the fleet state `fleet`. -/
def agent_cmd (scenario : Scenario) (fleet : Fleet) (i : Nat) : Drone × ℚ :=
  let n := scenario.num_drones.toNat
  let gap := (fleet i).gap_to_pred
  let succ_idx := (i + 1) % n
  let succ_state := (fleet succ_idx).state
  let succ_gap := (fleet succ_idx).gap_to_pred
  if (fleet i).state = 0 then (fleet i, normal_cmd scenario gap succ_gap succ_state)
  else joining_cmd scenario (fleet i) gap succ_gap

/-- The bounding `fmax(0.0, fmin(v_max, cmd_v))` (source line 508). -/
def clamp_cmd (scenario : Scenario) (cmd_v : ℚ) : ℚ :=
  max 0 (min scenario.v_max cmd_v)

/-- The rate limiter (source lines 511-517). -/
def ramp_velocity (v_prev cmd_v dt : ℚ) : ℚ :=
  let accel : ℚ := 0.5
  if cmd_v > v_prev then min cmd_v (v_prev + accel * dt)
  else max cmd_v (v_prev - accel * dt)

/-- One iteration of the second pass (source lines 370-518). -/
def velocity_pass_step (scenario : Scenario) (dt : ℚ) (fleet : Fleet) (i : Nat) : Fleet :=
  if !(fleet i).alive then fleet
  else
    let r := agent_cmd scenario fleet i
    let cmd_v := clamp_cmd scenario r.2
    let v_prev := (fleet i).v
    Function.update fleet i { r.1 with v := ramp_velocity v_prev cmd_v dt }

/-- The second pass of `update_drone_positions`. -/
def velocity_pass (scenario : Scenario) (dt : ℚ) (fleet : Fleet) : Fleet :=
  (List.range scenario.num_drones.toNat).foldl (velocity_pass_step scenario dt) fleet

/-- One iteration of the third pass (source lines 521-534). -/
def transition_pass_step (scenario : Scenario) (fleet : Fleet) (i : Nat) : Fleet :=
  let n := scenario.num_drones.toNat
  let nom_spacing := scenario.nominal_spacing
  if !(fleet i).alive then fleet
  else if (fleet i).state = 1 then
    let gap := (fleet i).gap_to_pred
    let succ_idx := (i + 1) % n
    let gap_to_succ := (fleet succ_idx).gap_to_pred
    if |gap - nom_spacing| < 0.1 * nom_spacing ∧
        |gap_to_succ - nom_spacing| < 0.1 * nom_spacing then
      Function.update fleet i { fleet i with state := 0 }
    else fleet
  else fleet

/-- The third pass of `update_drone_positions`. -/
def transition_pass (scenario : Scenario) (fleet : Fleet) : Fleet :=
  (List.range scenario.num_drones.toNat).foldl (transition_pass_step scenario) fleet

/-- One iteration of the fourth pass (source lines 537-541). -/
def move_pass_step (scenario : Scenario) (dt : ℚ) (fleet : Fleet) (i : Nat) : Fleet :=
  if !(fleet i).alive then fleet
  else
    Function.update fleet i
      { fleet i with x := fmod ((fleet i).x + (fleet i).v * dt) scenario.perimeter }

/-- The fourth pass of `update_drone_positions`. -/
def move_pass (scenario : Scenario) (dt : ℚ) (fleet : Fleet) : Fleet :=
  (List.range scenario.num_drones.toNat).foldl (move_pass_step scenario dt) fleet

/-- The function `update_drone_positions`. -/
def update_drone_positions (fleet : Fleet) (scenario : Scenario) (dt : ℚ) : Fleet :=
  move_pass scenario dt
    (transition_pass scenario
      (velocity_pass scenario dt
        (gap_pass scenario fleet)))

/-- The fleet as iteration `i` of the second pass finds it: after the gap
pass and the iterations `0 .. i-1` of the second pass. -/
def before_velocity_step (fleet : Fleet) (scenario : Scenario) (dt : ℚ) (i : Nat) : Fleet :=
  (List.range i).foldl (velocity_pass_step scenario dt) (gap_pass scenario fleet)

/-! ### `try_insert_spare` -/

/-- Local variables of the first loop of `try_insert_spare`. -/
structure SpareScan where
  max_gap_idx : Nat
  max_gap : ℚ
  num_alive : Int

/-- One iteration of the first loop of `try_insert_spare` (source lines 555-563). -/
def spare_scan_step (fleet : Fleet) (st : SpareScan) (i : Nat) : SpareScan :=
  if (fleet i).alive then
    let st1 : SpareScan := { st with num_alive := st.num_alive + 1 }
    if (fleet i).gap_to_pred > st1.max_gap then
      { st1 with max_gap := (fleet i).gap_to_pred, max_gap_idx := i }
    else st1
  else st

/-- The function `try_insert_spare`; the result is the fleet and the counter
`*spares_inserted`. -/
def try_insert_spare (fleet : Fleet) (scenario : Scenario) (spares_inserted : Int) :
    Fleet × Int :=
  let n := scenario.num_drones.toNat
  let st := (List.range n).foldl (spare_scan_step fleet)
    { max_gap_idx := 0, max_gap := 0, num_alive := 0 }
  let density := (st.num_alive : ℚ) / (scenario.num_drones : ℚ)
  if density < scenario.density_threshold ∧ st.num_alive < scenario.num_drones then
    match (List.range n).find? (fun i => !(fleet i).alive) with
    | some i =>
      (Function.update fleet i
        { fleet i with
          x := fmod ((fleet st.max_gap_idx).x - st.max_gap / 2.0 + scenario.perimeter)
            scenario.perimeter
          v := 0.6 * scenario.v_nominal
          alive := true
          state := 1
          time_in_incoming := 0.0
          phase := 1 },
        spares_inserted + 1)
    | none => (fleet, spares_inserted)
  else (fleet, spares_inserted)

/-! ### `compute_metrics` -/

/-- Local variables of the loop of `compute_metrics`. -/
structure MetricScan where
  num_alive : Int
  sum_v : ℚ
  sum_v2 : ℚ
  max_gap : ℚ
  sum_gap : ℚ
  gap_count : ℚ
deriving DecidableEq

/-- One iteration of the loop of `compute_metrics` (source lines 598-611). -/
def metric_scan_step (fleet : Fleet) (st : MetricScan) (i : Nat) : MetricScan :=
  if (fleet i).alive then
    let st1 : MetricScan :=
      { st with
        num_alive := st.num_alive + 1
        sum_v := st.sum_v + (fleet i).v
        sum_v2 := st.sum_v2 + (fleet i).v * (fleet i).v }
    let gap := (fleet i).gap_to_pred
    if gap > 0 then
      { st1 with
        sum_gap := st1.sum_gap + gap
        gap_count := st1.gap_count + 1
        max_gap := max st1.max_gap gap }
    else st1
  else st

/-- The loop of `compute_metrics`. -/
def metric_scan (fleet : Fleet) (n : Nat) : MetricScan :=
  (List.range n).foldl (metric_scan_step fleet)
    { num_alive := 0, sum_v := 0, sum_v2 := 0, max_gap := 0, sum_gap := 0, gap_count := 0 }

/-- The function `compute_metrics`.  The C library `sqrt` is not a rational
function and is a parameter.  `recovery_started` is passed by value, so the
assignment to it inside the function is local. -/
def compute_metrics (sqrt : ℚ → ℚ) (fleet : Fleet) (scenario : Scenario) (m : Metrics)
    (step step_at_failure recovery_started : Int) : Metrics :=
  let n := scenario.num_drones
  let st := metric_scan fleet n.toNat
  let density : ℚ := (st.num_alive : ℚ) / (n : ℚ)
  let avg_speed : ℚ :=
    if st.num_alive > 0 then st.sum_v / (st.num_alive : ℚ) else scenario.v_nominal
  let var : ℚ :=
    if st.num_alive > 0 then st.sum_v2 / (st.num_alive : ℚ) - avg_speed * avg_speed else 0
  let avg_gap : ℚ := if st.gap_count > 0 then st.sum_gap / st.gap_count else 0
  let nom_spacing := scenario.nominal_spacing
  let stability : ℚ :=
    if st.num_alive > 1 then 1.0 / (1.0 + |avg_gap - nom_spacing| / nom_spacing) else 0
  let m1 : Metrics :=
    { m with
      num_drones_active := (st.num_alive : ℚ)
      density := density
      coverage := density * 100.0
      avg_speed := avg_speed
      speed_stddev := sqrt (max 0 var)
      max_gap := st.max_gap
      avg_gap := avg_gap
      formation_stability := stability
      energy_consumed := st.sum_v / scenario.v_nominal }
  let latch : Bool :=
    decide (step_at_failure ≥ 0) && decide (recovery_started = 0) &&
      decide (m1.density > 0.95)
  let m2 : Metrics :=
    if latch then { m1 with time_to_recover := ((step - step_at_failure : Int) : ℚ) } else m1
  let recovery_started : Int := if latch then 1 else recovery_started
  if recovery_started ≠ 0 ∧ step_at_failure ≥ 0 then
    let recovery_duration : ℚ := ((step - step_at_failure : Int) : ℚ)
    if recovery_duration > 0 then
      { m2 with recovery_slope := (m2.density - 0.5) / recovery_duration }
    else m2
  else m2

/-- Sum of `gap_to_pred` over the living slots among the first `n`. -/
def sum_gap_to_pred (fleet : Fleet) (n : Nat) : ℚ :=
  ∑ i in (Finset.range n).filter (fun i => (fleet i).alive = true), (fleet i).gap_to_pred

/-- States of the fleet that the operations called by `simulate_scenario`
can produce from an initialised fleet. -/
inductive Reachable (scenario : Scenario) : Fleet → Prop
  | init (f0 : Fleet) : Reachable scenario (initialize_fleet f0 scenario)
  | inject (f : Fleet) (failures_injected step : Int) (r : Rng) :
      Reachable scenario f →
      Reachable scenario (inject_failure f scenario failures_injected step r).1
  | update (f : Fleet) (dt : ℚ) : 0 ≤ dt → Reachable scenario f →
      Reachable scenario (update_drone_positions f scenario dt)
  | insert (f : Fleet) (spares_inserted : Int) : Reachable scenario f →
      Reachable scenario (try_insert_spare f scenario spares_inserted).1

/-- The first loop of `try_insert_spare` (source lines 555-563). -/
def spare_scan (fleet : Fleet) (n : Nat) : SpareScan :=
  (List.range n).foldl (spare_scan_step fleet)
    { max_gap_idx := 0, max_gap := 0, num_alive := 0 }

/-- The slot that `try_insert_spare` writes at index `i` when it inserts
(source lines 572-579). -/
def spare_slot (fleet : Fleet) (scenario : Scenario) (i : Nat) : Drone :=
  let st := spare_scan fleet scenario.num_drones.toNat
  { fleet i with
    x := fmod ((fleet st.max_gap_idx).x - st.max_gap / 2.0 + scenario.perimeter)
      scenario.perimeter
    v := 0.6 * scenario.v_nominal
    alive := true
    state := 1
    time_in_incoming := 0.0
    phase := 1 }

/-- Number of living slots among the first `n`. -/
def living_count (fleet : Fleet) (n : Nat) : Nat :=
  ((List.range n).filter (fun i => (fleet i).alive)).length

/-- Sum of the velocities of the living slots among the first `n`. -/
def sum_v_living (fleet : Fleet) (n : Nat) : ℚ :=
  ∑ i in (Finset.range n).filter (fun i => (fleet i).alive = true), (fleet i).v

/-- The points of one iteration of the loop of `simulate_scenario` (source
lines 678-694): before the failure injection, after it, and after
`update_drone_positions`. -/
inductive LoopPoint
  | top
  | injected
  | updated
deriving DecidableEq

/-- The fleet states that `simulate_scenario` goes through: `initialize_fleet`,
then in each iteration `inject_failure` (or nothing, when its guard or the
random draw says so), `update_drone_positions` and `try_insert_spare`, in this
order.  The counters, the step, the random stream and the time step are left
open (`simulate_scenario` itself uses `dt = 0.1`). -/
inductive SimReach (scenario : Scenario) : LoopPoint → Fleet → Prop
  | init (f0 : Fleet) : SimReach scenario LoopPoint.top (initialize_fleet f0 scenario)
  | inject (f : Fleet) (failures_injected step : Int) (r : Rng) :
      SimReach scenario LoopPoint.top f →
      SimReach scenario LoopPoint.injected
        (inject_failure f scenario failures_injected step r).1
  | no_inject (f : Fleet) :
      SimReach scenario LoopPoint.top f → SimReach scenario LoopPoint.injected f
  | update (f : Fleet) (dt : ℚ) : 0 ≤ dt → SimReach scenario LoopPoint.injected f →
      SimReach scenario LoopPoint.updated (update_drone_positions f scenario dt)
  | insert (f : Fleet) (spares_inserted : Int) :
      SimReach scenario LoopPoint.updated f →
      SimReach scenario LoopPoint.top (try_insert_spare f scenario spares_inserted).1

/-- Every slot below `num_drones` has its position in `[0, perimeter)` and a
non-negative velocity. -/
def SlotsInRange (scenario : Scenario) (fleet : Fleet) : Prop :=
  ∀ i, i < scenario.num_drones.toNat →
    0 ≤ (fleet i).x ∧ (fleet i).x < scenario.perimeter ∧ 0 ≤ (fleet i).v

/-- Every living slot has its `gap_to_pred` in `[0, perimeter)`. -/
def GapsInRange (scenario : Scenario) (fleet : Fleet) : Prop :=
  ∀ i, i < scenario.num_drones.toNat → (fleet i).alive = true →
    0 ≤ (fleet i).gap_to_pred ∧ (fleet i).gap_to_pred < scenario.perimeter

/-! ### `simulate_scenario` -/

/-- The record after `memset(result, 0, sizeof(Metrics))`. -/
def cleared_metrics : Metrics :=
  { density := 0, coverage := 0, avg_speed := 0, speed_stddev := 0, max_gap := 0,
    avg_gap := 0, peak_gap := 0, num_drones_active := 0, formation_stability := 0,
    energy_consumed := 0, time_to_recover := 0, recovery_slope := 0,
    oscillation_integral := 0, oscillation_samples := 0, oscillation_metric := 0 }

/-- The local variables of `simulate_scenario`, with the record `*result`
and the state of the random generator. -/
structure SimState where
  fleet : Fleet
  result : Metrics
  failures_injected : Int
  spares_inserted : Int
  step_at_failure : Int
  recovery_started : Int
  rng : Rng

/-- The state of `simulate_scenario` on entry to its loop (source lines
666-675); `fleet0` is the uninitialised local array. -/
def sim_init (scenario : Scenario) (fleet0 : Fleet) (r : Rng) : SimState :=
  { fleet := initialize_fleet fleet0 scenario
    result := cleared_metrics
    failures_injected := 0
    spares_inserted := 0
    step_at_failure := -1
    recovery_started := 0
    rng := r }

/-- The failure block of the loop body (source lines 680-687). -/
def sim_inject (scenario : Scenario) (st : SimState) (step : Int) : SimState :=
  if step > 100 ∧ st.failures_injected < scenario.num_failures then
    let u := uniform_random 0 1 st.rng
    if u.1 < scenario.failure_rate then
      let r := inject_failure st.fleet scenario st.failures_injected step u.2
      { st with
        fleet := r.1
        failures_injected := r.2.1
        rng := r.2.2
        step_at_failure :=
          if st.step_at_failure < 0 ∧ r.2.1 > 0 then step else st.step_at_failure }
    else { st with rng := u.2 }
  else st

/-- One iteration of the loop of `simulate_scenario` (source lines 678-699).
`recovery_started` is passed to `compute_metrics` by value and is never
assigned in `simulate_scenario`. -/
def sim_step (sqrt : ℚ → ℚ) (scenario : Scenario) (st : SimState) (step : Nat) : SimState :=
  let dt : ℚ := 0.1
  let st1 := sim_inject scenario st step
  let f2 := update_drone_positions st1.fleet scenario dt
  let sp := try_insert_spare f2 scenario st1.spares_inserted
  { st1 with
    fleet := sp.1
    spares_inserted := sp.2
    result :=
      if step % 10 = 0 then
        compute_metrics sqrt sp.1 scenario st1.result step st1.step_at_failure
          st1.recovery_started
      else st1.result }

/-- The first `k` iterations of the loop of `simulate_scenario`. -/
def sim_loop (sqrt : ℚ → ℚ) (scenario : Scenario) (k : Nat) (st : SimState) : SimState :=
  (List.range k).foldl (sim_step sqrt scenario) st

/-- The function `simulate_scenario`: the record `*result` on return. -/
def simulate_scenario (sqrt : ℚ → ℚ) (scenario : Scenario) (fleet0 : Fleet) (r : Rng) :
    Metrics :=
  let st := sim_loop sqrt scenario MAX_SIMULATION_STEPS (sim_init scenario fleet0 r)
  compute_metrics sqrt st.fleet scenario st.result
    ((MAX_SIMULATION_STEPS : Int) - 1) st.step_at_failure st.recovery_started

/-! ### SOFT_ENTRY command -/

/-- The ramp target `target_v` of the SOFT_ENTRY phase (source lines 469-471)
for the elapsed time `t`. -/
def ramp_target (scenario : Scenario) (t : ℚ) : ℚ :=
  let ramp_time : ℚ := 0.5
  let v_entry := 0.6 * scenario.v_nominal
  v_entry + (scenario.v_nominal - v_entry) * (t / ramp_time)

/-- The command of the SOFT_ENTRY phase after `fmin(cmd_v, target_v)` (source
lines 474-478), before any bounding. -/
def soft_entry_cmd (scenario : Scenario) (t gap_to_succ : ℚ) : ℚ :=
  let back_term := 0.3 * (gap_to_succ - scenario.nominal_spacing)
  min (ramp_target scenario t - back_term) (ramp_target scenario t)

/-- The fleet after `k` calls of `update_drone_positions`. -/
def update_times (scenario : Scenario) (dt : ℚ) : Nat → Fleet → Fleet
  | 0, f => f
  | k + 1, f => update_drone_positions (update_times scenario dt k f) scenario dt

/-! ### `read_scenarios_csv`: the treatment of one parsed record -/

/-- C `round`: to the nearest integer, halves away from zero. -/
def roundQ (q : ℚ) : ℤ := if 0 ≤ q then ⌊q + 1 / 2⌋ else ⌈q - 1 / 2⌉

/-- The defaults for the optional fields (source lines 146-152); `result` is
the number of fields that `sscanf` converted. -/
def apply_defaults (result : Int) (s : Scenario) : Scenario :=
  let s1 := if result < 13 then { s with failure_distribution := 0 } else s
  let s2 := if result < 14 then { s1 with initial_active := s1.num_drones } else s1
  let s3 := if result < 15 then { s2 with spare_trigger_ratio := 0.9 } else s2
  let s4 := if result < 16 then { s3 with spare_target_factor := 1.0 } else s3
  let s5 := if result < 17 then { s4 with neighbor_balance_factor := 1.0 } else s4
  let s6 := if result < 18 then { s5 with strike_fraction := 0.0 } else s5
  if result < 19 then { s6 with seed := 0 } else s6

/-- The largest value of the C type `int` (32 bits). -/
def INT_MAX : Int := 2147483647

/-- The smallest value of the C type `int` (32 bits). -/
def INT_MIN : Int := -2147483648

/-- The conversion `(int)x` of a `double` whose value is the integer `z`:
the value itself when an `int` can hold it; otherwise the behaviour of the
program is undefined and the result is `none`. -/
def to_int (z : Int) : Option Int :=
  if INT_MIN ≤ z ∧ z ≤ INT_MAX then some z else none

/-- The capacity normalisation (source lines 154-161); `none` when the
conversion `(int)ceil(...)` is undefined. -/
def normalise_capacity (s : Scenario) : Option Scenario :=
  match to_int ⌈(s.initial_active : ℚ) * s.spare_target_factor⌉ with
  | none => none
  | some required_capacity =>
    let s1 := if s.num_drones < required_capacity then
        { s with num_drones := required_capacity } else s
    some (if s1.initial_active > s1.num_drones then
      { s1 with initial_active := s1.num_drones } else s1)

/-- The derivation of `num_failures` from `strike_fraction` (source lines
163-166); `none` when the conversion `(int)round(...)` is undefined. -/
def derive_failures (s : Scenario) : Option Scenario :=
  if s.strike_fraction > 0.0 then
    match to_int (roundQ (s.strike_fraction * (s.initial_active : ℚ))) with
    | none => none
    | some k => some { s with num_failures := k }
  else some s

/-- What the body of the reading loop does with one line: it skips the line
(`continue`), or its behaviour is undefined (a conversion to `int` of a value
that an `int` cannot hold), or it stores a record in `scenarios[count]`. -/
inductive Loaded where
  | skipped : Loaded
  | undefined : Loaded
  | stored : Scenario → Loaded

/-- The body of the reading loop of `read_scenarios_csv` after `sscanf`
(source lines 141-168). -/
def load_record (result : Int) (s : Scenario) : Loaded :=
  if result < 12 then Loaded.skipped
  else
    match normalise_capacity (apply_defaults result s) with
    | none => Loaded.undefined
    | some d =>
      match derive_failures d with
      | none => Loaded.undefined
      | some s1 => Loaded.stored s1

end FleetSim

/-! ## Concrete inputs used by the evaluations below -/

namespace Baseline

/-- A baseline scenario with the defaults of `main`, `n` slots and the given
perimeter. -/
def demoScenario (n : Int) (perimeter : ℚ) : Scenario :=
  { n := n, perimeter := perimeter, V := 1, Vmax := 2, d_star := 5, d_safe := 1,
    k_sym := 1/2, k_sym_rec := 1/2, k_f := 1/2, k_b := 3/10, k_rep := 1/5,
    k_f_rec := 4/5, k_b_rec := 0, alpha := 6/5, beta := 4/5, V_cap := 3/2,
    epsilon := 1/10, steps := 500, dt := 1/10, num_losses := 0, seed := 1,
    resilience := 0, min_spare_delay_steps := 0, incoming_hold_steps := 50 }

/-- A drone at position `s` with stale gap fields. -/
def demoDrone (s : ℚ) (alive : Bool) : Drone :=
  { s := s, v := 1, alive := alive, mode := 0, incoming_timer := 0, gap_f := 7, gap_b := 7 }

/-- Three slots: slot 0 dead at position 0, slots 1 and 2 living at 10 and 20. -/
def deadFirstFleet : Fleet := fun i =>
  if i = 0 then demoDrone 0 false else if i = 1 then demoDrone 10 true else demoDrone 20 true

/-- Three slots: slots 0 and 2 living at 5 and 20, slot 1 dead at 10. -/
def deadMiddleFleet : Fleet := fun i =>
  if i = 0 then demoDrone 5 true else if i = 1 then demoDrone 10 false else demoDrone 20 true

/-- Four slots on a ring of perimeter 40, resilience enabled with a budget of
two spares and no delay. -/
def spacedScenario : Scenario :=
  { demoScenario 4 40 with resilience := 1, num_losses := 2, steps := 10 }

/-- A schedule of two losses: slot 0 at step 1 and slot 1 at step 5. -/
def spacedLosses : Losses := fun k =>
  if k = 0 then { step := 1, idx := 0 } else { step := 5, idx := 1 }

end Baseline

namespace FleetSim

/-- A scenario with `n` slots, all active at the start, nominal spacing 10,
nominal velocity 1 and maximum velocity 2. -/
def demoScenario (n : Int) (perimeter : ℚ) (policy : Int) : Scenario :=
  { perimeter := perimeter, num_drones := n, initial_active := n, v_nominal := 1,
    v_max := 2, sensing_radius := 5, nominal_spacing := 10, balancing_policy := policy,
    neighbor_balance_factor := 1, density_threshold := 9/10, speed_threshold := 2,
    adaptation_window := 1, spare_trigger_ratio := 9/10, spare_target_factor := 1,
    failure_rate := 0, num_failures := 0, strike_fraction := 0,
    failure_distribution := 0, seed := 1 }

/-- A slot with the given position, velocity, gap, liveness and state. -/
def demoDrone (x v gap : ℚ) (alive : Bool) (state : Int) : Drone :=
  { x := x, y := 0, v := v, v_nom := 1, gap_to_pred := gap, alive := alive,
    state := state, time_in_incoming := 0, phase := 0 }

/-- The record after `memset(result, 0, sizeof(Metrics))`. -/
def zeroMetrics : Metrics :=
  { density := 0, coverage := 0, avg_speed := 0, speed_stddev := 0, max_gap := 0,
    avg_gap := 0, peak_gap := 0, num_drones_active := 0, formation_stability := 0,
    energy_consumed := 0, time_to_recover := 0, recovery_slope := 0,
    oscillation_integral := 0, oscillation_samples := 0, oscillation_metric := 0 }

/-- An array of dormant slots at position 0. -/
def blankFleet : Fleet := fun _ => demoDrone 0 0 0 false 0

/-- Three slots: slots 0 and 1 living, slot 2 dormant with the stale
`gap_to_pred = g`. -/
def staleFleet (g : ℚ) : Fleet := fun i =>
  if i = 0 then demoDrone 10 1 10 true 0
  else if i = 1 then demoDrone (1/2) (43/50) 10 true 0
  else demoDrone 20 1 g false 0

/-- Two living slots; slot 0 is NORMAL with gap 13, slot 1 has gap 9 and the
given state. -/
def pairFleet (succ_state : Int) : Fleet := fun i =>
  if i = 0 then demoDrone 0 1 13 true 0 else demoDrone 50 1 9 true succ_state

/-- Three slots of which only slot 0 is living. -/
def soloFleet : Fleet := fun i =>
  if i = 0 then demoDrone 0 1 10 true 0 else demoDrone (10 * (i : ℚ)) 1 10 false 0

/-- Four slots on a ring of perimeter 40: slots 0, 1, 2 living at 0, 10, 20,
slot 3 dormant. -/
def wideFleet : Fleet := fun i =>
  if i < 3 then demoDrone (10 * (i : ℚ)) 1 10 true 0 else demoDrone 30 1 10 false 0

/-- Capacity 4 on a ring of perimeter 40 with 3 agents active at the start. -/
def spareScenario : Scenario := { demoScenario 4 40 0 with initial_active := 3 }

/-- Capacity 2 on a ring of perimeter 20, one failure in the budget,
`failure_rate = 1`. -/
def lossScenario : Scenario :=
  { demoScenario 2 20 0 with failure_rate := 1, num_failures := 1 }

/-- The end-to-end scenario of the specification: capacity 10, 10 active,
perimeter 100, nominal spacing 10, policy 0, no failures. -/
def tenScenario : Scenario := demoScenario 10 100 0

/-- The fleet of `spareScenario` after the first update and the insertion of
the spare in slot 3. -/
def spareFleet : Fleet :=
  (try_insert_spare
    (update_drone_positions (initialize_fleet blankFleet spareScenario) spareScenario (1/10))
    spareScenario 0).1

/-- The scenario `spareScenario` with other values in the fields
`spare_trigger_ratio`, `spare_target_factor` and `neighbor_balance_factor`. -/
def variedScenario : Scenario :=
  { spareScenario with
    spare_trigger_ratio := 7
    spare_target_factor := 9
    neighbor_balance_factor := 11 }

/-- A record with capacity 5, 3 active agents and the target factor `1e9`:
the required capacity is 3000000000. -/
def hugeTargetScenario : Scenario :=
  { demoScenario 5 100 0 with initial_active := 3, spare_target_factor := 1000000000 }

/-- A record with capacity 5, 8 active agents and the target factor 3/2. -/
def raisedScenario : Scenario :=
  { demoScenario 5 100 0 with initial_active := 8, spare_target_factor := 3/2 }

/-- Capacity 2 on a ring of perimeter 100. -/
def pairScenario : Scenario := demoScenario 2 100 0

/-- A scenario with no slot at all: `num_drones = initial_active = 0`, no
failures. -/
def emptyScenario : Scenario := demoScenario 0 100 0

/-- The generator whose every call of `rand()` returns 0. -/
def zeroRng : Rng := fun _ => 0

end FleetSim

/-! ## `baseline_simulator.c`: theorems -/

namespace Baseline

theorem set_gap_f_alive (f : Fleet) (i j : Nat) (g : ℚ) :
    (set_gap_f f i g j).alive = (f j).alive := by
  unfold set_gap_f
  by_cases h : j = i
  · subst h; simp
  · rw [Function.update_noteq h]

theorem set_gap_b_alive (f : Fleet) (i j : Nat) (g : ℚ) :
    (set_gap_b f i g j).alive = (f j).alive := by
  unfold set_gap_b
  by_cases h : j = i
  · subst h; simp
  · rw [Function.update_noteq h]

theorem set_gap_f_s (f : Fleet) (i j : Nat) (g : ℚ) :
    (set_gap_f f i g j).s = (f j).s := by
  unfold set_gap_f
  by_cases h : j = i
  · subst h; simp
  · rw [Function.update_noteq h]

theorem set_gap_b_s (f : Fleet) (i j : Nat) (g : ℚ) :
    (set_gap_b f i g j).s = (f j).s := by
  unfold set_gap_b
  by_cases h : j = i
  · subst h; simp
  · rw [Function.update_noteq h]

theorem set_gap_f_gap_f (f : Fleet) (i j : Nat) (g : ℚ) :
    (set_gap_f f i g j).gap_f = if j = i then g else (f j).gap_f := by
  unfold set_gap_f
  by_cases h : j = i
  · subst h; simp
  · rw [Function.update_noteq h, if_neg h]

theorem set_gap_b_gap_f (f : Fleet) (i j : Nat) (g : ℚ) :
    (set_gap_b f i g j).gap_f = (f j).gap_f := by
  unfold set_gap_b
  by_cases h : j = i
  · subst h; simp
  · rw [Function.update_noteq h]

theorem set_gap_b_gap_b (f : Fleet) (i j : Nat) (g : ℚ) :
    (set_gap_b f i g j).gap_b = if j = i then g else (f j).gap_b := by
  unfold set_gap_b
  by_cases h : j = i
  · subst h; simp
  · rw [Function.update_noteq h, if_neg h]

theorem set_gap_f_gap_b (f : Fleet) (i j : Nat) (g : ℚ) :
    (set_gap_f f i g j).gap_b = (f j).gap_b := by
  unfold set_gap_f
  by_cases h : j = i
  · subst h; simp
  · rw [Function.update_noteq h]

theorem reset_gaps_alive (fleet : Fleet) (n i : Nat) :
    (reset_gaps fleet n i).alive = (fleet i).alive := by
  unfold reset_gaps
  induction n with
  | zero => simp
  | succ k ih =>
    rw [List.range_succ, List.foldl_append]
    simp only [List.foldl_cons, List.foldl_nil]
    rw [set_gap_b_alive, set_gap_f_alive, ih]

theorem reset_gaps_s (fleet : Fleet) (n i : Nat) :
    (reset_gaps fleet n i).s = (fleet i).s := by
  unfold reset_gaps
  induction n with
  | zero => simp
  | succ k ih =>
    rw [List.range_succ, List.foldl_append]
    simp only [List.foldl_cons, List.foldl_nil]
    rw [set_gap_b_s, set_gap_f_s, ih]

theorem reset_gaps_gap_f (fleet : Fleet) (n i : Nat) (hi : i < n) :
    (reset_gaps fleet n i).gap_f = 0 := by
  unfold reset_gaps
  induction n with
  | zero => omega
  | succ k ih =>
    rw [List.range_succ, List.foldl_append]
    simp only [List.foldl_cons, List.foldl_nil]
    rw [set_gap_b_gap_f, set_gap_f_gap_f]
    by_cases h : i = k
    · rw [if_pos h]
    · rw [if_neg h]
      exact ih (by omega)

theorem reset_gaps_gap_b (fleet : Fleet) (n i : Nat) (hi : i < n) :
    (reset_gaps fleet n i).gap_b = 0 := by
  unfold reset_gaps
  induction n with
  | zero => omega
  | succ k ih =>
    rw [List.range_succ, List.foldl_append]
    simp only [List.foldl_cons, List.foldl_nil]
    rw [set_gap_b_gap_b]
    by_cases h : i = k
    · rw [if_pos h]
    · rw [if_neg h, set_gap_f_gap_b]
      exact ih (by omega)

theorem sum_gap_f_update (f f' : Fleet) (n p : Nat) (g : ℚ) (hp : p < n)
    (hal : (f p).alive = true)
    (halive : ∀ i, (f' i).alive = (f i).alive)
    (hp' : (f' p).gap_f = g)
    (hne : ∀ i, i ≠ p → (f' i).gap_f = (f i).gap_f) :
    sum_gap_f f' n = sum_gap_f f n - (f p).gap_f + g := by
  unfold sum_gap_f
  have hset : (Finset.range n).filter (fun i => (f' i).alive = true)
      = (Finset.range n).filter (fun i => (f i).alive = true) := by
    apply Finset.filter_congr
    intro i _
    rw [halive i]
  rw [hset]
  have hmem : p ∈ (Finset.range n).filter (fun i => (f i).alive = true) := by
    simp [hp, hal]
  rw [← Finset.add_sum_erase _ (fun i => (f' i).gap_f) hmem,
    ← Finset.add_sum_erase _ (fun i => (f i).gap_f) hmem]
  have : ∑ x in ((Finset.range n).filter (fun i => (f i).alive = true)).erase p, (f' x).gap_f
      = ∑ x in ((Finset.range n).filter (fun i => (f i).alive = true)).erase p, (f x).gap_f := by
    apply Finset.sum_congr rfl
    intro x hx
    exact hne x (Finset.ne_of_mem_erase hx)
  rw [this, hp']
  ring

theorem sum_gap_f_congr (f f' : Fleet) (n : Nat)
    (h : ∀ i, (f' i).alive = (f i).alive ∧ (f' i).gap_f = (f i).gap_f) :
    sum_gap_f f' n = sum_gap_f f n := by
  unfold sum_gap_f
  have hset : (Finset.range n).filter (fun i => (f' i).alive = true)
      = (Finset.range n).filter (fun i => (f i).alive = true) := by
    apply Finset.filter_congr
    intro i _
    rw [(h i).1]
  rw [hset]
  exact Finset.sum_congr rfl (fun x _ => (h x).2)

theorem sum_gap_f_reset (fleet : Fleet) (n : Nat) :
    sum_gap_f (reset_gaps fleet n) n = 0 := by
  unfold sum_gap_f
  apply Finset.sum_eq_zero
  intro i hi
  have hi' : i < n := by
    have := (Finset.mem_filter.mp hi).1
    simpa using this
  exact reset_gaps_gap_f fleet n i hi'

theorem gap_scan_step_dead (st : GapScan) (o : Ordered)
    (h : (st.fleet o.idx).alive = false) : gap_scan_step st o = st := by
  unfold gap_scan_step
  simp [h]

theorem gap_scan_step_live (st : GapScan) (o : Ordered)
    (h : (st.fleet o.idx).alive = true) :
    (gap_scan_step st o).prev_alive = some o.idx ∧
    (gap_scan_step st o).prev_pos = o.pos ∧
    (gap_scan_step st o).last_pos = o.pos ∧
    (gap_scan_step st o).first_pos = (if st.first_pos < 0 then o.pos else st.first_pos) ∧
    (gap_scan_step st o).fleet =
      (match st.prev_alive with
        | some p => set_gap_f (set_gap_b st.fleet o.idx (o.pos - st.prev_pos)) p
            (o.pos - st.prev_pos)
        | none => st.fleet) := by
  unfold gap_scan_step
  simp [h]

theorem scanInv_step (fleet : Fleet) (n : Nat) (perimeter : ℚ)
    (hpos : ∀ i, i < n → (fleet i).alive = true →
      0 ≤ (fleet i).s ∧ (fleet i).s < perimeter)
    (st : GapScan) (o : Ordered) (rest : List Ordered)
    (hsorted : ∀ o2 ∈ rest, o.pos ≤ o2.pos)
    (hnodup : ∀ o2 ∈ rest, o2.idx ≠ o.idx)
    (hidx : o.idx < n) (hopos : o.pos = (fleet o.idx).s)
    (inv : ScanInv fleet n perimeter st (o :: rest)) :
    ScanInv fleet n perimeter (gap_scan_step st o) rest := by
  by_cases hal : (st.fleet o.idx).alive = true
  swap
  · simp only [Bool.not_eq_true] at hal
    rw [gap_scan_step_dead st o hal]
    exact
      { frame := inv.frame
        nonneg := inv.nonneg
        rest_zero := fun o2 h2 => inv.rest_zero o2 (List.mem_cons_of_mem _ h2)
        at_none := inv.at_none
        at_some := by
          intro p hp
          obtain ⟨h1, h2, h3, h4, h5, h6, h7, h8, h9, h10⟩ := inv.at_some p hp
          exact ⟨h1, h2, h3, fun o2 h => h4 o2 (List.mem_cons_of_mem _ h), h5, h6, h7, h8,
            h9, fun o2 h => h10 o2 (List.mem_cons_of_mem _ h)⟩ }
  · have hal0 : (fleet o.idx).alive = true := by rw [← inv.frame]; exact hal
    have hop := hpos o.idx hidx hal0
    rw [← hopos] at hop
    obtain ⟨e1, e2, e3, e4, e5⟩ := gap_scan_step_live st o hal
    cases hprev : st.prev_alive with
    | none =>
      obtain ⟨hf, hs⟩ := inv.at_none hprev
      have hlt : st.first_pos < 0 := by rw [hf]; norm_num
      rw [hprev] at e5
      simp only at e5
      rw [if_pos hlt] at e4
      exact
        { frame := by rw [e5]; exact inv.frame
          nonneg := by rw [e5]; exact inv.nonneg
          rest_zero := by
            rw [e5]
            exact fun o2 h2 => inv.rest_zero o2 (List.mem_cons_of_mem _ h2)
          at_none := by rw [e1]; intro h; cases h
          at_some := by
            intro p hp
            rw [e1] at hp
            simp only [Option.some.injEq] at hp
            subst hp
            rw [e2, e3, e4, e5]
            refine ⟨hidx, hal0, inv.rest_zero o (List.mem_cons_self _ _), hnodup, hop.1,
              le_refl _, rfl, hop.2, ?_, hsorted⟩
            rw [hs]
            ring }
    | some p =>
      obtain ⟨h1, h2, h3, h4, h5, h6, h7, h8, h9, h10⟩ := inv.at_some p hprev
      have hnlt : ¬ st.first_pos < 0 := not_lt.mpr h5
      have hne : o.idx ≠ p := h4 o (List.mem_cons_self _ _)
      have hge : st.prev_pos ≤ o.pos := h10 o (List.mem_cons_self _ _)
      rw [hprev] at e5
      simp only at e5
      rw [if_neg hnlt] at e4
      have hgf : ∀ i, ((gap_scan_step st o).fleet i).gap_f
          = if i = p then o.pos - st.prev_pos else (st.fleet i).gap_f := by
        intro i
        rw [e5, set_gap_f_gap_f, set_gap_b_gap_f]
      have hal' : ∀ i, ((gap_scan_step st o).fleet i).alive = (st.fleet i).alive := by
        intro i
        rw [e5, set_gap_f_alive, set_gap_b_alive]
      exact
        { frame := fun i => by rw [hal', inv.frame]
          nonneg := by
            intro i hi
            rw [hgf]
            split
            · linarith
            · exact inv.nonneg i hi
          rest_zero := by
            intro o2 h2
            rw [hgf, if_neg (h4 o2 (List.mem_cons_of_mem _ h2))]
            exact inv.rest_zero o2 (List.mem_cons_of_mem _ h2)
          at_none := by rw [e1]; intro h; cases h
          at_some := by
            intro q hq
            rw [e1] at hq
            simp only [Option.some.injEq] at hq
            subst hq
            rw [e2, e3, e4]
            refine ⟨hidx, hal0, ?_, hnodup, h5, le_trans h6 hge, rfl, hop.2, ?_, hsorted⟩
            · rw [hgf, if_neg hne]
              exact inv.rest_zero o (List.mem_cons_self _ _)
            · rw [sum_gap_f_update st.fleet _ n p (o.pos - st.prev_pos) h1
                (by rw [inv.frame]; exact h2) hal' (by rw [hgf, if_pos rfl])
                (fun i hi => by rw [hgf, if_neg hi]), h3, h9]
              ring }

theorem scanInv_fold (fleet : Fleet) (n : Nat) (perimeter : ℚ)
    (hpos : ∀ i, i < n → (fleet i).alive = true →
      0 ≤ (fleet i).s ∧ (fleet i).s < perimeter)
    (rest : List Ordered) :
    ∀ (st : GapScan),
    rest.Pairwise (fun a b => a.pos ≤ b.pos) →
    rest.Pairwise (fun a b => a.idx ≠ b.idx) →
    (∀ o ∈ rest, o.idx < n ∧ o.pos = (fleet o.idx).s) →
    ScanInv fleet n perimeter st rest →
    ScanInv fleet n perimeter (rest.foldl gap_scan_step st) [] := by
  induction rest with
  | nil => intro st _ _ _ inv; exact inv
  | cons o rest ih =>
    intro st hs hn hi inv
    rw [List.foldl_cons]
    rw [List.pairwise_cons] at hs hn
    apply ih _ hs.2 hn.2 (fun o2 h2 => hi o2 (List.mem_cons_of_mem _ h2))
    exact scanInv_step fleet n perimeter hpos st o rest hs.1
      (fun o2 h2 => Ne.symm (hn.1 o2 h2))
      (hi o (List.mem_cons_self _ _)).1 (hi o (List.mem_cons_self _ _)).2 inv

/-- Once a living slot has been met, `prev_alive` stays set. -/
theorem scan_prev_some (fleet : Fleet) (rest : List Ordered) :
    ∀ (st : GapScan), (∀ i, (st.fleet i).alive = (fleet i).alive) →
    (st.prev_alive.isSome = true ∨ ∃ o ∈ rest, (fleet o.idx).alive = true) →
    (rest.foldl gap_scan_step st).prev_alive.isSome = true := by
  induction rest with
  | nil =>
    intro st _ h
    rcases h with h | ⟨o, ho, _⟩
    · exact h
    · cases ho
  | cons o rest ih =>
    intro st hfr h
    rw [List.foldl_cons]
    by_cases hal : (st.fleet o.idx).alive = true
    · obtain ⟨e1, _, _, _, e5⟩ := gap_scan_step_live st o hal
      apply ih
      · intro i
        rw [e5]
        cases st.prev_alive with
        | none => exact hfr i
        | some p => simp only; rw [set_gap_f_alive, set_gap_b_alive]; exact hfr i
      · left; rw [e1]; rfl
    · simp only [Bool.not_eq_true] at hal
      rw [gap_scan_step_dead st o hal]
      apply ih _ hfr
      rcases h with h | ⟨o2, ho2, hal2⟩
      · left; exact h
      · rcases List.mem_cons.mp ho2 with h3 | h3
        · subst h3
          rw [hfr] at hal
          rw [hal] at hal2
          cases hal2
        · right; exact ⟨o2, h3, hal2⟩

theorem back_fix_step_frame (order0 : Nat) (pa : Option Nat) (w : ℚ) (f : Fleet)
    (o : Ordered) (i : Nat) :
    (back_fix_step order0 pa w f o i).alive = (f i).alive ∧
    (back_fix_step order0 pa w f o i).gap_f = (f i).gap_f := by
  unfold back_fix_step
  split
  · exact ⟨rfl, rfl⟩
  · split
    · exact ⟨set_gap_b_alive _ _ _ _, set_gap_b_gap_f _ _ _ _⟩
    · exact ⟨rfl, rfl⟩

theorem back_fix_fold_frame (order0 : Nat) (pa : Option Nat) (w : ℚ)
    (l : List Ordered) :
    ∀ (f : Fleet) (i : Nat),
    ((l.foldl (back_fix_step order0 pa w) f) i).alive = (f i).alive ∧
    ((l.foldl (back_fix_step order0 pa w) f) i).gap_f = (f i).gap_f := by
  induction l with
  | nil => intro f i; exact ⟨rfl, rfl⟩
  | cons o rest ih =>
    intro f i
    rw [List.foldl_cons]
    obtain ⟨a1, a2⟩ := ih (back_fix_step order0 pa w f o) i
    obtain ⟨b1, b2⟩ := back_fix_step_frame order0 pa w f o i
    exact ⟨a1.trans b1, a2.trans b2⟩

theorem set_first_back_frame (order0 : Nat) (w : ℚ) (l : List Ordered) :
    ∀ (f : Fleet) (i : Nat),
    (set_first_back order0 w l f i).alive = (f i).alive ∧
    (set_first_back order0 w l f i).gap_f = (f i).gap_f := by
  induction l with
  | nil => intro f i; exact ⟨rfl, rfl⟩
  | cons o rest ih =>
    intro f i
    unfold set_first_back
    split
    · exact ih f i
    · split
      · exact ⟨set_gap_b_alive _ _ _ _, set_gap_b_gap_f _ _ _ _⟩
      · exact ih f i

theorem alive_count_pos_exists (fleet : Fleet) (n : Nat) (h : 0 < alive_count fleet n) :
    ∃ i, i < n ∧ (fleet i).alive = true := by
  unfold alive_count at h
  obtain ⟨i, hi⟩ := List.exists_mem_of_length_pos h
  rw [List.mem_filter, List.mem_range] at hi
  exact ⟨i, hi.1, hi.2⟩

theorem init_order_mem (fleet : Fleet) (n : Nat) (o : Ordered) :
    o ∈ init_order fleet n ↔ o.idx < n ∧ o.pos = (fleet o.idx).s := by
  unfold init_order
  rw [List.mem_map]
  constructor
  · rintro ⟨i, hi, rfl⟩
    exact ⟨List.mem_range.mp hi, rfl⟩
  · rintro ⟨h1, h2⟩
    refine ⟨o.idx, List.mem_range.mpr h1, ?_⟩
    cases o
    simp only at h2
    simp [h2]

theorem init_order_pairwise (fleet : Fleet) (n : Nat) :
    (init_order fleet n).Pairwise (fun a b => a.idx ≠ b.idx) := by
  unfold init_order
  rw [List.pairwise_map]
  exact List.nodup_range n

/-- The gap sum for every sorted arrangement of the slots, whatever the
order `qsort` gives to equal positions. -/
theorem compute_gaps_sorted_sum (order : List Ordered) (fleet : Fleet) (s : Scenario)
    (hperm : order.Perm (init_order fleet s.n.toNat))
    (hsorted : order.Pairwise (fun a b => a.pos ≤ b.pos))
    (h2 : 2 ≤ alive_count fleet s.n.toNat)
    (hpos : ∀ i, i < s.n.toNat → (fleet i).alive = true →
      0 ≤ (fleet i).s ∧ (fleet i).s < s.perimeter) :
    (∀ i, (compute_gaps_sorted order fleet s i).alive = (fleet i).alive) ∧
    (∀ i, i < s.n.toNat → 0 ≤ (compute_gaps_sorted order fleet s i).gap_f) ∧
    sum_gap_f (compute_gaps_sorted order fleet s) s.n.toNat = s.perimeter := by
  have hnd : order.Pairwise (fun a b => a.idx ≠ b.idx) :=
    (hperm.pairwise_iff (fun h => Ne.symm h)).mpr (init_order_pairwise fleet _)
  have hmem : ∀ o ∈ order, o.idx < s.n.toNat ∧ o.pos = (fleet o.idx).s :=
    fun o ho => (init_order_mem fleet _ o).mp (hperm.mem_iff.mp ho)
  have inv0 : ScanInv fleet s.n.toNat s.perimeter
      { fleet := reset_gaps fleet s.n.toNat, prev_alive := none, prev_pos := 0,
        first_pos := -1, last_pos := -1 } order :=
    { frame := fun i => reset_gaps_alive fleet _ i
      nonneg := fun i hi => by
        simp only
        rw [reset_gaps_gap_f fleet _ i hi]
      rest_zero := fun o ho => reset_gaps_gap_f fleet _ o.idx (hmem o ho).1
      at_none := fun _ => ⟨rfl, sum_gap_f_reset fleet _⟩
      at_some := fun p hp => by cases hp }
  have inv := scanInv_fold fleet s.n.toNat s.perimeter hpos order _ hsorted hnd hmem inv0
  obtain ⟨i0, hi0, hal0⟩ := alive_count_pos_exists fleet s.n.toNat (by omega)
  have hsome := scan_prev_some fleet order
    { fleet := reset_gaps fleet s.n.toNat, prev_alive := none, prev_pos := 0,
      first_pos := -1, last_pos := -1 }
    (fun i => reset_gaps_alive fleet _ i)
    (Or.inr ⟨{ idx := i0, pos := (fleet i0).s },
      hperm.mem_iff.mpr ((init_order_mem fleet _ _).mpr ⟨hi0, rfl⟩), hal0⟩)
  obtain ⟨p, hp⟩ := Option.isSome_iff_exists.mp hsome
  obtain ⟨h1, h2', h3, _, h5, h6, h7, h8, h9, _⟩ := inv.at_some p hp
  have hcnt : alive_count fleet s.n.toNat > 1 := by omega
  unfold compute_gaps_sorted
  simp only [hcnt, if_true, hp]
  refine ⟨?_, ?_, ?_⟩
  · intro i
    rw [(set_first_back_frame _ _ _ _ i).1, (back_fix_fold_frame _ _ _ _ _ i).1,
      set_gap_f_alive]
    exact inv.frame i
  · intro i hi
    rw [(set_first_back_frame _ _ _ _ i).2, (back_fix_fold_frame _ _ _ _ _ i).2,
      set_gap_f_gap_f]
    split
    · rw [h7]; linarith
    · exact inv.nonneg i hi
  · rw [sum_gap_f_congr (set_gap_f _ p _) _ s.n.toNat
      (fun i => ⟨((set_first_back_frame _ _ _ _ i).1).trans (back_fix_fold_frame _ _ _ _ _ i).1,
        ((set_first_back_frame _ _ _ _ i).2).trans (back_fix_fold_frame _ _ _ _ _ i).2⟩)]
    rw [sum_gap_f_update _ (set_gap_f _ p _) s.n.toNat p _ h1
      (by rw [inv.frame]; exact h2') (fun i => set_gap_f_alive _ _ _ _)
      (by rw [set_gap_f_gap_f, if_pos rfl])
      (fun i hi => by rw [set_gap_f_gap_f, if_neg hi]), h3, h9, h7]
    ring

theorem cmp_pos_le_iff (a b : Ordered) : cmp_pos a b ≤ 0 ↔ a.pos ≤ b.pos := by
  unfold cmp_pos
  split_ifs with h1 h2
  · simp [le_of_lt h1]
  · simp [not_le.mpr h2]
  · simp [not_lt.mp h2]

theorem qsort_pos_perm (l : List Ordered) : (qsort_pos l).Perm l :=
  List.perm_insertionSort _ l

theorem qsort_pos_sorted (l : List Ordered) :
    (qsort_pos l).Pairwise (fun a b => a.pos ≤ b.pos) := by
  haveI : IsTotal Ordered (fun a b => cmp_pos a b ≤ 0) :=
    ⟨fun a b => by
      rw [cmp_pos_le_iff, cmp_pos_le_iff]
      exact le_total a.pos b.pos⟩
  haveI : IsTrans Ordered (fun a b => cmp_pos a b ≤ 0) :=
    ⟨fun a b c h1 h2 => by
      rw [cmp_pos_le_iff] at h1 h2 ⊢
      exact le_trans h1 h2⟩
  have h := List.sorted_insertionSort (fun a b : Ordered => cmp_pos a b ≤ 0) l
  exact List.Pairwise.imp (fun {a b} hab => (cmp_pos_le_iff a b).mp hab) h

/-- C1. After `compute_gaps` on a fleet with at least two living drones whose
positions lie in `[0, perimeter)`, the liveness flags are as before, every
living drone has `gap_f ≥ 0`, and the sum of `gap_f` over the living drones is
exactly the perimeter; nothing is assumed about the dead slots.  (The same
holds for every sorted arrangement: `compute_gaps_sorted_sum`.) -/
theorem compute_gaps_sum_eq_perimeter (fleet : Fleet) (s : Scenario)
    (h2 : 2 ≤ alive_count fleet s.n.toNat)
    (hpos : ∀ i, i < s.n.toNat → (fleet i).alive = true →
      0 ≤ (fleet i).s ∧ (fleet i).s < s.perimeter) :
    (∀ i, (compute_gaps fleet s i).alive = (fleet i).alive) ∧
    (∀ i, i < s.n.toNat → (compute_gaps fleet s i).alive = true →
      0 ≤ (compute_gaps fleet s i).gap_f) ∧
    sum_gap_f (compute_gaps fleet s) s.n.toNat = s.perimeter := by
  obtain ⟨a, b, c⟩ := compute_gaps_sorted_sum (qsort_pos (init_order fleet s.n.toNat))
    fleet s (qsort_pos_perm _) (qsort_pos_sorted _) h2 hpos
  exact ⟨a, fun i hi _ => b i hi, c⟩

end Baseline

namespace Baseline

/-- C1 at a concrete fleet: a dead slot at position 0 and two living drones at
10 and 20 on a ring of perimeter 30. -/
theorem compute_gaps_sum_eq_perimeter_witness :
    2 ≤ alive_count deadFirstFleet 3 ∧
    sum_gap_f (compute_gaps deadFirstFleet (demoScenario 3 30)) 3 = 30 :=
  ⟨by decide,
    (compute_gaps_sum_eq_perimeter deadFirstFleet (demoScenario 3 30) (by decide)
      (by decide!)).2.2⟩

/-- C3 (evaluation at the failing input). Slot 0 is dead at position 0, slots 1
and 2 are living at 10 and 20 on a ring of perimeter 30, all positions
distinct.  Slot 1 is the living drone with the smallest position and the
nearest living drone behind it is slot 2, whose `gap_f` is the wrap-around
gap `30 - 20 + 10 = 20`; `compute_gaps` leaves `gap_b` of slot 1 at 0. -/
theorem compute_gaps_first_alive_gap_b_unset :
    (deadFirstFleet 0).alive = false ∧ (deadFirstFleet 1).alive = true ∧
    (deadFirstFleet 2).alive = true ∧
    (compute_gaps deadFirstFleet (demoScenario 3 30) 2).gap_f = 20 ∧
    (compute_gaps deadFirstFleet (demoScenario 3 30) 1).gap_b = 0 ∧
    (compute_gaps deadFirstFleet (demoScenario 3 30) 1).gap_b ≠
      (demoScenario 3 30).perimeter - (deadFirstFleet 2).s + (deadFirstFleet 1).s := by
  decide!

end Baseline


/-! ### `generate_losses` -/

namespace Baseline

/-- The drawing loop in closed form. -/
theorem draw_fold (s : Scenario) (r : Rng) (k : Nat) :
    (List.range k).foldl (draw_step s) (fun _ => { step := 0, idx := 0 }, r) =
      (fun i => if i < k then drawn_pair s r i else { step := 0, idx := 0 },
        fun t => r (2 * k + t)) := by
  induction k with
  | zero =>
    simp only [List.range_zero, List.foldl_nil, Nat.not_lt_zero, if_false, Nat.mul_zero,
      Nat.zero_add]
  | succ k ih =>
    rw [List.range_succ, List.foldl_append, ih]
    simp only [List.foldl_cons, List.foldl_nil]
    unfold draw_step rand
    simp only
    refine Prod.ext ?_ ?_
    · funext i
      simp only
      by_cases h : i = k
      · subst h
        rw [Function.update_same, if_pos (Nat.lt_succ_self i)]
        unfold drawn_pair
        simp only [Nat.add_zero, Nat.zero_add]
      · rw [Function.update_noteq h]
        by_cases h2 : i < k
        · rw [if_pos h2, if_pos (by omega)]
        · rw [if_neg h2, if_neg (by omega)]
    · funext t
      simp only
      congr 1
      omega

theorem draw_losses_apply (s : Scenario) (r : Rng) (i : Nat) (hi : i < s.num_losses.toNat) :
    (draw_losses s r).1 i = drawn_pair s r i := by
  unfold draw_losses
  rw [draw_fold]
  simp only
  rw [if_pos hi]

theorem drawn_pair_range (s : Scenario) (r : Rng) (i : Nat) :
    0 ≤ (drawn_pair s r i).step ∧ (drawn_pair s r i).step < max s.steps 1 ∧
    0 ≤ (drawn_pair s r i).idx ∧ (drawn_pair s r i).idx < max s.n 1 := by
  have hm : ∀ m : Int, (if m > 0 then m else 1) = max m 1 ∧ 0 < max m 1 := by
    intro m
    by_cases h : m > 0
    · rw [if_pos h]
      exact ⟨(max_eq_left (by omega)).symm, by omega⟩
    · rw [if_neg h]
      exact ⟨(max_eq_right (by omega)).symm, by omega⟩
  unfold drawn_pair
  simp only
  rw [(hm s.steps).1, (hm s.n).1]
  exact ⟨Int.tmod_nonneg _ (Int.ofNat_nonneg _), Int.tmod_lt_of_pos _ (hm s.steps).2,
    Int.tmod_nonneg _ (Int.ofNat_nonneg _), Int.tmod_lt_of_pos _ (hm s.n).2⟩

theorem rearr_refl (lo c : Nat) (a : Losses) : Rearr lo c a a :=
  ⟨Equiv.refl Nat, fun _ _ => rfl, fun _ => rfl⟩

theorem rearr_trans (lo c : Nat) (a b d : Losses) (h1 : Rearr lo c a b)
    (h2 : Rearr lo c b d) : Rearr lo c a d := by
  obtain ⟨σ1, f1, e1⟩ := h1
  obtain ⟨σ2, f2, e2⟩ := h2
  refine ⟨σ2.trans σ1, ?_, ?_⟩
  · intro k hk
    simp only [Equiv.trans_apply]
    rw [f2 k hk, f1 k hk]
  · intro k
    simp only [Equiv.trans_apply]
    rw [e2, e1]

theorem rearr_mono (lo lo2 c : Nat) (a b : Losses) (h : lo2 ≤ lo) (h1 : Rearr lo c a b) :
    Rearr lo2 c a b := by
  obtain ⟨σ, f, e⟩ := h1
  refine ⟨σ, ?_, e⟩
  intro k hk
  apply f
  omega

/-- The rearrangement keeps the indices `lo ≤ k < c` among themselves. -/
theorem rearr_range (lo c : Nat) (σ : Equiv.Perm Nat)
    (f : ∀ k, (k < lo ∨ c ≤ k) → σ k = k) (k : Nat) (h1 : lo ≤ k) (h2 : k < c) :
    lo ≤ σ k ∧ σ k < c := by
  by_contra hc
  have hfix : σ (σ k) = σ k := f (σ k) (by omega)
  have := σ.injective hfix
  omega

theorem exchange_step_rearr (c i j : Nat) (a : Losses) (hij : i < j) (hj : j < c) :
    Rearr i c a (exchange_step i a j) := by
  unfold exchange_step
  split_ifs with h
  · refine ⟨Equiv.swap i j, ?_, ?_⟩
    · intro k hk
      exact Equiv.swap_apply_of_ne_of_ne (by omega) (by omega)
    · intro k
      simp only
      by_cases hkj : k = j
      · subst hkj
        rw [Function.update_same, Equiv.swap_apply_right]
      · rw [Function.update_noteq hkj]
        by_cases hki : k = i
        · subst hki
          rw [Function.update_same, Equiv.swap_apply_left]
        · rw [Function.update_noteq hki, Equiv.swap_apply_of_ne_of_ne hki hkj]
  · exact rearr_refl i c a

theorem exchange_step_self (i j : Nat) (a : Losses) (hij : i ≠ j) :
    ((exchange_step i a j) i).step ≤ (a i).step ∧
    ((exchange_step i a j) i).step ≤ ((exchange_step i a j) j).step := by
  unfold exchange_step
  split_ifs with h
  · simp only
    rw [Function.update_noteq hij, Function.update_same, Function.update_same]
    exact ⟨le_of_lt h, le_of_lt h⟩
  · exact ⟨le_refl _, not_lt.mp h⟩

theorem exchange_step_other (i j k : Nat) (a : Losses) (hki : k ≠ i) (hkj : k ≠ j) :
    (exchange_step i a j) k = a k := by
  unfold exchange_step
  split_ifs with h
  · simp only
    rw [Function.update_noteq hkj, Function.update_noteq hki]
  · rfl

/-- The invariant of the inner loop: after the indices `i+1 .. i+m` the
entry at `i` is at most each of them, and the entries from `i` on are
rearranged. -/
theorem exchange_inner_inv (c i : Nat) (a : Losses) :
    ∀ m, i + 1 + m ≤ c →
      Rearr i c a
        ((List.range m).foldl (fun a t => exchange_step i a (i + 1 + t)) a) ∧
      ∀ b, i < b → b < i + 1 + m →
        (((List.range m).foldl (fun a t => exchange_step i a (i + 1 + t)) a) i).step ≤
          (((List.range m).foldl (fun a t => exchange_step i a (i + 1 + t)) a) b).step := by
  intro m
  induction m with
  | zero =>
    intro _
    refine ⟨rearr_refl i c a, ?_⟩
    intro b h1 h2
    omega
  | succ m ih =>
    intro hm
    obtain ⟨hr, hs⟩ := ih (by omega)
    rw [List.range_succ, List.foldl_append]
    simp only [List.foldl_cons, List.foldl_nil]
    refine ⟨rearr_trans i c _ _ _ hr (exchange_step_rearr c i (i + 1 + m) _ (by omega)
      (by omega)), ?_⟩
    intro b h1 h2
    have hself := exchange_step_self i (i + 1 + m)
      ((List.range m).foldl (fun a t => exchange_step i a (i + 1 + t)) a) (by omega)
    by_cases hb : b = i + 1 + m
    · rw [hb]
      exact hself.2
    · rw [exchange_step_other i (i + 1 + m) b _ (by omega) hb]
      exact le_trans hself.1 (hs b h1 (by omega))

/-- The invariant of the outer loop: after the iterations `0 .. m-1` each of
the first `m` entries is at most every later entry. -/
theorem exchange_sort_inv (c : Nat) (a : Losses) :
    ∀ m, m ≤ c - 1 →
      Rearr 0 c a ((List.range m).foldl (exchange_inner c) a) ∧
      ∀ x y, x < m → x < y → y < c →
        (((List.range m).foldl (exchange_inner c) a) x).step ≤
          (((List.range m).foldl (exchange_inner c) a) y).step := by
  intro m
  induction m with
  | zero =>
    intro _
    refine ⟨rearr_refl 0 c a, ?_⟩
    intro x y h
    omega
  | succ m ih =>
    intro hm
    obtain ⟨hr, hs⟩ := ih (by omega)
    rw [List.range_succ, List.foldl_append]
    simp only [List.foldl_cons, List.foldl_nil]
    generalize (List.range m).foldl (exchange_inner c) a = A at hr hs ⊢
    obtain ⟨hr2, hs2⟩ := exchange_inner_inv c m A (c - (m + 1)) (by omega)
    have hr2' := hr2
    obtain ⟨σ, f, e⟩ := hr2'
    refine ⟨rearr_trans 0 c _ _ _ hr (rearr_mono m 0 c _ _ (Nat.zero_le m) hr2), ?_⟩
    intro x y hx hxy hy
    unfold exchange_inner
    by_cases hxm : x = m
    · subst hxm
      exact hs2 y hxy (by omega)
    · have hx' : x < m := by omega
      rw [e x, f x (Or.inl hx'), e y]
      by_cases hym : y < m
      · rw [f y (Or.inl hym)]
        exact hs x y hx' hxy hy
      · have := rearr_range m c σ f y (by omega) hy
        exact hs x (σ y) hx' (by omega) this.2

theorem rearr_perm (c : Nat) (a b : Losses) (h : Rearr 0 c a b) :
    ((List.range c).map b).Perm ((List.range c).map a) := by
  obtain ⟨σ, f, e⟩ := h
  have hb : (List.range c).map b = ((List.range c).map σ).map a := by
    rw [List.map_map]
    apply List.map_congr_left
    intro k _
    exact e k
  rw [hb]
  apply List.Perm.map
  rw [List.perm_ext_iff_of_nodup ((List.nodup_range c).map σ.injective) (List.nodup_range c)]
  intro x
  simp only [List.mem_map, List.mem_range]
  constructor
  · rintro ⟨k, hk, rfl⟩
    exact (rearr_range 0 c σ f k (Nat.zero_le k) hk).2
  · intro hx
    refine ⟨σ.symm x, ?_, σ.apply_symm_apply x⟩
    by_contra hc
    have hfix : σ (σ.symm x) = σ.symm x := f _ (Or.inr (by omega))
    rw [σ.apply_symm_apply] at hfix
    omega

/-- C30. For every scenario and every generator state `srand seed` (a stream
of non-negative draws), `generate_losses` returns `count_out = num_losses`
with that many entries, sorted by `step` in non-decreasing order; the entries
are a permutation of the pairs drawn, `(r(2i) % max(steps,1),
r(2i+1) % max(n,1))` for `i < num_losses`; every entry has
`0 ≤ step < max(steps, 1)` and `0 ≤ idx < max(n, 1)`; and two scenarios with
the same `seed`, `steps`, `n` and `num_losses` give the same output. -/
theorem generate_losses_spec (srand : Nat → Rng) (s : Scenario) :
    (generate_losses srand s).2 = s.num_losses ∧
    (losses_list (generate_losses srand s)).length = s.num_losses.toNat ∧
    (∀ i j, i ≤ j → j < s.num_losses.toNat →
      ((generate_losses srand s).1 i).step ≤ ((generate_losses srand s).1 j).step) ∧
    (losses_list (generate_losses srand s)).Perm
      ((List.range s.num_losses.toNat).map (drawn_pair s (srand s.seed))) ∧
    (∀ e ∈ losses_list (generate_losses srand s),
      0 ≤ e.step ∧ e.step < max s.steps 1 ∧ 0 ≤ e.idx ∧ e.idx < max s.n 1) ∧
    (∀ s2 : Scenario, s2.seed = s.seed → s2.steps = s.steps → s2.n = s.n →
      s2.num_losses = s.num_losses → generate_losses srand s2 = generate_losses srand s) := by
  obtain ⟨hr, hs⟩ := exchange_sort_inv s.num_losses.toNat (draw_losses s (srand s.seed)).1
    (s.num_losses.toNat - 1) (le_refl _)
  have hperm : (losses_list (generate_losses srand s)).Perm
      ((List.range s.num_losses.toNat).map (drawn_pair s (srand s.seed))) := by
    have h1 := rearr_perm _ _ _ hr
    have h2 : (List.range s.num_losses.toNat).map (draw_losses s (srand s.seed)).1 =
        (List.range s.num_losses.toNat).map (drawn_pair s (srand s.seed)) := by
      apply List.map_congr_left
      intro k hk
      exact draw_losses_apply s _ k (List.mem_range.mp hk)
    rw [h2] at h1
    exact h1
  refine ⟨rfl, ?_, ?_, hperm, ?_, ?_⟩
  · unfold losses_list
    rw [List.length_map, List.length_range]
    rfl
  · intro i j hij hj
    rcases Nat.eq_or_lt_of_le hij with h | h
    · rw [h]
    · exact hs i j (by omega) h hj
  · intro e he
    obtain ⟨k, _, hk⟩ := List.mem_map.mp ((hperm.mem_iff).mp he)
    rw [← hk]
    exact drawn_pair_range s _ k
  · intro s2 h1 h2 h3 h4
    have hd : draw_step s2 = draw_step s := by
      funext st i
      unfold draw_step
      rw [h2, h3]
    unfold generate_losses draw_losses
    rw [hd, h1, h4]

end Baseline

/-! ### `find_largest_gap` against `compute_gaps` -/

namespace Baseline

theorem snoc_index_cases {α : Type} (B : List α) (o u : α) (k : Nat)
    (h : (B ++ [o])[k]? = some u) :
    (k < B.length ∧ B[k]? = some u) ∨ (k = B.length ∧ u = o) := by
  rcases Nat.lt_or_ge k B.length with h1 | h1
  · left
    rw [List.getElem?_append_left h1] at h
    exact ⟨h1, h⟩
  · right
    rw [List.getElem?_append_right h1] at h
    rcases Nat.eq_zero_or_pos (k - B.length) with h2 | h2
    · rw [h2] at h
      simp only [List.getElem?_cons_zero, Option.some.injEq] at h
      exact ⟨by omega, h.symm⟩
    · obtain ⟨j, hj⟩ : ∃ j, k - B.length = j + 1 := ⟨k - B.length - 1, by omega⟩
      rw [hj] at h
      simp at h

theorem snoc_index_last {α : Type} (B : List α) (o : α) :
    (B ++ [o])[B.length]? = some o := by
  rw [List.getElem?_append_right (le_refl _), Nat.sub_self]
  rfl

theorem gap_scan_step_alive (st : GapScan) (o : Ordered) (i : Nat) :
    ((gap_scan_step st o).fleet i).alive = (st.fleet i).alive := by
  cases h : (st.fleet o.idx).alive with
  | false => rw [gap_scan_step_dead st o h]
  | true =>
    rw [(gap_scan_step_live st o h).2.2.2.2]
    cases st.prev_alive with
    | none => rfl
    | some p => simp only [set_gap_f_alive, set_gap_b_alive]

/-- The pairing loop skips the dormant slots. -/
theorem gap_scan_filter (fleet : Fleet) :
    ∀ (l : List Ordered) (st : GapScan), (∀ i, (st.fleet i).alive = (fleet i).alive) →
      l.foldl gap_scan_step st =
        (l.filter (is_living fleet)).foldl gap_scan_step st := by
  intro l
  induction l with
  | nil => intro st _; rfl
  | cons o l ih =>
    intro st hal
    by_cases h : is_living fleet o = true
    · rw [List.filter_cons_of_pos h, List.foldl_cons, List.foldl_cons]
      exact ih _ (fun i => by rw [gap_scan_step_alive]; exact hal i)
    · rw [List.filter_cons_of_neg h, List.foldl_cons]
      have hd : (st.fleet o.idx).alive = false := by
        rw [hal]
        simpa [is_living] using h
      rw [gap_scan_step_dead st o hd]
      exact ih st hal

theorem gap_search_step_dead (fleet : Fleet) (st : GapSearch) (o : Ordered)
    (h : (fleet o.idx).alive = false) : gap_search_step fleet st o = st := by
  unfold gap_search_step
  simp [h]

/-- The search loop skips the dormant slots. -/
theorem gap_search_filter (fleet : Fleet) :
    ∀ (l : List Ordered) (st : GapSearch),
      l.foldl (gap_search_step fleet) st =
        (l.filter (is_living fleet)).foldl (gap_search_step fleet) st := by
  intro l
  induction l with
  | nil => intro st; rfl
  | cons o l ih =>
    intro st
    by_cases h : is_living fleet o = true
    · rw [List.filter_cons_of_pos h, List.foldl_cons, List.foldl_cons]
      exact ih _
    · rw [List.filter_cons_of_neg h, List.foldl_cons]
      have hd : (fleet o.idx).alive = false := by simpa [is_living] using h
      rw [gap_search_step_dead fleet st o hd]
      exact ih st

theorem gap_search_step_live (fleet : Fleet) (st : GapSearch) (o : Ordered)
    (h : (fleet o.idx).alive = true) :
    (gap_search_step fleet st o).prev_idx = some o.idx ∧
    (gap_search_step fleet st o).prev_pos = o.pos ∧
    (gap_search_step fleet st o).first_alive_seen = true ∧
    (gap_search_step fleet st o).first_pos =
      (if st.first_alive_seen = true then st.first_pos else o.pos) ∧
    (st.prev_idx = none →
      (gap_search_step fleet st o).best_gap = st.best_gap ∧
      (gap_search_step fleet st o).best_from = st.best_from ∧
      (gap_search_step fleet st o).best_pos = st.best_pos) ∧
    (∀ p, st.prev_idx = some p →
      (o.pos - st.prev_pos > st.best_gap →
        (gap_search_step fleet st o).best_gap = o.pos - st.prev_pos ∧
        (gap_search_step fleet st o).best_from = some p ∧
        (gap_search_step fleet st o).best_pos = st.prev_pos) ∧
      (¬ (o.pos - st.prev_pos > st.best_gap) →
        (gap_search_step fleet st o).best_gap = st.best_gap ∧
        (gap_search_step fleet st o).best_from = st.best_from ∧
        (gap_search_step fleet st o).best_pos = st.best_pos)) := by
  unfold gap_search_step
  cases hfa : st.first_alive_seen <;> cases hp : st.prev_idx <;>
    by_cases hc : o.pos - st.prev_pos > st.best_gap <;>
    simp [h, hfa, hp, hc]

/-- The pairing loop of `compute_gaps` over a list `A` of living slots with
distinct indices and non-negative positions, from a state with
`first_pos < 0`: each slot of `A` but the last gets as `gap_f` the distance to the next
one, and the loop ends with the last slot as `prev_alive` and the position of
the first one as `first_pos`. -/
theorem gap_scan_prefix (fleet : Fleet) (st0 : GapScan)
    (hf0 : st0.first_pos < 0) (hal0 : ∀ i, (st0.fleet i).alive = (fleet i).alive)
    (A : List Ordered) :
    (∀ o ∈ A, (fleet o.idx).alive = true ∧ 0 ≤ o.pos) →
    A.Pairwise (fun a b => a.idx ≠ b.idx) →
    (∀ i, ((A.foldl gap_scan_step st0).fleet i).alive = (fleet i).alive) ∧
    (∀ k u v, A[k]? = some u → A[k + 1]? = some v →
      ((A.foldl gap_scan_step st0).fleet u.idx).gap_f = v.pos - u.pos) ∧
    (∀ u, A[A.length - 1]? = some u →
      (A.foldl gap_scan_step st0).prev_alive = some u.idx ∧
      (A.foldl gap_scan_step st0).prev_pos = u.pos ∧
      (A.foldl gap_scan_step st0).last_pos = u.pos) ∧
    (∀ h, A[0]? = some h → (A.foldl gap_scan_step st0).first_pos = h.pos) := by
  induction A using List.reverseRecOn with
  | nil =>
    intro _ _
    refine ⟨hal0, ?_, ?_, ?_⟩
    · intro k u v hu; simp at hu
    · intro u hu; simp at hu
    · intro h hh; simp at hh
  | append_singleton B o ih =>
    intro hA hnd
    have hB := ih (fun x hx => hA x (List.mem_append_left _ hx))
      (List.pairwise_append.mp hnd).1
    have hndB := (List.pairwise_append.mp hnd).1
    have ho := hA o (by simp)
    have hlive : ((B.foldl gap_scan_step st0).fleet o.idx).alive = true := by
      rw [hB.1]; exact ho.1
    obtain ⟨e1, e2, e3, e4, e5⟩ := gap_scan_step_live (B.foldl gap_scan_step st0) o hlive
    rw [List.foldl_append]
    simp only [List.foldl_cons, List.foldl_nil]
    refine ⟨?_, ?_, ?_, ?_⟩
    · intro i
      rw [gap_scan_step_alive]
      exact hB.1 i
    · intro k u v hu hv
      rcases snoc_index_cases B o u k hu with ⟨hk, hu'⟩ | ⟨hk, _⟩
      · rcases snoc_index_cases B o v (k + 1) hv with ⟨hk1, hv'⟩ | ⟨hk1, hvo⟩
        · -- both in the prefix: the store of this iteration is elsewhere
          have hlast : B[B.length - 1]? = some (B[B.length - 1]) :=
            List.getElem?_eq_getElem (by omega)
          obtain ⟨p1, _, _⟩ := hB.2.2.1 _ hlast
          obtain ⟨hku, hue⟩ := List.getElem?_eq_some.mp hu'
          have hne : u.idx ≠ (B[B.length - 1]).idx := by
            rw [← hue]
            exact (List.pairwise_iff_getElem.mp hndB) k (B.length - 1) hku (by omega)
              (by omega)
          rw [e5, p1]
          simp only
          rw [set_gap_f_gap_f, if_neg hne, set_gap_b_gap_f]
          exact hB.2.1 k u v hu' hv'
        · -- the pair made of the last slot of the prefix and the new slot
          have hlast : B[B.length - 1]? = some u := by
            have : B.length - 1 = k := by omega
            rw [this]; exact hu'
          obtain ⟨p1, p2, _⟩ := hB.2.2.1 _ hlast
          rw [e5, p1, hvo]
          simp only
          rw [set_gap_f_gap_f, if_pos rfl, p2]
      · exfalso
        rcases snoc_index_cases B o v (k + 1) hv with ⟨hk1, _⟩ | ⟨hk1, _⟩ <;> omega
    · intro u hu
      have hlen : (B ++ [o]).length - 1 = B.length := by simp
      rw [hlen, snoc_index_last] at hu
      have : u = o := (Option.some.inj hu).symm
      rw [this]
      exact ⟨e1, e2, e3⟩
    · intro h hh
      rw [e4]
      by_cases hB0 : B = []
      · subst hB0
        simp only [List.nil_append, List.getElem?_cons_zero, Option.some.injEq] at hh
        simp only [List.foldl_nil]
        rw [if_pos hf0, hh]
      · have hpos : 0 < B.length := List.length_pos.mpr hB0
        rw [List.getElem?_append_left hpos] at hh
        have hfirst := hB.2.2.2 h hh
        have hmem : h ∈ B := List.mem_iff_getElem?.mpr ⟨0, hh⟩
        have hnn := (hA h (List.mem_append_left _ hmem)).2
        rw [hfirst, if_neg (not_lt.mpr hnn)]

/-- The search loop of `find_largest_gap` over a list `A` of living slots:
`best_gap` is at least every distance between successive slots of `A`, and
it is either still the initial `-1` or the distance after some slot of `A`,
which `best_from` and `best_pos` then name; the loop ends with the last slot
as `prev_idx` and the position of the first one as `first_pos`. -/
theorem gap_search_prefix (fleet : Fleet) (A : List Ordered) :
    (∀ o ∈ A, (fleet o.idx).alive = true) →
    (∀ k u v, A[k]? = some u → A[k + 1]? = some v →
      v.pos - u.pos ≤ (A.foldl (gap_search_step fleet) gap_search_init).best_gap) ∧
    (((A.foldl (gap_search_step fleet) gap_search_init).best_gap = -1 ∧
        (A.foldl (gap_search_step fleet) gap_search_init).best_from = none) ∨
      ∃ k u v, A[k]? = some u ∧ A[k + 1]? = some v ∧
        (A.foldl (gap_search_step fleet) gap_search_init).best_gap = v.pos - u.pos ∧
        (A.foldl (gap_search_step fleet) gap_search_init).best_from = some u.idx ∧
        (A.foldl (gap_search_step fleet) gap_search_init).best_pos = u.pos) ∧
    (A = [] → (A.foldl (gap_search_step fleet) gap_search_init).prev_idx = none ∧
      (A.foldl (gap_search_step fleet) gap_search_init).first_alive_seen = false) ∧
    (∀ u, A[A.length - 1]? = some u →
      (A.foldl (gap_search_step fleet) gap_search_init).prev_idx = some u.idx ∧
      (A.foldl (gap_search_step fleet) gap_search_init).prev_pos = u.pos) ∧
    (∀ h, A[0]? = some h →
      (A.foldl (gap_search_step fleet) gap_search_init).first_pos = h.pos ∧
      (A.foldl (gap_search_step fleet) gap_search_init).first_alive_seen = true) := by
  induction A using List.reverseRecOn with
  | nil =>
    intro _
    refine ⟨?_, Or.inl ⟨by simp [gap_search_init]; norm_num, rfl⟩, fun _ => ⟨rfl, rfl⟩, ?_, ?_⟩
    · intro k u v hu; simp at hu
    · intro u hu; simp at hu
    · intro h hh; simp at hh
  | append_singleton B o ih =>
    intro hA
    have hB := ih (fun x hx => hA x (List.mem_append_left _ hx))
    have ho := hA o (by simp)
    obtain ⟨e1, e2, e3, e4, e5, e6⟩ :=
      gap_search_step_live fleet (B.foldl (gap_search_step fleet) gap_search_init) o ho
    rw [List.foldl_append]
    simp only [List.foldl_cons, List.foldl_nil]
    by_cases hB0 : B = []
    · -- the first living slot: nothing to compare with
      subst hB0
      obtain ⟨b1, b2, b3⟩ := e5 (hB.2.2.1 rfl).1
      refine ⟨?_, Or.inl ?_, ?_, ?_, ?_⟩
      · intro k u v hu hv
        exfalso
        rcases snoc_index_cases [] o v (k + 1) hv with ⟨hk1, _⟩ | ⟨hk1, _⟩
        · simp at hk1
        · simp at hk1
      · rw [b1, b2]
        exact ⟨by simp [gap_search_init]; norm_num, rfl⟩
      · intro hc; simp at hc
      · intro u hu
        simp only [List.nil_append, List.length_singleton, Nat.sub_self,
          List.getElem?_cons_zero, Option.some.injEq] at hu
        rw [← hu]
        exact ⟨e1, e2⟩
      · intro h hh
        simp only [List.nil_append, List.getElem?_cons_zero, Option.some.injEq] at hh
        rw [e4, (hB.2.2.1 rfl).2, ← hh]
        exact ⟨by simp, e3⟩
    · have hpos : 0 < B.length := List.length_pos.mpr hB0
      have hlast : B[B.length - 1]? = some (B[B.length - 1]) :=
        List.getElem?_eq_getElem (by omega)
      obtain ⟨p1, p2⟩ := hB.2.2.2.1 _ hlast
      obtain ⟨c1, c2⟩ := e6 _ p1
      have hnewpair : (B ++ [o])[B.length - 1]? = some (B[B.length - 1]) ∧
          (B ++ [o])[B.length - 1 + 1]? = some o := by
        constructor
        · rw [List.getElem?_append_left (by omega)]; exact hlast
        · have : B.length - 1 + 1 = B.length := by omega
          rw [this]; exact snoc_index_last B o
      refine ⟨?_, ?_, ?_, ?_, ?_⟩
      · intro k u v hu hv
        rcases snoc_index_cases B o u k hu with ⟨hk, hu'⟩ | ⟨hk, _⟩
        · rcases snoc_index_cases B o v (k + 1) hv with ⟨hk1, hv'⟩ | ⟨hk1, hvo⟩
          · have hold := hB.1 k u v hu' hv'
            by_cases hc : o.pos - (B.foldl (gap_search_step fleet) gap_search_init).prev_pos
                > (B.foldl (gap_search_step fleet) gap_search_init).best_gap
            · rw [(c1 hc).1]
              exact le_trans hold (le_of_lt hc)
            · rw [(c2 hc).1]
              exact hold
          · have h2 : B[B.length - 1]? = some u := by
              rw [show B.length - 1 = k by omega]
              exact hu'
            have hue : B[B.length - 1] = u := by
              have h1 := hlast
              rw [h2] at h1
              exact (Option.some.inj h1).symm
            have hup : (B.foldl (gap_search_step fleet) gap_search_init).prev_pos = u.pos := by
              rw [p2, hue]
            by_cases hc : o.pos - (B.foldl (gap_search_step fleet) gap_search_init).prev_pos
                > (B.foldl (gap_search_step fleet) gap_search_init).best_gap
            · rw [(c1 hc).1, hvo, hup]
            · rw [(c2 hc).1, hvo, ← hup]
              exact not_lt.mp hc
        · exfalso
          rcases snoc_index_cases B o v (k + 1) hv with ⟨hk1, _⟩ | ⟨hk1, _⟩ <;> omega
      · by_cases hc : o.pos - (B.foldl (gap_search_step fleet) gap_search_init).prev_pos
            > (B.foldl (gap_search_step fleet) gap_search_init).best_gap
        · right
          refine ⟨B.length - 1, B[B.length - 1], o, hnewpair.1, hnewpair.2, ?_, ?_, ?_⟩
          · rw [(c1 hc).1, p2]
          · exact (c1 hc).2.1
          · rw [(c1 hc).2.2, p2]
        · rcases hB.2.1 with ⟨g1, g2⟩ | ⟨k, u, v, hu, hv, g1, g2, g3⟩
          · left
            rw [(c2 hc).1, (c2 hc).2.1]
            exact ⟨g1, g2⟩
          · right
            have hk1 : k + 1 < B.length := (List.getElem?_eq_some.mp hv).1
            refine ⟨k, u, v, ?_, ?_, ?_, ?_, ?_⟩
            · rw [List.getElem?_append_left (by omega)]; exact hu
            · rw [List.getElem?_append_left hk1]; exact hv
            · rw [(c2 hc).1]; exact g1
            · rw [(c2 hc).2.1]; exact g2
            · rw [(c2 hc).2.2]; exact g3
      · intro hc
        exfalso
        simp at hc
      · intro u hu
        have hlen : (B ++ [o]).length - 1 = B.length := by simp
        rw [hlen, snoc_index_last] at hu
        have : u = o := (Option.some.inj hu).symm
        rw [this]
        exact ⟨e1, e2⟩
      · intro h hh
        rw [List.getElem?_append_left hpos] at hh
        obtain ⟨f1, f2⟩ := hB.2.2.2.2 h hh
        rw [e4, f2, if_pos rfl]
        exact ⟨f1, e3⟩

/-- The living slots of a sorted arrangement of the `order` array: sorted by
position, with distinct indices; they are the living slots below `n` with
their positions, and there are `alive_count` of them. -/
theorem living_order_facts (order : List Ordered) (fleet : Fleet) (n : Nat)
    (hperm : order.Perm (init_order fleet n))
    (hsorted : order.Pairwise (fun a b => a.pos ≤ b.pos)) :
    (order.filter (is_living fleet)).Pairwise (fun a b => a.pos ≤ b.pos) ∧
    (order.filter (is_living fleet)).Pairwise (fun a b => a.idx ≠ b.idx) ∧
    (∀ o, o ∈ order.filter (is_living fleet) ↔
      (o.idx < n ∧ o.pos = (fleet o.idx).s ∧ (fleet o.idx).alive = true)) ∧
    (order.filter (is_living fleet)).length = alive_count fleet n := by
  have hnd : order.Pairwise (fun a b => a.idx ≠ b.idx) :=
    (hperm.pairwise_iff (fun h => Ne.symm h)).mpr (init_order_pairwise fleet _)
  refine ⟨hsorted.filter _, hnd.filter _, ?_, ?_⟩
  · intro o
    rw [List.mem_filter, hperm.mem_iff, init_order_mem]
    unfold is_living
    tauto
  · rw [(hperm.filter _).length_eq]
    unfold init_order alive_count
    rw [List.filter_map, List.length_map]
    rfl

/-- The `gap_f` that `compute_gaps` stores, read on the sorted list of the
living slots: the distance to the next living slot, and for the last one the
wrap-around distance to the first. -/
theorem compute_gaps_sorted_gap_f (order : List Ordered) (fleet : Fleet) (s : Scenario)
    (hperm : order.Perm (init_order fleet s.n.toNat))
    (hsorted : order.Pairwise (fun a b => a.pos ≤ b.pos))
    (h2 : 2 ≤ alive_count fleet s.n.toNat)
    (hpos : ∀ i, i < s.n.toNat → (fleet i).alive = true →
      0 ≤ (fleet i).s ∧ (fleet i).s < s.perimeter) :
    (∀ k u v, (order.filter (is_living fleet))[k]? = some u →
      (order.filter (is_living fleet))[k + 1]? = some v →
      (compute_gaps_sorted order fleet s u.idx).gap_f = v.pos - u.pos) ∧
    (∀ u h,
      (order.filter (is_living fleet))[(order.filter (is_living fleet)).length - 1]? = some u →
      (order.filter (is_living fleet))[0]? = some h →
      (compute_gaps_sorted order fleet s u.idx).gap_f = s.perimeter - u.pos + h.pos) := by
  obtain ⟨_, hnd, hmem, hlen⟩ := living_order_facts order fleet s.n.toNat hperm hsorted
  have hA : ∀ o ∈ order.filter (is_living fleet), (fleet o.idx).alive = true ∧ 0 ≤ o.pos := by
    intro o ho
    obtain ⟨h1, h2', h3⟩ := (hmem o).mp ho
    rw [h2']
    exact ⟨h3, (hpos _ h1 h3).1⟩
  have hfold := gap_scan_filter fleet order
    { fleet := reset_gaps fleet s.n.toNat, prev_alive := none, prev_pos := 0,
      first_pos := -1, last_pos := -1 } (fun i => reset_gaps_alive fleet _ i)
  obtain ⟨_, g2, g3, g4⟩ := gap_scan_prefix fleet
    { fleet := reset_gaps fleet s.n.toNat, prev_alive := none, prev_pos := 0,
      first_pos := -1, last_pos := -1 } (by norm_num)
    (fun i => reset_gaps_alive fleet _ i) (order.filter (is_living fleet)) hA hnd
  rw [← hfold] at g2 g3 g4
  have hlast : (order.filter (is_living fleet))[(order.filter (is_living fleet)).length - 1]?
      = some ((order.filter (is_living fleet))[(order.filter (is_living fleet)).length - 1]) :=
    List.getElem?_eq_getElem (by omega)
  have hfirst : (order.filter (is_living fleet))[0]?
      = some ((order.filter (is_living fleet))[0]) :=
    List.getElem?_eq_getElem (by omega)
  obtain ⟨q1, _, q3⟩ := g3 _ hlast
  have q4 := g4 _ hfirst
  have hcnt : alive_count fleet s.n.toNat > 1 := by omega
  constructor
  · intro k u v hu hv
    obtain ⟨hku, hue⟩ := List.getElem?_eq_some.mp hu
    have hk1 : k + 1 < (order.filter (is_living fleet)).length :=
      (List.getElem?_eq_some.mp hv).1
    have hne : u.idx ≠
        ((order.filter (is_living fleet))[(order.filter (is_living fleet)).length - 1]).idx := by
      rw [← hue]
      exact (List.pairwise_iff_getElem.mp hnd) k _ hku (by omega) (by omega)
    unfold compute_gaps_sorted
    simp only [hcnt, if_true, q1]
    rw [(set_first_back_frame _ _ _ _ _).2, (back_fix_fold_frame _ _ _ _ _ _).2,
      set_gap_f_gap_f, if_neg hne]
    exact g2 k u v hu hv
  · intro u h hu hh
    rw [hlast] at hu
    rw [hfirst] at hh
    have hu' := Option.some.inj hu
    have hh' := Option.some.inj hh
    unfold compute_gaps_sorted
    simp only [hcnt, if_true, q1]
    rw [(set_first_back_frame _ _ _ _ _).2, (back_fix_fold_frame _ _ _ _ _ _).2,
      set_gap_f_gap_f, if_pos (by rw [hu']), q3, q4, hu', hh']

theorem gap_search_wrap_pos (s : Scenario) (st : GapSearch)
    (h : s.perimeter - st.prev_pos + st.first_pos > st.best_gap) :
    (gap_search_wrap s st).best_gap = s.perimeter - st.prev_pos + st.first_pos ∧
    (gap_search_wrap s st).best_from = st.prev_idx ∧
    (gap_search_wrap s st).best_pos = st.prev_pos := by
  unfold gap_search_wrap
  simp only
  rw [if_pos h]
  exact ⟨rfl, rfl, rfl⟩

theorem gap_search_wrap_neg (s : Scenario) (st : GapSearch)
    (h : ¬ s.perimeter - st.prev_pos + st.first_pos > st.best_gap) :
    gap_search_wrap s st = st := by
  unfold gap_search_wrap
  simp only
  rw [if_neg h]

theorem find_largest_gap_sorted_some (order : List Ordered) (fleet : Fleet) (s : Scenario)
    (b : Nat)
    (hg : 0 < (gap_search_wrap s
      ((order.filter (is_living fleet)).foldl (gap_search_step fleet) gap_search_init)).best_gap)
    (hb : (gap_search_wrap s
      ((order.filter (is_living fleet)).foldl (gap_search_step fleet)
        gap_search_init)).best_from = some b) :
    find_largest_gap_sorted order fleet s =
      some (b,
        (gap_search_wrap s
          ((order.filter (is_living fleet)).foldl (gap_search_step fleet)
            gap_search_init)).best_pos,
        (gap_search_wrap s
          ((order.filter (is_living fleet)).foldl (gap_search_step fleet)
            gap_search_init)).best_gap) := by
  unfold find_largest_gap_sorted
  simp only
  rw [gap_search_filter fleet order, if_neg (not_le.mpr hg)]
  simp only [hb]

/-- With a positive sum, some living slot has a positive `gap_f`. -/
theorem sum_gap_f_pos_exists (f : Fleet) (n : Nat) (h : 0 < sum_gap_f f n) :
    ∃ i, i < n ∧ (f i).alive = true ∧ 0 < (f i).gap_f := by
  by_contra hc
  have hle : sum_gap_f f n ≤ 0 := by
    unfold sum_gap_f
    apply Finset.sum_nonpos
    intro i hi
    rw [Finset.mem_filter, Finset.mem_range] at hi
    by_contra hpos
    exact hc ⟨i, hi.1, hi.2, not_le.mp hpos⟩
  linarith

/-- What `find_largest_gap` returns for a sorted arrangement `order`, on a
fleet with at least two living slots at positions in `[0, perimeter)`: the
index and the position of a living slot `u` and a gap `g > 0` that is the
`gap_f` which `compute_gaps` gives to `u` and is at least every `gap_f` of a
living slot; `g` is the distance from `u` to the next living slot `v` in the
sorted order, or the wrap-around distance from the last living slot `u` to the
first one `v`. -/
theorem find_largest_gap_sorted_spec (order : List Ordered) (fleet : Fleet) (s : Scenario)
    (hperm : order.Perm (init_order fleet s.n.toNat))
    (hsorted : order.Pairwise (fun a b => a.pos ≤ b.pos))
    (h2 : 2 ≤ alive_count fleet s.n.toNat)
    (hpos : ∀ i, i < s.n.toNat → (fleet i).alive = true →
      0 ≤ (fleet i).s ∧ (fleet i).s < s.perimeter)
    (hP : 0 < s.perimeter) :
    ∃ (u v : Ordered) (g : ℚ), 0 < g ∧
      find_largest_gap_sorted order fleet s = some (u.idx, u.pos, g) ∧
      (compute_gaps_sorted order fleet s u.idx).gap_f = g ∧
      (∀ i, i < s.n.toNat → (fleet i).alive = true →
        (compute_gaps_sorted order fleet s i).gap_f ≤ g) ∧
      ((∃ k, (order.filter (is_living fleet))[k]? = some u ∧
          (order.filter (is_living fleet))[k + 1]? = some v ∧ g = v.pos - u.pos) ∨
        ((order.filter (is_living fleet))[(order.filter (is_living fleet)).length - 1]?
            = some u ∧
          (order.filter (is_living fleet))[0]? = some v ∧
          g = s.perimeter - u.pos + v.pos)) := by
  obtain ⟨_, hnd, hmem, hlen⟩ := living_order_facts order fleet s.n.toNat hperm hsorted
  obtain ⟨c1, c2⟩ := compute_gaps_sorted_gap_f order fleet s hperm hsorted h2 hpos
  obtain ⟨hfr, _, hsum⟩ := compute_gaps_sorted_sum order fleet s hperm hsorted h2 hpos
  obtain ⟨s1, s2, _, s4, s5⟩ := gap_search_prefix fleet (order.filter (is_living fleet))
    (fun o ho => ((hmem o).mp ho).2.2)
  have hlast : (order.filter (is_living fleet))[(order.filter (is_living fleet)).length - 1]?
      = some ((order.filter (is_living fleet))[(order.filter (is_living fleet)).length - 1]) :=
    List.getElem?_eq_getElem (by omega)
  have hfirst : (order.filter (is_living fleet))[0]?
      = some ((order.filter (is_living fleet))[0]) :=
    List.getElem?_eq_getElem (by omega)
  obtain ⟨p1, p2⟩ := s4 _ hlast
  obtain ⟨f1, _⟩ := s5 _ hfirst
  -- every gap of a living slot is a pair distance or the wrap-around distance
  have hbound : ∀ G : ℚ,
      (∀ k u v, (order.filter (is_living fleet))[k]? = some u →
        (order.filter (is_living fleet))[k + 1]? = some v → v.pos - u.pos ≤ G) →
      s.perimeter
          - ((order.filter (is_living fleet))[(order.filter (is_living fleet)).length - 1]).pos
          + ((order.filter (is_living fleet))[0]).pos ≤ G →
      ∀ i, i < s.n.toNat → (fleet i).alive = true →
        (compute_gaps_sorted order fleet s i).gap_f ≤ G := by
    intro G hpair hwrap i hi hal
    have hin : ({ idx := i, pos := (fleet i).s } : Ordered) ∈ order.filter (is_living fleet) :=
      (hmem _).mpr ⟨hi, rfl, hal⟩
    obtain ⟨k, hk⟩ := List.getElem?_of_mem hin
    have hklt := (List.getElem?_eq_some.mp hk).1
    rcases Nat.lt_or_ge (k + 1) (order.filter (is_living fleet)).length with h | h
    · have hv : (order.filter (is_living fleet))[k + 1]?
          = some ((order.filter (is_living fleet))[k + 1]) := List.getElem?_eq_getElem h
      have := c1 k _ _ hk hv
      simp only at this
      rw [this]
      exact hpair k _ _ hk hv
    · have hk' : (order.filter (is_living fleet)).length - 1 = k := by omega
      have hk2 := hk
      rw [← hk'] at hk2
      have := c2 _ _ hk2 hfirst
      simp only at this
      rw [this]
      rw [hlast] at hk2
      have := Option.some.inj hk2
      rw [this] at hwrap
      exact hwrap
  obtain ⟨i0, hi0, hal0, hg0⟩ := sum_gap_f_pos_exists _ _ (by rw [hsum]; exact hP)
  rw [hfr] at hal0
  by_cases hw : s.perimeter
      - ((order.filter (is_living fleet)).foldl (gap_search_step fleet) gap_search_init).prev_pos
      + ((order.filter (is_living fleet)).foldl (gap_search_step fleet) gap_search_init).first_pos
      > ((order.filter (is_living fleet)).foldl (gap_search_step fleet) gap_search_init).best_gap
  · -- the wrap-around gap wins
    obtain ⟨w1, w2, w3⟩ := gap_search_wrap_pos s _ hw
    have hall := hbound
      (s.perimeter
        - ((order.filter (is_living fleet))[(order.filter (is_living fleet)).length - 1]).pos
        + ((order.filter (is_living fleet))[0]).pos)
      (fun k u v hu hv => by
        have := s1 k u v hu hv
        rw [p2, f1] at hw
        linarith)
      (le_refl _)
    have hgpos : 0 < s.perimeter
        - ((order.filter (is_living fleet))[(order.filter (is_living fleet)).length - 1]).pos
        + ((order.filter (is_living fleet))[0]).pos :=
      lt_of_lt_of_le hg0 (hall i0 hi0 hal0)
    refine ⟨(order.filter (is_living fleet))[(order.filter (is_living fleet)).length - 1],
      (order.filter (is_living fleet))[0], _, hgpos, ?_, c2 _ _ hlast hfirst, hall,
      Or.inr ⟨hlast, hfirst, rfl⟩⟩
    have hsome := find_largest_gap_sorted_some order fleet s
      ((order.filter (is_living fleet))[(order.filter (is_living fleet)).length - 1]).idx
      (by rw [w1, p2, f1]; exact hgpos) (by rw [w2, p1])
    rw [hsome, w1, w3, p2, f1]
  · -- the gap found by the loop stays
    have hWS := gap_search_wrap_neg s _ hw
    have hall := hbound
      ((order.filter (is_living fleet)).foldl (gap_search_step fleet) gap_search_init).best_gap
      s1 (by rw [p2, f1] at hw; exact not_lt.mp hw)
    have hgpos : 0 <
        ((order.filter (is_living fleet)).foldl (gap_search_step fleet)
          gap_search_init).best_gap :=
      lt_of_lt_of_le hg0 (hall i0 hi0 hal0)
    rcases s2 with ⟨b1, _⟩ | ⟨k, u, v, hu, hv, b1, b2, b3⟩
    · exfalso
      rw [b1] at hgpos
      norm_num at hgpos
    · refine ⟨u, v, v.pos - u.pos, by rw [← b1]; exact hgpos, ?_, c1 k u v hu hv,
        by rw [← b1]; exact hall, Or.inl ⟨k, hu, hv, rfl⟩⟩
      have hsome := find_largest_gap_sorted_some order fleet s u.idx
        (by rw [hWS]; exact hgpos) (by rw [hWS]; exact b2)
      rw [hsome, hWS, b1, b3]

/-- C25. With `perimeter > 0`: on a fleet with at least two living drones at
positions in `[0, perimeter)`, `find_largest_gap` returns 1 with outputs
`from_idx`, `from_pos`, `gap_out` such that `from_idx` is a living drone,
`from_pos` is its position, `gap_out` is the `gap_f` that `compute_gaps`
assigns to it, and no living drone is assigned a larger `gap_f`; with fewer
than two living drones it returns 0 and writes no output. -/
theorem find_largest_gap_max (fleet : Fleet) (s : Scenario) (hP : 0 < s.perimeter) :
    (2 ≤ alive_count fleet s.n.toNat →
      (∀ i, i < s.n.toNat → (fleet i).alive = true →
        0 ≤ (fleet i).s ∧ (fleet i).s < s.perimeter) →
      ∃ (from_idx : Nat) (from_pos gap_out : ℚ),
        find_largest_gap fleet s = some (from_idx, from_pos, gap_out) ∧
        from_idx < s.n.toNat ∧ (fleet from_idx).alive = true ∧
        from_pos = (fleet from_idx).s ∧
        (compute_gaps fleet s from_idx).gap_f = gap_out ∧
        ∀ i, i < s.n.toNat → (fleet i).alive = true →
          (compute_gaps fleet s i).gap_f ≤ gap_out) ∧
    (alive_count fleet s.n.toNat < 2 → find_largest_gap fleet s = none) := by
  constructor
  · intro h2 hpos
    have hperm := qsort_pos_perm (init_order fleet s.n.toNat)
    have hsorted := qsort_pos_sorted (init_order fleet s.n.toNat)
    obtain ⟨u, v, g, _, e1, e2, e3, e4⟩ :=
      find_largest_gap_sorted_spec _ fleet s hperm hsorted h2 hpos hP
    obtain ⟨_, _, hmem, _⟩ := living_order_facts _ fleet s.n.toNat hperm hsorted
    have hu : u ∈ (qsort_pos (init_order fleet s.n.toNat)).filter (is_living fleet) := by
      rcases e4 with ⟨k, hk, _⟩ | ⟨hk, _⟩
      · exact List.mem_iff_getElem?.mpr ⟨k, hk⟩
      · exact List.mem_iff_getElem?.mpr ⟨_, hk⟩
    obtain ⟨m1, m2, m3⟩ := (hmem u).mp hu
    refine ⟨u.idx, u.pos, g, ?_, m1, m3, m2, e2, e3⟩
    unfold find_largest_gap
    simp only
    rw [if_neg (by omega)]
    exact e1
  · intro h
    unfold find_largest_gap
    simp only
    rw [if_pos h]

/-- C25 on `deadMiddleFleet` (living drones at 5 and 20 on a ring of
perimeter 30). -/
theorem find_largest_gap_max_witness :
    ∃ (from_idx : Nat) (from_pos gap_out : ℚ),
      find_largest_gap deadMiddleFleet (demoScenario 3 30)
        = some (from_idx, from_pos, gap_out) ∧
      from_idx < (demoScenario 3 30).n.toNat ∧ (deadMiddleFleet from_idx).alive = true ∧
      from_pos = (deadMiddleFleet from_idx).s ∧
      (compute_gaps deadMiddleFleet (demoScenario 3 30) from_idx).gap_f = gap_out ∧
      ∀ i, i < (demoScenario 3 30).n.toNat → (deadMiddleFleet i).alive = true →
        (compute_gaps deadMiddleFleet (demoScenario 3 30) i).gap_f ≤ gap_out :=
  (find_largest_gap_max deadMiddleFleet (demoScenario 3 30) (by decide!)).1 (by decide!)
    (by decide!)

/-! ### The spare insertion of `simulate` -/

theorem gap_scan_step_s (st : GapScan) (o : Ordered) (i : Nat) :
    ((gap_scan_step st o).fleet i).s = (st.fleet i).s := by
  cases h : (st.fleet o.idx).alive with
  | false => rw [gap_scan_step_dead st o h]
  | true =>
    rw [(gap_scan_step_live st o h).2.2.2.2]
    cases st.prev_alive with
    | none => rfl
    | some p => simp only [set_gap_f_s, set_gap_b_s]

theorem gap_scan_fold_s (l : List Ordered) :
    ∀ (st : GapScan) (i : Nat), ((l.foldl gap_scan_step st).fleet i).s = (st.fleet i).s := by
  induction l with
  | nil => intro st i; rfl
  | cons o rest ih =>
    intro st i
    rw [List.foldl_cons, ih, gap_scan_step_s]

theorem back_fix_fold_s (order0 : Nat) (pa : Option Nat) (w : ℚ) (l : List Ordered) :
    ∀ (f : Fleet) (i : Nat), ((l.foldl (back_fix_step order0 pa w) f) i).s = (f i).s := by
  induction l with
  | nil => intro f i; rfl
  | cons o rest ih =>
    intro f i
    rw [List.foldl_cons, ih]
    unfold back_fix_step
    split
    · rfl
    · split
      · exact set_gap_b_s _ _ _ _
      · rfl

theorem set_first_back_s (order0 : Nat) (w : ℚ) (l : List Ordered) :
    ∀ (f : Fleet) (i : Nat), (set_first_back order0 w l f i).s = (f i).s := by
  induction l with
  | nil => intro f i; rfl
  | cons o rest ih =>
    intro f i
    unfold set_first_back
    split
    · exact ih f i
    · split
      · exact set_gap_b_s _ _ _ _
      · exact ih f i

/-- The function `compute_gaps` does not move any drone. -/
theorem compute_gaps_s (fleet : Fleet) (s : Scenario) (i : Nat) :
    (compute_gaps fleet s i).s = (fleet i).s := by
  have hst : (((qsort_pos (init_order fleet s.n.toNat)).foldl gap_scan_step
      { fleet := reset_gaps fleet s.n.toNat, prev_alive := none, prev_pos := 0,
        first_pos := -1, last_pos := -1 }).fleet i).s = (fleet i).s := by
    rw [gap_scan_fold_s]
    exact reset_gaps_s fleet _ i
  unfold compute_gaps compute_gaps_sorted
  simp only
  revert hst
  generalize (qsort_pos (init_order fleet s.n.toNat)).foldl gap_scan_step
      { fleet := reset_gaps fleet s.n.toNat, prev_alive := none, prev_pos := 0,
        first_pos := -1, last_pos := -1 } = st
  intro hst
  split
  · rw [set_first_back_s, back_fix_fold_s]
    cases st.prev_alive with
    | none => exact hst
    | some p =>
      simp only
      rw [set_gap_f_s]
      exact hst
  · exact hst

/-- The `gap_f` of a living drone `i` whose position no other living drone
shares, when some living drone lies ahead of it: the distance to the nearest
one, `j`. -/
theorem compute_gaps_gap_f_next (f : Fleet) (s : Scenario)
    (h2 : 2 ≤ alive_count f s.n.toNat)
    (hpos : ∀ i, i < s.n.toNat → (f i).alive = true → 0 ≤ (f i).s ∧ (f i).s < s.perimeter)
    (i j : Nat) (hi : i < s.n.toNat) (hj : j < s.n.toNat)
    (hali : (f i).alive = true) (halj : (f j).alive = true)
    (huniq : ∀ w, w < s.n.toNat → (f w).alive = true → w ≠ i → (f w).s ≠ (f i).s)
    (hlt : (f i).s < (f j).s)
    (hfree : ∀ w, w < s.n.toNat → (f w).alive = true →
      ¬ ((f i).s < (f w).s ∧ (f w).s < (f j).s)) :
    (compute_gaps f s i).gap_f = (f j).s - (f i).s := by
  have hperm := qsort_pos_perm (init_order f s.n.toNat)
  have hsorted := qsort_pos_sorted (init_order f s.n.toNat)
  obtain ⟨hs, hnd, hmem, _⟩ := living_order_facts _ f s.n.toNat hperm hsorted
  obtain ⟨c1, _⟩ := compute_gaps_sorted_gap_f _ f s hperm hsorted h2 hpos
  obtain ⟨k, hk⟩ := List.getElem?_of_mem
    ((hmem { idx := i, pos := (f i).s }).mpr ⟨hi, rfl, hali⟩)
  obtain ⟨kj, hkj⟩ := List.getElem?_of_mem
    ((hmem { idx := j, pos := (f j).s }).mpr ⟨hj, rfl, halj⟩)
  obtain ⟨hk1, hk2⟩ := List.getElem?_eq_some.mp hk
  obtain ⟨hkj1, hkj2⟩ := List.getElem?_eq_some.mp hkj
  have hkkj : k < kj := by
    rcases Nat.lt_trichotomy k kj with h | h | h
    · exact h
    · exfalso
      subst h
      rw [hk] at hkj
      have := congrArg Ordered.pos (Option.some.inj hkj)
      simp only at this
      linarith
    · exfalso
      have := (List.pairwise_iff_getElem.mp hs) kj k hkj1 hk1 h
      rw [hkj2, hk2] at this
      simp only at this
      linarith
  have hk1' : k + 1 < ((qsort_pos (init_order f s.n.toNat)).filter (is_living f)).length := by
    omega
  have hv := List.getElem?_eq_getElem hk1'
  have hgap := c1 k _ _ hk hv
  simp only at hgap
  obtain ⟨m1, m2, m3⟩ := (hmem _).mp (List.getElem_mem hk1')
  have hne : (((qsort_pos (init_order f s.n.toNat)).filter (is_living f))[k + 1]).idx ≠ i := by
    have := (List.pairwise_iff_getElem.mp hnd) k (k + 1) hk1 hk1' (by omega)
    rw [hk2] at this
    exact fun h => this h.symm
  have hge : (f i).s ≤ (((qsort_pos (init_order f s.n.toNat)).filter (is_living f))[k + 1]).pos := by
    have := (List.pairwise_iff_getElem.mp hs) k (k + 1) hk1 hk1' (by omega)
    rw [hk2] at this
    exact this
  have hle : (((qsort_pos (init_order f s.n.toNat)).filter (is_living f))[k + 1]).pos
      ≤ (f j).s := by
    rcases Nat.eq_or_lt_of_le (Nat.succ_le_of_lt hkkj) with h | h
    · have : k + 1 = kj := h
      subst this
      rw [hkj2]
    · have := (List.pairwise_iff_getElem.mp hs) (k + 1) kj hk1' hkj1 h
      rw [hkj2] at this
      exact this
  have hnq := huniq _ m1 m3 hne
  have hfr := hfree _ m1 m3
  rw [← m2] at hnq hfr
  unfold compute_gaps
  rw [hgap]
  have hgt : (f i).s < (((qsort_pos (init_order f s.n.toNat)).filter (is_living f))[k + 1]).pos :=
    lt_of_le_of_ne hge (fun h => hnq h.symm)
  have : ¬ (((qsort_pos (init_order f s.n.toNat)).filter (is_living f))[k + 1]).pos < (f j).s :=
    fun h => hfr ⟨hgt, h⟩
  have heq : (((qsort_pos (init_order f s.n.toNat)).filter (is_living f))[k + 1]).pos = (f j).s :=
    le_antisymm hle (not_lt.mp this)
  rw [heq]

/-- The `gap_f` of a living drone `i` whose position no other living drone
shares, when no living drone lies ahead of it: the wrap-around distance to
the living drone `j` of least position. -/
theorem compute_gaps_gap_f_wrap (f : Fleet) (s : Scenario)
    (h2 : 2 ≤ alive_count f s.n.toNat)
    (hpos : ∀ i, i < s.n.toNat → (f i).alive = true → 0 ≤ (f i).s ∧ (f i).s < s.perimeter)
    (i j : Nat) (hi : i < s.n.toNat) (hj : j < s.n.toNat)
    (hali : (f i).alive = true) (halj : (f j).alive = true)
    (huniq : ∀ w, w < s.n.toNat → (f w).alive = true → w ≠ i → (f w).s ≠ (f i).s)
    (hmax : ∀ w, w < s.n.toNat → (f w).alive = true → (f w).s ≤ (f i).s)
    (hmin : ∀ w, w < s.n.toNat → (f w).alive = true → (f j).s ≤ (f w).s) :
    (compute_gaps f s i).gap_f = s.perimeter - (f i).s + (f j).s := by
  have hperm := qsort_pos_perm (init_order f s.n.toNat)
  have hsorted := qsort_pos_sorted (init_order f s.n.toNat)
  obtain ⟨hs, hnd, hmem, hlen⟩ := living_order_facts _ f s.n.toNat hperm hsorted
  obtain ⟨_, c2⟩ := compute_gaps_sorted_gap_f _ f s hperm hsorted h2 hpos
  obtain ⟨k, hk⟩ := List.getElem?_of_mem
    ((hmem { idx := i, pos := (f i).s }).mpr ⟨hi, rfl, hali⟩)
  obtain ⟨kj, hkj⟩ := List.getElem?_of_mem
    ((hmem { idx := j, pos := (f j).s }).mpr ⟨hj, rfl, halj⟩)
  obtain ⟨hk1, hk2⟩ := List.getElem?_eq_some.mp hk
  obtain ⟨hkj1, hkj2⟩ := List.getElem?_eq_some.mp hkj
  have hklast : ((qsort_pos (init_order f s.n.toNat)).filter (is_living f)).length - 1 = k := by
    by_contra hc
    have hk1' : k + 1 < ((qsort_pos (init_order f s.n.toNat)).filter (is_living f)).length := by
      omega
    obtain ⟨m1, m2, m3⟩ := (hmem _).mp (List.getElem_mem hk1')
    have hne : (((qsort_pos (init_order f s.n.toNat)).filter (is_living f))[k + 1]).idx ≠ i := by
      have := (List.pairwise_iff_getElem.mp hnd) k (k + 1) hk1 hk1' (by omega)
      rw [hk2] at this
      exact fun h => this h.symm
    have hge := (List.pairwise_iff_getElem.mp hs) k (k + 1) hk1 hk1' (by omega)
    rw [hk2] at hge
    simp only at hge
    have hnq := huniq _ m1 m3 hne
    have hmx := hmax _ m1 m3
    rw [← m2] at hnq hmx
    exact hnq (le_antisymm hmx hge)
  have h0 : 0 < ((qsort_pos (init_order f s.n.toNat)).filter (is_living f)).length := by omega
  have hfirst := List.getElem?_eq_getElem h0
  have hk' := hk
  rw [← hklast] at hk'
  have hgap := c2 _ _ hk' hfirst
  simp only at hgap
  obtain ⟨m1, m2, m3⟩ := (hmem _).mp (List.getElem_mem h0)
  have hle : (((qsort_pos (init_order f s.n.toNat)).filter (is_living f))[0]).pos ≤ (f j).s := by
    rcases Nat.eq_zero_or_pos kj with h | h
    · subst h
      rw [hkj2]
    · have := (List.pairwise_iff_getElem.mp hs) 0 kj h0 hkj1 h
      rw [hkj2] at this
      exact this
  have hge := hmin _ m1 m3
  rw [← m2] at hge
  unfold compute_gaps
  rw [hgap, le_antisymm hle hge]

theorem fmod_shift_lt (y P : ℚ) (hP : 0 < P) (h0 : 0 ≤ y) (h1 : y < P) :
    fmod (y + P) P = y := by
  have hq : 0 ≤ (y + P) / P := div_nonneg (by linarith) (le_of_lt hP)
  have hfl : ⌊(y + P) / P⌋ = 1 := by
    rw [Int.floor_eq_iff]
    constructor
    · rw [le_div_iff₀ hP]; push_cast; linarith
    · rw [div_lt_iff₀ hP]; push_cast; linarith
  unfold fmod truncQ
  rw [if_pos hq, hfl]
  push_cast
  ring

theorem fmod_shift_ge (y P : ℚ) (hP : 0 < P) (h0 : P ≤ y) (h1 : y < 2 * P) :
    fmod (y + P) P = y - P := by
  have hq : 0 ≤ (y + P) / P := div_nonneg (by linarith) (le_of_lt hP)
  have hfl : ⌊(y + P) / P⌋ = 2 := by
    rw [Int.floor_eq_iff]
    constructor
    · rw [le_div_iff₀ hP]; push_cast; linarith
    · rw [div_lt_iff₀ hP]; push_cast; linarith
  unfold fmod truncQ
  rw [if_pos hq, hfl]
  push_cast
  ring

/-- The non-negative remainder `x - P*⌊x/P⌋` of a value one turn away from
`r ∈ [0, P)`. -/
theorem floor_mod_eq (x P r : ℚ) (hP : 0 < P) (h0 : 0 ≤ r) (h1 : r < P)
    (h : x = r ∨ x = r - P ∨ x = r + P) : x - P * (⌊x / P⌋ : ℚ) = r := by
  rcases h with h | h | h
  · have hfl : ⌊x / P⌋ = 0 := by
      rw [Int.floor_eq_iff]
      constructor
      · rw [le_div_iff₀ hP]; push_cast; linarith
      · rw [div_lt_iff₀ hP]; push_cast; linarith
    rw [hfl, h]
    push_cast
    ring
  · have hfl : ⌊x / P⌋ = -1 := by
      rw [Int.floor_eq_iff]
      constructor
      · rw [le_div_iff₀ hP]; push_cast; linarith
      · rw [div_lt_iff₀ hP]; push_cast; linarith
    rw [hfl, h]
    push_cast
    ring
  · have hfl : ⌊x / P⌋ = 1 := by
      rw [Int.floor_eq_iff]
      constructor
      · rw [le_div_iff₀ hP]; push_cast; linarith
      · rw [div_lt_iff₀ hP]; push_cast; linarith
    rw [hfl, h]
    push_cast
    ring

theorem alive_count_mono (f g : Fleet) (n : Nat)
    (h : ∀ i, (f i).alive = true → (g i).alive = true) :
    alive_count f n ≤ alive_count g n := by
  unfold alive_count
  induction n with
  | zero => simp
  | succ k ih =>
    rw [List.range_succ, List.filter_append, List.filter_append, List.length_append,
      List.length_append]
    have : ([k].filter (fun i => (f i).alive)).length
        ≤ ([k].filter (fun i => (g i).alive)).length := by
      by_cases hk : (f k).alive = true
      · simp [hk, h k hk]
      · simp [hk]
    omega

/-- The gap that `find_largest_gap` returns, in terms of positions: it goes
from a living drone `a` to another living drone `b` with no living drone
strictly inside, either forward (`g = s_b - s_a`) or around the end of the
ring (`g = perimeter - s_a + s_b`, `a` the last and `b` the first living
drone). -/
theorem find_largest_gap_arc (fleet : Fleet) (s : Scenario) (hP : 0 < s.perimeter)
    (h2 : 2 ≤ alive_count fleet s.n.toNat)
    (hpos : ∀ i, i < s.n.toNat → (fleet i).alive = true →
      0 ≤ (fleet i).s ∧ (fleet i).s < s.perimeter) :
    ∃ (a b : Nat) (g : ℚ),
      find_largest_gap fleet s = some (a, (fleet a).s, g) ∧ 0 < g ∧
      a < s.n.toNat ∧ b < s.n.toNat ∧ (fleet a).alive = true ∧ (fleet b).alive = true ∧
      a ≠ b ∧
      ((g = (fleet b).s - (fleet a).s ∧
          ∀ w, w < s.n.toNat → (fleet w).alive = true →
            ((fleet w).s ≤ (fleet a).s ∨ (fleet b).s ≤ (fleet w).s)) ∨
        (g = s.perimeter - (fleet a).s + (fleet b).s ∧
          ∀ w, w < s.n.toNat → (fleet w).alive = true →
            ((fleet b).s ≤ (fleet w).s ∧ (fleet w).s ≤ (fleet a).s))) := by
  have hperm := qsort_pos_perm (init_order fleet s.n.toNat)
  have hsorted := qsort_pos_sorted (init_order fleet s.n.toNat)
  obtain ⟨u, v, g, hg, e1, _, _, e4⟩ :=
    find_largest_gap_sorted_spec _ fleet s hperm hsorted h2 hpos hP
  obtain ⟨hs, hnd, hmem, hlen⟩ := living_order_facts _ fleet s.n.toNat hperm hsorted
  have hfind : find_largest_gap fleet s = some (u.idx, u.pos, g) := by
    unfold find_largest_gap
    simp only
    rw [if_neg (by omega)]
    exact e1
  rcases e4 with ⟨k, hu, hv, hgeq⟩ | ⟨hu, hv, hgeq⟩
  · obtain ⟨hk1, hk2⟩ := List.getElem?_eq_some.mp hu
    obtain ⟨hv1, hv2⟩ := List.getElem?_eq_some.mp hv
    obtain ⟨a1, a2, a3⟩ := (hmem u).mp (List.mem_iff_getElem?.mpr ⟨k, hu⟩)
    obtain ⟨b1, b2, b3⟩ := (hmem v).mp (List.mem_iff_getElem?.mpr ⟨k + 1, hv⟩)
    have hne : u.idx ≠ v.idx := by
      have := (List.pairwise_iff_getElem.mp hnd) k (k + 1) hk1 hv1 (by omega)
      rw [hk2, hv2] at this
      exact this
    refine ⟨u.idx, v.idx, g, by rw [hfind, a2], hg, a1, b1, a3, b3, hne, Or.inl ⟨?_, ?_⟩⟩
    · rw [hgeq, a2, b2]
    · intro w hw hal
      obtain ⟨m, hm⟩ := List.getElem?_of_mem
        ((hmem { idx := w, pos := (fleet w).s }).mpr ⟨hw, rfl, hal⟩)
      obtain ⟨hm1, hm2⟩ := List.getElem?_eq_some.mp hm
      rcases Nat.lt_trichotomy m k with h | h | h
      · left
        have := (List.pairwise_iff_getElem.mp hs) m k hm1 hk1 h
        rw [hm2, hk2, a2] at this
        exact this
      · left
        subst h
        rw [hm] at hu
        have := congrArg Ordered.pos (Option.some.inj hu)
        simp only at this
        rw [this, a2]
      · right
        rcases Nat.eq_or_lt_of_le (Nat.succ_le_of_lt h) with h' | h'
        · have : k + 1 = m := h'
          subst this
          rw [hm] at hv
          have := congrArg Ordered.pos (Option.some.inj hv)
          simp only at this
          rw [this, b2]
        · have := (List.pairwise_iff_getElem.mp hs) (k + 1) m hv1 hm1 h'
          rw [hm2, hv2, b2] at this
          exact this
  · obtain ⟨hk1, hk2⟩ := List.getElem?_eq_some.mp hu
    obtain ⟨hv1, hv2⟩ := List.getElem?_eq_some.mp hv
    obtain ⟨a1, a2, a3⟩ := (hmem u).mp (List.mem_iff_getElem?.mpr ⟨_, hu⟩)
    obtain ⟨b1, b2, b3⟩ := (hmem v).mp (List.mem_iff_getElem?.mpr ⟨0, hv⟩)
    have hne : u.idx ≠ v.idx := by
      have := (List.pairwise_iff_getElem.mp hnd) 0 _ hv1 hk1 (by omega)
      rw [hk2, hv2] at this
      exact fun h => this h.symm
    refine ⟨u.idx, v.idx, g, by rw [hfind, a2], hg, a1, b1, a3, b3, hne, Or.inr ⟨?_, ?_⟩⟩
    · rw [hgeq, a2, b2]
    · intro w hw hal
      obtain ⟨m, hm⟩ := List.getElem?_of_mem
        ((hmem { idx := w, pos := (fleet w).s }).mpr ⟨hw, rfl, hal⟩)
      obtain ⟨hm1, hm2⟩ := List.getElem?_eq_some.mp hm
      constructor
      · rcases Nat.eq_zero_or_pos m with h | h
        · subst h
          rw [hm] at hv
          have := congrArg Ordered.pos (Option.some.inj hv)
          simp only at this
          rw [this, b2]
        · have := (List.pairwise_iff_getElem.mp hs) 0 m hv1 hm1 h
          rw [hm2, hv2, b2] at this
          exact this
      · rcases Nat.eq_or_lt_of_le (Nat.le_sub_one_of_lt hm1) with h | h
        · rw [← h] at hu
          rw [hm] at hu
          have := congrArg Ordered.pos (Option.some.inj hu)
          simp only at this
          rw [this, a2]
        · have := (List.pairwise_iff_getElem.mp hs) m _ hm1 hk1 h
          rw [hm2, hk2, a2] at this
          exact this

theorem find_dead_drone_some (fleet : Fleet) (n slot : Nat)
    (h : find_dead_drone fleet n = some slot) : slot < n ∧ (fleet slot).alive = false := by
  unfold find_dead_drone at h
  have h1 := List.find?_some h
  have h2 := List.mem_of_find?_eq_some h
  exact ⟨List.mem_range.mp h2, by simpa using h1⟩

/-- C26. With `perimeter > 0` and the living drones at positions in
`[0, perimeter)`: whenever the insertion block of `simulate` inserts a spare
(`find_largest_gap` returns `from_idx`, `from_pos`, `g` and `find_dead_drone`
returns `slot`), then `g > 0`, `from_pos` is the position of the living drone
`from_idx`, the spare is written in `slot` at
`p = fmod(from_pos + 0.5*g + perimeter, perimeter)` and `compute_gaps` is
run; `p` lies in `[0, perimeter)` and is `(from_pos + g/2) mod perimeter`;
`(p - from_pos) mod perimeter = g/2`; there is a living drone `b` at distance
`g` ahead of `from_pos` on the ring, with no living drone strictly inside that
arc, and `(pos(b) - p) mod perimeter = g/2`; after the `compute_gaps` that
follows the spare is living at `p` with `gap_f = g/2`.  Here `x mod P` is
`x - P*⌊x/P⌋`. -/
theorem insert_spare_splits_gap (fleet : Fleet) (s : Scenario) (c : Int)
    (hP : 0 < s.perimeter)
    (hpos : ∀ i, i < s.n.toNat → (fleet i).alive = true →
      0 ≤ (fleet i).s ∧ (fleet i).s < s.perimeter)
    (from_idx : Nat) (from_pos g : ℚ) (slot : Nat)
    (hfind : find_largest_gap fleet s = some (from_idx, from_pos, g))
    (hslot : find_dead_drone fleet s.n.toNat = some slot) :
    0 < g ∧ (fleet from_idx).alive = true ∧ from_pos = (fleet from_idx).s ∧
    insert_spare fleet s c =
      (compute_gaps
        (Function.update fleet slot (spare_drone s (fleet slot) (insert_pos s from_pos g))) s,
        c + 1) ∧
    0 ≤ insert_pos s from_pos g ∧ insert_pos s from_pos g < s.perimeter ∧
    insert_pos s from_pos g =
      from_pos + g / 2 - s.perimeter * (⌊(from_pos + g / 2) / s.perimeter⌋ : ℚ) ∧
    (insert_pos s from_pos g - from_pos)
      - s.perimeter * (⌊(insert_pos s from_pos g - from_pos) / s.perimeter⌋ : ℚ) = g / 2 ∧
    (∃ b, b < s.n.toNat ∧ (fleet b).alive = true ∧ b ≠ from_idx ∧
      ((fleet b).s = from_pos + g ∨ (fleet b).s = from_pos + g - s.perimeter) ∧
      (∀ w, w < s.n.toNat → (fleet w).alive = true →
        ¬ (from_pos < (fleet w).s ∧ (fleet w).s < from_pos + g) ∧
        ¬ ((fleet w).s + s.perimeter < from_pos + g)) ∧
      ((fleet b).s - insert_pos s from_pos g)
        - s.perimeter * (⌊((fleet b).s - insert_pos s from_pos g) / s.perimeter⌋ : ℚ)
        = g / 2) ∧
    ((insert_spare fleet s c).1 slot).alive = true ∧
    ((insert_spare fleet s c).1 slot).s = insert_pos s from_pos g ∧
    ((insert_spare fleet s c).1 slot).gap_f = g / 2 := by
  have h2 : 2 ≤ alive_count fleet s.n.toNat := by
    by_contra hc
    unfold find_largest_gap at hfind
    simp only at hfind
    rw [if_pos (by omega)] at hfind
    exact Option.noConfusion hfind
  obtain ⟨a, b, g', hf, hg, ha, hb, hala, halb, hab, harc⟩ :=
    find_largest_gap_arc fleet s hP h2 hpos
  rw [hfind] at hf
  have hinj := Option.some.inj hf
  have e1 : from_idx = a := congrArg Prod.fst hinj
  have e2 : from_pos = (fleet a).s := congrArg (fun x => x.2.1) hinj
  have e3 : g = g' := congrArg (fun x => x.2.2) hinj
  subst e1 e3
  obtain ⟨hsl, hdead⟩ := find_dead_drone_some fleet s.n.toNat slot hslot
  have hpa := hpos from_idx ha hala
  have hpb := hpos b hb halb
  have hins : insert_spare fleet s c =
      (compute_gaps
        (Function.update fleet slot (spare_drone s (fleet slot) (insert_pos s from_pos g))) s,
        c + 1) := by
    unfold insert_spare
    rw [hfind]
    simp only
    rw [hslot]
  -- the new fleet
  set F := Function.update fleet slot (spare_drone s (fleet slot) (insert_pos s from_pos g))
    with hF
  have hfs : ∀ w, w ≠ slot → F w = fleet w := fun w hw => by
    rw [hF]; exact Function.update_noteq hw _ _
  have hfslot : F slot = spare_drone s (fleet slot) (insert_pos s from_pos g) := by
    rw [hF]; exact Function.update_same _ _ _
  have hliv : ∀ w, w ≠ slot →
      (F w).alive = true → (fleet w).alive = true := by
    intro w hw h
    rw [hfs w hw] at h
    exact h
  have h2' : 2 ≤ alive_count F s.n.toNat := by
    refine le_trans h2 (alive_count_mono _ _ _ ?_)
    intro i hi
    by_cases his : i = slot
    · rw [his, hfslot]; rfl
    · rw [hfs i his]; exact hi
  have hbs : b ≠ slot := fun h => by
    rw [h, hdead] at halb
    exact Bool.noConfusion halb
  have hgP : g ≤ s.perimeter := by
    rcases harc with ⟨hgeq, _⟩ | ⟨hgeq, hall⟩
    · linarith
    · have := (hall from_idx ha hala).1
      linarith
  -- the three positions of the spare
  have key : ∀ p : ℚ, insert_pos s from_pos g = p → 0 ≤ p → p < s.perimeter →
      (p = from_pos + g / 2 ∨ p = from_pos + g / 2 - s.perimeter) →
      ((fleet b).s - p = g / 2 ∨ (fleet b).s - p = g / 2 - s.perimeter) →
      (compute_gaps F s slot).gap_f = g / 2 →
      0 ≤ insert_pos s from_pos g ∧ insert_pos s from_pos g < s.perimeter ∧
      insert_pos s from_pos g =
        from_pos + g / 2 - s.perimeter * (⌊(from_pos + g / 2) / s.perimeter⌋ : ℚ) ∧
      (insert_pos s from_pos g - from_pos)
        - s.perimeter * (⌊(insert_pos s from_pos g - from_pos) / s.perimeter⌋ : ℚ) = g / 2 ∧
      ((fleet b).s - insert_pos s from_pos g)
        - s.perimeter * (⌊((fleet b).s - insert_pos s from_pos g) / s.perimeter⌋ : ℚ)
        = g / 2 ∧
      (compute_gaps F s slot).gap_f = g / 2 := by
    intro p hp hp0 hp1 hpa' hpb' hgf
    rw [hp]
    refine ⟨hp0, hp1, ?_, ?_, ?_, hgf⟩
    · rw [floor_mod_eq (from_pos + g / 2) s.perimeter p hP hp0 hp1
        (by rcases hpa' with h | h
            · left; rw [h]
            · right; right; rw [h]; ring)]
    · exact floor_mod_eq _ s.perimeter (g / 2) hP (by linarith) (by linarith)
        (by rcases hpa' with h | h
            · left; rw [h]; ring
            · right; left; rw [h]; ring)
    · exact floor_mod_eq _ s.perimeter (g / 2) hP (by linarith) (by linarith)
        (by rcases hpb' with h | h
            · left; exact h
            · right; left; exact h)
  have hposnew : ∀ p : ℚ, insert_pos s from_pos g = p → 0 ≤ p → p < s.perimeter →
      ∀ i, i < s.n.toNat →
        (F i).alive = true →
        0 ≤ (F i).s ∧
          (F i).s < s.perimeter := by
    intro p hp hp0 hp1 i hi hal
    by_cases his : i = slot
    · rw [his, hfslot]
      show 0 ≤ insert_pos s from_pos g ∧ insert_pos s from_pos g < s.perimeter
      rw [hp]
      exact ⟨hp0, hp1⟩
    · rw [hfs i his]
      exact hpos i hi (hliv i his hal)
  have hspare_s :
      (F slot).s = insert_pos s from_pos g := by
    rw [hfslot]; rfl
  have hspare_al :
      (F slot).alive = true := by
    rw [hfslot]; rfl
  have hb_new :
      (F b) = fleet b := hfs b hbs
  have hmain : 0 ≤ insert_pos s from_pos g ∧ insert_pos s from_pos g < s.perimeter ∧
      insert_pos s from_pos g =
        from_pos + g / 2 - s.perimeter * (⌊(from_pos + g / 2) / s.perimeter⌋ : ℚ) ∧
      (insert_pos s from_pos g - from_pos)
        - s.perimeter * (⌊(insert_pos s from_pos g - from_pos) / s.perimeter⌋ : ℚ) = g / 2 ∧
      ((fleet b).s - insert_pos s from_pos g)
        - s.perimeter * (⌊((fleet b).s - insert_pos s from_pos g) / s.perimeter⌋ : ℚ)
        = g / 2 ∧
      (compute_gaps F s slot).gap_f = g / 2 := by
    rcases harc with ⟨hgeq, hall⟩ | ⟨hgeq, hall⟩
    · -- a gap inside the sorted order
      have hp : insert_pos s from_pos g = from_pos + g / 2 := by
        unfold insert_pos
        rw [show from_pos + 0.5 * g + s.perimeter = (from_pos + g / 2) + s.perimeter by
          norm_num; ring]
        exact fmod_shift_lt _ _ hP (by linarith) (by linarith)
      refine key _ hp (by linarith) (by linarith) (Or.inl rfl) (Or.inl (by linarith)) ?_
      rw [compute_gaps_gap_f_next _ s h2' (hposnew _ hp (by linarith) (by linarith))
        slot b hsl hb hspare_al (by rw [hb_new]; exact halb) ?_ ?_ ?_]
      · rw [hb_new, hspare_s, hp]; linarith
      · intro w hw hal hws
        rw [hfs w hws, hspare_s, hp]
        rcases hall w hw (hliv w hws hal) with h | h
        · intro hc; linarith
        · intro hc; linarith
      · rw [hb_new, hspare_s, hp]; linarith
      · intro w hw hal
        rw [hb_new, hspare_s, hp]
        by_cases hws : w = slot
        · rw [hws, hspare_s, hp]
          intro hc; linarith [hc.1]
        · rw [hfs w hws]
          rcases hall w hw (hliv w hws hal) with h | h
          · intro hc; linarith [hc.1]
          · intro hc; linarith [hc.2]
    · -- the wrap-around gap
      have hba := (hall from_idx ha hala).1
      rcases lt_or_le (from_pos + g / 2) s.perimeter with hy | hy
      · have hp : insert_pos s from_pos g = from_pos + g / 2 := by
          unfold insert_pos
          rw [show from_pos + 0.5 * g + s.perimeter = (from_pos + g / 2) + s.perimeter by
            norm_num; ring]
          exact fmod_shift_lt _ _ hP (by linarith) hy
        refine key _ hp (by linarith) hy (Or.inl rfl) (Or.inr (by linarith)) ?_
        rw [compute_gaps_gap_f_wrap _ s h2' (hposnew _ hp (by linarith) hy)
          slot b hsl hb hspare_al (by rw [hb_new]; exact halb) ?_ ?_ ?_]
        · rw [hb_new, hspare_s, hp]; linarith
        · intro w hw hal hws
          rw [hfs w hws, hspare_s, hp]
          have := (hall w hw (hliv w hws hal)).2
          intro hc; linarith
        · intro w hw hal
          rw [hspare_s, hp]
          by_cases hws : w = slot
          · rw [hws, hspare_s, hp]
          · rw [hfs w hws]
            have := (hall w hw (hliv w hws hal)).2
            linarith
        · intro w hw hal
          rw [hb_new]
          by_cases hws : w = slot
          · rw [hws, hspare_s, hp]; linarith
          · rw [hfs w hws]
            exact (hall w hw (hliv w hws hal)).1
      · have hp : insert_pos s from_pos g = from_pos + g / 2 - s.perimeter := by
          unfold insert_pos
          rw [show from_pos + 0.5 * g + s.perimeter = (from_pos + g / 2) + s.perimeter by
            norm_num; ring]
          exact fmod_shift_ge _ _ hP hy (by linarith)
        refine key _ hp (by linarith) (by linarith) (Or.inr rfl) (Or.inl (by linarith)) ?_
        rw [compute_gaps_gap_f_next _ s h2'
          (hposnew _ hp (by linarith) (by linarith))
          slot b hsl hb hspare_al (by rw [hb_new]; exact halb) ?_ ?_ ?_]
        · rw [hb_new, hspare_s, hp]; linarith
        · intro w hw hal hws
          rw [hfs w hws, hspare_s, hp]
          have := (hall w hw (hliv w hws hal)).1
          intro hc; linarith
        · rw [hb_new, hspare_s, hp]; linarith
        · intro w hw hal
          rw [hb_new, hspare_s, hp]
          by_cases hws : w = slot
          · rw [hws, hspare_s, hp]
            intro hc; linarith [hc.1]
          · rw [hfs w hws]
            have := (hall w hw (hliv w hws hal)).1
            intro hc; linarith [hc.2]
  obtain ⟨r1, r2, r3, r4, r5, r6⟩ := hmain
  have halive_new : ((insert_spare fleet s c).1 slot).alive = true := by
    rw [hins]
    simp only
    unfold compute_gaps
    rw [(compute_gaps_sorted_sum _ _ s (qsort_pos_perm _) (qsort_pos_sorted _) h2'
      (hposnew _ rfl r1 r2)).1]
    exact hspare_al
  refine ⟨hg, hala, e2, hins, r1, r2, r3, r4, ?_, halive_new, ?_, ?_⟩
  · refine ⟨b, hb, halb, fun h => hab h.symm, ?_, ?_, r5⟩
    · rcases harc with ⟨hgeq, _⟩ | ⟨hgeq, _⟩
      · left; linarith
      · right; linarith
    · intro w hw hal
      have hpw := hpos w hw hal
      rcases harc with ⟨hgeq, hall⟩ | ⟨hgeq, hall⟩
      · constructor
        · rcases hall w hw hal with h | h
          · intro hc; linarith [hc.1]
          · intro hc; linarith [hc.2]
        · intro hc; linarith
      · constructor
        · intro hc; linarith [hc.1, (hall w hw hal).2]
        · intro hc; linarith [(hall w hw hal).1]
  · rw [hins]
    simp only
    rw [compute_gaps_s, hspare_s]
  · rw [hins]
    exact r6

/-- C26 on `deadMiddleFleet` (living drones at 5 and 20 on a ring of
perimeter 30, slot 1 dormant): the spare goes to 25/2 and its `gap_f` is
15/2. -/
theorem insert_spare_splits_gap_witness :
    find_largest_gap deadMiddleFleet (demoScenario 3 30) = some (0, 5, 15) ∧
    find_dead_drone deadMiddleFleet (demoScenario 3 30).n.toNat = some 1 ∧
    ((insert_spare deadMiddleFleet (demoScenario 3 30) 0).1 1).alive = true ∧
    ((insert_spare deadMiddleFleet (demoScenario 3 30) 0).1 1).s
      = insert_pos (demoScenario 3 30) 5 15 ∧
    ((insert_spare deadMiddleFleet (demoScenario 3 30) 0).1 1).gap_f = 15 / 2 :=
  ⟨by decide!, by decide!,
    (insert_spare_splits_gap deadMiddleFleet (demoScenario 3 30) 0 (by decide!) (by decide!)
      0 5 15 1 (by decide!) (by decide!)).2.2.2.2.2.2.2.2.2⟩

end Baseline

/-! ### The loss phase of `simulate` -/

namespace Baseline

theorem run_steps_succ (s : Scenario) (losses : Losses) (loss_count : Int) (k : Nat) :
    run_steps s losses loss_count (k + 1) =
      step_body s losses loss_count (run_steps s losses loss_count k) k := by
  unfold run_steps
  rw [List.range_succ, List.foldl_append]
  rfl

theorem step_body_loss_idx (s : Scenario) (losses : Losses) (loss_count : Int)
    (st : RunState) (k : Nat) :
    (step_body s losses loss_count st k).loss_idx =
      (loss_phase s losses loss_count st k).loss_idx := rfl

/-- What one iteration of the loss loop does: the entry is consumed, and the
fleet changes only when the index is in range and the drone alive, by
clearing `alive` on that drone. -/
theorem apply_loss_spec (n : Int) (l : Loss) (step : Int) (st : LossPhase) :
    (apply_loss n l step st).loss_idx = st.loss_idx + 1 ∧
    (∀ i, (st.fleet i).alive = false → ((apply_loss n l step st).fleet i).alive = false) ∧
    (0 ≤ l.idx → l.idx < n → ((apply_loss n l step st).fleet l.idx.toNat).alive = false) ∧
    (¬ (0 ≤ l.idx ∧ l.idx < n ∧ (st.fleet l.idx.toNat).alive = true) →
      (apply_loss n l step st).fleet = st.fleet ∧
      (apply_loss n l step st).loss_this_step = st.loss_this_step ∧
      (apply_loss n l step st).last_loss_step = st.last_loss_step) := by
  unfold apply_loss
  simp only
  by_cases h : l.idx ≥ 0 ∧ l.idx < n ∧ (st.fleet l.idx.toNat).alive = true
  · rw [if_pos h]
    refine ⟨rfl, ?_, ?_, fun hc => absurd ⟨h.1, h.2.1, h.2.2⟩ hc⟩
    · intro i hi
      simp only
      by_cases hii : i = l.idx.toNat
      · rw [hii, Function.update_same]
      · rw [Function.update_noteq hii]
        exact hi
    · intro _ _
      simp only
      rw [Function.update_same]
  · rw [if_neg h]
    refine ⟨rfl, fun i hi => hi, ?_, fun _ => ⟨rfl, rfl, rfl⟩⟩
    intro h0 h1
    by_contra hc
    exact h ⟨h0, h1, by simpa using hc⟩

/-- The loss loop on a schedule sorted by step, entered with every remaining
entry at step `t` or later: it stops with its condition false within the
iterations allowed, it has consumed exactly the entries of step `t`, and each
of them that names a drone in range leaves that drone not alive. -/
theorem apply_losses_spec (n : Int) (losses : Losses) (loss_count : Int) (t : Int)
    (hsorted : ∀ i j : Nat, i ≤ j → (j : Int) < loss_count →
      (losses i).step ≤ (losses j).step) :
    ∀ (fuel : Nat) (st : LossPhase),
      (loss_count - (st.loss_idx : Int)).toNat ≤ fuel →
      (∀ j : Nat, st.loss_idx ≤ j → (j : Int) < loss_count → t ≤ (losses j).step) →
      st.loss_idx ≤ (apply_losses n losses loss_count t fuel st).loss_idx ∧
      (∀ j : Nat, st.loss_idx ≤ j →
        j < (apply_losses n losses loss_count t fuel st).loss_idx →
        (losses j).step = t ∧ (j : Int) < loss_count) ∧
      (∀ j : Nat, (apply_losses n losses loss_count t fuel st).loss_idx ≤ j →
        (j : Int) < loss_count → t < (losses j).step) ∧
      (∀ j : Nat, st.loss_idx ≤ j →
        j < (apply_losses n losses loss_count t fuel st).loss_idx →
        0 ≤ (losses j).idx → (losses j).idx < n →
        ((apply_losses n losses loss_count t fuel st).fleet (losses j).idx.toNat).alive
          = false) ∧
      (∀ i, (st.fleet i).alive = false →
        ((apply_losses n losses loss_count t fuel st).fleet i).alive = false) ∧
      ¬ (((apply_losses n losses loss_count t fuel st).loss_idx : Int) < loss_count ∧
        (losses (apply_losses n losses loss_count t fuel st).loss_idx).step = t) := by
  intro fuel
  induction fuel with
  | zero =>
    intro st hf hge
    have hdone : ¬ ((st.loss_idx : Int) < loss_count) := by
      intro hc
      have : 0 < (loss_count - (st.loss_idx : Int)).toNat := by
        rw [Int.lt_toNat]; simp; omega
      omega
    unfold apply_losses
    refine ⟨le_refl _, ?_, ?_, ?_, fun i hi => hi, fun hc => hdone hc.1⟩
    · intro j h1 h2; omega
    · intro j h1 h2; exfalso; apply hdone; omega
    · intro j h1 h2; omega
  | succ k ih =>
    intro st hf hge
    unfold apply_losses
    by_cases hc : (st.loss_idx : Int) < loss_count ∧ (losses st.loss_idx).step = t
    · rw [if_pos hc]
      obtain ⟨a1, a2, a3, _⟩ := apply_loss_spec n (losses st.loss_idx) t st
      have hf' : (loss_count -
          ((apply_loss n (losses st.loss_idx) t st).loss_idx : Int)).toNat ≤ k := by
        rw [a1]
        push_cast
        omega
      have hge' : ∀ j : Nat, (apply_loss n (losses st.loss_idx) t st).loss_idx ≤ j →
          (j : Int) < loss_count → t ≤ (losses j).step := by
        intro j hj hjc
        exact hge j (by rw [a1] at hj; omega) hjc
      obtain ⟨b1, b2, b3, b4, b5, b6⟩ := ih (apply_loss n (losses st.loss_idx) t st) hf' hge'
      rw [a1] at b1 b2 b4
      refine ⟨by omega, ?_, b3, ?_, ?_, b6⟩
      · intro j h1 h2
        rcases Nat.eq_or_lt_of_le h1 with h | h
        · rw [← h]; exact ⟨hc.2, hc.1⟩
        · exact b2 j (by omega) h2
      · intro j h1 h2 h3 h4
        rcases Nat.eq_or_lt_of_le h1 with h | h
        · rw [← h]
          exact b5 _ (a3 (by rw [h]; exact h3) (by rw [h]; exact h4))
        · exact b4 j (by omega) h2 h3 h4
      · intro i hi
        exact b5 i (a2 i hi)
    · rw [if_neg hc]
      refine ⟨le_refl _, ?_, ?_, ?_, fun i hi => hi, hc⟩
      · intro j h1 h2; omega
      · intro j h1 h2
        have hlt : (st.loss_idx : Int) < loss_count := by omega
        have hne : (losses st.loss_idx).step ≠ t := fun h => hc ⟨hlt, h⟩
        have h0 := hge st.loss_idx (le_refl _) hlt
        have hs := hsorted st.loss_idx j h1 h2
        omega
      · intro j h1 h2; omega

/-- On entry to step `t` the entries before `loss_idx` have a step below `t`
and the others a step of at least `t`. -/
theorem run_steps_loss_idx (s : Scenario) (losses : Losses) (loss_count : Int)
    (hsorted : ∀ i j : Nat, i ≤ j → (j : Int) < loss_count →
      (losses i).step ≤ (losses j).step)
    (hnonneg : ∀ i : Nat, (i : Int) < loss_count → 0 ≤ (losses i).step) :
    ∀ t : Nat,
      (∀ j : Nat, j < (run_steps s losses loss_count t).loss_idx →
        (losses j).step < (t : Int) ∧ (j : Int) < loss_count) ∧
      (∀ j : Nat, (run_steps s losses loss_count t).loss_idx ≤ j → (j : Int) < loss_count →
        (t : Int) ≤ (losses j).step) := by
  intro t
  induction t with
  | zero =>
    constructor
    · intro j hj
      exact absurd hj (Nat.not_lt_zero j)
    · intro j _ hjc
      exact hnonneg j hjc
  | succ t ih =>
    obtain ⟨b1, b2, b3, _, _, _⟩ := apply_losses_spec s.n losses loss_count t hsorted
      (loss_count - ((run_steps s losses loss_count t).loss_idx : Int)).toNat
      { fleet := (run_steps s losses loss_count t).fleet,
        loss_idx := (run_steps s losses loss_count t).loss_idx,
        loss_this_step := false,
        last_loss_step := (run_steps s losses loss_count t).last_loss_step }
      (le_refl _) ih.2
    rw [run_steps_succ, step_body_loss_idx]
    unfold loss_phase
    constructor
    · intro j hj
      rcases Nat.lt_or_ge j (run_steps s losses loss_count t).loss_idx with h | h
      · have := ih.1 j h
        exact ⟨by push_cast; omega, this.2⟩
      · have := b2 j h hj
        exact ⟨by push_cast; omega, this.2⟩
    · intro j hj hjc
      have := b3 j hj hjc
      push_cast
      omega

/-- C31. For a loss schedule sorted by step whose steps are all non-negative,
and an entry `k` with `step_k = t < steps` and `0 ≤ idx_k < n`: the loss loop
of step `t` ends (its condition is false within the `loss_count - loss_idx`
iterations it can make), it consumes entry `k`, and drone `idx_k` is not
alive right after it.  An entry whose index is out of range or names a drone
that is not alive is consumed (`loss_idx` advances by one) without changing
the fleet, `loss_this_step` or `last_loss_step`. -/
theorem scheduled_losses_applied (s : Scenario) (losses : Losses) (loss_count : Int)
    (hsorted : ∀ i j : Nat, i ≤ j → (j : Int) < loss_count →
      (losses i).step ≤ (losses j).step)
    (hnonneg : ∀ i : Nat, (i : Int) < loss_count → 0 ≤ (losses i).step)
    (k t : Nat) (hk : (k : Int) < loss_count) (ht : (losses k).step = (t : Int))
    (_hts : (t : Int) < s.steps)
    (hidx : 0 ≤ (losses k).idx ∧ (losses k).idx < s.n) :
    ((loss_phase s losses loss_count (run_steps s losses loss_count t) t).fleet
      (losses k).idx.toNat).alive = false ∧
    (run_steps s losses loss_count t).loss_idx ≤ k ∧
    k < (loss_phase s losses loss_count (run_steps s losses loss_count t) t).loss_idx ∧
    ¬ (((loss_phase s losses loss_count (run_steps s losses loss_count t) t).loss_idx : Int)
        < loss_count ∧
      (losses (loss_phase s losses loss_count
        (run_steps s losses loss_count t) t).loss_idx).step = (t : Int)) ∧
    (∀ (l : Loss) (step : Int) (st : LossPhase),
      ¬ (0 ≤ l.idx ∧ l.idx < s.n ∧ (st.fleet l.idx.toNat).alive = true) →
      (apply_loss s.n l step st).fleet = st.fleet ∧
      (apply_loss s.n l step st).loss_idx = st.loss_idx + 1 ∧
      (apply_loss s.n l step st).loss_this_step = st.loss_this_step ∧
      (apply_loss s.n l step st).last_loss_step = st.last_loss_step) := by
  obtain ⟨i1, i2⟩ := run_steps_loss_idx s losses loss_count hsorted hnonneg t
  obtain ⟨_, _, b3, b4, _, b6⟩ := apply_losses_spec s.n losses loss_count t hsorted
    (loss_count - ((run_steps s losses loss_count t).loss_idx : Int)).toNat
    { fleet := (run_steps s losses loss_count t).fleet,
      loss_idx := (run_steps s losses loss_count t).loss_idx,
      loss_this_step := false,
      last_loss_step := (run_steps s losses loss_count t).last_loss_step }
    (le_refl _) i2
  have hLk : (run_steps s losses loss_count t).loss_idx ≤ k := by
    by_contra hc
    have := (i1 k (by omega)).1
    omega
  have hkL : k < (loss_phase s losses loss_count (run_steps s losses loss_count t) t).loss_idx := by
    by_contra hc
    have := b3 k (by unfold loss_phase at hc; omega) hk
    omega
  refine ⟨?_, hLk, hkL, ?_, ?_⟩
  · unfold loss_phase at hkL ⊢
    exact b4 k hLk hkL hidx.1 hidx.2
  · unfold loss_phase
    exact b6
  · intro l step st hc
    obtain ⟨a1, _, _, a4⟩ := apply_loss_spec s.n l step st
    obtain ⟨c1, c2, c3⟩ := a4 hc
    exact ⟨c1, a1, c2, c3⟩

/-- C31 on the schedule `spacedLosses`: its second entry (slot 1 at step 5)
leaves drone 1 not alive after the loss phase of step 5. -/
theorem scheduled_losses_applied_witness :
    ((loss_phase spacedScenario spacedLosses 2 (run_steps spacedScenario spacedLosses 2 5)
      5).fleet (spacedLosses 1).idx.toNat).alive = false ∧
    (run_steps spacedScenario spacedLosses 2 5).loss_idx ≤ 1 ∧
    1 < (loss_phase spacedScenario spacedLosses 2 (run_steps spacedScenario spacedLosses 2 5)
      5).loss_idx :=
  ⟨(scheduled_losses_applied spacedScenario spacedLosses 2
      (fun i j hij hj => by
        have hj2 : j < 2 := by omega
        interval_cases j <;> interval_cases i <;> decide)
      (fun i hi => by
        have hi2 : i < 2 := by omega
        interval_cases i <;> decide)
      1 5 (by decide) (by decide) (by decide) (by decide)).1,
    (scheduled_losses_applied spacedScenario spacedLosses 2
      (fun i j hij hj => by
        have hj2 : j < 2 := by omega
        interval_cases j <;> interval_cases i <;> decide)
      (fun i hi => by
        have hi2 : i < 2 := by omega
        interval_cases i <;> decide)
      1 5 (by decide) (by decide) (by decide) (by decide)).2.1,
    (scheduled_losses_applied spacedScenario spacedLosses 2
      (fun i j hij hj => by
        have hj2 : j < 2 := by omega
        interval_cases j <;> interval_cases i <;> decide)
      (fun i hi => by
        have hi2 : i < 2 := by omega
        interval_cases i <;> decide)
      1 5 (by decide) (by decide) (by decide) (by decide)).2.2.1⟩

/-- C32. In the run of `spacedScenario` (4 drones, resilience on, budget of 2
spares, no delay) on `spacedLosses` (drone 0 lost at step 1, drone 1 at step
5): the first loss is replaced at step 2; at step 6 no loss is applied,
`step - last_loss_step = 1`, three drones are living and one is dead, one
spare has been inserted, which is fewer than `num_losses = 2` and than the two
drones deactivated, and yet no spare is inserted, at step 6 or later:
`total_losses_seen` is the largest number of drones found dead at once, 1, not
the number of losses. -/
theorem second_loss_not_replaced :
    (run_steps spacedScenario spacedLosses 2 3).total_spares_inserted = 1 ∧
    (run_steps spacedScenario spacedLosses 2 6).loss_idx = 2 ∧
    (loss_phase spacedScenario spacedLosses 2
      (run_steps spacedScenario spacedLosses 2 6) 6).loss_this_step = false ∧
    (loss_phase spacedScenario spacedLosses 2
      (run_steps spacedScenario spacedLosses 2 6) 6).last_loss_step = 5 ∧
    alive_count (loss_phase spacedScenario spacedLosses 2
      (run_steps spacedScenario spacedLosses 2 6) 6).fleet 4 = 3 ∧
    dead_count (loss_phase spacedScenario spacedLosses 2
      (run_steps spacedScenario spacedLosses 2 6) 6).fleet 4 = 1 ∧
    (run_steps spacedScenario spacedLosses 2 6).total_spares_inserted = 1 ∧
    spacedScenario.num_losses = 2 ∧
    (run_steps spacedScenario spacedLosses 2 7).total_spares_inserted = 1 ∧
    (run_steps spacedScenario spacedLosses 2 7).total_losses_seen = 1 ∧
    ((run_steps spacedScenario spacedLosses 2 7).fleet 1).alive = false ∧
    (run_steps spacedScenario spacedLosses 2 10).total_spares_inserted = 1 ∧
    ((simulate spacedScenario spacedLosses 2) 1).alive = false := by
  refine ⟨?_, ?_, ?_, ?_, ?_, ?_, ?_, ?_, ?_, ?_, ?_, ?_, ?_⟩ <;> decide!

end Baseline

/-! ## `fleet_simulator.c`: theorems -/

namespace FleetSim

/-- A loop over the slots whose iteration `i` writes slot `i` only. -/
theorem fold_range_apply (step : Fleet → Nat → Fleet)
    (hlocal : ∀ f i j, j ≠ i → step f i j = f j) (f : Fleet) (n j : Nat) :
    ((List.range n).foldl step f) j =
      if j < n then step ((List.range j).foldl step f) j j else f j := by
  induction n with
  | zero => simp
  | succ k ih =>
    rw [List.range_succ, List.foldl_append]
    simp only [List.foldl_cons, List.foldl_nil]
    by_cases h : j = k
    · subst h
      simp
    · rw [hlocal _ _ _ h, ih]
      have : j < k + 1 ↔ j < k := by omega
      simp only [this]

/-- A field that no iteration changes is unchanged by the loop. -/
theorem fold_list_field {α : Type} (proj : Drone → α) (step : Fleet → Nat → Fleet)
    (h : ∀ f i j, proj (step f i j) = proj (f j)) (l : List Nat) :
    ∀ (f : Fleet) (j : Nat), proj ((l.foldl step f) j) = proj (f j) := by
  induction l with
  | nil => intro f j; rfl
  | cons a rest ih =>
    intro f j
    rw [List.foldl_cons, ih, h]

theorem pred_step_eq (n p : Nat) (hp : p < n) :
    (p + n - 1) % n = if p = 0 then n - 1 else p - 1 := by
  by_cases h : p = 0
  · subst h
    rw [if_pos rfl, Nat.zero_add]
    exact Nat.mod_eq_of_lt (by omega)
  · rw [if_neg h]
    have : p + n - 1 = (p - 1) + n := by omega
    rw [this, Nat.add_mod_right]
    exact Nat.mod_eq_of_lt (by omega)

/-- The bound on the iterations of the predecessor scan is never reached with
the loop condition still true: started at most `k` backward steps away from
`i`, the scan with `k` iterations allowed stops where the C loop stops, at a
living slot or at `i` itself. -/
theorem scan_pred_exit (fleet : Fleet) (n i : Nat) (hi : i < n) :
    ∀ (k p : Nat), p < n → (if i ≤ p then p - i else p + n - i) ≤ k →
    scan_pred fleet n i k p < n ∧
    ((fleet (scan_pred fleet n i k p)).alive = true ∨ scan_pred fleet n i k p = i) := by
  intro k
  induction k with
  | zero =>
    intro p hp hd
    unfold scan_pred
    refine ⟨hp, Or.inr ?_⟩
    split_ifs at hd <;> omega
  | succ k ih =>
    intro p hp hd
    unfold scan_pred
    by_cases hc : ((!(fleet p).alive) && decide (p ≠ i)) = true
    · rw [if_pos hc]
      simp only [Bool.and_eq_true, Bool.not_eq_true', decide_eq_true_eq] at hc
      have hlt : (p + n - 1) % n < n := Nat.mod_lt _ (by omega)
      apply ih _ hlt
      rw [pred_step_eq n p hp]
      split_ifs at hd ⊢ <;> omega
    · rw [if_neg hc]
      refine ⟨hp, ?_⟩
      simp only [Bool.and_eq_true, Bool.not_eq_true', decide_eq_true_eq, not_and,
        not_not] at hc
      by_cases ha : (fleet p).alive = true
      · exact Or.inl ha
      · simp only [Bool.not_eq_true] at ha
        exact Or.inr (hc ha)

/-- The predecessor scan of the gap pass ends within its `n` iterations, at a
living slot or at `i` itself. -/
theorem find_pred_exit (fleet : Fleet) (n i : Nat) (hi : i < n) :
    find_pred fleet n i < n ∧
    ((fleet (find_pred fleet n i)).alive = true ∨ find_pred fleet n i = i) := by
  unfold find_pred
  have hlt : (i + n - 1) % n < n := Nat.mod_lt _ (by omega)
  apply scan_pred_exit fleet n i hi n _ hlt
  rw [pred_step_eq n i hi]
  split_ifs <;> omega

theorem gap_pass_step_local (s : Scenario) (f : Fleet) (i j : Nat) (h : j ≠ i) :
    gap_pass_step s f i j = f j := by
  unfold gap_pass_step
  simp only
  split
  · rfl
  · rw [Function.update_noteq h]

theorem velocity_pass_step_local (s : Scenario) (dt : ℚ) (f : Fleet) (i j : Nat)
    (h : j ≠ i) : velocity_pass_step s dt f i j = f j := by
  unfold velocity_pass_step
  simp only
  split
  · rfl
  · rw [Function.update_noteq h]

theorem gap_pass_step_v (s : Scenario) (f : Fleet) (i j : Nat) :
    (gap_pass_step s f i j).v = (f j).v := by
  unfold gap_pass_step
  simp only
  split
  · rfl
  · by_cases h : j = i
    · subst h; simp
    · rw [Function.update_noteq h]

theorem gap_pass_step_alive (s : Scenario) (f : Fleet) (i j : Nat) :
    (gap_pass_step s f i j).alive = (f j).alive := by
  unfold gap_pass_step
  simp only
  split
  · rfl
  · by_cases h : j = i
    · subst h; simp
    · rw [Function.update_noteq h]

theorem joining_cmd_alive (s : Scenario) (d : Drone) (g1 g2 : ℚ) :
    (joining_cmd s d g1 g2).1.alive = d.alive := by
  unfold joining_cmd
  simp only
  split_ifs <;> rfl

theorem joining_cmd_v (s : Scenario) (d : Drone) (g1 g2 : ℚ) :
    (joining_cmd s d g1 g2).1.v = d.v := by
  unfold joining_cmd
  simp only
  split_ifs <;> rfl

theorem agent_cmd_alive (s : Scenario) (f : Fleet) (i : Nat) :
    (agent_cmd s f i).1.alive = (f i).alive := by
  unfold agent_cmd
  simp only
  split
  · rfl
  · exact joining_cmd_alive _ _ _ _

theorem velocity_pass_step_alive (s : Scenario) (dt : ℚ) (f : Fleet) (i j : Nat) :
    (velocity_pass_step s dt f i j).alive = (f j).alive := by
  unfold velocity_pass_step
  simp only
  split
  · rfl
  · by_cases h : j = i
    · subst h
      rw [Function.update_same]
      exact agent_cmd_alive s f j
    · rw [Function.update_noteq h]

theorem transition_pass_step_v (s : Scenario) (f : Fleet) (i j : Nat) :
    (transition_pass_step s f i j).v = (f j).v := by
  unfold transition_pass_step
  simp only
  split_ifs
  · rfl
  · by_cases h : j = i
    · subst h; simp
    · rw [Function.update_noteq h]
  · rfl
  · rfl

theorem transition_pass_step_alive (s : Scenario) (f : Fleet) (i j : Nat) :
    (transition_pass_step s f i j).alive = (f j).alive := by
  unfold transition_pass_step
  simp only
  split_ifs
  · rfl
  · by_cases h : j = i
    · subst h; simp
    · rw [Function.update_noteq h]
  · rfl
  · rfl

theorem move_pass_step_v (s : Scenario) (dt : ℚ) (f : Fleet) (i j : Nat) :
    (move_pass_step s dt f i j).v = (f j).v := by
  unfold move_pass_step
  split
  · rfl
  · by_cases h : j = i
    · subst h; simp
    · rw [Function.update_noteq h]

theorem move_pass_step_alive (s : Scenario) (dt : ℚ) (f : Fleet) (i j : Nat) :
    (move_pass_step s dt f i j).alive = (f j).alive := by
  unfold move_pass_step
  split
  · rfl
  · by_cases h : j = i
    · subst h; simp
    · rw [Function.update_noteq h]

/-- No pass of `update_drone_positions` changes a liveness flag. -/
theorem update_drone_positions_alive (f : Fleet) (s : Scenario) (dt : ℚ) (j : Nat) :
    (update_drone_positions f s dt j).alive = (f j).alive := by
  unfold update_drone_positions move_pass transition_pass velocity_pass gap_pass
  rw [fold_list_field (fun d => d.alive) _ (move_pass_step_alive s dt),
    fold_list_field (fun d => d.alive) _ (transition_pass_step_alive s),
    fold_list_field (fun d => d.alive) _ (velocity_pass_step_alive s dt),
    fold_list_field (fun d => d.alive) _ (gap_pass_step_alive s)]

theorem before_velocity_step_alive (f : Fleet) (s : Scenario) (dt : ℚ) (i j : Nat) :
    (before_velocity_step f s dt i j).alive = (f j).alive := by
  unfold before_velocity_step gap_pass
  rw [fold_list_field (fun d => d.alive) _ (velocity_pass_step_alive s dt),
    fold_list_field (fun d => d.alive) _ (gap_pass_step_alive s)]

/-- Iterations `0 .. i-1` of the second pass leave the velocity of slot `i`
as it was on entry. -/
theorem before_velocity_step_v (f : Fleet) (s : Scenario) (dt : ℚ) (i : Nat) :
    (before_velocity_step f s dt i i).v = (f i).v := by
  unfold before_velocity_step
  rw [fold_range_apply _ (velocity_pass_step_local s dt), if_neg (lt_irrefl i)]
  unfold gap_pass
  rw [fold_list_field (fun d => d.v) _ (gap_pass_step_v s)]

theorem velocity_pass_step_v_self (s : Scenario) (dt : ℚ) (g : Fleet) (i : Nat) :
    (velocity_pass_step s dt g i i).v =
      if (g i).alive = true then
        ramp_velocity (g i).v (clamp_cmd s (agent_cmd s g i).2) dt
      else (g i).v := by
  unfold velocity_pass_step
  by_cases hal : (g i).alive = true
  · simp [hal]
  · simp only [Bool.not_eq_true] at hal
    simp [hal]

/-- The velocity written for slot `i` by one call. -/
theorem update_drone_positions_v (f : Fleet) (s : Scenario) (dt : ℚ) (i : Nat)
    (hi : i < s.num_drones.toNat) :
    (update_drone_positions f s dt i).v =
      if (f i).alive = true then
        ramp_velocity (f i).v
          (clamp_cmd s (agent_cmd s (before_velocity_step f s dt i) i).2) dt
      else (f i).v := by
  unfold update_drone_positions move_pass transition_pass velocity_pass
  rw [fold_list_field (fun d => d.v) _ (move_pass_step_v s dt),
    fold_list_field (fun d => d.v) _ (transition_pass_step_v s),
    fold_range_apply _ (velocity_pass_step_local s dt), if_pos hi]
  have hb := before_velocity_step_v f s dt i
  have ha := before_velocity_step_alive f s dt i i
  unfold before_velocity_step at hb ha
  unfold before_velocity_step
  rw [velocity_pass_step_v_self, hb, ha]

theorem clamp_cmd_range (s : Scenario) (c : ℚ) (h : 0 ≤ s.v_max) :
    0 ≤ clamp_cmd s c ∧ clamp_cmd s c ≤ s.v_max := by
  unfold clamp_cmd
  constructor
  · exact le_max_left _ _
  · exact max_le h (min_le_left _ _)

theorem ramp_velocity_bounds (v c dt : ℚ) (hdt : 0 ≤ dt) :
    |ramp_velocity v c dt - v| ≤ 0.5 * dt ∧
    min v c ≤ ramp_velocity v c dt ∧ ramp_velocity v c dt ≤ max v c := by
  unfold ramp_velocity
  simp only
  have h5 : (0 : ℚ) ≤ 0.5 * dt := by positivity
  by_cases h : c > v
  · rw [if_pos h]
    have h1 : v ≤ min c (v + 0.5 * dt) := le_min (le_of_lt h) (by linarith)
    have h2 : min c (v + 0.5 * dt) ≤ v + 0.5 * dt := min_le_right _ _
    have h3 : min c (v + 0.5 * dt) ≤ c := min_le_left _ _
    refine ⟨?_, ?_, ?_⟩
    · rw [abs_le]; constructor <;> linarith
    · exact le_trans (min_le_left _ _) h1
    · exact le_trans h3 (le_max_right _ _)
  · rw [if_neg h]
    have hcv : c ≤ v := not_lt.mp h
    have h1 : max c (v - 0.5 * dt) ≤ v := max_le hcv (by linarith)
    have h2 : v - 0.5 * dt ≤ max c (v - 0.5 * dt) := le_max_right _ _
    have h3 : c ≤ max c (v - 0.5 * dt) := le_max_left _ _
    refine ⟨?_, ?_, ?_⟩
    · rw [abs_le]; constructor <;> linarith
    · exact le_trans (min_le_right _ _) h3
    · exact le_trans h1 (le_max_left _ _)

end FleetSim

namespace FleetSim

/-- C6. Under policy 3, a living NORMAL agent whose successor slot is JOINING
gets the command `v_nominal + k * (1 + 0.4*|e|/nominal_spacing) * e` before
the bounding, with `e = gap_to_pred - nominal_spacing`, `k = 1.3` in recovery
mode and `0.5` otherwise: nothing of the successor's gap error is subtracted.
Here `fleet` is the array as iteration `i` of the second pass finds it, and
the velocity stored by the iteration is the rate-limited bounded command. -/
theorem policy3_joining_successor_cmd (s : Scenario) (fleet : Fleet) (dt : ℚ) (i : Nat)
    (hpol : s.balancing_policy = 3) (hal : (fleet i).alive = true)
    (hst : (fleet i).state = 0)
    (hsucc : (fleet ((i + 1) % s.num_drones.toNat)).state = 1) :
    (agent_cmd s fleet i).2 =
      s.v_nominal +
        (if (fleet i).gap_to_pred > 1.2 * s.nominal_spacing ∨
            (fleet ((i + 1) % s.num_drones.toNat)).gap_to_pred < 0.8 * s.nominal_spacing
          then 1.3 else 0.5) *
        (1 + 0.4 * |(fleet i).gap_to_pred - s.nominal_spacing| / s.nominal_spacing) *
        ((fleet i).gap_to_pred - s.nominal_spacing) ∧
    (velocity_pass_step s dt fleet i i).v =
      ramp_velocity (fleet i).v
        (clamp_cmd s
          (s.v_nominal +
            (if (fleet i).gap_to_pred > 1.2 * s.nominal_spacing ∨
                (fleet ((i + 1) % s.num_drones.toNat)).gap_to_pred < 0.8 * s.nominal_spacing
              then 1.3 else 0.5) *
            (1 + 0.4 * |(fleet i).gap_to_pred - s.nominal_spacing| / s.nominal_spacing) *
            ((fleet i).gap_to_pred - s.nominal_spacing))) dt := by
  have h1 : (agent_cmd s fleet i).2 =
      s.v_nominal +
        (if (fleet i).gap_to_pred > 1.2 * s.nominal_spacing ∨
            (fleet ((i + 1) % s.num_drones.toNat)).gap_to_pred < 0.8 * s.nominal_spacing
          then 1.3 else 0.5) *
        (1 + 0.4 * |(fleet i).gap_to_pred - s.nominal_spacing| / s.nominal_spacing) *
        ((fleet i).gap_to_pred - s.nominal_spacing) := by
    unfold agent_cmd normal_cmd recovery_mode
    simp only [hst, hpol, hsucc, if_true]
    norm_num
    split_ifs <;> ring
  refine ⟨h1, ?_⟩
  rw [velocity_pass_step_v_self, if_pos hal, h1]

end FleetSim

namespace FleetSim

/-- C7. For a NORMAL agent under policy 2 or 3 the command before the bounding
is `v_nominal + k*(1 + 0.4*|e|/nominal_spacing)*e - c*(successor gap_to_pred -
nominal_spacing)` when the successor slot is NORMAL, with `k = 1.3` in
recovery and `0.5` otherwise, `c = 0.3` under policy 2, and under policy 3
`c = 2.0` in recovery and `0.5` otherwise.  With a JOINING successor the
subtracted term is zero under policy 2, and the command is the one policy 3
gives.  Here `fleet` is the array as iteration `i` of the second pass finds
it. -/
theorem bidirectional_cmd (s : Scenario) (fleet : Fleet) (i : Nat)
    (hst : (fleet i).state = 0) :
    (s.balancing_policy = 2 → (fleet ((i + 1) % s.num_drones.toNat)).state = 0 →
      (agent_cmd s fleet i).2 =
        s.v_nominal +
          (if (fleet i).gap_to_pred > 1.2 * s.nominal_spacing ∨
              (fleet ((i + 1) % s.num_drones.toNat)).gap_to_pred < 0.8 * s.nominal_spacing
            then 1.3 else 0.5) *
          (1 + 0.4 * |(fleet i).gap_to_pred - s.nominal_spacing| / s.nominal_spacing) *
          ((fleet i).gap_to_pred - s.nominal_spacing) -
          0.3 * ((fleet ((i + 1) % s.num_drones.toNat)).gap_to_pred - s.nominal_spacing)) ∧
    (s.balancing_policy = 3 → (fleet ((i + 1) % s.num_drones.toNat)).state = 0 →
      (agent_cmd s fleet i).2 =
        s.v_nominal +
          (if (fleet i).gap_to_pred > 1.2 * s.nominal_spacing ∨
              (fleet ((i + 1) % s.num_drones.toNat)).gap_to_pred < 0.8 * s.nominal_spacing
            then 1.3 else 0.5) *
          (1 + 0.4 * |(fleet i).gap_to_pred - s.nominal_spacing| / s.nominal_spacing) *
          ((fleet i).gap_to_pred - s.nominal_spacing) -
          (if (fleet i).gap_to_pred > 1.2 * s.nominal_spacing ∨
              (fleet ((i + 1) % s.num_drones.toNat)).gap_to_pred < 0.8 * s.nominal_spacing
            then 2.0 else 0.5) *
          ((fleet ((i + 1) % s.num_drones.toNat)).gap_to_pred - s.nominal_spacing)) ∧
    (s.balancing_policy = 2 → (fleet ((i + 1) % s.num_drones.toNat)).state = 1 →
      (agent_cmd s fleet i).2 =
        s.v_nominal +
          (if (fleet i).gap_to_pred > 1.2 * s.nominal_spacing ∨
              (fleet ((i + 1) % s.num_drones.toNat)).gap_to_pred < 0.8 * s.nominal_spacing
            then 1.3 else 0.5) *
          (1 + 0.4 * |(fleet i).gap_to_pred - s.nominal_spacing| / s.nominal_spacing) *
          ((fleet i).gap_to_pred - s.nominal_spacing) ∧
      (agent_cmd { s with balancing_policy := 3 } fleet i).2 = (agent_cmd s fleet i).2) := by
  refine ⟨?_, ?_, ?_⟩
  · intro hpol hsucc
    unfold agent_cmd normal_cmd recovery_mode
    simp only [hst, hpol, hsucc, if_true]
    norm_num
    split_ifs <;> ring
  · intro hpol hsucc
    unfold agent_cmd normal_cmd recovery_mode
    simp only [hst, hpol, hsucc, if_true]
    norm_num
    split_ifs <;> ring
  · intro hpol hsucc
    constructor
    · unfold agent_cmd normal_cmd recovery_mode
      simp only [hst, hpol, hsucc, if_true]
      norm_num
      split_ifs <;> ring
    · unfold agent_cmd normal_cmd recovery_mode
      simp only [hst, hpol, hsucc, if_true]
      norm_num

/-- C8. Under policy 0 the command of a NORMAL agent before the bounding is
`v_nominal + k*e` with `e = gap_to_pred - nominal_spacing`, `k = 1.0` when
`gap_to_pred > 1.2*nominal_spacing` or the successor slot's `gap_to_pred <
0.8*nominal_spacing`, and `k = 0.3` otherwise, whatever the state of the
successor.  Here `fleet` is the array as iteration `i` of the second pass
finds it. -/
theorem policy0_cmd (s : Scenario) (fleet : Fleet) (i : Nat)
    (hpol : s.balancing_policy = 0) (hst : (fleet i).state = 0) :
    (agent_cmd s fleet i).2 =
      s.v_nominal +
        (if (fleet i).gap_to_pred > 1.2 * s.nominal_spacing ∨
            (fleet ((i + 1) % s.num_drones.toNat)).gap_to_pred < 0.8 * s.nominal_spacing
          then 1.0 else 0.3) *
        ((fleet i).gap_to_pred - s.nominal_spacing) := by
  unfold agent_cmd normal_cmd recovery_mode
  simp only [hst, hpol, if_true]
  norm_num
  split_ifs <;> ring

end FleetSim

namespace FleetSim

/-- C9. For every scenario (every policy), every fleet (every agent mode and
phase) and every `dt ≥ 0`, one call of `update_drone_positions` moves the
velocity of each living agent by at most `0.5*dt`, and the new velocity lies
between the old velocity and the bounded command that the second pass
computes for the agent (inclusive); it is the rate limiter applied to
them. -/
theorem velocity_rate_limited (fleet : Fleet) (s : Scenario) (dt : ℚ) (i : Nat)
    (hdt : 0 ≤ dt) (hi : i < s.num_drones.toNat) (hal : (fleet i).alive = true) :
    |(update_drone_positions fleet s dt i).v - (fleet i).v| ≤ 0.5 * dt ∧
    min (fleet i).v (clamp_cmd s (agent_cmd s (before_velocity_step fleet s dt i) i).2)
      ≤ (update_drone_positions fleet s dt i).v ∧
    (update_drone_positions fleet s dt i).v
      ≤ max (fleet i).v (clamp_cmd s (agent_cmd s (before_velocity_step fleet s dt i) i).2) ∧
    (update_drone_positions fleet s dt i).v =
      ramp_velocity (fleet i).v
        (clamp_cmd s (agent_cmd s (before_velocity_step fleet s dt i) i).2) dt := by
  rw [update_drone_positions_v fleet s dt i hi, if_pos hal]
  obtain ⟨h1, h2, h3⟩ := ramp_velocity_bounds (fleet i).v
    (clamp_cmd s (agent_cmd s (before_velocity_step fleet s dt i) i).2) dt hdt
  exact ⟨h1, h2, h3, rfl⟩

theorem initialize_fleet_v (f0 : Fleet) (s : Scenario) (i : Nat)
    (hi : i < s.num_drones.toNat) : (initialize_fleet f0 s i).v = s.v_nominal := by
  unfold initialize_fleet
  rw [fold_range_apply _ (fun f i j h => Function.update_noteq h _ _), if_pos hi,
    Function.update_same]

theorem inject_failure_v (f : Fleet) (s : Scenario) (k step : Int) (r : Rng) (j : Nat) :
    ((inject_failure f s k step r).1 j).v = (f j).v := by
  unfold inject_failure
  by_cases h1 : k ≥ s.num_failures
  · rw [if_pos h1]
  · rw [if_neg h1]
    by_cases h2 : (choose_target f s step r).1 ≥ 0
    · simp only [if_pos h2]
      by_cases h : j = (choose_target f s step r).1.toNat
      · rw [h, Function.update_same]
      · rw [Function.update_noteq h]
    · simp only [if_neg h2]

theorem try_insert_spare_v (f : Fleet) (s : Scenario) (k : Int) (j : Nat) :
    ((try_insert_spare f s k).1 j).v = (f j).v ∨
    ((try_insert_spare f s k).1 j).v = 0.6 * s.v_nominal := by
  unfold try_insert_spare
  simp only
  split
  · split
    · rename_i i _
      by_cases h : j = i
      · right; subst h; simp only [Function.update_same]
      · left; simp only [Function.update_noteq h]
    · left; rfl
  · left; rfl

/-- Every slot of a reachable fleet has its velocity in `[0, v_max]`. -/
theorem reachable_velocity_all (s : Scenario) (hv0 : 0 ≤ s.v_nominal)
    (hv1 : s.v_nominal ≤ s.v_max) (f : Fleet) (hr : Reachable s f) :
    ∀ i, i < s.num_drones.toNat → 0 ≤ (f i).v ∧ (f i).v ≤ s.v_max := by
  induction hr with
  | init f0 =>
    intro i hi
    rw [initialize_fleet_v f0 s i hi]
    exact ⟨hv0, hv1⟩
  | inject f k step r _ ih =>
    intro i hi
    rw [inject_failure_v]
    exact ih i hi
  | update f dt hdt _ ih =>
    intro i hi
    rw [update_drone_positions_v f s dt i hi]
    split
    · obtain ⟨_, h2, h3⟩ := ramp_velocity_bounds (f i).v
        (clamp_cmd s (agent_cmd s (before_velocity_step f s dt i) i).2) dt hdt
      obtain ⟨c0, c1⟩ := clamp_cmd_range s
        (agent_cmd s (before_velocity_step f s dt i) i).2 (le_trans hv0 hv1)
      exact ⟨le_trans (le_min (ih i hi).1 c0) h2, le_trans h3 (max_le (ih i hi).2 c1)⟩
    · exact ih i hi
  | insert f k _ ih =>
    intro i hi
    rcases try_insert_spare_v f s k i with h | h
    · rw [h]; exact ih i hi
    · rw [h]
      constructor
      · positivity
      · have : (0.6 : ℚ) * s.v_nominal ≤ s.v_nominal := by
          have : (0.6 : ℚ) ≤ 1 := by norm_num
          nlinarith
        linarith

/-- C10. If `0 ≤ v_nominal ≤ v_max`, then in every fleet state reachable from
`initialize_fleet` by `inject_failure`, `update_drone_positions` (with
`dt ≥ 0`) and `try_insert_spare`, every living agent has `0 ≤ v ≤ v_max`. -/
theorem reachable_velocity_range (s : Scenario) (hv0 : 0 ≤ s.v_nominal)
    (hv1 : s.v_nominal ≤ s.v_max) (f : Fleet) (hr : Reachable s f) (i : Nat)
    (hi : i < s.num_drones.toNat) (_hal : (f i).alive = true) :
    0 ≤ (f i).v ∧ (f i).v ≤ s.v_max :=
  reachable_velocity_all s hv0 hv1 f hr i hi

end FleetSim

namespace FleetSim

theorem metric_scan_step_congr (f g : Fleet) (st : MetricScan) (i : Nat)
    (hal : (f i).alive = (g i).alive)
    (hv : (f i).alive = true → (f i).v = (g i).v ∧ (f i).gap_to_pred = (g i).gap_to_pred) :
    metric_scan_step f st i = metric_scan_step g st i := by
  unfold metric_scan_step
  by_cases h : (f i).alive = true
  · have hg : (g i).alive = true := by rw [← hal]; exact h
    obtain ⟨h1, h2⟩ := hv h
    simp only [h, hg, if_true, h1, h2]
  · simp only [Bool.not_eq_true] at h
    have hg : (g i).alive = false := by rw [← hal]; exact h
    simp [h, hg]

/-- The loop of `compute_metrics` reads `v` and `gap_to_pred` of living slots
only. -/
theorem metric_scan_congr (f g : Fleet) (n : Nat)
    (hal : ∀ i, i < n → (f i).alive = (g i).alive)
    (hv : ∀ i, i < n → (f i).alive = true →
      (f i).v = (g i).v ∧ (f i).gap_to_pred = (g i).gap_to_pred) :
    metric_scan f n = metric_scan g n := by
  unfold metric_scan
  induction n with
  | zero => rfl
  | succ k ih =>
    rw [List.range_succ, List.foldl_append, List.foldl_append]
    simp only [List.foldl_cons, List.foldl_nil]
    rw [ih (fun i hi => hal i (by omega)) (fun i hi => hv i (by omega))]
    exact metric_scan_step_congr f g _ k (hal k (by omega)) (hv k (by omega))

/-- C5. Two fleets that agree on which slots are alive and on `v` and
`gap_to_pred` of every living slot give the same `Metrics` record from
`compute_metrics` (same scenario, step, `step_at_failure`, recovery flag and
prior record): density, coverage, avg_speed, speed_stddev, max_gap, avg_gap,
formation_stability, energy_consumed and every other field coincide,
whatever the dormant slots hold. -/
theorem compute_metrics_living_only (sqrt : ℚ → ℚ) (f g : Fleet) (s : Scenario)
    (m : Metrics) (step step_at_failure recovery_started : Int)
    (hal : ∀ i, i < s.num_drones.toNat → (f i).alive = (g i).alive)
    (hv : ∀ i, i < s.num_drones.toNat → (f i).alive = true →
      (f i).v = (g i).v ∧ (f i).gap_to_pred = (g i).gap_to_pred) :
    compute_metrics sqrt f s m step step_at_failure recovery_started =
      compute_metrics sqrt g s m step step_at_failure recovery_started := by
  have h := metric_scan_congr f g s.num_drones.toNat hal hv
  unfold compute_metrics
  simp only [h]

end FleetSim

namespace FleetSim

/-- C2 (evaluation at the failing input). Three living agents at positions 0,
10, 20 (increasing with the slot index) on a ring of perimeter 30, as
`initialize_fleet` places them: the gap pass gives every agent
`gap_to_pred = 20`, and the sum over the living agents is 60, twice the
perimeter. -/
theorem gap_pass_sum_twice_perimeter :
    (∀ i, i < 3 → (initialize_fleet blankFleet (demoScenario 3 30 0) i).alive = true ∧
      (initialize_fleet blankFleet (demoScenario 3 30 0) i).x = 10 * (i : ℚ)) ∧
    (∀ i, i < 3 →
      (gap_pass (demoScenario 3 30 0)
        (initialize_fleet blankFleet (demoScenario 3 30 0)) i).gap_to_pred = 20) ∧
    sum_gap_to_pred
      (gap_pass (demoScenario 3 30 0) (initialize_fleet blankFleet (demoScenario 3 30 0))) 3
      = 60 ∧
    sum_gap_to_pred
      (gap_pass (demoScenario 3 30 0) (initialize_fleet blankFleet (demoScenario 3 30 0))) 3
      ≠ (demoScenario 3 30 0).perimeter := by
  decide!

/-- C4 (evaluation at the failing input). The fleets `staleFleet 10` and
`staleFleet 0` have the same dormant slot (slot 2) and the same living slots,
and differ only in the stale `gap_to_pred` of the dormant slot.  One call of
`update_drone_positions` (policy 0, `dt = 0.1`) gives the living agent 1,
whose successor slot is the dormant one, the velocity 17/20 in the first and
81/100 in the second. -/
theorem dormant_successor_gap_read :
    (∀ i, i < 3 → (staleFleet 10 i).alive = (staleFleet 0 i).alive) ∧
    (∀ i, i < 3 → (staleFleet 10 i).alive = true → staleFleet 10 i = staleFleet 0 i) ∧
    (staleFleet 10 1).alive = true ∧
    (update_drone_positions (staleFleet 10) (demoScenario 3 30 0) (1/10) 1).v = 17/20 ∧
    (update_drone_positions (staleFleet 0) (demoScenario 3 30 0) (1/10) 1).v = 81/100 := by
  decide!

/-- C5 at two fleets that differ in the stale gap of the dormant slot only. -/
theorem compute_metrics_living_only_witness :
    compute_metrics id (staleFleet 10) (demoScenario 3 30 0) zeroMetrics 0 (-1) 0 =
      compute_metrics id (staleFleet 0) (demoScenario 3 30 0) zeroMetrics 0 (-1) 0 :=
  compute_metrics_living_only id (staleFleet 10) (staleFleet 0) (demoScenario 3 30 0)
    zeroMetrics 0 (-1) 0 (by decide!) (by decide!)

/-- C6 at a two-slot ring: gap 13, nominal spacing 10, JOINING successor. -/
theorem policy3_joining_successor_cmd_witness :
    (agent_cmd (demoScenario 2 100 3) (pairFleet 1) 0).2 = 671/125 :=
  (policy3_joining_successor_cmd (demoScenario 2 100 3) (pairFleet 1) (1/10) 0
    (by decide) (by decide) (by decide) (by decide)).1.trans (by decide!)

/-- C7 at a two-slot ring: gap 13, successor gap 9, nominal spacing 10. -/
theorem bidirectional_cmd_witness :
    (agent_cmd (demoScenario 2 100 2) (pairFleet 0) 0).2 = 671/125 + 3/10 ∧
    (agent_cmd (demoScenario 2 100 3) (pairFleet 0) 0).2 = 671/125 + 2 ∧
    (agent_cmd (demoScenario 2 100 2) (pairFleet 1) 0).2 = 671/125 ∧
    (agent_cmd { demoScenario 2 100 2 with balancing_policy := 3 } (pairFleet 1) 0).2 =
      (agent_cmd (demoScenario 2 100 2) (pairFleet 1) 0).2 :=
  ⟨((bidirectional_cmd (demoScenario 2 100 2) (pairFleet 0) 0 (by decide)).1
      (by decide) (by decide)).trans (by decide!),
    ((bidirectional_cmd (demoScenario 2 100 3) (pairFleet 0) 0 (by decide)).2.1
      (by decide) (by decide)).trans (by decide!),
    (((bidirectional_cmd (demoScenario 2 100 2) (pairFleet 1) 0 (by decide)).2.2
      (by decide) (by decide)).1).trans (by decide!),
    ((bidirectional_cmd (demoScenario 2 100 2) (pairFleet 1) 0 (by decide)).2.2
      (by decide) (by decide)).2⟩

/-- C8 at a two-slot ring: gap 13, nominal spacing 10, recovery mode. -/
theorem policy0_cmd_witness :
    (agent_cmd (demoScenario 2 100 0) (pairFleet 1) 0).2 = 4 :=
  (policy0_cmd (demoScenario 2 100 0) (pairFleet 1) 0 (by decide) (by decide)).trans
    (by decide!)

/-- C9 at agent 1 of a three-slot ring with `dt = 0.1`. -/
theorem velocity_rate_limited_witness :
    |(update_drone_positions (staleFleet 10) (demoScenario 3 30 0) (1/10) 1).v
        - (staleFleet 10 1).v| ≤ 0.5 * (1/10) :=
  (velocity_rate_limited (staleFleet 10) (demoScenario 3 30 0) (1/10) 1
    (by decide!) (by decide) (by decide)).1

/-- C10 at the state after one update of a freshly initialised fleet. -/
theorem reachable_velocity_range_witness :
    0 ≤ (update_drone_positions (initialize_fleet blankFleet (demoScenario 3 30 0))
          (demoScenario 3 30 0) (1/10) 0).v ∧
    (update_drone_positions (initialize_fleet blankFleet (demoScenario 3 30 0))
          (demoScenario 3 30 0) (1/10) 0).v ≤ (demoScenario 3 30 0).v_max :=
  reachable_velocity_range (demoScenario 3 30 0) (by decide!) (by decide!) _
    (Reachable.update _ (1/10) (by decide!) (Reachable.init blankFleet)) 0 (by decide)
    (by decide!)

end FleetSim

/-! ### `compute_metrics` -/

namespace FleetSim

theorem living_count_succ (f : Fleet) (k : Nat) :
    living_count f (k + 1) = living_count f k + (if (f k).alive = true then 1 else 0) := by
  unfold living_count
  rw [List.range_succ, List.filter_append, List.length_append]
  by_cases h : (f k).alive = true
  · simp [h]
  · simp [h]

theorem living_count_le (f : Fleet) (n : Nat) : living_count f n ≤ n := by
  induction n with
  | zero => simp [living_count]
  | succ k ih =>
    rw [living_count_succ]
    split_ifs <;> omega

theorem sum_v_living_succ (f : Fleet) (k : Nat) :
    sum_v_living f (k + 1) = sum_v_living f k + (if (f k).alive = true then (f k).v else 0) := by
  unfold sum_v_living
  rw [Finset.range_succ, Finset.filter_insert]
  by_cases h : (f k).alive = true
  · rw [if_pos h, if_pos h, Finset.sum_insert (by simp)]
    ring
  · rw [if_neg h, if_neg h, add_zero]

theorem metric_scan_succ (f : Fleet) (k : Nat) :
    metric_scan f (k + 1) = metric_scan_step f (metric_scan f k) k := by
  unfold metric_scan
  rw [List.range_succ, List.foldl_append]
  rfl

/-- The counter `num_alive` of the loop of `compute_metrics` is the number of
living slots, and `sum_v` is the sum of their velocities. -/
theorem metric_scan_num_alive (f : Fleet) (n : Nat) :
    (metric_scan f n).num_alive = (living_count f n : Int) ∧
    (metric_scan f n).sum_v = sum_v_living f n := by
  induction n with
  | zero => exact ⟨rfl, rfl⟩
  | succ k ih =>
    rw [metric_scan_succ, living_count_succ, sum_v_living_succ]
    unfold metric_scan_step
    by_cases h : (f k).alive = true
    · simp only [h, if_true]
      split_ifs
      · simp only [ih.1, ih.2]
        refine ⟨?_, trivial⟩
        push_cast
        ring
      · simp only [ih.1, ih.2]
        refine ⟨?_, trivial⟩
        push_cast
        ring
    · simp only [h, Bool.false_eq_true, if_false]
      exact ⟨by simpa using ih.1, by simpa using ih.2⟩

/-- The fields that `compute_metrics` writes before the recovery block, read
from the loop result. -/
theorem compute_metrics_fields (sqrt : ℚ → ℚ) (f : Fleet) (s : Scenario) (m : Metrics)
    (step saf rs : Int) :
    (compute_metrics sqrt f s m step saf rs).density =
      ((metric_scan f s.num_drones.toNat).num_alive : ℚ) / (s.num_drones : ℚ) ∧
    (compute_metrics sqrt f s m step saf rs).coverage =
      ((metric_scan f s.num_drones.toNat).num_alive : ℚ) / (s.num_drones : ℚ) * 100.0 ∧
    (compute_metrics sqrt f s m step saf rs).avg_speed =
      (if (metric_scan f s.num_drones.toNat).num_alive > 0 then
        (metric_scan f s.num_drones.toNat).sum_v /
          ((metric_scan f s.num_drones.toNat).num_alive : ℚ)
       else s.v_nominal) ∧
    (compute_metrics sqrt f s m step saf rs).max_gap =
      (metric_scan f s.num_drones.toNat).max_gap ∧
    (compute_metrics sqrt f s m step saf rs).avg_gap =
      (if (metric_scan f s.num_drones.toNat).gap_count > 0 then
        (metric_scan f s.num_drones.toNat).sum_gap /
          (metric_scan f s.num_drones.toNat).gap_count
       else 0) ∧
    (compute_metrics sqrt f s m step saf rs).formation_stability =
      (if (metric_scan f s.num_drones.toNat).num_alive > 1 then
        1.0 / (1.0 + |(if (metric_scan f s.num_drones.toNat).gap_count > 0 then
            (metric_scan f s.num_drones.toNat).sum_gap /
              (metric_scan f s.num_drones.toNat).gap_count
          else 0) - s.nominal_spacing| / s.nominal_spacing)
       else 0) ∧
    (compute_metrics sqrt f s m step saf rs).energy_consumed =
      (metric_scan f s.num_drones.toNat).sum_v / s.v_nominal ∧
    (compute_metrics sqrt f s m step saf rs).speed_stddev =
      sqrt (max 0
        (if (metric_scan f s.num_drones.toNat).num_alive > 0 then
          (metric_scan f s.num_drones.toNat).sum_v2 /
              ((metric_scan f s.num_drones.toNat).num_alive : ℚ) -
            (if (metric_scan f s.num_drones.toNat).num_alive > 0 then
              (metric_scan f s.num_drones.toNat).sum_v /
                ((metric_scan f s.num_drones.toNat).num_alive : ℚ)
             else s.v_nominal) *
            (if (metric_scan f s.num_drones.toNat).num_alive > 0 then
              (metric_scan f s.num_drones.toNat).sum_v /
                ((metric_scan f s.num_drones.toNat).num_alive : ℚ)
             else s.v_nominal)
         else 0)) := by
  unfold compute_metrics
  simp only [apply_ite Metrics.density, apply_ite Metrics.coverage,
    apply_ite Metrics.avg_speed, apply_ite Metrics.max_gap, apply_ite Metrics.avg_gap,
    apply_ite Metrics.formation_stability, apply_ite Metrics.energy_consumed,
    apply_ite Metrics.speed_stddev, ite_self, and_self]

end FleetSim

namespace FleetSim

theorem metric_scan_all_dead (f : Fleet) (n : Nat)
    (hdead : ∀ i, i < n → (f i).alive = false) :
    metric_scan f n =
      { num_alive := 0, sum_v := 0, sum_v2 := 0, max_gap := 0, sum_gap := 0, gap_count := 0 } := by
  induction n with
  | zero => rfl
  | succ k ih =>
    rw [metric_scan_succ, ih (fun i hi => hdead i (by omega))]
    unfold metric_scan_step
    simp [hdead k (by omega)]

/-- C17. With `num_drones > 0`, the density computed by `compute_metrics` is
the number of living agents divided by `num_drones`, lies in `[0, 1]`, and
the coverage is 100 times the density. -/
theorem compute_metrics_density_range (sqrt : ℚ → ℚ) (f : Fleet) (s : Scenario)
    (m : Metrics) (step step_at_failure recovery_started : Int)
    (hn : 0 < s.num_drones) :
    (compute_metrics sqrt f s m step step_at_failure recovery_started).density =
      (living_count f s.num_drones.toNat : ℚ) / (s.num_drones : ℚ) ∧
    0 ≤ (compute_metrics sqrt f s m step step_at_failure recovery_started).density ∧
    (compute_metrics sqrt f s m step step_at_failure recovery_started).density ≤ 1 ∧
    (compute_metrics sqrt f s m step step_at_failure recovery_started).coverage =
      100 * (compute_metrics sqrt f s m step step_at_failure recovery_started).density := by
  obtain ⟨hd, hc, _⟩ := compute_metrics_fields sqrt f s m step step_at_failure recovery_started
  have hna := (metric_scan_num_alive f s.num_drones.toNat).1
  have hle := living_count_le f s.num_drones.toNat
  have hpos : (0 : ℚ) < (s.num_drones : ℚ) := by exact_mod_cast hn
  have hcast : ((s.num_drones.toNat : Int) : ℚ) = (s.num_drones : ℚ) := by
    rw [Int.toNat_of_nonneg (le_of_lt hn)]
  have hle' : (living_count f s.num_drones.toNat : ℚ) ≤ (s.num_drones : ℚ) := by
    rw [← hcast]
    exact_mod_cast hle
  rw [hc, hd, hna]
  simp only [Int.cast_natCast]
  refine ⟨trivial, ?_, ?_, ?_⟩
  · exact div_nonneg (Nat.cast_nonneg _) (le_of_lt hpos)
  · rw [div_le_one hpos]
    exact hle'
  · norm_num
    ring

/-- C17 on a three-slot fleet with two living agents. -/
theorem compute_metrics_density_range_witness :
    (compute_metrics id (staleFleet 10) (demoScenario 3 30 0) zeroMetrics 0 (-1) 0).density
      = 2 / 3 ∧
    (compute_metrics id (staleFleet 10) (demoScenario 3 30 0) zeroMetrics 0 (-1) 0).coverage
      = 100 * (compute_metrics id (staleFleet 10) (demoScenario 3 30 0) zeroMetrics 0 (-1)
          0).density :=
  ⟨(compute_metrics_density_range id (staleFleet 10) (demoScenario 3 30 0) zeroMetrics 0
      (-1) 0 (by decide)).1.trans (by decide!),
    (compute_metrics_density_range id (staleFleet 10) (demoScenario 3 30 0) zeroMetrics 0
      (-1) 0 (by decide)).2.2.2⟩

/-- C18 as stated fails: with one living agent and `nominal_spacing = 10 > 0`,
`compute_metrics` leaves `formation_stability` at 0, outside `(0, 1]`. -/
theorem formation_stability_zero_when_solo :
    0 < (demoScenario 3 30 0).nominal_spacing ∧
    (compute_metrics id soloFleet (demoScenario 3 30 0) zeroMetrics 0 (-1) 0).formation_stability
      = 0 ∧
    ¬ (0 < (compute_metrics id soloFleet (demoScenario 3 30 0) zeroMetrics 0 (-1)
        0).formation_stability) := by
  decide!

/-- C18 (amended). With `nominal_spacing > 0`: when at least two agents are
living, `formation_stability` lies in `(0, 1]` and equals
`1/(1 + |avg_gap - nominal_spacing|/nominal_spacing)`; when fewer than two
are living it is 0. -/
theorem formation_stability_range (sqrt : ℚ → ℚ) (f : Fleet) (s : Scenario)
    (m : Metrics) (step step_at_failure recovery_started : Int)
    (hnom : 0 < s.nominal_spacing) :
    (2 ≤ living_count f s.num_drones.toNat →
      0 < (compute_metrics sqrt f s m step step_at_failure recovery_started).formation_stability ∧
      (compute_metrics sqrt f s m step step_at_failure recovery_started).formation_stability ≤ 1 ∧
      (compute_metrics sqrt f s m step step_at_failure recovery_started).formation_stability =
        1 / (1 + |(compute_metrics sqrt f s m step step_at_failure recovery_started).avg_gap
              - s.nominal_spacing| / s.nominal_spacing)) ∧
    (living_count f s.num_drones.toNat < 2 →
      (compute_metrics sqrt f s m step step_at_failure recovery_started).formation_stability
        = 0) := by
  obtain ⟨_, _, _, _, hg, hst, _⟩ :=
    compute_metrics_fields sqrt f s m step step_at_failure recovery_started
  have hna := (metric_scan_num_alive f s.num_drones.toNat).1
  rw [← hg] at hst
  constructor
  · intro h2
    have h1 : (metric_scan f s.num_drones.toNat).num_alive > 1 := by rw [hna]; omega
    rw [hst, if_pos h1]
    have hq : 0 ≤ |(compute_metrics sqrt f s m step step_at_failure recovery_started).avg_gap
        - s.nominal_spacing| / s.nominal_spacing := div_nonneg (abs_nonneg _) (le_of_lt hnom)
    refine ⟨?_, ?_, ?_⟩
    · norm_num
      positivity
    · norm_num
      rw [inv_le_one_iff₀]
      right
      linarith
    · norm_num
  · intro h2
    have h1 : ¬ (metric_scan f s.num_drones.toNat).num_alive > 1 := by rw [hna]; omega
    rw [hst, if_neg h1]

/-- C18 (amended) on a fleet with two living agents and on one with a single
living agent. -/
theorem formation_stability_range_witness :
    (0 < (compute_metrics id (staleFleet 10) (demoScenario 3 30 0) zeroMetrics 0 (-1)
        0).formation_stability ∧
      (compute_metrics id (staleFleet 10) (demoScenario 3 30 0) zeroMetrics 0 (-1)
        0).formation_stability ≤ 1) ∧
    (compute_metrics id soloFleet (demoScenario 3 30 0) zeroMetrics 0 (-1)
        0).formation_stability = 0 :=
  ⟨⟨((formation_stability_range id (staleFleet 10) (demoScenario 3 30 0) zeroMetrics 0 (-1) 0
        (by decide!)).1 (by decide)).1,
      ((formation_stability_range id (staleFleet 10) (demoScenario 3 30 0) zeroMetrics 0 (-1) 0
        (by decide!)).1 (by decide)).2.1⟩,
    (formation_stability_range id soloFleet (demoScenario 3 30 0) zeroMetrics 0 (-1) 0
      (by decide!)).2 (by decide)⟩

/-- C19. With `num_drones > 0` and no living agent, `compute_metrics` writes
density 0, coverage 0, avg_speed `v_nominal`, speed_stddev 0 (for a `sqrt`
with `sqrt 0 = 0`), max_gap 0 and avg_gap 0.  The counters `num_alive` and
`gap_count` are 0, so the guarded quotients by them are not taken, and the
divisor of the density is `num_drones ≠ 0`. -/
theorem compute_metrics_no_living (sqrt : ℚ → ℚ) (f : Fleet) (s : Scenario)
    (m : Metrics) (step step_at_failure recovery_started : Int)
    (hn : 0 < s.num_drones) (hsqrt : sqrt 0 = 0)
    (hdead : ∀ i, i < s.num_drones.toNat → (f i).alive = false) :
    (compute_metrics sqrt f s m step step_at_failure recovery_started).density = 0 ∧
    (compute_metrics sqrt f s m step step_at_failure recovery_started).coverage = 0 ∧
    (compute_metrics sqrt f s m step step_at_failure recovery_started).avg_speed
      = s.v_nominal ∧
    (compute_metrics sqrt f s m step step_at_failure recovery_started).speed_stddev = 0 ∧
    (compute_metrics sqrt f s m step step_at_failure recovery_started).max_gap = 0 ∧
    (compute_metrics sqrt f s m step step_at_failure recovery_started).avg_gap = 0 ∧
    (metric_scan f s.num_drones.toNat).num_alive = 0 ∧
    (metric_scan f s.num_drones.toNat).gap_count = 0 ∧
    (s.num_drones : ℚ) ≠ 0 := by
  obtain ⟨h1, h2, h3, h4, h5, _, _, h8⟩ :=
    compute_metrics_fields sqrt f s m step step_at_failure recovery_started
  have hscan := metric_scan_all_dead f s.num_drones.toNat hdead
  have hne : (s.num_drones : ℚ) ≠ 0 := by
    have : (0 : ℚ) < (s.num_drones : ℚ) := by exact_mod_cast hn
    exact ne_of_gt this
  rw [h1, h2, h3, h4, h5, h8, hscan]
  simp [hsqrt, hne]

/-- C19 on an array of three dormant slots. -/
theorem compute_metrics_no_living_witness :
    (compute_metrics id blankFleet (demoScenario 3 30 0) zeroMetrics 0 (-1) 0).density = 0 ∧
    (compute_metrics id blankFleet (demoScenario 3 30 0) zeroMetrics 0 (-1) 0).avg_speed
      = (demoScenario 3 30 0).v_nominal :=
  ⟨(compute_metrics_no_living id blankFleet (demoScenario 3 30 0) zeroMetrics 0 (-1) 0
      (by decide) rfl (by decide)).1,
    (compute_metrics_no_living id blankFleet (demoScenario 3 30 0) zeroMetrics 0 (-1) 0
      (by decide) rfl (by decide)).2.2.1⟩

/-- C20 as stated fails: with two living agents of velocities 1 and 43/50 and
`v_nominal = 1`, `energy_consumed` is 93/50 while `avg_speed / v_nominal` is
93/100. -/
theorem energy_consumed_not_mean :
    1 ≤ living_count (staleFleet 10) 3 ∧ 0 < (demoScenario 3 30 0).v_nominal ∧
    (compute_metrics id (staleFleet 10) (demoScenario 3 30 0) zeroMetrics 0 (-1)
      0).energy_consumed = 93 / 50 ∧
    (compute_metrics id (staleFleet 10) (demoScenario 3 30 0) zeroMetrics 0 (-1)
      0).avg_speed / (demoScenario 3 30 0).v_nominal = 93 / 100 ∧
    (compute_metrics id (staleFleet 10) (demoScenario 3 30 0) zeroMetrics 0 (-1)
      0).energy_consumed ≠
    (compute_metrics id (staleFleet 10) (demoScenario 3 30 0) zeroMetrics 0 (-1)
      0).avg_speed / (demoScenario 3 30 0).v_nominal := by
  decide!

/-- C20 (amended). With at least one living agent and `v_nominal > 0`,
`energy_consumed` is the sum of the velocities of the living agents divided
by `v_nominal`, that is the number of living agents times
`avg_speed / v_nominal`; `avg_speed` is the mean velocity of the living
agents. -/
theorem energy_consumed_sum (sqrt : ℚ → ℚ) (f : Fleet) (s : Scenario)
    (m : Metrics) (step step_at_failure recovery_started : Int)
    (h1 : 1 ≤ living_count f s.num_drones.toNat) (_hv : 0 < s.v_nominal) :
    (compute_metrics sqrt f s m step step_at_failure recovery_started).energy_consumed =
      sum_v_living f s.num_drones.toNat / s.v_nominal ∧
    (compute_metrics sqrt f s m step step_at_failure recovery_started).avg_speed =
      sum_v_living f s.num_drones.toNat / (living_count f s.num_drones.toNat : ℚ) ∧
    (compute_metrics sqrt f s m step step_at_failure recovery_started).energy_consumed =
      (living_count f s.num_drones.toNat : ℚ) *
        ((compute_metrics sqrt f s m step step_at_failure recovery_started).avg_speed
          / s.v_nominal) := by
  obtain ⟨_, _, h3, _, _, _, h7, _⟩ :=
    compute_metrics_fields sqrt f s m step step_at_failure recovery_started
  obtain ⟨hna, hsv⟩ := metric_scan_num_alive f s.num_drones.toNat
  have hpos : (metric_scan f s.num_drones.toNat).num_alive > 0 := by rw [hna]; omega
  have hc : (0 : ℚ) < (living_count f s.num_drones.toNat : ℚ) := by exact_mod_cast h1
  rw [h7, h3, if_pos hpos, hna, hsv]
  simp only [Int.cast_natCast]
  refine ⟨trivial, trivial, ?_⟩
  field_simp
  ring

/-- C20 (amended) on a fleet with two living agents. -/
theorem energy_consumed_sum_witness :
    (compute_metrics id (staleFleet 10) (demoScenario 3 30 0) zeroMetrics 0 (-1)
      0).energy_consumed =
      sum_v_living (staleFleet 10) 3 / (demoScenario 3 30 0).v_nominal :=
  (energy_consumed_sum id (staleFleet 10) (demoScenario 3 30 0) zeroMetrics 0 (-1) 0
    (by decide) (by decide!)).1

end FleetSim

/-! ### `try_insert_spare` -/

namespace FleetSim

theorem spare_scan_succ (f : Fleet) (k : Nat) :
    spare_scan f (k + 1) = spare_scan_step f (spare_scan f k) k := by
  unfold spare_scan
  rw [List.range_succ, List.foldl_append]
  rfl

/-- The counter `num_alive` of `try_insert_spare` is the number of living
slots. -/
theorem spare_scan_num_alive (f : Fleet) (n : Nat) :
    (spare_scan f n).num_alive = (living_count f n : Int) := by
  induction n with
  | zero => rfl
  | succ k ih =>
    rw [spare_scan_succ, living_count_succ]
    unfold spare_scan_step
    by_cases h : (f k).alive = true
    · simp only [h, if_true]
      split_ifs
      · simp only [ih]; push_cast; ring
      · simp only [ih]; push_cast; ring
    · simp only [h, Bool.false_eq_true, if_false]
      simpa using ih

theorem living_count_lt_iff (f : Fleet) (n : Nat) :
    living_count f n < n ↔ ∃ j, j < n ∧ (f j).alive = false := by
  induction n with
  | zero => simp [living_count]
  | succ k ih =>
    rw [living_count_succ]
    have hle := living_count_le f k
    constructor
    · intro h
      by_cases hk : (f k).alive = true
      · rw [if_pos hk] at h
        obtain ⟨j, hj, hd⟩ := ih.mp (by omega)
        exact ⟨j, by omega, hd⟩
      · simp only [Bool.not_eq_true] at hk
        exact ⟨k, by omega, hk⟩
    · rintro ⟨j, hj, hd⟩
      by_cases hk : (f k).alive = true
      · rw [if_pos hk]
        have hjk : j ≠ k := by
          intro e
          rw [e, hk] at hd
          cases hd
        have := ih.mpr ⟨j, by omega, hd⟩
        omega
      · rw [if_neg hk]
        omega

/-- The result of `try_insert_spare` when its guard holds and a dormant slot
exists: the first dormant slot is overwritten and the counter incremented. -/
theorem try_insert_spare_inserts (f : Fleet) (s : Scenario) (k : Int)
    (hden : (living_count f s.num_drones.toNat : ℚ) / (s.num_drones : ℚ)
      < s.density_threshold)
    (hdorm : ∃ j, j < s.num_drones.toNat ∧ (f j).alive = false) :
    ∃ i0, i0 < s.num_drones.toNat ∧ (f i0).alive = false ∧
      (∀ j, j < i0 → (f j).alive = true) ∧
      try_insert_spare f s k = (Function.update f i0 (spare_slot f s i0), k + 1) := by
  have hlt := (living_count_lt_iff f s.num_drones.toNat).mpr hdorm
  obtain ⟨j0, hj0, _⟩ := hdorm
  have hnpos : 0 < s.num_drones := by
    by_contra hc
    have : s.num_drones.toNat = 0 := Int.toNat_eq_zero.mpr (by omega)
    omega
  have hna := spare_scan_num_alive f s.num_drones.toNat
  have hguard : ((spare_scan f s.num_drones.toNat).num_alive : ℚ) / (s.num_drones : ℚ)
      < s.density_threshold ∧
      (spare_scan f s.num_drones.toNat).num_alive < s.num_drones := by
    rw [hna]
    refine ⟨by simpa using hden, ?_⟩
    have : ((s.num_drones.toNat : Nat) : Int) = s.num_drones :=
      Int.toNat_of_nonneg (le_of_lt hnpos)
    omega
  cases hfind : (List.range s.num_drones.toNat).find? (fun i => !(f i).alive) with
  | none =>
    rw [List.find?_range_eq_none] at hfind
    have := hfind j0 hj0
    simp_all
  | some i0 =>
    have hspec := List.find?_range_eq_some.mp hfind
    refine ⟨i0, List.mem_range.mp hspec.2.1, by simpa using hspec.1, ?_, ?_⟩
    · intro j hj
      simpa using hspec.2.2 j hj
    · unfold try_insert_spare
      unfold spare_scan at hguard
      simp only [hguard, and_self, if_true, hfind]
      rfl

/-- The result of `try_insert_spare` when its guard fails or no slot is
dormant: nothing changes. -/
theorem try_insert_spare_skips (f : Fleet) (s : Scenario) (k : Int)
    (h : ¬ ((living_count f s.num_drones.toNat : ℚ) / (s.num_drones : ℚ)
        < s.density_threshold ∧
      ∃ j, j < s.num_drones.toNat ∧ (f j).alive = false)) :
    try_insert_spare f s k = (f, k) := by
  have hna := spare_scan_num_alive f s.num_drones.toNat
  unfold spare_scan at hna
  unfold try_insert_spare
  simp only
  split_ifs with hg
  · rw [hna] at hg
    cases hfind : (List.range s.num_drones.toNat).find? (fun i => !(f i).alive) with
    | none => rfl
    | some i0 =>
      exfalso
      have hspec := List.find?_range_eq_some.mp hfind
      apply h
      refine ⟨by simpa using hg.1, i0, List.mem_range.mp hspec.2.1, by simpa using hspec.1⟩
  · rfl

end FleetSim

namespace FleetSim

theorem living_count_update_alive (f : Fleet) (i0 : Nat) (d : Drone)
    (hdead : (f i0).alive = false) (hd : d.alive = true) (n : Nat) :
    living_count (Function.update f i0 d) n =
      living_count f n + (if i0 < n then 1 else 0) := by
  induction n with
  | zero => simp [living_count]
  | succ k ih =>
    rw [living_count_succ, living_count_succ, ih]
    by_cases h : k = i0
    · subst h
      rw [Function.update_same, hd, hdead]
      simp
    · rw [Function.update_noteq h]
      have h1 : (i0 < k + 1) ↔ (i0 < k) := by omega
      simp only [h1]
      omega

/-- C13. When `try_insert_spare` inserts (its density guard holds and a slot
is dormant), exactly one slot changes: the lowest-index dormant slot `i0`
becomes alive with `v = 0.6*v_nominal`, `state = 1`, `time_in_incoming = 0`
and `phase = 1` (its `y`, `v_nom` and `gap_to_pred` stay), every other slot
is unchanged, `spares_inserted` grows by exactly 1, and the number of living
agents grows by exactly one. -/
theorem try_insert_spare_one_slot (f : Fleet) (s : Scenario) (k : Int)
    (hden : (living_count f s.num_drones.toNat : ℚ) / (s.num_drones : ℚ)
      < s.density_threshold)
    (hdorm : ∃ j, j < s.num_drones.toNat ∧ (f j).alive = false) :
    ∃ i0, i0 < s.num_drones.toNat ∧ (f i0).alive = false ∧
      (∀ j, j < i0 → (f j).alive = true) ∧
      (try_insert_spare f s k).1 i0 =
        { f i0 with
          x := ((try_insert_spare f s k).1 i0).x
          v := 0.6 * s.v_nominal
          alive := true
          state := 1
          time_in_incoming := 0
          phase := 1 } ∧
      (∀ j, j ≠ i0 → (try_insert_spare f s k).1 j = f j) ∧
      (try_insert_spare f s k).2 = k + 1 ∧
      living_count (try_insert_spare f s k).1 s.num_drones.toNat =
        living_count f s.num_drones.toNat + 1 := by
  obtain ⟨i0, hi0, hdead, hlow, heq⟩ := try_insert_spare_inserts f s k hden hdorm
  refine ⟨i0, hi0, hdead, hlow, ?_, ?_, ?_, ?_⟩
  · rw [heq]
    simp only [Function.update_same]
    unfold spare_slot
    norm_num
  · intro j hj
    rw [heq]
    exact Function.update_noteq hj _ _
  · rw [heq]
  · rw [heq]
    simp only
    rw [living_count_update_alive f i0 _ hdead (by rfl), if_pos hi0]

/-- C13 on a three-slot fleet whose slot 2 is dormant (density 2/3 below the
threshold 0.9). -/
theorem try_insert_spare_one_slot_witness :
    ∃ i0, i0 < 3 ∧ (staleFleet 10 i0).alive = false ∧
      (∀ j, j ≠ i0 →
        (try_insert_spare (staleFleet 10) (demoScenario 3 30 0) 0).1 j = staleFleet 10 j) ∧
      (try_insert_spare (staleFleet 10) (demoScenario 3 30 0) 0).2 = 1 := by
  obtain ⟨i0, h1, h2, _, _, h5, h6, _⟩ :=
    try_insert_spare_one_slot (staleFleet 10) (demoScenario 3 30 0) 0 (by decide!)
      ⟨2, by decide, by decide⟩
  exact ⟨i0, h1, h2, h5, h6⟩

/-- C14. `try_insert_spare` inserts (increments `spares_inserted` and revives
a dormant slot) if and only if the living fraction `living / num_drones` is
strictly below `density_threshold` and at least one slot is dormant; when
that condition fails, the fleet and `spares_inserted` are unchanged. -/
theorem try_insert_spare_iff (f : Fleet) (s : Scenario) (k : Int) :
    ((try_insert_spare f s k).2 = k + 1 ↔
      ((living_count f s.num_drones.toNat : ℚ) / (s.num_drones : ℚ) < s.density_threshold ∧
        ∃ j, j < s.num_drones.toNat ∧ (f j).alive = false)) ∧
    (((living_count f s.num_drones.toNat : ℚ) / (s.num_drones : ℚ) < s.density_threshold ∧
        ∃ j, j < s.num_drones.toNat ∧ (f j).alive = false) →
      ∃ i0, i0 < s.num_drones.toNat ∧ (f i0).alive = false ∧
        ((try_insert_spare f s k).1 i0).alive = true) ∧
    (¬ ((living_count f s.num_drones.toNat : ℚ) / (s.num_drones : ℚ) < s.density_threshold ∧
        ∃ j, j < s.num_drones.toNat ∧ (f j).alive = false) →
      try_insert_spare f s k = (f, k)) := by
  refine ⟨⟨?_, ?_⟩, ?_, ?_⟩
  · intro h
    by_contra hc
    rw [try_insert_spare_skips f s k hc] at h
    simp only at h
    omega
  · rintro ⟨hden, hdorm⟩
    obtain ⟨i0, _, _, _, heq⟩ := try_insert_spare_inserts f s k hden hdorm
    rw [heq]
  · rintro ⟨hden, hdorm⟩
    obtain ⟨i0, hi0, hdead, _, heq⟩ := try_insert_spare_inserts f s k hden hdorm
    refine ⟨i0, hi0, hdead, ?_⟩
    rw [heq]
    simp only [Function.update_same]
    rfl
  · exact try_insert_spare_skips f s k

/-- C14 on a fleet with a dormant slot and density 2/3 < 0.9 (insertion) and
on a fully living fleet (no insertion). -/
theorem try_insert_spare_iff_witness :
    (try_insert_spare (staleFleet 10) (demoScenario 3 30 0) 0).2 = 0 + 1 ∧
    try_insert_spare (pairFleet 0) (demoScenario 2 100 0) 0 = (pairFleet 0, 0) :=
  ⟨(try_insert_spare_iff (staleFleet 10) (demoScenario 3 30 0) 0).1.mpr
      ⟨by decide!, 2, by decide, by decide⟩,
    (try_insert_spare_iff (pairFleet 0) (demoScenario 2 100 0) 0).2.2
      (by
        rintro ⟨_, j, hj, hd⟩
        have hj2 : j < 2 := hj
        interval_cases j
        · exact absurd hd (by decide)
        · exact absurd hd (by decide))⟩

end FleetSim

/-! ### `inject_failure` -/

namespace FleetSim

theorem tmod_range (a b : Int) (ha : 0 ≤ a) (hb : 0 < b) :
    0 ≤ Int.tmod a b ∧ Int.tmod a b < b :=
  ⟨Int.tmod_nonneg b ha, Int.tmod_lt_of_pos a hb⟩

theorem rand_nonneg (r : Rng) : (0 : Int) ≤ ((rand r).1 : Int) := Int.ofNat_nonneg _

/-- What the retry loop of the RANDOM mode returns: `-1`, or an index in
range that passed the test `alive && state == 0`. -/
theorem pick_random_spec (f : Fleet) (nd : Int) (hnd : 0 < nd) :
    ∀ (k : Nat) (r : Rng),
    (pick_random f nd k r).1 = -1 ∨
    (0 ≤ (pick_random f nd k r).1 ∧ (pick_random f nd k r).1 < nd ∧
      is_target f (pick_random f nd k r).1 = true) := by
  intro k
  induction k with
  | zero => intro r; left; rfl
  | succ k ih =>
    intro r
    unfold pick_random
    simp only
    split_ifs with h
    · right
      obtain ⟨h1, h2⟩ := tmod_range ((rand r).1 : Int) nd (rand_nonneg r) hnd
      exact ⟨h1, h2, h⟩
    · exact ih _

theorem pick_clustered_spec (f : Fleet) (nd c rad : Int) (hnd : 0 < nd)
    (hrad : 0 ≤ rad) (hc : rad ≤ c + nd) :
    ∀ (k : Nat) (r : Rng),
    (pick_clustered f nd c rad k r).1 = -1 ∨
    (0 ≤ (pick_clustered f nd c rad k r).1 ∧ (pick_clustered f nd c rad k r).1 < nd ∧
      is_target f (pick_clustered f nd c rad k r).1 = true) := by
  intro k
  induction k with
  | zero => intro r; left; rfl
  | succ k ih =>
    intro r
    unfold pick_clustered
    simp only
    split_ifs with h
    · right
      have ho := (tmod_range ((rand r).1 : Int) (2 * rad + 1) (rand_nonneg r) (by omega)).1
      obtain ⟨h1, h2⟩ := tmod_range
        (c + (Int.tmod ((rand r).1 : Int) (2 * rad + 1) - rad) + nd) nd (by omega) hnd
      exact ⟨h1, h2, h⟩
    · exact ih _

theorem pick_cascade_spec (f : Fleet) (nd : Int) (hnd : 0 < nd) :
    ∀ (k : Nat) (r : Rng),
    (pick_cascade f nd k r).1 = -1 ∨
    (0 ≤ (pick_cascade f nd k r).1 ∧ (pick_cascade f nd k r).1 < nd ∧
      is_target f (pick_cascade f nd k r).1 = true) := by
  intro k
  induction k with
  | zero => intro r; left; rfl
  | succ k ih =>
    intro r
    unfold pick_cascade
    simp only
    obtain ⟨i1, i2⟩ := tmod_range ((rand r).1 : Int) nd (rand_nonneg r) hnd
    split_ifs with h0 h1 h2
    · right
      obtain ⟨a1, a2⟩ := tmod_range (Int.tmod ((rand r).1 : Int) nd + 1) nd (by omega) hnd
      exact ⟨a1, a2, h1⟩
    · right
      obtain ⟨a1, a2⟩ := tmod_range (Int.tmod ((rand r).1 : Int) nd - 1 + nd) nd
        (by omega) hnd
      exact ⟨a1, a2, h2⟩
    · exact ih _
    · exact ih _

/-- The `target_idx` chosen by the `switch` of `inject_failure`, in every
mode: `-1`, or the index of a slot in range that is alive and in state 0. -/
theorem choose_target_spec (f : Fleet) (s : Scenario) (step : Int) (r : Rng)
    (hn : 0 < s.num_drones) :
    (choose_target f s step r).1 = -1 ∨
    (0 ≤ (choose_target f s step r).1 ∧ (choose_target f s step r).1 < s.num_drones ∧
      is_target f (choose_target f s step r).1 = true) := by
  unfold choose_target
  simp only
  split_ifs with h0 h1 h2 h3 h4
  · exact pick_random_spec f _ hn _ _
  · have hc := (tmod_range ((rand r).1 : Int) s.num_drones (rand_nonneg r) hn).1
    have hr0 : 0 ≤ Int.tdiv s.num_drones 5 := Int.tdiv_nonneg (le_of_lt hn) (by decide)
    have hr1 : Int.tdiv s.num_drones 5 ≤ s.num_drones := by
      rw [Int.tdiv_eq_ediv (le_of_lt hn) (by decide)]
      exact Int.ediv_le_self 5 (le_of_lt hn)
    exact pick_clustered_spec f _ _ _ hn hr0 (by omega) _ _
  · exact pick_random_spec f _ hn _ _
  · rcases pick_cascade_spec f s.num_drones hn 100 (uniform_random 0 1 r).2 with h | h
    · rw [h] at h4
      exact absurd h4 (by decide)
    · exact Or.inr h
  · left; rfl
  · exact pick_random_spec f _ hn _ _

/-- C16. For every distribution mode, step and random stream (with
`num_drones > 0`), `inject_failure` either leaves the fleet and
`failures_injected` as they are, or clears `alive` on exactly one slot in
range that was alive and in state 0, changes nothing else in the fleet, and
adds exactly 1 to `failures_injected`.  With `failures_injected ≥
num_failures` on entry it is the no-op, so a counter that is at most
`num_failures` stays at most `num_failures`. -/
theorem inject_failure_effect (f : Fleet) (s : Scenario) (k step : Int) (r : Rng)
    (hn : 0 < s.num_drones) :
    (((inject_failure f s k step r).1 = f ∧ (inject_failure f s k step r).2.1 = k) ∨
      (∃ t, t < s.num_drones.toNat ∧ (f t).alive = true ∧ (f t).state = 0 ∧
        (inject_failure f s k step r).1 = Function.update f t { f t with alive := false } ∧
        (inject_failure f s k step r).2.1 = k + 1)) ∧
    (k ≥ s.num_failures →
      (inject_failure f s k step r).1 = f ∧ (inject_failure f s k step r).2.1 = k) ∧
    (k ≤ s.num_failures → (inject_failure f s k step r).2.1 ≤ s.num_failures) := by
  by_cases hk : k ≥ s.num_failures
  · have e : inject_failure f s k step r = (f, k, r) := by
      unfold inject_failure
      rw [if_pos hk]
    rw [e]
    exact ⟨Or.inl ⟨rfl, rfl⟩, fun _ => ⟨rfl, rfl⟩, fun h => h⟩
  · by_cases ht : (choose_target f s step r).1 ≥ 0
    · have e : inject_failure f s k step r =
          (Function.update f (choose_target f s step r).1.toNat
            { f (choose_target f s step r).1.toNat with alive := false },
            k + 1, (choose_target f s step r).2) := by
        unfold inject_failure
        rw [if_neg hk]
        exact if_pos ht
      rw [e]
      refine ⟨Or.inr ?_, fun h => absurd h hk, fun _ => ?_⟩
      · rcases choose_target_spec f s step r hn with h | ⟨h1, h2, h3⟩
        · rw [h] at ht
          exact absurd ht (by decide)
        · unfold is_target at h3
          simp only [Bool.and_eq_true, decide_eq_true_eq] at h3
          refine ⟨(choose_target f s step r).1.toNat, ?_, h3.1, h3.2, rfl, rfl⟩
          omega
      · show k + 1 ≤ s.num_failures
        omega
    · have e : inject_failure f s k step r = (f, k, (choose_target f s step r).2) := by
        unfold inject_failure
        rw [if_neg hk]
        exact if_neg ht
      rw [e]
      refine ⟨Or.inl ⟨rfl, rfl⟩, fun h => absurd h hk, fun _ => ?_⟩
      show k ≤ s.num_failures
      omega

/-- C16 on a three-slot fleet with a budget of one failure: the counter stays
within the budget. -/
theorem inject_failure_effect_witness :
    (inject_failure (staleFleet 10) { demoScenario 3 30 0 with num_failures := 1 } 0 200
      (fun _ => 1)).2.1 ≤ 1 :=
  (inject_failure_effect (staleFleet 10) { demoScenario 3 30 0 with num_failures := 1 } 0 200
    (fun _ => 1) (by decide)).2.2 (by decide)

end FleetSim

/-! ### Spare position, joining transition, position range -/

namespace FleetSim

/-- C15 (evaluation at the failing input). Living agents at 0, 10, 20 on a
ring of perimeter 40, slot 3 dormant.  The gap pass gives agent `j = 1` the
largest gap `g = 30`, measured to its living predecessor `p = 0`, that is
the arc from `x[j] = 10` forward to `x[p] = 0 (= 40)`, whose midpoint is 25.
`try_insert_spare` puts the spare at 35: at arc distance `g/2 = 15` from
`x[j]`, but at arc distances 5 and 35 from `x[p]`, neither of which is
`g/2`. -/
theorem spare_not_at_gap_midpoint :
    (spare_scan (gap_pass (demoScenario 4 40 0) wideFleet) 4).max_gap_idx = 1 ∧
    (spare_scan (gap_pass (demoScenario 4 40 0) wideFleet) 4).max_gap = 30 ∧
    find_pred wideFleet 4 1 = 0 ∧
    ((try_insert_spare (gap_pass (demoScenario 4 40 0) wideFleet)
        (demoScenario 4 40 0) 0).1 3).alive = true ∧
    ((try_insert_spare (gap_pass (demoScenario 4 40 0) wideFleet)
        (demoScenario 4 40 0) 0).1 3).x = 35 ∧
    fmod ((wideFleet 1).x - 35 + 40) 40 = 15 ∧
    fmod ((wideFleet 0).x - 35 + 40) 40 = 5 ∧
    fmod (35 - (wideFleet 0).x + 40) 40 = 35 := by
  decide!

end FleetSim

namespace FleetSim

theorem joining_cmd_fields (s : Scenario) (d : Drone) (g1 g2 : ℚ) :
    (joining_cmd s d g1 g2).1.gap_to_pred = d.gap_to_pred ∧
    (joining_cmd s d g1 g2).1.time_in_incoming = d.time_in_incoming + 0.1 ∧
    (joining_cmd s d g1 g2).1.x = d.x := by
  unfold joining_cmd
  simp only
  split_ifs <;> exact ⟨rfl, rfl, rfl⟩

theorem agent_cmd_joining (s : Scenario) (g : Fleet) (i : Nat) (h : (g i).state ≠ 0) :
    agent_cmd s g i =
      joining_cmd s (g i) (g i).gap_to_pred
        (g ((i + 1) % s.num_drones.toNat)).gap_to_pred := by
  unfold agent_cmd
  simp only
  rw [if_neg h]

theorem agent_cmd_gap (s : Scenario) (g : Fleet) (i : Nat) :
    (agent_cmd s g i).1.gap_to_pred = (g i).gap_to_pred ∧
    (agent_cmd s g i).1.x = (g i).x := by
  unfold agent_cmd
  simp only
  split
  · exact ⟨rfl, rfl⟩
  · exact ⟨(joining_cmd_fields _ _ _ _).1, (joining_cmd_fields _ _ _ _).2.2⟩

theorem velocity_pass_step_gap (s : Scenario) (dt : ℚ) (f : Fleet) (i j : Nat) :
    (velocity_pass_step s dt f i j).gap_to_pred = (f j).gap_to_pred := by
  unfold velocity_pass_step
  simp only
  split
  · rfl
  · by_cases h : j = i
    · subst h
      rw [Function.update_same]
      exact (agent_cmd_gap s f j).1
    · rw [Function.update_noteq h]

theorem velocity_pass_step_x (s : Scenario) (dt : ℚ) (f : Fleet) (i j : Nat) :
    (velocity_pass_step s dt f i j).x = (f j).x := by
  unfold velocity_pass_step
  simp only
  split
  · rfl
  · by_cases h : j = i
    · subst h
      rw [Function.update_same]
      exact (agent_cmd_gap s f j).2
    · rw [Function.update_noteq h]

theorem velocity_pass_step_self_fields (s : Scenario) (dt : ℚ) (g : Fleet) (i : Nat)
    (hal : (g i).alive = true) :
    (velocity_pass_step s dt g i i).state = (agent_cmd s g i).1.state ∧
    (velocity_pass_step s dt g i i).time_in_incoming =
      (agent_cmd s g i).1.time_in_incoming := by
  unfold velocity_pass_step
  simp [hal]

theorem gap_pass_step_keeps (s : Scenario) (f : Fleet) (i j : Nat) :
    (gap_pass_step s f i j).state = (f j).state ∧
    (gap_pass_step s f i j).time_in_incoming = (f j).time_in_incoming ∧
    (gap_pass_step s f i j).x = (f j).x := by
  unfold gap_pass_step
  simp only
  split
  · exact ⟨rfl, rfl, rfl⟩
  · by_cases h : j = i
    · subst h; simp
    · rw [Function.update_noteq h]
      exact ⟨rfl, rfl, rfl⟩

theorem transition_pass_step_local (s : Scenario) (f : Fleet) (i j : Nat) (h : j ≠ i) :
    transition_pass_step s f i j = f j := by
  unfold transition_pass_step
  simp only
  split_ifs
  · rfl
  · rw [Function.update_noteq h]
  · rfl
  · rfl

theorem transition_pass_step_keeps (s : Scenario) (f : Fleet) (i j : Nat) :
    (transition_pass_step s f i j).gap_to_pred = (f j).gap_to_pred ∧
    (transition_pass_step s f i j).time_in_incoming = (f j).time_in_incoming ∧
    (transition_pass_step s f i j).x = (f j).x := by
  unfold transition_pass_step
  simp only
  split_ifs
  · exact ⟨rfl, rfl, rfl⟩
  · by_cases h : j = i
    · subst h; simp
    · rw [Function.update_noteq h]
      exact ⟨rfl, rfl, rfl⟩
  · exact ⟨rfl, rfl, rfl⟩
  · exact ⟨rfl, rfl, rfl⟩

theorem move_pass_step_keeps (s : Scenario) (dt : ℚ) (f : Fleet) (i j : Nat) :
    (move_pass_step s dt f i j).gap_to_pred = (f j).gap_to_pred ∧
    (move_pass_step s dt f i j).time_in_incoming = (f j).time_in_incoming ∧
    (move_pass_step s dt f i j).state = (f j).state := by
  unfold move_pass_step
  split
  · exact ⟨rfl, rfl, rfl⟩
  · by_cases h : j = i
    · subst h; simp
    · rw [Function.update_noteq h]
      exact ⟨rfl, rfl, rfl⟩

/-- After the gap pass no pass of `update_drone_positions` writes
`gap_to_pred`. -/
theorem update_drone_positions_gap (f : Fleet) (s : Scenario) (dt : ℚ) (j : Nat) :
    (update_drone_positions f s dt j).gap_to_pred = (gap_pass s f j).gap_to_pred := by
  unfold update_drone_positions move_pass transition_pass velocity_pass
  rw [fold_list_field (fun d => d.gap_to_pred) _
      (fun f i j => (move_pass_step_keeps s dt f i j).1),
    fold_list_field (fun d => d.gap_to_pred) _
      (fun f i j => (transition_pass_step_keeps s f i j).1),
    fold_list_field (fun d => d.gap_to_pred) _ (velocity_pass_step_gap s dt)]

end FleetSim

namespace FleetSim

/-- Slot `i` as iteration `i` of the second pass finds it: only its
`gap_to_pred` differs from the slot on entry. -/
theorem before_velocity_step_self (f : Fleet) (s : Scenario) (dt : ℚ) (i : Nat) :
    (before_velocity_step f s dt i i).state = (f i).state ∧
    (before_velocity_step f s dt i i).time_in_incoming = (f i).time_in_incoming := by
  unfold before_velocity_step
  rw [fold_range_apply _ (velocity_pass_step_local s dt), if_neg (lt_irrefl i)]
  unfold gap_pass
  exact ⟨fold_list_field (fun d => d.state) _
      (fun f i j => (gap_pass_step_keeps s f i j).1) _ f i,
    fold_list_field (fun d => d.time_in_incoming) _
      (fun f i j => (gap_pass_step_keeps s f i j).2.1) _ f i⟩

theorem before_velocity_step_gap (f : Fleet) (s : Scenario) (dt : ℚ) (i j : Nat) :
    (before_velocity_step f s dt i j).gap_to_pred = (gap_pass s f j).gap_to_pred := by
  unfold before_velocity_step
  rw [fold_list_field (fun d => d.gap_to_pred) _ (velocity_pass_step_gap s dt)]

end FleetSim

namespace FleetSim

/-- For a non-negative argument and a positive modulus, `fmod` lands in
`[0, modulus)`. -/
theorem fmod_range (a p : ℚ) (ha : 0 ≤ a) (hp : 0 < p) :
    0 ≤ fmod a p ∧ fmod a p < p := by
  unfold fmod truncQ
  have hq : 0 ≤ a / p := div_nonneg ha (le_of_lt hp)
  rw [if_pos hq]
  have h1 : ((⌊a / p⌋ : ℤ) : ℚ) ≤ a / p := Int.floor_le _
  have h2 : a / p < ((⌊a / p⌋ : ℤ) : ℚ) + 1 := Int.lt_floor_add_one _
  have e : a = p * (a / p) := by field_simp
  constructor
  · have : p * ((⌊a / p⌋ : ℤ) : ℚ) ≤ p * (a / p) :=
      mul_le_mul_of_nonneg_left h1 (le_of_lt hp)
    linarith
  · have : p * (a / p) < p * (((⌊a / p⌋ : ℤ) : ℚ) + 1) :=
      mul_lt_mul_of_pos_left h2 hp
    linarith

theorem initialize_fleet_x (f0 : Fleet) (s : Scenario) (i : Nat)
    (hi : i < s.num_drones.toNat) :
    (initialize_fleet f0 s i).x = fmod ((i : ℚ) * s.nominal_spacing) s.perimeter := by
  unfold initialize_fleet
  rw [fold_range_apply _ (fun f i j h => Function.update_noteq h _ _), if_pos hi,
    Function.update_same]

theorem inject_failure_x (f : Fleet) (s : Scenario) (k step : Int) (r : Rng) (j : Nat) :
    ((inject_failure f s k step r).1 j).x = (f j).x := by
  unfold inject_failure
  by_cases h1 : k ≥ s.num_failures
  · rw [if_pos h1]
  · rw [if_neg h1]
    by_cases h2 : (choose_target f s step r).1 ≥ 0
    · simp only [if_pos h2]
      by_cases h : j = (choose_target f s step r).1.toNat
      · rw [h, Function.update_same]
      · rw [Function.update_noteq h]
    · simp only [if_neg h2]

theorem move_pass_step_local (s : Scenario) (dt : ℚ) (f : Fleet) (i j : Nat) (h : j ≠ i) :
    move_pass_step s dt f i j = f j := by
  unfold move_pass_step
  split
  · rfl
  · rw [Function.update_noteq h]

theorem move_pass_step_x_self (s : Scenario) (dt : ℚ) (g : Fleet) (i : Nat) :
    (move_pass_step s dt g i i).x =
      if (g i).alive = true then fmod ((g i).x + (g i).v * dt) s.perimeter else (g i).x := by
  unfold move_pass_step
  by_cases hal : (g i).alive = true
  · simp [hal]
  · simp only [Bool.not_eq_true] at hal
    simp [hal]

/-- The position written for slot `i` by one call: the fourth pass advances a
living agent by its new velocity. -/
theorem update_drone_positions_x (f : Fleet) (s : Scenario) (dt : ℚ) (i : Nat)
    (hi : i < s.num_drones.toNat) :
    (update_drone_positions f s dt i).x =
      if (f i).alive = true then
        fmod ((f i).x + (update_drone_positions f s dt i).v * dt) s.perimeter
      else (f i).x := by
  have hv : (update_drone_positions f s dt i).v =
      (transition_pass s (velocity_pass s dt (gap_pass s f)) i).v := by
    unfold update_drone_positions move_pass
    rw [fold_list_field (fun d => d.v) _ (move_pass_step_v s dt)]
  have hx3 : (transition_pass s (velocity_pass s dt (gap_pass s f)) i).x = (f i).x := by
    unfold transition_pass velocity_pass gap_pass
    rw [fold_list_field (fun d => d.x) _
        (fun f i j => (transition_pass_step_keeps s f i j).2.2),
      fold_list_field (fun d => d.x) _ (velocity_pass_step_x s dt),
      fold_list_field (fun d => d.x) _ (fun f i j => (gap_pass_step_keeps s f i j).2.2)]
  have ha3 : (transition_pass s (velocity_pass s dt (gap_pass s f)) i).alive
      = (f i).alive := by
    unfold transition_pass velocity_pass gap_pass
    rw [fold_list_field (fun d => d.alive) _ (transition_pass_step_alive s),
      fold_list_field (fun d => d.alive) _ (velocity_pass_step_alive s dt),
      fold_list_field (fun d => d.alive) _ (gap_pass_step_alive s)]
  rw [hv]
  unfold update_drone_positions move_pass
  rw [fold_range_apply _ (move_pass_step_local s dt), if_pos hi, move_pass_step_x_self,
    fold_range_apply _ (move_pass_step_local s dt), if_neg (lt_irrefl i), hx3, ha3]

theorem gap_pass_step_gap_self (s : Scenario) (g : Fleet) (i : Nat)
    (hal : (g i).alive = true) :
    (gap_pass_step s g i i).gap_to_pred =
      fmod ((g (find_pred g s.num_drones.toNat i)).x - (g i).x + s.perimeter)
        s.perimeter := by
  unfold gap_pass_step
  simp [hal]

/-- With all positions in `[0, perimeter)`, the gap pass gives every living
agent a gap in `[0, perimeter)`. -/
theorem gap_pass_gap_range (f : Fleet) (s : Scenario) (hp : 0 < s.perimeter)
    (hx : ∀ j, j < s.num_drones.toNat → 0 ≤ (f j).x ∧ (f j).x < s.perimeter)
    (i : Nat) (hi : i < s.num_drones.toNat) (hal : (f i).alive = true) :
    0 ≤ (gap_pass s f i).gap_to_pred ∧ (gap_pass s f i).gap_to_pred < s.perimeter := by
  have hGx : ∀ j, (((List.range i).foldl (gap_pass_step s) f) j).x = (f j).x :=
    fun j => fold_list_field (fun d => d.x) _
      (fun f i j => (gap_pass_step_keeps s f i j).2.2) _ f j
  have hGa : (((List.range i).foldl (gap_pass_step s) f) i).alive = true := by
    rw [fold_list_field (fun d => d.alive) _ (gap_pass_step_alive s)]
    exact hal
  unfold gap_pass
  rw [fold_range_apply _ (gap_pass_step_local s), if_pos hi,
    gap_pass_step_gap_self s _ i hGa, hGx, hGx]
  obtain ⟨hlt, _⟩ := find_pred_exit ((List.range i).foldl (gap_pass_step s) f)
    s.num_drones.toNat i hi
  have h1 := hx _ hlt
  have h2 := hx i hi
  exact fmod_range _ _ (by linarith) hp

/-- What the first loop of `try_insert_spare` leaves in `max_gap` and
`max_gap_idx`. -/
theorem spare_scan_max (f : Fleet) (n : Nat) :
    0 ≤ (spare_scan f n).max_gap ∧
    ((spare_scan f n).max_gap_idx = 0 ∨ (spare_scan f n).max_gap_idx < n) ∧
    ((spare_scan f n).max_gap = 0 ∨
      ∃ j, j < n ∧ (f j).alive = true ∧ (f j).gap_to_pred = (spare_scan f n).max_gap) := by
  induction n with
  | zero => exact ⟨le_refl _, Or.inl rfl, Or.inl rfl⟩
  | succ k ih =>
    obtain ⟨h1, h2, h3⟩ := ih
    rw [spare_scan_succ]
    unfold spare_scan_step
    by_cases hal : (f k).alive = true
    · simp only [hal, if_true]
      split_ifs with hg
      · refine ⟨le_of_lt (lt_of_le_of_lt h1 hg), Or.inr (Nat.lt_succ_self k),
          Or.inr ⟨k, Nat.lt_succ_self k, hal, rfl⟩⟩
      · refine ⟨h1, ?_, ?_⟩
        · rcases h2 with h | h
          · exact Or.inl h
          · exact Or.inr (Nat.lt_succ_of_lt h)
        · rcases h3 with h | ⟨j, hj, ha, hgj⟩
          · exact Or.inl h
          · exact Or.inr ⟨j, Nat.lt_succ_of_lt hj, ha, hgj⟩
    · simp only [hal, Bool.false_eq_true, if_false]
      refine ⟨h1, ?_, ?_⟩
      · rcases h2 with h | h
        · exact Or.inl h
        · exact Or.inr (Nat.lt_succ_of_lt h)
      · rcases h3 with h | ⟨j, hj, ha, hgj⟩
        · exact Or.inl h
        · exact Or.inr ⟨j, Nat.lt_succ_of_lt hj, ha, hgj⟩

/-- The two outcomes of `try_insert_spare`. -/
theorem try_insert_spare_cases (f : Fleet) (s : Scenario) (k : Int) :
    (try_insert_spare f s k).1 = f ∨
    ∃ i0, i0 < s.num_drones.toNat ∧ (f i0).alive = false ∧
      (try_insert_spare f s k).1 = Function.update f i0 (spare_slot f s i0) := by
  by_cases h : (living_count f s.num_drones.toNat : ℚ) / (s.num_drones : ℚ)
        < s.density_threshold ∧
      ∃ j, j < s.num_drones.toNat ∧ (f j).alive = false
  · obtain ⟨i0, hi0, hdead, _, heq⟩ := try_insert_spare_inserts f s k h.1 h.2
    exact Or.inr ⟨i0, hi0, hdead, by rw [heq]⟩
  · left
    rw [try_insert_spare_skips f s k h]

/-- The position of the spare is in `[0, perimeter)` when the positions are
and the gaps of the living agents are. -/
theorem spare_slot_x_range (f : Fleet) (s : Scenario) (hp : 0 < s.perimeter)
    (hx : SlotsInRange s f) (hg : GapsInRange s f) (i0 : Nat)
    (hi0 : i0 < s.num_drones.toNat) :
    0 ≤ (spare_slot f s i0).x ∧ (spare_slot f s i0).x < s.perimeter := by
  obtain ⟨m0, midx, mgap⟩ := spare_scan_max f s.num_drones.toNat
  have hidx : (spare_scan f s.num_drones.toNat).max_gap_idx < s.num_drones.toNat := by
    rcases midx with h | h
    · rw [h]; omega
    · exact h
  have hxj := hx _ hidx
  have hmax : (spare_scan f s.num_drones.toNat).max_gap < s.perimeter := by
    rcases mgap with h | ⟨j, hj, ha, hgj⟩
    · rw [h]; exact hp
    · rw [← hgj]; exact (hg j hj ha).2
  unfold spare_slot
  simp only
  apply fmod_range _ _ _ hp
  norm_num
  linarith [hxj.1]

/-- The invariant of the loop of `simulate_scenario`: positions in
`[0, perimeter)` and velocities non-negative at every point, gaps of the
living agents in `[0, perimeter)` after `update_drone_positions`. -/
theorem simReach_inv (s : Scenario) (hp : 0 < s.perimeter) (hsp : 0 ≤ s.nominal_spacing)
    (hv0 : 0 ≤ s.v_nominal) (pt : LoopPoint) (f : Fleet) (hr : SimReach s pt f) :
    SlotsInRange s f ∧ (pt = LoopPoint.updated → GapsInRange s f) := by
  induction hr with
  | init f0 =>
    refine ⟨?_, fun h => by cases h⟩
    intro i hi
    rw [initialize_fleet_x f0 s i hi, initialize_fleet_v f0 s i hi]
    have := fmod_range ((i : ℚ) * s.nominal_spacing) s.perimeter
      (mul_nonneg (Nat.cast_nonneg _) hsp) hp
    exact ⟨this.1, this.2, hv0⟩
  | inject f k step r _ ih =>
    refine ⟨?_, fun h => by cases h⟩
    intro i hi
    rw [inject_failure_x, inject_failure_v]
    exact ih.1 i hi
  | no_inject f _ ih =>
    exact ⟨ih.1, fun h => by cases h⟩
  | update f dt hdt _ ih =>
    have hvn : ∀ i, i < s.num_drones.toNat → 0 ≤ (update_drone_positions f s dt i).v := by
      intro i hi
      rw [update_drone_positions_v f s dt i hi]
      split
      · obtain ⟨_, h2, _⟩ := ramp_velocity_bounds (f i).v
          (clamp_cmd s (agent_cmd s (before_velocity_step f s dt i) i).2) dt hdt
        have hc : 0 ≤ clamp_cmd s (agent_cmd s (before_velocity_step f s dt i) i).2 :=
          le_max_left _ _
        exact le_trans (le_min (ih.1 i hi).2.2 hc) h2
      · exact (ih.1 i hi).2.2
    constructor
    · intro i hi
      refine ⟨?_, ?_, hvn i hi⟩
      · rw [update_drone_positions_x f s dt i hi]
        split
        · exact (fmod_range _ _
            (add_nonneg (ih.1 i hi).1 (mul_nonneg (hvn i hi) hdt)) hp).1
        · exact (ih.1 i hi).1
      · rw [update_drone_positions_x f s dt i hi]
        split
        · exact (fmod_range _ _
            (add_nonneg (ih.1 i hi).1 (mul_nonneg (hvn i hi) hdt)) hp).2
        · exact (ih.1 i hi).2.1
    · intro _ i hi hal
      rw [update_drone_positions_alive] at hal
      rw [update_drone_positions_gap]
      exact gap_pass_gap_range f s hp (fun j hj => ⟨(ih.1 j hj).1, (ih.1 j hj).2.1⟩) i hi hal
  | insert f k _ ih =>
    refine ⟨?_, fun h => by cases h⟩
    obtain ⟨hx, hg⟩ := ih
    have hg := hg rfl
    intro i hi
    rcases try_insert_spare_cases f s k with h | ⟨i0, hi0, _, h⟩
    · rw [h]; exact hx i hi
    · rw [h]
      by_cases hii : i = i0
      · subst hii
        rw [Function.update_same]
        obtain ⟨a, b⟩ := spare_slot_x_range f s hp hx hg i hi
        refine ⟨a, b, ?_⟩
        unfold spare_slot
        simp only
        positivity
      · rw [Function.update_noteq hii]
        exact hx i hi

/-- C11. If `perimeter > 0`, `nominal_spacing ≥ 0` and `0 ≤ v_nominal ≤ v_max`,
then at every point of the loop of `simulate_scenario` (after
`initialize_fleet`, after `inject_failure`, after `update_drone_positions`
with `dt ≥ 0`, after `try_insert_spare`) every living agent has its position
in `[0, perimeter)`; a spare is living right after its insertion, so this
covers the position it is given. -/
theorem simReach_position_range (s : Scenario) (hp : 0 < s.perimeter)
    (hsp : 0 ≤ s.nominal_spacing) (hv0 : 0 ≤ s.v_nominal) (_hv1 : s.v_nominal ≤ s.v_max)
    (pt : LoopPoint) (f : Fleet) (hr : SimReach s pt f) (i : Nat)
    (hi : i < s.num_drones.toNat) (_hal : (f i).alive = true) :
    0 ≤ (f i).x ∧ (f i).x < s.perimeter :=
  ⟨((simReach_inv s hp hsp hv0 pt f hr).1 i hi).1,
    ((simReach_inv s hp hsp hv0 pt f hr).1 i hi).2.1⟩

/-- C11 at the spare that `try_insert_spare` revives in slot 3 after the
first update of a ring of capacity 4 with 3 active agents. -/
theorem simReach_position_range_witness :
    ((try_insert_spare
        (update_drone_positions (initialize_fleet blankFleet spareScenario) spareScenario
          (1/10)) spareScenario 0).1 3).alive = true ∧
    0 ≤ ((try_insert_spare
        (update_drone_positions (initialize_fleet blankFleet spareScenario) spareScenario
          (1/10)) spareScenario 0).1 3).x ∧
    ((try_insert_spare
        (update_drone_positions (initialize_fleet blankFleet spareScenario) spareScenario
          (1/10)) spareScenario 0).1 3).x < spareScenario.perimeter :=
  ⟨by decide!,
    simReach_position_range spareScenario (by decide!) (by decide!) (by decide!)
      (by decide!) LoopPoint.top _
      (SimReach.insert _ 0
        (SimReach.update _ (1/10) (by decide!)
          (SimReach.no_inject _ (SimReach.init blankFleet))))
      3 (by decide) (by decide!)⟩

end FleetSim

/-! ### Loading a record -/

namespace FleetSim

theorem ite_num_drones (c : Prop) [Decidable c] (a b : Scenario) (n : Int)
    (ha : a.num_drones = n) (hb : b.num_drones = n) :
    (if c then a else b).num_drones = n := by
  split_ifs
  · exact ha
  · exact hb

theorem apply_defaults_num_drones (result : Int) (s : Scenario) :
    (apply_defaults result s).num_drones = s.num_drones := by
  unfold apply_defaults
  repeat' first
    | rfl
    | apply ite_num_drones

theorem to_int_some (z : Int) (h0 : INT_MIN ≤ z) (h1 : z ≤ INT_MAX) : to_int z = some z := by
  unfold to_int
  rw [if_pos ⟨h0, h1⟩]

theorem to_int_none (z : Int) (h : INT_MAX < z) : to_int z = none := by
  unfold to_int
  rw [if_neg (fun hc => absurd hc.2 (not_le.mpr h))]

/-- The capacity normalisation when the required capacity `r` is
representable: the stored values. -/
theorem normalise_capacity_spec (d : Scenario) (hf : 0 ≤ d.spare_target_factor)
    (h0 : INT_MIN ≤ ⌈(d.initial_active : ℚ) * d.spare_target_factor⌉)
    (h1 : ⌈(d.initial_active : ℚ) * d.spare_target_factor⌉ ≤ INT_MAX) :
    ∃ d', normalise_capacity d = some d' ∧
      (d'.initial_active : ℚ) * d'.spare_target_factor ≤ (d'.num_drones : ℚ) ∧
      d'.initial_active ≤ d'.num_drones ∧
      d.num_drones ≤ d'.num_drones ∧
      d'.num_drones = max d.num_drones ⌈(d.initial_active : ℚ) * d.spare_target_factor⌉ ∧
      d'.initial_active = min d.initial_active d'.num_drones ∧
      d'.spare_target_factor = d.spare_target_factor ∧
      d'.strike_fraction = d.strike_fraction := by
  have hceil : (d.initial_active : ℚ) * d.spare_target_factor
      ≤ ((⌈(d.initial_active : ℚ) * d.spare_target_factor⌉ : ℤ) : ℚ) := Int.le_ceil _
  unfold normalise_capacity
  rw [to_int_some _ h0 h1]
  simp only
  split_ifs with h1 h2 h3
  · refine ⟨_, rfl, ?_, le_refl _, le_of_lt h1, ?_, ?_, rfl, rfl⟩
    · simp only
      have hlt : ((⌈(d.initial_active : ℚ) * d.spare_target_factor⌉ : ℤ) : ℚ)
          < (d.initial_active : ℚ) := by exact_mod_cast h2
      have := mul_le_mul_of_nonneg_right (le_of_lt hlt) hf
      linarith
    · simp only
      rw [max_eq_right (le_of_lt h1)]
    · simp only at h2 ⊢
      rw [min_eq_right (le_of_lt h2)]
  · simp only at h2
    refine ⟨_, rfl, hceil, by simp only; omega, le_of_lt h1, ?_, ?_, rfl, rfl⟩
    · simp only
      rw [max_eq_right (le_of_lt h1)]
    · simp only
      rw [min_eq_left (by omega)]
  · refine ⟨_, rfl, ?_, le_refl _, le_refl _, ?_, ?_, rfl, rfl⟩
    · simp only
      have h1' : ((⌈(d.initial_active : ℚ) * d.spare_target_factor⌉ : ℤ) : ℚ)
          ≤ (d.num_drones : ℚ) := by exact_mod_cast not_lt.mp h1
      have hlt : (d.num_drones : ℚ) < (d.initial_active : ℚ) := by exact_mod_cast h3
      have := mul_le_mul_of_nonneg_right (le_of_lt hlt) hf
      linarith
    · rw [max_eq_left (not_lt.mp h1)]
    · simp only
      rw [min_eq_right (le_of_lt h3)]
  · refine ⟨_, rfl, ?_, by omega, le_refl _, ?_, ?_, rfl, rfl⟩
    · have h1' : ((⌈(d.initial_active : ℚ) * d.spare_target_factor⌉ : ℤ) : ℚ)
          ≤ (d.num_drones : ℚ) := by exact_mod_cast not_lt.mp h1
      linarith
    · rw [max_eq_left (not_lt.mp h1)]
    · rw [min_eq_left (by omega)]

/-- The derivation of `num_failures` leaves the other fields. -/
theorem derive_failures_fields (d s1 : Scenario) (h : derive_failures d = some s1) :
    s1.num_drones = d.num_drones ∧ s1.initial_active = d.initial_active ∧
    s1.spare_target_factor = d.spare_target_factor := by
  unfold derive_failures at h
  split_ifs at h
  · split at h
    · exact Option.noConfusion h
    · rw [← Option.some.inj h]
      exact ⟨rfl, rfl, rfl⟩
  · rw [← Option.some.inj h]
    exact ⟨rfl, rfl, rfl⟩

/-- C24 (the claim fails at this input). The record `hugeTargetScenario` has
`initial_active = 3 ≥ 0` and `spare_target_factor = 1e9 ≥ 0`.  The required
capacity `ceil(3 * 1e9) = 3000000000` exceeds `INT_MAX`, so no `int` value of
`num_drones` is at least `initial_active * spare_target_factor`; the
conversion `(int)ceil(...)` is undefined and the loader stores no record with
the stated property. -/
theorem capacity_not_representable :
    0 ≤ hugeTargetScenario.initial_active ∧
    0 ≤ hugeTargetScenario.spare_target_factor ∧
    ((INT_MAX : Int) : ℚ) <
      (hugeTargetScenario.initial_active : ℚ) * hugeTargetScenario.spare_target_factor ∧
    ⌈(hugeTargetScenario.initial_active : ℚ) * hugeTargetScenario.spare_target_factor⌉
      = 3000000000 ∧
    normalise_capacity (apply_defaults 19 hugeTargetScenario) = none ∧
    load_record 19 hugeTargetScenario = Loaded.undefined := by
  have hc : ⌈(hugeTargetScenario.initial_active : ℚ) * hugeTargetScenario.spare_target_factor⌉
      = 3000000000 := by decide!
  have hn : normalise_capacity (apply_defaults 19 hugeTargetScenario) = none := by
    have hd : apply_defaults 19 hugeTargetScenario = hugeTargetScenario := rfl
    rw [hd]
    unfold normalise_capacity
    rw [hc, to_int_none _ (by decide)]
  refine ⟨by decide, by decide!, by decide!, hc, hn, ?_⟩
  unfold load_record
  rw [if_neg (by decide), hn]

/-- C24. For every parsed record (at least 12 fields converted) whose
`initial_active` and `spare_target_factor`, after the defaults, are
non-negative and whose required capacity
`ceil(initial_active * spare_target_factor)` is at most `INT_MAX`: the
conversion `(int)ceil(...)` is defined, and the values after the
normalisation step satisfy `num_drones ≥ initial_active * spare_target_factor`
and `initial_active ≤ num_drones`; `num_drones` is not decreased, and it is
at most `INT_MAX` when it was so before.  The line is not skipped, and when
the conversion `(int)round(strike_fraction * initial_active)` is defined too
(or `strike_fraction ≤ 0`) the record is stored with these values. -/
theorem load_record_capacity (result : Int) (s : Scenario) (hres : 12 ≤ result)
    (hia : 0 ≤ (apply_defaults result s).initial_active)
    (hf : 0 ≤ (apply_defaults result s).spare_target_factor)
    (hcap : ⌈((apply_defaults result s).initial_active : ℚ)
      * (apply_defaults result s).spare_target_factor⌉ ≤ INT_MAX) :
    ∃ d', normalise_capacity (apply_defaults result s) = some d' ∧
      (d'.initial_active : ℚ) * d'.spare_target_factor ≤ (d'.num_drones : ℚ) ∧
      d'.initial_active ≤ d'.num_drones ∧
      s.num_drones ≤ d'.num_drones ∧
      (s.num_drones ≤ INT_MAX → d'.num_drones ≤ INT_MAX) ∧
      load_record result s ≠ Loaded.skipped ∧
      (((apply_defaults result s).strike_fraction > 0 →
          INT_MIN ≤ roundQ ((apply_defaults result s).strike_fraction
            * (d'.initial_active : ℚ)) ∧
          roundQ ((apply_defaults result s).strike_fraction
            * (d'.initial_active : ℚ)) ≤ INT_MAX) →
        ∃ s', load_record result s = Loaded.stored s' ∧
          s'.num_drones = d'.num_drones ∧
          s'.initial_active = d'.initial_active ∧
          s'.spare_target_factor = d'.spare_target_factor) := by
  have hnd := apply_defaults_num_drones result s
  have hprod : (0 : ℚ) ≤ ((apply_defaults result s).initial_active : ℚ)
      * (apply_defaults result s).spare_target_factor :=
    mul_nonneg (by exact_mod_cast hia) hf
  have h0 : INT_MIN ≤ ⌈((apply_defaults result s).initial_active : ℚ)
      * (apply_defaults result s).spare_target_factor⌉ := by
    have : (0 : Int) ≤ ⌈((apply_defaults result s).initial_active : ℚ)
        * (apply_defaults result s).spare_target_factor⌉ := Int.ceil_nonneg hprod
    have hmin : INT_MIN ≤ 0 := by decide
    omega
  obtain ⟨d', e1, e2, e3, e4, e5, _, e7, e8⟩ :=
    normalise_capacity_spec (apply_defaults result s) hf h0 hcap
  refine ⟨d', e1, e2, e3, by rw [← hnd]; exact e4, ?_, ?_, ?_⟩
  · intro hs
    rw [e5, hnd]
    exact max_le hs hcap
  · unfold load_record
    rw [if_neg (by omega), e1]
    simp only
    cases derive_failures d' with
    | none => exact fun h => Loaded.noConfusion h
    | some s1 => exact fun h => Loaded.noConfusion h
  · intro hround
    have hdf : ∃ s1, derive_failures d' = some s1 := by
      unfold derive_failures
      by_cases hsf : d'.strike_fraction > 0.0
      · rw [if_pos hsf]
        have hsf' : (apply_defaults result s).strike_fraction > 0 := by
          have h00 : (0.0 : ℚ) = 0 := by norm_num
          rw [← e8, gt_iff_lt, ← h00]
          exact hsf
        obtain ⟨r0, r1⟩ := hround hsf'
        rw [e8, to_int_some _ r0 r1]
        exact ⟨_, rfl⟩
      · rw [if_neg hsf]
        exact ⟨_, rfl⟩
    obtain ⟨s1, hs1⟩ := hdf
    refine ⟨s1, ?_, derive_failures_fields d' s1 hs1⟩
    unfold load_record
    rw [if_neg (by omega), e1]
    simp only
    rw [hs1]

/-- C24 on `raisedScenario` (capacity 5, 8 active agents, target factor
3/2): the required capacity 12 is representable, the stored capacity is at
least 12 and not below 5, and the record is stored. -/
theorem load_record_capacity_witness :
    ⌈((apply_defaults 19 raisedScenario).initial_active : ℚ)
      * (apply_defaults 19 raisedScenario).spare_target_factor⌉ = 12 ∧
    ∃ d', normalise_capacity (apply_defaults 19 raisedScenario) = some d' ∧
      (d'.initial_active : ℚ) * d'.spare_target_factor ≤ (d'.num_drones : ℚ) ∧
      d'.initial_active ≤ d'.num_drones ∧
      (5 : Int) ≤ d'.num_drones ∧
      ∃ s', load_record 19 raisedScenario = Loaded.stored s' ∧
        s'.num_drones = d'.num_drones :=
  ⟨by decide!,
    (load_record_capacity 19 raisedScenario (by decide) (by decide) (by decide!)
      (by decide!)).elim
      (fun d' h => ⟨d', h.1, h.2.1, h.2.2.1, h.2.2.2.1,
        (h.2.2.2.2.2.2 (fun hsf => absurd hsf (by decide!))).elim
          (fun s' hs => ⟨s', hs.1, hs.2.1⟩)⟩)⟩

end FleetSim

/-! ### The JOINING branch: elapsed time, phase and the SOFT_ENTRY command -/

namespace FleetSim

theorem gap_pass_step_phase (s : Scenario) (f : Fleet) (i j : Nat) :
    (gap_pass_step s f i j).phase = (f j).phase := by
  unfold gap_pass_step
  simp only
  split
  · rfl
  · by_cases h : j = i
    · subst h; simp
    · rw [Function.update_noteq h]

theorem transition_pass_step_phase (s : Scenario) (f : Fleet) (i j : Nat) :
    (transition_pass_step s f i j).phase = (f j).phase := by
  unfold transition_pass_step
  simp only
  split_ifs
  · rfl
  · by_cases h : j = i
    · subst h; simp
    · rw [Function.update_noteq h]
  · rfl
  · rfl

theorem move_pass_step_phase (s : Scenario) (dt : ℚ) (f : Fleet) (i j : Nat) :
    (move_pass_step s dt f i j).phase = (f j).phase := by
  unfold move_pass_step
  split
  · rfl
  · by_cases h : j = i
    · subst h; simp
    · rw [Function.update_noteq h]

/-- Slot `i` after the second pass is what iteration `i` wrote. -/
theorem velocity_pass_slot (f : Fleet) (s : Scenario) (dt : ℚ) (i : Nat)
    (hi : i < s.num_drones.toNat) :
    velocity_pass s dt (gap_pass s f) i =
      velocity_pass_step s dt (before_velocity_step f s dt i) i i := by
  unfold velocity_pass before_velocity_step
  rw [fold_range_apply _ (velocity_pass_step_local s dt), if_pos hi]

theorem velocity_pass_slot_out (g : Fleet) (s : Scenario) (dt : ℚ) (i : Nat)
    (hi : ¬ i < s.num_drones.toNat) : velocity_pass s dt g i = g i := by
  unfold velocity_pass
  rw [fold_range_apply _ (velocity_pass_step_local s dt), if_neg hi]

theorem update_drone_positions_time (f : Fleet) (s : Scenario) (dt : ℚ) (i : Nat) :
    (update_drone_positions f s dt i).time_in_incoming =
      (velocity_pass s dt (gap_pass s f) i).time_in_incoming := by
  unfold update_drone_positions move_pass transition_pass
  rw [fold_list_field (fun d => d.time_in_incoming) _
      (fun f i j => (move_pass_step_keeps s dt f i j).2.1),
    fold_list_field (fun d => d.time_in_incoming) _
      (fun f i j => (transition_pass_step_keeps s f i j).2.1)]

theorem update_drone_positions_phase (f : Fleet) (s : Scenario) (dt : ℚ) (i : Nat) :
    (update_drone_positions f s dt i).phase =
      (velocity_pass s dt (gap_pass s f) i).phase := by
  unfold update_drone_positions move_pass transition_pass
  rw [fold_list_field (fun d => d.phase) _ (move_pass_step_phase s dt),
    fold_list_field (fun d => d.phase) _ (transition_pass_step_phase s)]

theorem gap_pass_time (f : Fleet) (s : Scenario) (i : Nat) :
    (gap_pass s f i).time_in_incoming = (f i).time_in_incoming := by
  unfold gap_pass
  exact fold_list_field (fun d => d.time_in_incoming) _
    (fun f i j => (gap_pass_step_keeps s f i j).2.1) _ f i

theorem velocity_pass_step_self_phase (s : Scenario) (dt : ℚ) (g : Fleet) (i : Nat)
    (hal : (g i).alive = true) :
    (velocity_pass_step s dt g i i).phase = (agent_cmd s g i).1.phase := by
  unfold velocity_pass_step
  simp [hal]

theorem velocity_pass_step_dead (s : Scenario) (dt : ℚ) (g : Fleet) (i : Nat)
    (hal : (g i).alive = false) : velocity_pass_step s dt g i = g := by
  unfold velocity_pass_step
  simp [hal]

theorem agent_cmd_normal (s : Scenario) (g : Fleet) (i : Nat) (h : (g i).state = 0) :
    (agent_cmd s g i).1 = g i := by
  unfold agent_cmd
  simp only
  rw [if_pos h]

/-- The elapsed time and the phase of a living JOINING agent after one call
of `update_drone_positions`: those that the JOINING branch of the second pass
computes. -/
theorem update_drone_positions_joining (f : Fleet) (s : Scenario) (dt : ℚ) (i : Nat)
    (hi : i < s.num_drones.toNat) (hal : (f i).alive = true) (hst : (f i).state ≠ 0) :
    (update_drone_positions f s dt i).time_in_incoming = (f i).time_in_incoming + 0.1 ∧
    (update_drone_positions f s dt i).phase =
      (joining_cmd s (before_velocity_step f s dt i i)
        (before_velocity_step f s dt i i).gap_to_pred
        (before_velocity_step f s dt i ((i + 1) % s.num_drones.toNat)).gap_to_pred).1.phase := by
  have hB := before_velocity_step_self f s dt i
  have hBal := before_velocity_step_alive f s dt i i
  rw [hal] at hBal
  have hBst : (before_velocity_step f s dt i i).state ≠ 0 := by
    rw [hB.1]; exact hst
  obtain ⟨_, ht2⟩ := velocity_pass_step_self_fields s dt _ i hBal
  have hp2 := velocity_pass_step_self_phase s dt _ i hBal
  rw [agent_cmd_joining s _ i hBst] at ht2 hp2
  rw [(joining_cmd_fields _ _ _ _).2.1, hB.2] at ht2
  rw [update_drone_positions_time, update_drone_positions_phase,
    velocity_pass_slot f s dt i hi]
  exact ⟨ht2, hp2⟩

/-- One call of `update_drone_positions` leaves the elapsed time of a slot or
adds 0.1 to it. -/
theorem update_drone_positions_time_cases (f : Fleet) (s : Scenario) (dt : ℚ) (i : Nat) :
    (update_drone_positions f s dt i).time_in_incoming = (f i).time_in_incoming ∨
    (update_drone_positions f s dt i).time_in_incoming = (f i).time_in_incoming + 0.1 := by
  by_cases hi : i < s.num_drones.toNat
  · cases hal : (f i).alive with
    | false =>
      left
      have hBal := before_velocity_step_alive f s dt i i
      rw [hal] at hBal
      rw [update_drone_positions_time, velocity_pass_slot f s dt i hi,
        velocity_pass_step_dead s dt _ i hBal, (before_velocity_step_self f s dt i).2]
    | true =>
      by_cases hst : (f i).state = 0
      · left
        have hB := before_velocity_step_self f s dt i
        have hBal := before_velocity_step_alive f s dt i i
        rw [hal] at hBal
        rw [update_drone_positions_time, velocity_pass_slot f s dt i hi,
          (velocity_pass_step_self_fields s dt _ i hBal).2,
          agent_cmd_normal s _ i (by rw [hB.1]; exact hst), hB.2]
      · right
        exact (update_drone_positions_joining f s dt i hi hal hst).1
  · left
    rw [update_drone_positions_time, velocity_pass_slot_out _ s dt i hi, gap_pass_time]

theorem joining_cmd_phase (s : Scenario) (d : Drone) (g1 g2 : ℚ) :
    ((joining_cmd s d g1 g2).1.phase = 1 ↔ d.time_in_incoming + 0.1 < 0.5) ∧
    ((joining_cmd s d g1 g2).1.phase = 2 ↔
      (0.5 ≤ d.time_in_incoming + 0.1 ∧ d.time_in_incoming + 0.1 < 1.5)) ∧
    ((joining_cmd s d g1 g2).1.phase = 3 ↔ 1.5 ≤ d.time_in_incoming + 0.1) := by
  have n31 : ¬ ((3 : Int) = 1) := by decide
  have n32 : ¬ ((3 : Int) = 2) := by decide
  have n12 : ¬ ((1 : Int) = 2) := by decide
  have n13 : ¬ ((1 : Int) = 3) := by decide
  have n21 : ¬ ((2 : Int) = 1) := by decide
  have n23 : ¬ ((2 : Int) = 3) := by decide
  unfold joining_cmd
  simp only
  split_ifs with h1 h2 h3
  · simp only [Bool.and_eq_true, decide_eq_true_eq] at h1
    have ht := h1.1.1
    refine ⟨⟨fun h => absurd h n31, fun h => ?_⟩,
      ⟨fun h => absurd h n32, fun h => ?_⟩, ⟨fun _ => ?_, fun _ => rfl⟩⟩
    · exfalso; norm_num at ht h; linarith
    · exfalso; have h' := h.2; norm_num at ht h'; linarith
    · norm_num at ht ⊢; linarith
  · refine ⟨⟨fun _ => h2, fun _ => rfl⟩,
      ⟨fun h => absurd h n12, fun h => ?_⟩, ⟨fun h => absurd h n13, fun h => ?_⟩⟩
    · exfalso; have h' := h.1; norm_num at h2 h'; linarith
    · exfalso; norm_num at h2 h; linarith
  · refine ⟨⟨fun h => absurd h n21, fun h => absurd h h2⟩,
      ⟨fun _ => ⟨not_lt.mp h2, h3⟩, fun _ => rfl⟩, ⟨fun h => absurd h n23, fun h => ?_⟩⟩
    exfalso; norm_num at h3 h; linarith
  · refine ⟨⟨fun h => absurd h n31, fun h => absurd h h2⟩,
      ⟨fun h => absurd h n32, fun h => absurd h.2 h3⟩,
      ⟨fun _ => not_lt.mp h3, fun _ => rfl⟩⟩

/-- In the SOFT_ENTRY phase the command of the JOINING branch is the bounded
`soft_entry_cmd`. -/
theorem joining_cmd_soft (s : Scenario) (d : Drone) (g1 g2 : ℚ)
    (ht : d.time_in_incoming + 0.1 < 0.5) :
    (joining_cmd s d g1 g2).2 =
      max 0 (min s.v_max (soft_entry_cmd s (d.time_in_incoming + 0.1) g2)) := by
  have h1 : ¬ ((decide (d.time_in_incoming + 0.1 > 2.0) &&
      (decide (|g1 - g2| < 0.2 * s.nominal_spacing) &&
        decide (|g2 - s.nominal_spacing| < 0.1 * s.nominal_spacing)) &&
      decide (|d.v - s.v_nominal| < 0.05 * s.v_nominal)) = true) := by
    simp only [Bool.and_eq_true, decide_eq_true_eq]
    intro h
    have := h.1.1
    norm_num at this ht
    linarith
  unfold joining_cmd soft_entry_cmd ramp_target
  simp only
  rw [if_neg h1, if_pos ht]

theorem initialize_fleet_time (f0 : Fleet) (s : Scenario) (i : Nat)
    (hi : i < s.num_drones.toNat) :
    (initialize_fleet f0 s i).time_in_incoming = 0 := by
  unfold initialize_fleet
  rw [fold_range_apply _ (fun f i j h => Function.update_noteq h _ _), if_pos hi,
    Function.update_same]

theorem inject_failure_time (f : Fleet) (s : Scenario) (k step : Int) (r : Rng) (j : Nat) :
    ((inject_failure f s k step r).1 j).time_in_incoming = (f j).time_in_incoming := by
  unfold inject_failure
  by_cases h1 : k ≥ s.num_failures
  · rw [if_pos h1]
  · rw [if_neg h1]
    by_cases h2 : (choose_target f s step r).1 ≥ 0
    · simp only [if_pos h2]
      by_cases h : j = (choose_target f s step r).1.toNat
      · rw [h, Function.update_same]
      · rw [Function.update_noteq h]
    · simp only [if_neg h2]

/-- The elapsed time of every slot below `num_drones` is non-negative at every
point of the loop of `simulate_scenario`: it starts at 0 and only grows. -/
theorem simReach_time_nonneg (s : Scenario) (pt : LoopPoint) (f : Fleet)
    (hr : SimReach s pt f) :
    ∀ i, i < s.num_drones.toNat → 0 ≤ (f i).time_in_incoming := by
  induction hr with
  | init f0 =>
    intro i hi
    rw [initialize_fleet_time f0 s i hi]
  | inject f k step r _ ih =>
    intro i hi
    rw [inject_failure_time]
    exact ih i hi
  | no_inject f _ ih => exact ih
  | update f dt _ _ ih =>
    intro i hi
    rcases update_drone_positions_time_cases f s dt i with h | h
    · rw [h]; exact ih i hi
    · rw [h]
      have := ih i hi
      norm_num
      linarith
  | insert f k _ ih =>
    intro i hi
    rcases try_insert_spare_cases f s k with h | ⟨i0, _, _, h⟩
    · rw [h]; exact ih i hi
    · rw [h]
      by_cases hii : i = i0
      · subst hii
        rw [Function.update_same]
        unfold spare_slot
        simp only
        norm_num
      · rw [Function.update_noteq hii]
        exact ih i hi

/-- C27. At every point of the loop of `simulate_scenario`, for a living
JOINING agent whose elapsed time after the increment is below 0.5 (with
`v_nominal ≥ 0` and `v_max ≥ 0`), the bounded command of the second pass is at
most the ramp target `0.6*v_nominal + 0.4*v_nominal*(t/0.5)` and at most
`v_nominal`, whatever the successor gap; it is the ramp target bounded to
`[0, v_max]` when the successor gap is at most `nominal_spacing`; and it is
the command that the rate limiter receives. -/
theorem soft_entry_le_ramp (s : Scenario) (pt : LoopPoint) (f : Fleet)
    (hr : SimReach s pt f) (dt : ℚ) (i : Nat) (hi : i < s.num_drones.toNat)
    (hv : 0 ≤ s.v_nominal) (hm : 0 ≤ s.v_max)
    (hal : (f i).alive = true) (hst : (f i).state ≠ 0)
    (ht : (f i).time_in_incoming + 0.1 < 0.5) :
    ramp_target s ((f i).time_in_incoming + 0.1) =
      0.6 * s.v_nominal + 0.4 * s.v_nominal * (((f i).time_in_incoming + 0.1) / 0.5) ∧
    clamp_cmd s (agent_cmd s (before_velocity_step f s dt i) i).2
      ≤ ramp_target s ((f i).time_in_incoming + 0.1) ∧
    clamp_cmd s (agent_cmd s (before_velocity_step f s dt i) i).2 ≤ s.v_nominal ∧
    ((gap_pass s f ((i + 1) % s.num_drones.toNat)).gap_to_pred ≤ s.nominal_spacing →
      clamp_cmd s (agent_cmd s (before_velocity_step f s dt i) i).2 =
        max 0 (min s.v_max (ramp_target s ((f i).time_in_incoming + 0.1)))) ∧
    (update_drone_positions f s dt i).v =
      ramp_velocity (f i).v
        (clamp_cmd s (agent_cmd s (before_velocity_step f s dt i) i).2) dt := by
  have ht0 := simReach_time_nonneg s pt f hr i hi
  have hB := before_velocity_step_self f s dt i
  have hBst : (before_velocity_step f s dt i i).state ≠ 0 := by
    rw [hB.1]; exact hst
  have hcmd : (agent_cmd s (before_velocity_step f s dt i) i).2 =
      max 0 (min s.v_max (soft_entry_cmd s ((f i).time_in_incoming + 0.1)
        (gap_pass s f ((i + 1) % s.num_drones.toNat)).gap_to_pred)) := by
    rw [agent_cmd_joining s _ i hBst, joining_cmd_soft s _ _ _ (by rw [hB.2]; exact ht),
      hB.2, before_velocity_step_gap]
  have hramp : ramp_target s ((f i).time_in_incoming + 0.1) =
      0.6 * s.v_nominal + 0.4 * s.v_nominal * (((f i).time_in_incoming + 0.1) / 0.5) := by
    unfold ramp_target
    simp only
    ring
  have hr0 : 0 ≤ ramp_target s ((f i).time_in_incoming + 0.1) := by
    rw [hramp]
    have : 0 ≤ ((f i).time_in_incoming + 0.1) / 0.5 := by
      apply div_nonneg
      · norm_num; linarith
      · norm_num
    have := mul_nonneg hv this
    nlinarith
  have hr1 : ramp_target s ((f i).time_in_incoming + 0.1) ≤ s.v_nominal := by
    rw [hramp]
    have h1 : ((f i).time_in_incoming + 0.1) / 0.5 ≤ 1 := by
      rw [div_le_one (by norm_num)]
      exact le_of_lt ht
    have := mul_le_mul_of_nonneg_left h1 hv
    nlinarith
  have hsoft : soft_entry_cmd s ((f i).time_in_incoming + 0.1)
      (gap_pass s f ((i + 1) % s.num_drones.toNat)).gap_to_pred
      ≤ ramp_target s ((f i).time_in_incoming + 0.1) := by
    unfold soft_entry_cmd
    exact min_le_right _ _
  have hclamp : clamp_cmd s (agent_cmd s (before_velocity_step f s dt i) i).2 =
      max 0 (min s.v_max (soft_entry_cmd s ((f i).time_in_incoming + 0.1)
        (gap_pass s f ((i + 1) % s.num_drones.toNat)).gap_to_pred)) := by
    rw [hcmd]
    unfold clamp_cmd
    rw [min_eq_right (max_le hm (min_le_left _ _)),
      max_eq_right (le_max_left _ _)]
  have hle : clamp_cmd s (agent_cmd s (before_velocity_step f s dt i) i).2
      ≤ ramp_target s ((f i).time_in_incoming + 0.1) := by
    rw [hclamp]
    exact max_le hr0 (le_trans (min_le_right _ _) hsoft)
  refine ⟨hramp, hle, le_trans hle hr1, ?_, ?_⟩
  · intro hg
    have hs : soft_entry_cmd s ((f i).time_in_incoming + 0.1)
        (gap_pass s f ((i + 1) % s.num_drones.toNat)).gap_to_pred
        = ramp_target s ((f i).time_in_incoming + 0.1) := by
      unfold soft_entry_cmd
      simp only
      apply min_eq_right
      linarith [mul_nonpos_of_nonneg_of_nonpos (by norm_num : (0 : ℚ) ≤ 0.3)
        (sub_nonpos.mpr hg)]
    rw [hclamp, hs]
  · rw [update_drone_positions_v f s dt i hi, if_pos hal]

/-- C27 at the spare in slot 3 of `spareFleet`, just inserted (elapsed
time 0). -/
theorem soft_entry_le_ramp_witness :
    (spareFleet 3).alive = true ∧ (spareFleet 3).state ≠ 0 ∧
    (spareFleet 3).time_in_incoming + 0.1 < 0.5 ∧
    clamp_cmd spareScenario
        (agent_cmd spareScenario (before_velocity_step spareFleet spareScenario (1/10) 3) 3).2
      ≤ ramp_target spareScenario ((spareFleet 3).time_in_incoming + 0.1) ∧
    clamp_cmd spareScenario
        (agent_cmd spareScenario (before_velocity_step spareFleet spareScenario (1/10) 3) 3).2
      ≤ spareScenario.v_nominal :=
  ⟨by decide!, by decide!, by decide!,
    (soft_entry_le_ramp spareScenario LoopPoint.top spareFleet
      (SimReach.insert _ 0
        (SimReach.update _ (1/10) (by decide!)
          (SimReach.no_inject _ (SimReach.init blankFleet))))
      (1/10) 3 (by decide) (by decide!) (by decide!) (by decide!) (by decide!)
      (by decide!)).2.1,
    (soft_entry_le_ramp spareScenario LoopPoint.top spareFleet
      (SimReach.insert _ 0
        (SimReach.update _ (1/10) (by decide!)
          (SimReach.no_inject _ (SimReach.init blankFleet))))
      (1/10) 3 (by decide) (by decide!) (by decide!) (by decide!) (by decide!)
      (by decide!)).2.2.1⟩

/-- The elapsed time of a slot that is living and JOINING before each of `k`
successive updates is its initial value plus `k/10`. -/
theorem joining_time_after (s : Scenario) (i : Nat) (hi : i < s.num_drones.toNat)
    (F : Nat → Fleet) (dts : Nat → ℚ)
    (hstep : ∀ k, F (k + 1) i = update_drone_positions (F k) s (dts k) i)
    (hal : (F 0 i).alive = true) :
    ∀ k, (∀ j, j < k → (F j i).state ≠ 0) →
      (F k i).alive = true ∧
      (F k i).time_in_incoming = (F 0 i).time_in_incoming + (k : ℚ) / 10 := by
  intro k
  induction k with
  | zero =>
    intro _
    refine ⟨hal, ?_⟩
    simp
  | succ m ih =>
    intro hj
    obtain ⟨ha, ht⟩ := ih (fun j hjm => hj j (Nat.lt_succ_of_lt hjm))
    rw [hstep m]
    refine ⟨by rw [update_drone_positions_alive]; exact ha, ?_⟩
    rw [(update_drone_positions_joining (F m) s (dts m) i hi ha (hj m (Nat.lt_succ_self m))).1,
      ht]
    push_cast
    ring

/-- C28. For a slot `i` below `num_drones`: (1) one call of
`update_drone_positions`, with any `dt`, on a fleet where agent `i` is living
and JOINING adds exactly 0.1 to its elapsed time, and its phase after the call
is 1 iff the new elapsed time is below 0.5, 2 iff it is in `[0.5, 1.5)` and 3
iff it is at least 1.5 (also when a transition to NORMAL is taken in the
call); (2) along any sequence of fleets in which slot `i` goes from one fleet
to the next by `update_drone_positions`, starting living with elapsed time 0,
if the agent is JOINING before each of the first `k ≥ 1` updates then after
them its elapsed time is `k/10` and its phase is 1 for `k ≤ 4`, 2 for
`5 ≤ k ≤ 14` and 3 for `k ≥ 15`. -/
theorem joining_phase_schedule (s : Scenario) (i : Nat) (hi : i < s.num_drones.toNat) :
    (∀ (f : Fleet) (dt : ℚ), (f i).alive = true → (f i).state ≠ 0 →
      (update_drone_positions f s dt i).time_in_incoming = (f i).time_in_incoming + 0.1 ∧
      ((update_drone_positions f s dt i).phase = 1 ↔ (f i).time_in_incoming + 0.1 < 0.5) ∧
      ((update_drone_positions f s dt i).phase = 2 ↔
        (0.5 ≤ (f i).time_in_incoming + 0.1 ∧ (f i).time_in_incoming + 0.1 < 1.5)) ∧
      ((update_drone_positions f s dt i).phase = 3 ↔ 1.5 ≤ (f i).time_in_incoming + 0.1)) ∧
    (∀ (F : Nat → Fleet) (dts : Nat → ℚ),
      (∀ k, F (k + 1) i = update_drone_positions (F k) s (dts k) i) →
      (F 0 i).alive = true → (F 0 i).time_in_incoming = 0 →
      ∀ k, 1 ≤ k → (∀ j, j < k → (F j i).state ≠ 0) →
        (F k i).time_in_incoming = (k : ℚ) / 10 ∧
        (k ≤ 4 → (F k i).phase = 1) ∧
        (5 ≤ k → k ≤ 14 → (F k i).phase = 2) ∧
        (15 ≤ k → (F k i).phase = 3)) := by
  have one : ∀ (f : Fleet) (dt : ℚ), (f i).alive = true → (f i).state ≠ 0 →
      (update_drone_positions f s dt i).time_in_incoming = (f i).time_in_incoming + 0.1 ∧
      ((update_drone_positions f s dt i).phase = 1 ↔ (f i).time_in_incoming + 0.1 < 0.5) ∧
      ((update_drone_positions f s dt i).phase = 2 ↔
        (0.5 ≤ (f i).time_in_incoming + 0.1 ∧ (f i).time_in_incoming + 0.1 < 1.5)) ∧
      ((update_drone_positions f s dt i).phase = 3 ↔
        1.5 ≤ (f i).time_in_incoming + 0.1) := by
    intro f dt hal hst
    obtain ⟨h1, h2⟩ := update_drone_positions_joining f s dt i hi hal hst
    have hp := joining_cmd_phase s (before_velocity_step f s dt i i)
      (before_velocity_step f s dt i i).gap_to_pred
      (before_velocity_step f s dt i ((i + 1) % s.num_drones.toNat)).gap_to_pred
    rw [(before_velocity_step_self f s dt i).2, ← h2] at hp
    exact ⟨h1, hp⟩
  refine ⟨one, ?_⟩
  intro F dts hstep hal ht0 k hk hj
  obtain ⟨m, rfl⟩ : ∃ m, k = m + 1 := ⟨k - 1, by omega⟩
  obtain ⟨ha, ht⟩ := joining_time_after s i hi F dts hstep hal m
    (fun j hjm => hj j (Nat.lt_succ_of_lt hjm))
  rw [ht0, zero_add] at ht
  obtain ⟨e1, e2, e3, e4⟩ := one (F m) (dts m) ha (hj m (Nat.lt_succ_self m))
  rw [← hstep m, ht] at e1 e2 e3 e4
  refine ⟨?_, ?_, ?_, ?_⟩
  · rw [e1]; push_cast; ring
  · intro hk4
    rw [e2]
    have : (m : ℚ) ≤ 3 := by exact_mod_cast (by omega : m ≤ 3)
    norm_num
    linarith
  · intro hk5 hk14
    rw [e3]
    have h1 : (4 : ℚ) ≤ m := by exact_mod_cast (by omega : 4 ≤ m)
    have h2 : (m : ℚ) ≤ 13 := by exact_mod_cast (by omega : m ≤ 13)
    constructor
    · norm_num; linarith
    · norm_num; linarith
  · intro hk15
    rw [e4]
    have h1 : (14 : ℚ) ≤ m := by exact_mod_cast (by omega : 14 ≤ m)
    norm_num
    linarith

/-- C28 on `pairFleet 1`, whose slot 1 is JOINING with elapsed time 0: one
update gives elapsed time 0.1, and after 5 updates the elapsed time is 5/10
and the phase is 2. -/
theorem joining_phase_schedule_witness :
    (update_drone_positions (pairFleet 1) pairScenario (1/10) 1).time_in_incoming
      = (pairFleet 1 1).time_in_incoming + 0.1 ∧
    (update_times pairScenario (1/10) 5 (pairFleet 1) 1).time_in_incoming = ((5 : Nat) : ℚ) / 10 ∧
    (update_times pairScenario (1/10) 5 (pairFleet 1) 1).phase = 2 :=
  ⟨((joining_phase_schedule pairScenario 1 (by decide)).1 (pairFleet 1) (1/10)
      (by decide!) (by decide!)).1,
    ((joining_phase_schedule pairScenario 1 (by decide)).2
      (fun k => update_times pairScenario (1/10) k (pairFleet 1)) (fun _ => 1/10)
      (fun _ => rfl) (by decide!) (by decide!) 5 (by decide)
      (fun j hj => by interval_cases j <;> decide!)).1,
    ((joining_phase_schedule pairScenario 1 (by decide)).2
      (fun k => update_times pairScenario (1/10) k (pairFleet 1)) (fun _ => 1/10)
      (fun _ => rfl) (by decide!) (by decide!) 5 (by decide)
      (fun j hj => by interval_cases j <;> decide!)).2.2.1 (by decide) (by decide)⟩

end FleetSim

/-! ### The predecessor scan of the gap pass -/

namespace FleetSim

/-- The slot `e` places behind `i` on the index ring. -/
theorem back_eq (n i e : Nat) (hi : i < n) (he : e ≤ n) :
    (i + n - e) % n = if e ≤ i then i - e else i + n - e := by
  by_cases h : e ≤ i
  · rw [if_pos h]
    have : i + n - e = (i - e) + n := by omega
    rw [this, Nat.add_mod_right]
    exact Nat.mod_eq_of_lt (by omega)
  · rw [if_neg h]
    exact Nat.mod_eq_of_lt (by omega)

theorem back_step (n i e : Nat) (hi : i < n) (he1 : 1 ≤ e) (he : e < n) :
    ((i + n - e) % n + n - 1) % n = (i + n - (e + 1)) % n := by
  have hlt : (i + n - e) % n < n := Nat.mod_lt _ (by omega)
  rw [pred_step_eq n _ hlt, back_eq n i e hi (by omega), back_eq n i (e + 1) hi (by omega)]
  split_ifs <;> omega

theorem back_ne (n i e : Nat) (hi : i < n) (he1 : 1 ≤ e) (he : e < n) :
    (i + n - e) % n ≠ i := by
  rw [back_eq n i e hi (by omega)]
  split_ifs <;> omega

theorem back_self (n i : Nat) (hi : i < n) : (i + n - n) % n = i := by
  rw [back_eq n i n hi (le_refl n)]
  split_ifs <;> omega

/-- Every slot below `n` other than `i` lies `e` places behind `i` for some
`1 ≤ e < n`. -/
theorem back_surj (n i j : Nat) (hi : i < n) (hj : j < n) (hne : j ≠ i) :
    ∃ e, 1 ≤ e ∧ e < n ∧ (i + n - e) % n = j := by
  by_cases h : j < i
  · refine ⟨i - j, by omega, by omega, ?_⟩
    rw [back_eq n i (i - j) hi (by omega)]
    split_ifs <;> omega
  · refine ⟨i + n - j, by omega, by omega, ?_⟩
    rw [back_eq n i (i + n - j) hi (by omega)]
    split_ifs <;> omega

/-- The scan started `e` places behind `i`, with at least `n - e` iterations
allowed, stops `d ≥ e` places behind `i` after `d - e` iterations: the slots
in between are dormant, and the slot reached is living or is `i` itself
(`d = n`). -/
theorem scan_pred_spec (fleet : Fleet) (n i : Nat) (hi : i < n) :
    ∀ (k e : Nat), 1 ≤ e → e ≤ n → n - e ≤ k →
    ∃ d, e ≤ d ∧ d ≤ n ∧
      scan_pred fleet n i k ((i + n - e) % n) = (i + n - d) % n ∧
      scan_steps fleet n i k ((i + n - e) % n) = d - e ∧
      (∀ e', e ≤ e' → e' < d → (fleet ((i + n - e') % n)).alive = false) ∧
      ((fleet ((i + n - d) % n)).alive = true ∨ d = n) := by
  intro k
  induction k with
  | zero =>
    intro e _ he hk
    have : e = n := by omega
    subst this
    refine ⟨e, le_refl _, le_refl _, ?_, ?_, ?_, Or.inr rfl⟩
    · unfold scan_pred; rfl
    · unfold scan_steps; omega
    · intro e' h1 h2; omega
  | succ k ih =>
    intro e he1 he hk
    by_cases hc : ((!(fleet ((i + n - e) % n)).alive) && decide ((i + n - e) % n ≠ i)) = true
    · have hc' := hc
      simp only [Bool.and_eq_true, Bool.not_eq_true', decide_eq_true_eq] at hc'
      have hen : e < n := by
        rcases Nat.lt_or_ge e n with h | h
        · exact h
        · exfalso
          have : e = n := by omega
          subst this
          exact hc'.2 (back_self e i hi)
      obtain ⟨d, hd1, hd2, hd3, hd4, hd5, hd6⟩ := ih (e + 1) (by omega) (by omega) (by omega)
      refine ⟨d, by omega, hd2, ?_, ?_, ?_, hd6⟩
      · unfold scan_pred
        rw [if_pos hc, back_step n i e hi he1 hen]
        exact hd3
      · unfold scan_steps
        rw [if_pos hc, back_step n i e hi he1 hen, hd4]
        omega
      · intro e' h1 h2
        rcases Nat.eq_or_lt_of_le h1 with h | h
        · rw [← h]; exact hc'.1
        · exact hd5 e' (by omega) h2
    · refine ⟨e, le_refl _, he, ?_, ?_, ?_, ?_⟩
      · unfold scan_pred
        rw [if_neg hc]
      · unfold scan_steps
        rw [if_neg hc]
        omega
      · intro e' h1 h2; omega
      · simp only [Bool.and_eq_true, Bool.not_eq_true', decide_eq_true_eq, not_and,
          not_not] at hc
        by_cases ha : (fleet ((i + n - e) % n)).alive = true
        · exact Or.inl ha
        · simp only [Bool.not_eq_true] at ha
          right
          have h := hc ha
          rcases Nat.lt_or_ge e n with h' | h'
          · exact absurd h (back_ne n i e hi he1 h')
          · omega

/-- The scan reads only the `alive` flags. -/
theorem scan_pred_congr (f g : Fleet) (n i : Nat)
    (h : ∀ j, (g j).alive = (f j).alive) :
    ∀ (k p : Nat), scan_pred g n i k p = scan_pred f n i k p := by
  intro k
  induction k with
  | zero => intro p; rfl
  | succ k ih =>
    intro p
    unfold scan_pred
    rw [h p, ih]

theorem gap_pass_step_dead (s : Scenario) (g : Fleet) (i : Nat)
    (hal : (g i).alive = false) : gap_pass_step s g i = g := by
  unfold gap_pass_step
  simp [hal]

/-- C29. For a living agent `i` below `n = num_drones` (so `n ≥ 1`) there is
a distance `1 ≤ d ≤ n` such that the backward scan of the gap pass executes
`d - 1 < n` iterations and stops, its loop condition false, at the slot `d`
places behind `i` on the index ring; allowing more iterations changes
nothing; the slot reached is living and the slots passed over are dormant
(the nearest living slot with cyclically lower index), and it is `i` itself
when `i` is the only living agent.  The gap pass then stores
`fmod(x[pred] - x[i] + perimeter, perimeter)` in `gap_to_pred(i)`, which is 0
when `i` is the only living agent and `perimeter ≠ 0`; the `gap_to_pred` of
every dormant slot is left unchanged. -/
theorem gap_pass_pred_scan (s : Scenario) (f : Fleet) (i : Nat)
    (hi : i < s.num_drones.toNat) (hal : (f i).alive = true) :
    ∃ d, 1 ≤ d ∧ d ≤ s.num_drones.toNat ∧
      scan_steps f s.num_drones.toNat i s.num_drones.toNat
        ((i + s.num_drones.toNat - 1) % s.num_drones.toNat) = d - 1 ∧
      find_pred f s.num_drones.toNat i = (i + s.num_drones.toNat - d) % s.num_drones.toNat ∧
      (∀ k, s.num_drones.toNat ≤ k →
        scan_pred f s.num_drones.toNat i k
          ((i + s.num_drones.toNat - 1) % s.num_drones.toNat)
          = find_pred f s.num_drones.toNat i) ∧
      (f (find_pred f s.num_drones.toNat i)).alive = true ∧
      (∀ e, 1 ≤ e → e < d →
        (f ((i + s.num_drones.toNat - e) % s.num_drones.toNat)).alive = false) ∧
      ((∀ j, j < s.num_drones.toNat → j ≠ i → (f j).alive = false) →
        find_pred f s.num_drones.toNat i = i) ∧
      (gap_pass s f i).gap_to_pred =
        fmod ((f (find_pred f s.num_drones.toNat i)).x - (f i).x + s.perimeter)
          s.perimeter ∧
      ((∀ j, j < s.num_drones.toNat → j ≠ i → (f j).alive = false) →
        s.perimeter ≠ 0 → (gap_pass s f i).gap_to_pred = 0) ∧
      (∀ j, (f j).alive = false → (gap_pass s f j).gap_to_pred = (f j).gap_to_pred) := by
  obtain ⟨d, hd1, hd2, hd3, hd4, hd5, hd6⟩ :=
    scan_pred_spec f s.num_drones.toNat i hi s.num_drones.toNat 1 (le_refl 1)
      (by omega) (by omega)
  have hfp : find_pred f s.num_drones.toNat i
      = (i + s.num_drones.toNat - d) % s.num_drones.toNat := by
    unfold find_pred
    exact hd3
  have halive : (f ((i + s.num_drones.toNat - d) % s.num_drones.toNat)).alive = true := by
    rcases hd6 with h | h
    · exact h
    · rw [h, back_self _ i hi]; exact hal
  have hsolo : (∀ j, j < s.num_drones.toNat → j ≠ i → (f j).alive = false) →
      find_pred f s.num_drones.toNat i = i := by
    intro hdead
    rcases Nat.lt_or_ge d s.num_drones.toNat with h | h
    · exfalso
      have := hdead _ (Nat.mod_lt _ (by omega)) (back_ne _ i d hi hd1 h)
      rw [this] at halive
      exact Bool.noConfusion halive
    · have : d = s.num_drones.toNat := by omega
      rw [hfp, this, back_self _ i hi]
  have hgap : (gap_pass s f i).gap_to_pred =
      fmod ((f (find_pred f s.num_drones.toNat i)).x - (f i).x + s.perimeter)
        s.perimeter := by
    have hGx : ∀ j, (((List.range i).foldl (gap_pass_step s) f) j).x = (f j).x :=
      fun j => fold_list_field (fun d => d.x) _
        (fun f i j => (gap_pass_step_keeps s f i j).2.2) _ f j
    have hGal : ∀ j, (((List.range i).foldl (gap_pass_step s) f) j).alive = (f j).alive :=
      fun j => fold_list_field (fun d => d.alive) _ (gap_pass_step_alive s) _ f j
    have hGa : (((List.range i).foldl (gap_pass_step s) f) i).alive = true := by
      rw [hGal]; exact hal
    have hfind : find_pred ((List.range i).foldl (gap_pass_step s) f) s.num_drones.toNat i
        = find_pred f s.num_drones.toNat i := by
      unfold find_pred
      exact scan_pred_congr f _ _ i hGal _ _
    unfold gap_pass
    rw [fold_range_apply _ (gap_pass_step_local s), if_pos hi,
      gap_pass_step_gap_self s _ i hGa, hGx, hGx, hfind]
  refine ⟨d, hd1, hd2, ?_, hfp, ?_, ?_, hd5, hsolo, hgap, ?_, ?_⟩
  · rw [hd4]
  · intro k hk
    obtain ⟨d', hd1', hd2', hd3', _, hd5', hd6'⟩ :=
      scan_pred_spec f s.num_drones.toNat i hi k 1 (le_refl 1) (by omega) (by omega)
    have hdd : d' = d := by
      rcases Nat.lt_trichotomy d' d with h | h | h
      · exfalso
        have hdead := hd5 d' hd1' h
        rcases hd6' with h' | h'
        · rw [hdead] at h'; exact Bool.noConfusion h'
        · omega
      · exact h
      · exfalso
        have hdead := hd5' d hd1 h
        rcases hd6 with h' | h'
        · rw [hdead] at h'; exact Bool.noConfusion h'
        · omega
    rw [hd3', hdd, hfp]
  · rw [hfp]; exact halive
  · intro hdead hp
    rw [hgap, hsolo hdead, sub_self, zero_add]
    unfold fmod truncQ
    rw [div_self hp]
    norm_num
  · intro j hj
    unfold gap_pass
    rw [fold_range_apply _ (gap_pass_step_local s)]
    split
    · have hGa : (((List.range j).foldl (gap_pass_step s) f) j).alive = false := by
        rw [fold_list_field (fun d => d.alive) _ (gap_pass_step_alive s)]
        exact hj
      rw [gap_pass_step_dead s _ j hGa, fold_range_apply _ (gap_pass_step_local s),
        if_neg (lt_irrefl j)]
    · rfl

/-- C29 on `wideFleet`, a ring of 4 slots whose slot 3 is dormant: the
predecessor that the scan finds for agent 0 is living, the gap stored for
agent 0 is the stated one, and the gap of the dormant slot 3 is unchanged. -/
theorem gap_pass_pred_scan_witness :
    (wideFleet 0).alive = true ∧
    (wideFleet (find_pred wideFleet (demoScenario 4 40 0).num_drones.toNat 0)).alive = true ∧
    (gap_pass (demoScenario 4 40 0) wideFleet 0).gap_to_pred =
      fmod ((wideFleet (find_pred wideFleet (demoScenario 4 40 0).num_drones.toNat 0)).x
        - (wideFleet 0).x + (demoScenario 4 40 0).perimeter) (demoScenario 4 40 0).perimeter ∧
    (gap_pass (demoScenario 4 40 0) wideFleet 3).gap_to_pred = (wideFleet 3).gap_to_pred :=
  ⟨by decide!,
    (gap_pass_pred_scan (demoScenario 4 40 0) wideFleet 0 (by decide) (by decide!)).elim
      (fun _ h => h.2.2.2.2.2.1),
    (gap_pass_pred_scan (demoScenario 4 40 0) wideFleet 0 (by decide) (by decide!)).elim
      (fun _ h => h.2.2.2.2.2.2.2.2.1),
    (gap_pass_pred_scan (demoScenario 4 40 0) wideFleet 0 (by decide) (by decide!)).elim
      (fun _ h => h.2.2.2.2.2.2.2.2.2.2 3 (by decide!))⟩

end FleetSim

/-! ### The loop of `simulate_scenario` -/

namespace FleetSim

theorem sim_loop_succ (sqrt : ℚ → ℚ) (s : Scenario) (k : Nat) (st : SimState) :
    sim_loop sqrt s (k + 1) st = sim_step sqrt s (sim_loop sqrt s k st) k := by
  unfold sim_loop
  rw [List.range_succ, List.foldl_append]
  rfl

theorem uniform_random_nonneg (r : Rng) : 0 ≤ (uniform_random 0 1 r).1 := by
  unfold uniform_random
  simp only [sub_zero, one_mul, zero_add]
  exact div_nonneg (Nat.cast_nonneg _) (Nat.cast_nonneg _)

/-- With `failure_rate ≤ 0` the failure block never calls `inject_failure`. -/
theorem sim_inject_no_failure (s : Scenario) (st : SimState) (step : Int)
    (hfr : s.failure_rate ≤ 0) :
    (sim_inject s st step).fleet = st.fleet ∧
    (sim_inject s st step).result = st.result := by
  unfold sim_inject
  by_cases h1 : step > 100 ∧ st.failures_injected < s.num_failures
  · rw [if_pos h1]
    have h2 : ¬ ((uniform_random 0 1 st.rng).1 < s.failure_rate) :=
      not_lt.mpr (le_trans hfr (uniform_random_nonneg st.rng))
    simp only [if_neg h2]
    exact ⟨trivial, trivial⟩
  · rw [if_neg h1]
    exact ⟨rfl, rfl⟩

theorem try_insert_spare_alive (f : Fleet) (s : Scenario) (k : Int) (j : Nat)
    (h : (f j).alive = true) : ((try_insert_spare f s k).1 j).alive = true := by
  rcases try_insert_spare_cases f s k with e | ⟨i0, _, _, e⟩
  · rw [e]; exact h
  · rw [e]
    by_cases hj : j = i0
    · subst hj
      rw [Function.update_same]
      rfl
    · rw [Function.update_noteq hj]
      exact h

theorem initialize_fleet_alive (f0 : Fleet) (s : Scenario) (i : Nat)
    (hi : i < s.num_drones.toNat) :
    (initialize_fleet f0 s i).alive = decide ((i : Int) < s.initial_active) := by
  unfold initialize_fleet
  rw [fold_range_apply _ (fun f i j h => Function.update_noteq h _ _), if_pos hi,
    Function.update_same]

theorem living_count_all (f : Fleet) (n : Nat) (h : ∀ i, i < n → (f i).alive = true) :
    living_count f n = n := by
  rcases Nat.lt_or_ge (living_count f n) n with hlt | hge
  · obtain ⟨j, hj, hd⟩ := (living_count_lt_iff f n).mp hlt
    rw [h j hj] at hd
    exact Bool.noConfusion hd
  · exact le_antisymm (living_count_le f n) hge

/-- With every slot living and `num_drones > 0` the density is 1. -/
theorem compute_metrics_density_full (sqrt : ℚ → ℚ) (f : Fleet) (s : Scenario)
    (m : Metrics) (step saf rs : Int) (hn : 0 < s.num_drones)
    (h : ∀ i, i < s.num_drones.toNat → (f i).alive = true) :
    (compute_metrics sqrt f s m step saf rs).density = 1 := by
  rw [(compute_metrics_fields sqrt f s m step saf rs).1,
    (metric_scan_num_alive f s.num_drones.toNat).1, living_count_all f _ h]
  have hc : ((s.num_drones.toNat : Int) : ℚ) = (s.num_drones : ℚ) := by
    rw [Int.toNat_of_nonneg (le_of_lt hn)]
  have hpos : (0 : ℚ) < (s.num_drones : ℚ) := by exact_mod_cast hn
  rw [hc]
  exact div_self (ne_of_gt hpos)

/-- With `failure_rate ≤ 0`, a slot living in a state of the loop is living
after the next iteration. -/
theorem sim_step_alive (sqrt : ℚ → ℚ) (s : Scenario) (st : SimState) (k i : Nat)
    (hfr : s.failure_rate ≤ 0) (h : (st.fleet i).alive = true) :
    ((sim_step sqrt s st k).fleet i).alive = true := by
  have e : (sim_step sqrt s st k).fleet =
      (try_insert_spare (update_drone_positions (sim_inject s st k).fleet s 0.1) s
        (sim_inject s st k).spares_inserted).1 := rfl
  rw [e]
  apply try_insert_spare_alive
  rw [update_drone_positions_alive, (sim_inject_no_failure s st k hfr).1]
  exact h

theorem sim_loop_alive (sqrt : ℚ → ℚ) (s : Scenario) (st : SimState) (i : Nat)
    (hfr : s.failure_rate ≤ 0) (h : (st.fleet i).alive = true) :
    ∀ k, ((sim_loop sqrt s k st).fleet i).alive = true := by
  intro k
  induction k with
  | zero => exact h
  | succ k ih =>
    rw [sim_loop_succ]
    exact sim_step_alive sqrt s _ k i hfr ih

theorem sim_step_result (sqrt : ℚ → ℚ) (s : Scenario) (st : SimState) (k : Nat) :
    (sim_step sqrt s st k).result =
      if k % 10 = 0 then
        compute_metrics sqrt (sim_step sqrt s st k).fleet s (sim_inject s st k).result k
          (sim_inject s st k).step_at_failure (sim_inject s st k).recovery_started
      else (sim_inject s st k).result := rfl

/-- C22 (amended). For every scenario with `failure_rate ≤ 0`, every initial
array and every sequence of random draws: `update_drone_positions` and
`try_insert_spare` never clear `alive`; every agent living after
`initialize_fleet` is living after any number of iterations of the loop of
`simulate_scenario`; and when `initial_active = num_drones` and
`num_drones > 0`, the record `result` has density 1 after every iteration
(so at every sample) and in the final snapshot. -/
theorem no_failures_no_losses (sqrt : ℚ → ℚ) (s : Scenario) (fleet0 : Fleet) (r : Rng)
    (hfr : s.failure_rate ≤ 0) :
    (∀ (f : Fleet) (dt : ℚ) (c : Int) (j : Nat), (f j).alive = true →
      (update_drone_positions f s dt j).alive = true ∧
      ((try_insert_spare f s c).1 j).alive = true) ∧
    (∀ (k i : Nat), (initialize_fleet fleet0 s i).alive = true →
      ((sim_loop sqrt s k (sim_init s fleet0 r)).fleet i).alive = true) ∧
    (s.initial_active = s.num_drones → 0 < s.num_drones →
      (∀ k, (sim_loop sqrt s (k + 1) (sim_init s fleet0 r)).result.density = 1) ∧
      (simulate_scenario sqrt s fleet0 r).density = 1) := by
  refine ⟨?_, ?_, ?_⟩
  · intro f dt c j h
    exact ⟨by rw [update_drone_positions_alive]; exact h, try_insert_spare_alive f s c j h⟩
  · intro k i h
    exact sim_loop_alive sqrt s _ i hfr h k
  · intro hia hn
    have hall : ∀ k i, i < s.num_drones.toNat →
        ((sim_loop sqrt s k (sim_init s fleet0 r)).fleet i).alive = true := by
      intro k i hi
      apply sim_loop_alive sqrt s _ i hfr
      show (initialize_fleet fleet0 s i).alive = true
      rw [initialize_fleet_alive fleet0 s i hi, hia]
      apply decide_eq_true
      omega
    constructor
    · intro k
      induction k with
      | zero =>
        rw [sim_loop_succ, sim_step_result, if_pos (by decide)]
        have := hall 1
        rw [sim_loop_succ] at this
        exact compute_metrics_density_full sqrt _ s _ _ _ _ hn this
      | succ k ih =>
        rw [sim_loop_succ, sim_step_result]
        split
        · have := hall (k + 1 + 1)
          rw [sim_loop_succ] at this
          exact compute_metrics_density_full sqrt _ s _ _ _ _ hn this
        · rw [(sim_inject_no_failure s _ _ hfr).2]
          exact ih
    · unfold simulate_scenario
      exact compute_metrics_density_full sqrt _ s _ _ _ _ hn (hall MAX_SIMULATION_STEPS)

/-- C22 (amended) on the scenario of capacity 10 with 10 active agents: slot 3
is living after 7 iterations and the record has density 1 after them. -/
theorem no_failures_no_losses_witness :
    tenScenario.failure_rate ≤ 0 ∧
    ((sim_loop id tenScenario 7 (sim_init tenScenario blankFleet zeroRng)).fleet 3).alive
      = true ∧
    (sim_loop id tenScenario (6 + 1) (sim_init tenScenario blankFleet zeroRng)).result.density
      = 1 :=
  ⟨by decide!,
    (no_failures_no_losses id tenScenario blankFleet zeroRng (by decide!)).2.1 7 3
      (by decide!),
    ((no_failures_no_losses id tenScenario blankFleet zeroRng (by decide!)).2.2
      (by decide) (by decide)).1 6⟩

/-- C22. A scenario without failures and with `initial_active = num_drones`
whose first sample does not report density 1: the scenario with
`num_drones = 0` (the quotient `0/0` is 0 here and not-a-number in C). -/
theorem density_not_one_when_empty :
    emptyScenario.failure_rate ≤ 0 ∧
    emptyScenario.initial_active = emptyScenario.num_drones ∧
    (sim_loop id emptyScenario 1 (sim_init emptyScenario blankFleet zeroRng)).result.density
      ≠ 1 :=
  ⟨by decide!, by decide, by decide!⟩

/-- C21. In the run of `lossScenario` with the generator that always returns
0, the first failure is injected at step 101 and the spare is back in the same
iteration; the sample at step 110 sets `time_to_recover = 110 - 101 = 9`, and
the next sample, at step 120, changes it to 19: the flag `recovery_started`
of `simulate_scenario` is still 0. -/
theorem time_to_recover_overwritten :
    (sim_loop id lossScenario 111 (sim_init lossScenario blankFleet zeroRng)).step_at_failure
      = 101 ∧
    (sim_loop id lossScenario 111 (sim_init lossScenario blankFleet zeroRng)).result.density
      = 1 ∧
    (sim_loop id lossScenario 111
      (sim_init lossScenario blankFleet zeroRng)).result.time_to_recover = 9 ∧
    (sim_loop id lossScenario 121
      (sim_init lossScenario blankFleet zeroRng)).result.time_to_recover = 19 ∧
    (sim_loop id lossScenario 121 (sim_init lossScenario blankFleet zeroRng)).recovery_started
      = 0 := by
  refine ⟨?_, ?_, ?_, ?_, ?_⟩ <;> decide!

/-- C23. In the end-to-end scenario (capacity 10, 10 active, perimeter 100,
nominal spacing 10, policy 0, no failures, `v_nominal = 1`, `v_max = 2`) every
agent is living and has `gap_to_pred = 90` after the first iteration of the
loop, and the samples at steps 0 and 10 report `avg_gap = 90`, not 10. -/
theorem end_to_end_gap_ninety :
    (∀ i, i < 10 →
      ((sim_loop id tenScenario 1 (sim_init tenScenario blankFleet zeroRng)).fleet i).alive
        = true ∧
      ((sim_loop id tenScenario 1
        (sim_init tenScenario blankFleet zeroRng)).fleet i).gap_to_pred = 90) ∧
    (sim_loop id tenScenario 1 (sim_init tenScenario blankFleet zeroRng)).result.avg_gap
      = 90 ∧
    (sim_loop id tenScenario 11 (sim_init tenScenario blankFleet zeroRng)).result.avg_gap
      = 90 := by
  refine ⟨?_, ?_, ?_⟩ <;> decide!

end FleetSim

/-! ### Dormant slots and the JOINING state -/

namespace FleetSim

theorem initialize_fleet_state (f0 : Fleet) (s : Scenario) (i : Nat)
    (hi : i < s.num_drones.toNat) : (initialize_fleet f0 s i).state = 0 := by
  unfold initialize_fleet
  rw [fold_range_apply _ (fun f i j h => Function.update_noteq h _ _), if_pos hi,
    Function.update_same]

theorem inject_failure_state (f : Fleet) (s : Scenario) (k step : Int) (r : Rng) (j : Nat) :
    ((inject_failure f s k step r).1 j).state = (f j).state := by
  unfold inject_failure
  by_cases h1 : k ≥ s.num_failures
  · rw [if_pos h1]
  · rw [if_neg h1]
    by_cases h2 : (choose_target f s step r).1 ≥ 0
    · simp only [if_pos h2]
      by_cases h : j = (choose_target f s step r).1.toNat
      · rw [h, Function.update_same]
      · rw [Function.update_noteq h]
    · simp only [if_neg h2]

/-- With `num_drones > 0`, `inject_failure` changes `alive` only on a slot
that was alive and in state 0. -/
theorem inject_failure_alive_cases (f : Fleet) (s : Scenario) (k step : Int) (r : Rng)
    (hn : 0 < s.num_drones) (j : Nat) :
    ((inject_failure f s k step r).1 j).alive = (f j).alive ∨
    ((f j).alive = true ∧ (f j).state = 0) := by
  unfold inject_failure
  by_cases h1 : k ≥ s.num_failures
  · rw [if_pos h1]
    exact Or.inl rfl
  · rw [if_neg h1]
    by_cases h2 : (choose_target f s step r).1 ≥ 0
    · simp only [if_pos h2]
      by_cases h : j = (choose_target f s step r).1.toNat
      · right
        rcases choose_target_spec f s step r hn with hc | ⟨_, _, hc⟩
        · omega
        · unfold is_target at hc
          simp only [Bool.and_eq_true, decide_eq_true_eq] at hc
          rw [h]
          exact hc
      · left
        rw [Function.update_noteq h]
    · simp only [if_neg h2]
      exact Or.inl trivial

theorem transition_pass_step_dead (s : Scenario) (g : Fleet) (i : Nat)
    (hal : (g i).alive = false) : transition_pass_step s g i = g := by
  unfold transition_pass_step
  simp [hal]

/-- One call of `update_drone_positions` leaves the state of a dormant slot
as it is. -/
theorem update_drone_positions_state_dead (f : Fleet) (s : Scenario) (dt : ℚ) (i : Nat)
    (hal : (f i).alive = false) :
    (update_drone_positions f s dt i).state = (f i).state := by
  have hstate : (update_drone_positions f s dt i).state =
      (transition_pass s (velocity_pass s dt (gap_pass s f)) i).state := by
    unfold update_drone_positions move_pass
    rw [fold_list_field (fun d => d.state) _
      (fun f i j => (move_pass_step_keeps s dt f i j).2.2)]
  have hvel : velocity_pass s dt (gap_pass s f) i = gap_pass s f i := by
    by_cases hi : i < s.num_drones.toNat
    · have hBal := before_velocity_step_alive f s dt i i
      rw [hal] at hBal
      rw [velocity_pass_slot f s dt i hi, velocity_pass_step_dead s dt _ i hBal]
      unfold before_velocity_step
      rw [fold_range_apply _ (velocity_pass_step_local s dt), if_neg (lt_irrefl i)]
    · exact velocity_pass_slot_out _ s dt i hi
  have hgs : (gap_pass s f i).state = (f i).state := by
    unfold gap_pass
    exact fold_list_field (fun d => d.state) _
      (fun f i j => (gap_pass_step_keeps s f i j).1) _ f i
  have hval : (velocity_pass s dt (gap_pass s f) i).alive = false := by
    unfold velocity_pass gap_pass
    rw [fold_list_field (fun d => d.alive) _ (velocity_pass_step_alive s dt),
      fold_list_field (fun d => d.alive) _ (gap_pass_step_alive s)]
    exact hal
  have htr : transition_pass s (velocity_pass s dt (gap_pass s f)) i =
      velocity_pass s dt (gap_pass s f) i := by
    unfold transition_pass
    rw [fold_range_apply _ (transition_pass_step_local s)]
    have hT : ((List.range i).foldl (transition_pass_step s)
        (velocity_pass s dt (gap_pass s f))) i = velocity_pass s dt (gap_pass s f) i := by
      rw [fold_range_apply _ (transition_pass_step_local s), if_neg (lt_irrefl i)]
    split
    · rw [transition_pass_step_dead s _ i (by rw [hT]; exact hval), hT]
    · rfl
  rw [hstate, htr, hvel, hgs]

/-- C34. In every state reachable from `initialize_fleet` by `inject_failure`,
`update_drone_positions` and `try_insert_spare`, every slot below
`num_drones` with `alive = 0` has `state = 0`; so every slot with `state = 1`
is alive, and `inject_failure` never clears `alive` on a slot whose state is
not 0. -/
theorem dormant_slots_normal (s : Scenario) (f : Fleet) (hr : Reachable s f) (i : Nat)
    (hi : i < s.num_drones.toNat) :
    ((f i).alive = false → (f i).state = 0) ∧
    ((f i).state = 1 → (f i).alive = true) ∧
    (∀ (k step : Int) (r : Rng), (f i).state ≠ 0 →
      ((inject_failure f s k step r).1 i).alive = (f i).alive) := by
  have hn : 0 < s.num_drones := by
    by_contra hc
    have : s.num_drones.toNat = 0 := Int.toNat_eq_zero.mpr (by omega)
    omega
  have main : ∀ g, Reachable s g → ∀ j, j < s.num_drones.toNat →
      (g j).alive = false → (g j).state = 0 := by
    intro g hg
    induction hg with
    | init f0 =>
      intro j hj _
      exact initialize_fleet_state f0 s j hj
    | inject g k step r _ ih =>
      intro j hj hd
      rw [inject_failure_state]
      rcases inject_failure_alive_cases g s k step r hn j with h | h
      · rw [h] at hd
        exact ih j hj hd
      · exact h.2
    | update g dt _ _ ih =>
      intro j hj hd
      rw [update_drone_positions_alive] at hd
      rw [update_drone_positions_state_dead g s dt j hd]
      exact ih j hj hd
    | insert g k _ ih =>
      intro j hj hd
      rcases try_insert_spare_cases g s k with h | ⟨i0, _, _, h⟩
      · rw [h] at hd ⊢
        exact ih j hj hd
      · rw [h] at hd ⊢
        by_cases hji : j = i0
        · exfalso
          rw [hji, Function.update_same] at hd
          exact Bool.noConfusion hd
        · rw [Function.update_noteq hji] at hd ⊢
          exact ih j hj hd
  refine ⟨main f hr i hi, ?_, ?_⟩
  · intro hst
    cases hal : (f i).alive with
    | true => rfl
    | false =>
      have := main f hr i hi hal
      rw [this] at hst
      exact absurd hst (by decide)
  · intro k step r hst
    rcases inject_failure_alive_cases f s k step r hn i with h | h
    · exact h
    · exact absurd h.2 hst

/-- C34 on `spareFleet`: its slot 3, the spare just inserted, has state 1 and
is alive. -/
theorem dormant_slots_normal_witness :
    (spareFleet 3).state = 1 ∧ (spareFleet 3).alive = true :=
  ⟨by decide!,
    (dormant_slots_normal spareScenario spareFleet
      (Reachable.insert _ 0
        (Reachable.update _ (1/10) (by decide!) (Reachable.init blankFleet)))
      3 (by decide)).2.1 (by decide!)⟩

end FleetSim

/-! ### Scenario fields that a run never reads -/

namespace FleetSim

/-- Replacing `spare_trigger_ratio`, `spare_target_factor` and
`neighbor_balance_factor` changes neither the initial state, nor one loop
iteration, nor `compute_metrics`, nor `try_insert_spare`. -/
theorem spare_fields_unread (sqrt : ℚ → ℚ) (s s1 : Scenario) (a b c : ℚ)
    (h : { s with spare_trigger_ratio := a, spare_target_factor := b,
                  neighbor_balance_factor := c } = s1) :
    sim_init s1 = sim_init s ∧ sim_step sqrt s1 = sim_step sqrt s ∧
    (∀ f m step saf rs, compute_metrics sqrt f s1 m step saf rs =
      compute_metrics sqrt f s m step saf rs) ∧
    (∀ f k, try_insert_spare f s1 k = try_insert_spare f s k) := by
  subst h
  exact ⟨rfl, rfl, fun _ _ _ _ _ => rfl, fun _ _ => rfl⟩

/-- C35. Two scenarios that agree in every field except `spare_trigger_ratio`,
`spare_target_factor` and `neighbor_balance_factor` give, on the same initial
array and the same random draws, the same state of `simulate_scenario` after
every number of loop iterations (fleet, running `Metrics`, counters and
remaining draws) and the same returned `Metrics`; `try_insert_spare` returns
the same for both, and it inserts exactly when the living count divided by
`num_drones` is below `density_threshold` and a dormant slot exists. -/
theorem spare_trigger_ratio_unread (sqrt : ℚ → ℚ) (s1 s2 : Scenario) (fleet0 : Fleet)
    (r : Rng)
    (h : { s2 with spare_trigger_ratio := s1.spare_trigger_ratio,
                   spare_target_factor := s1.spare_target_factor,
                   neighbor_balance_factor := s1.neighbor_balance_factor } = s1) :
    (∀ k, sim_loop sqrt s1 k (sim_init s1 fleet0 r) =
      sim_loop sqrt s2 k (sim_init s2 fleet0 r)) ∧
    simulate_scenario sqrt s1 fleet0 r = simulate_scenario sqrt s2 fleet0 r ∧
    (∀ f k, try_insert_spare f s1 k = try_insert_spare f s2 k) ∧
    (∀ f k, try_insert_spare f s1 k ≠ (f, k) ↔
      ((living_count f s1.num_drones.toNat : ℚ) / (s1.num_drones : ℚ)
          < s1.density_threshold ∧
        ∃ j, j < s1.num_drones.toNat ∧ (f j).alive = false)) := by
  obtain ⟨hinit, hstep, hmet, hins⟩ := spare_fields_unread sqrt s2 s1 _ _ _ h
  have hloop : ∀ k, sim_loop sqrt s1 k (sim_init s1 fleet0 r) =
      sim_loop sqrt s2 k (sim_init s2 fleet0 r) := by
    intro k
    unfold sim_loop
    rw [hinit, hstep]
  refine ⟨hloop, ?_, hins, ?_⟩
  · unfold simulate_scenario
    simp only
    rw [hloop, hmet]
  · intro f k
    constructor
    · intro hne
      by_contra hc
      exact hne (try_insert_spare_skips f s1 k hc)
    · rintro ⟨hden, hdorm⟩
      obtain ⟨i0, _, _, _, heq⟩ := try_insert_spare_inserts f s1 k hden hdorm
      rw [heq]
      intro hc
      have := congrArg Prod.snd hc
      simp only at this
      omega

/-- C35 on `spareScenario` and `variedScenario`, which differ in the three
fields: `try_insert_spare` returns the same for both. -/
theorem spare_trigger_ratio_unread_witness :
    variedScenario.spare_trigger_ratio ≠ spareScenario.spare_trigger_ratio ∧
    variedScenario.spare_target_factor ≠ spareScenario.spare_target_factor ∧
    variedScenario.neighbor_balance_factor ≠ spareScenario.neighbor_balance_factor ∧
    try_insert_spare blankFleet variedScenario 0
      = try_insert_spare blankFleet spareScenario 0 :=
  ⟨by decide!, by decide!, by decide!,
    (spare_trigger_ratio_unread (fun q => q) variedScenario spareScenario blankFleet
      zeroRng rfl).2.2.1 blankFleet 0⟩

end FleetSim

/-! ### The total of the index-ring gaps -/

namespace FleetSim

theorem fmod_small (z P : ℚ) (h0 : 0 ≤ z) (h1 : z < P) : fmod z P = z := by
  have hP : 0 < P := lt_of_le_of_lt h0 h1
  unfold fmod truncQ
  have hq : 0 ≤ z / P := div_nonneg h0 (le_of_lt hP)
  rw [if_pos hq]
  have hfl : ⌊z / P⌋ = 0 := by
    rw [Int.floor_eq_iff]
    constructor
    · push_cast; exact hq
    · push_cast; rw [zero_add, div_lt_one hP]; exact h1
  rw [hfl]
  push_cast
  ring

/-- The scan of the gap pass stops at the first living slot behind `i`. -/
theorem find_pred_eq (f : Fleet) (n i e : Nat) (hi : i < n) (he1 : 1 ≤ e) (hen : e ≤ n)
    (halive : (f ((i + n - e) % n)).alive = true)
    (hdead : ∀ e', 1 ≤ e' → e' < e → (f ((i + n - e') % n)).alive = false) :
    find_pred f n i = (i + n - e) % n := by
  obtain ⟨d, hd1, _, hd3, _, hd5, hd6⟩ :=
    scan_pred_spec f n i hi n 1 (le_refl 1) (by omega) (by omega)
  have hdd : d = e := by
    rcases Nat.lt_trichotomy d e with h | h | h
    · exfalso
      have := hdead d hd1 h
      rcases hd6 with h' | h'
      · rw [this] at h'; exact Bool.noConfusion h'
      · omega
    · exact h
    · exfalso
      have := hd5 e he1 h
      rw [this] at halive
      exact Bool.noConfusion halive
  unfold find_pred
  rw [hd3, hdd]

/-- The predecessor of a living agent that has a living agent below it on
the index line is the nearest one below. -/
theorem find_pred_prev (f : Fleet) (n i l : Nat) (hi : i < n) (hl : l < i)
    (hla : (f l).alive = true) (hd : ∀ j, l < j → j < i → (f j).alive = false) :
    find_pred f n i = l := by
  have h := find_pred_eq f n i (i - l) hi (by omega) (by omega)
    (by rw [back_eq n i (i - l) hi (by omega), if_pos (by omega)]
        rw [show i - (i - l) = l by omega]; exact hla)
    (by intro e h1 h2
        rw [back_eq n i e hi (by omega), if_pos (by omega)]
        exact hd _ (by omega) (by omega))
  rw [h, back_eq n i (i - l) hi (by omega), if_pos (by omega)]
  omega

/-- The predecessor of the first living agent is the last living agent. -/
theorem find_pred_wrap (f : Fleet) (n i l : Nat) (hil : i < l) (hl : l < n)
    (hla : (f l).alive = true) (hfirst : ∀ j, j < i → (f j).alive = false)
    (hlast : ∀ j, l < j → j < n → (f j).alive = false) :
    find_pred f n i = l := by
  have hi : i < n := by omega
  have h := find_pred_eq f n i (i + n - l) hi (by omega) (by omega)
    (by rw [back_eq n i (i + n - l) hi (by omega), if_neg (by omega)]
        rw [show i + n - (i + n - l) = l by omega]; exact hla)
    (by intro e h1 h2
        rw [back_eq n i e hi (by omega)]
        split_ifs with hc
        · exact hfirst _ (by omega)
        · exact hlast _ (by omega) (by omega))
  rw [h, back_eq n i (i + n - l) hi (by omega), if_neg (by omega)]
  omega

theorem gap_pass_alive (s : Scenario) (f : Fleet) (j : Nat) :
    (gap_pass s f j).alive = (f j).alive := by
  unfold gap_pass
  exact fold_list_field (fun d => d.alive) _ (gap_pass_step_alive s) _ f j

/-- The gap that the gap pass stores for a living agent. -/
theorem gap_pass_gap_living (s : Scenario) (f : Fleet) (i : Nat)
    (hi : i < s.num_drones.toNat) (hal : (f i).alive = true) :
    (gap_pass s f i).gap_to_pred =
      fmod ((f (find_pred f s.num_drones.toNat i)).x - (f i).x + s.perimeter)
        s.perimeter := by
  have hGx : ∀ j, (((List.range i).foldl (gap_pass_step s) f) j).x = (f j).x :=
    fun j => fold_list_field (fun d => d.x) _
      (fun f i j => (gap_pass_step_keeps s f i j).2.2) _ f j
  have hGal : ∀ j, (((List.range i).foldl (gap_pass_step s) f) j).alive = (f j).alive :=
    fun j => fold_list_field (fun d => d.alive) _ (gap_pass_step_alive s) _ f j
  have hGa : (((List.range i).foldl (gap_pass_step s) f) i).alive = true := by
    rw [hGal]; exact hal
  have hfind : find_pred ((List.range i).foldl (gap_pass_step s) f) s.num_drones.toNat i
      = find_pred f s.num_drones.toNat i := by
    unfold find_pred
    exact scan_pred_congr f _ _ i hGal _ _
  unfold gap_pass
  rw [fold_range_apply _ (gap_pass_step_local s), if_pos hi,
    gap_pass_step_gap_self s _ i hGa, hGx, hGx, hfind]

theorem exists_last_living (f : Fleet) :
    ∀ k, (∃ j, j < k ∧ (f j).alive = true) →
    ∃ l, l < k ∧ (f l).alive = true ∧ ∀ j, l < j → j < k → (f j).alive = false := by
  intro k
  induction k with
  | zero => rintro ⟨j, hj, _⟩; omega
  | succ k ih =>
    rintro ⟨j, hj, hja⟩
    cases hk : (f k).alive with
    | true => exact ⟨k, by omega, hk, fun j h1 h2 => by omega⟩
    | false =>
      have hjk : j < k := by
        rcases Nat.lt_or_ge j k with h | h
        · exact h
        · have : j = k := by omega
          rw [this, hk] at hja
          exact Bool.noConfusion hja
      obtain ⟨l, hl, hla, hld⟩ := ih ⟨j, hjk, hja⟩
      refine ⟨l, by omega, hla, ?_⟩
      intro j' h1 h2
      rcases Nat.lt_or_ge j' k with h | h
      · exact hld j' h1 h
      · have : j' = k := by omega
        rw [this]; exact hk

theorem sum_gap_to_pred_succ (g : Fleet) (k : Nat) :
    sum_gap_to_pred g (k + 1) =
      sum_gap_to_pred g k + (if (g k).alive = true then (g k).gap_to_pred else 0) := by
  unfold sum_gap_to_pred
  rw [Finset.range_succ, Finset.filter_insert]
  by_cases h : (g k).alive = true
  · rw [if_pos h, if_pos h, Finset.sum_insert (by simp), add_comm]
  · rw [if_neg h, if_neg h, add_zero]

theorem sum_gap_to_pred_none (g : Fleet) :
    ∀ k, (∀ j, j < k → (g j).alive = false) → sum_gap_to_pred g k = 0 := by
  intro k
  induction k with
  | zero => intro _; unfold sum_gap_to_pred; simp
  | succ k ih =>
    intro h
    rw [sum_gap_to_pred_succ, ih (fun j hj => h j (by omega)), h k (by omega)]
    simp

theorem living_count_none (f : Fleet) :
    ∀ k, (∀ j, j < k → (f j).alive = false) → living_count f k = 0 := by
  intro k
  induction k with
  | zero => intro _; rfl
  | succ k ih =>
    intro h
    rw [living_count_succ, ih (fun j hj => h j (by omega)), h k (by omega)]
    simp

theorem living_count_le_one (f : Fleet) (i0 : Nat) :
    ∀ k, (∀ j, j < k → j ≠ i0 → (f j).alive = false) →
      living_count f k ≤ (if i0 < k then 1 else 0) := by
  intro k
  induction k with
  | zero => intro _; simp [living_count]
  | succ k ih =>
    intro h
    have ih' := ih (fun j hj hne => h j (by omega) hne)
    rw [living_count_succ]
    by_cases hk : k = i0
    · subst hk
      rw [if_neg (lt_irrefl k)] at ih'
      rw [if_pos (show k < k + 1 by omega)]
      split_ifs <;> omega
    · rw [h k (by omega) hk]
      simp only [Bool.false_eq_true, if_false, add_zero]
      by_cases hlt : i0 < k
      · rw [if_pos hlt] at ih'
        rw [if_pos (show i0 < k + 1 by omega)]
        exact ih'
      · rw [if_neg hlt] at ih'
        rw [if_neg (show ¬ i0 < k + 1 by omega)]
        exact ih'

end FleetSim

namespace FleetSim

/-- Partial sums of the gaps of the gap pass along the index line: with `i0`
the first living agent and `l` the last living agent below `k`, the sum over
the living agents below `k` is the gap of `i0` plus one perimeter for every
further living agent, less the distance from `i0` to `l`. -/
theorem gap_pass_prefix_sum (s : Scenario) (f : Fleet) (i0 : Nat)
    (hi0 : i0 < s.num_drones.toNat) (hi0a : (f i0).alive = true)
    (hfirst : ∀ j, j < i0 → (f j).alive = false)
    (hpos : ∀ i, i < s.num_drones.toNat → (f i).alive = true →
      0 ≤ (f i).x ∧ (f i).x < s.perimeter)
    (hinc : ∀ i j, i < j → j < s.num_drones.toNat → (f i).alive = true →
      (f j).alive = true → (f i).x < (f j).x) :
    ∀ k, k ≤ s.num_drones.toNat → ∀ l, l < k → (f l).alive = true →
      (∀ j, l < j → j < k → (f j).alive = false) →
      sum_gap_to_pred (gap_pass s f) k =
        (gap_pass s f i0).gap_to_pred + ((living_count f k : ℚ) - 1) * s.perimeter
          - ((f l).x - (f i0).x) := by
  intro k
  induction k with
  | zero => intro _ l hl; omega
  | succ k ih =>
    intro hk l hl hla hdead
    rw [sum_gap_to_pred_succ, living_count_succ, gap_pass_alive]
    cases hka : (f k).alive with
    | true =>
      have hlk : l = k := by
        rcases Nat.lt_or_ge l k with h | h
        · have := hdead k h (by omega)
          rw [this] at hka
          exact Bool.noConfusion hka
        · omega
      subst hlk
      simp only [if_true]
      by_cases hex : ∃ j, j < l ∧ (f j).alive = true
      · obtain ⟨l', hl', hla', hld'⟩ := exists_last_living f l hex
        rw [ih (by omega) l' hl' hla' hld',
          gap_pass_gap_living s f l (by omega) hka,
          find_pred_prev f _ l l' (by omega) hl' hla' hld']
        have h1 := hpos l' (by omega) hla'
        have h2 := hpos l (by omega) hka
        have h3 := hinc l' l hl' (by omega) hla' hka
        rw [fmod_small _ _ (by linarith) (by linarith)]
        push_cast
        ring
      · have hnone : ∀ j, j < l → (f j).alive = false := by
          intro j hj
          cases hja : (f j).alive with
          | true => exact absurd ⟨j, hj, hja⟩ hex
          | false => rfl
        have hli : l = i0 := by
          rcases Nat.lt_trichotomy l i0 with h | h | h
          · have := hfirst l h
            rw [this] at hka
            exact Bool.noConfusion hka
          · exact h
          · have := hnone i0 h
            rw [this] at hi0a
            exact Bool.noConfusion hi0a
        subst hli
        rw [sum_gap_to_pred_none _ l (fun j hj => by rw [gap_pass_alive]; exact hnone j hj),
          living_count_none f l hnone]
        push_cast
        ring
    | false =>
      have hlk : l < k := by
        rcases Nat.lt_or_ge l k with h | h
        · exact h
        · have : l = k := by omega
          rw [this, hka] at hla
          exact Bool.noConfusion hla
      simp only [Bool.false_eq_true, if_false, add_zero]
      rw [ih (by omega) l hlk hla (fun j h1 h2 => hdead j h1 (by omega))]

/-- The sum of the gaps of the gap pass over a ring with at least two living
agents whose positions lie in `[0, perimeter)` and increase with the slot
index. -/
theorem gap_pass_sum_increasing (s : Scenario) (f : Fleet)
    (hm : 2 ≤ living_count f s.num_drones.toNat)
    (hpos : ∀ i, i < s.num_drones.toNat → (f i).alive = true →
      0 ≤ (f i).x ∧ (f i).x < s.perimeter)
    (hinc : ∀ i j, i < j → j < s.num_drones.toNat → (f i).alive = true →
      (f j).alive = true → (f i).x < (f j).x) :
    sum_gap_to_pred (gap_pass s f) s.num_drones.toNat =
      ((living_count f s.num_drones.toNat : ℚ) - 1) * s.perimeter := by
  have hex : ∃ j, j < s.num_drones.toNat ∧ (f j).alive = true := by
    by_contra hc
    have hnone : ∀ j, j < s.num_drones.toNat → (f j).alive = false := by
      intro j hj
      cases hja : (f j).alive with
      | true => exact absurd ⟨j, hj, hja⟩ hc
      | false => rfl
    have := living_count_none f _ hnone
    omega
  obtain ⟨l, hl, hla, hld⟩ := exists_last_living f _ hex
  have hi0 := Nat.find_spec hex
  have hmin : ∀ j, j < Nat.find hex → (f j).alive = false := by
    intro j hj
    have := Nat.find_min hex hj
    cases hja : (f j).alive with
    | true => exact absurd ⟨by omega, hja⟩ this
    | false => rfl
  generalize Nat.find hex = i0 at hi0 hmin
  have hge : i0 ≤ l := by
    rcases Nat.lt_or_ge l i0 with h | h
    · have := hmin l h
      rw [this] at hla
      exact Bool.noConfusion hla
    · exact h
  have hne : i0 ≠ l := by
    intro hc
    subst hc
    have := living_count_le_one f i0 s.num_drones.toNat (by
      intro j hj hji
      rcases Nat.lt_or_ge j i0 with h | h
      · exact hmin j h
      · exact hld j (by omega) hj)
    rw [if_pos hl] at this
    omega
  have hlt : i0 < l := by omega
  rw [gap_pass_prefix_sum s f i0 hi0.1 hi0.2 hmin hpos hinc _ (le_refl _) l hl hla hld,
    gap_pass_gap_living s f i0 hi0.1 hi0.2,
    find_pred_wrap f _ i0 l hlt hl hla hmin hld]
  have h1 := hpos i0 hi0.1 hi0.2
  have h2 := hpos l hl hla
  have h3 := hinc i0 l hlt hl hi0.2 hla
  have hP : 0 < s.perimeter := by linarith
  rw [Baseline.fmod_shift_lt _ _ hP (by linarith) (by linarith)]
  ring

end FleetSim

namespace FleetSim

/-- The gaps of the gap pass on the initial fleet when all slots are active
and `num_drones * nominal_spacing = perimeter`. -/
theorem gap_pass_evenly_spaced (s : Scenario) (f0 : Fleet) (hP : 0 < s.perimeter)
    (hall : s.num_drones ≤ s.initial_active)
    (heven : (s.num_drones : ℚ) * s.nominal_spacing = s.perimeter)
    (i : Nat) (hi : i < s.num_drones.toNat) :
    (gap_pass s (initialize_fleet f0 s) i).gap_to_pred =
      s.perimeter - s.nominal_spacing := by
  have hnpos : 0 < s.num_drones := by
    by_contra hc
    have : s.num_drones.toNat = 0 := Int.toNat_eq_zero.mpr (by omega)
    omega
  have hcast : ((s.num_drones.toNat : ℕ) : ℚ) = (s.num_drones : ℚ) := by
    have h : ((s.num_drones.toNat : ℕ) : ℤ) = s.num_drones :=
      Int.toNat_of_nonneg (le_of_lt hnpos)
    rw [← h]
    push_cast
    rw [h]
  have hnq : (0 : ℚ) < (s.num_drones : ℚ) := by exact_mod_cast hnpos
  have hsp : 0 < s.nominal_spacing := by
    by_contra hc
    have : (s.num_drones : ℚ) * s.nominal_spacing ≤ 0 :=
      mul_nonpos_of_nonneg_of_nonpos (le_of_lt hnq) (by linarith)
    linarith
  have hal : ∀ j, j < s.num_drones.toNat → (initialize_fleet f0 s j).alive = true := by
    intro j hj
    rw [initialize_fleet_alive f0 s j hj, decide_eq_true_eq]
    omega
  have hx : ∀ j, j < s.num_drones.toNat →
      (initialize_fleet f0 s j).x = (j : ℚ) * s.nominal_spacing := by
    intro j hj
    rw [initialize_fleet_x f0 s j hj]
    apply fmod_small
    · exact mul_nonneg (Nat.cast_nonneg j) (le_of_lt hsp)
    · have hjq : (j : ℚ) < (s.num_drones : ℚ) := by
        rw [← hcast]
        exact_mod_cast hj
      calc (j : ℚ) * s.nominal_spacing < (s.num_drones : ℚ) * s.nominal_spacing :=
            mul_lt_mul_of_pos_right hjq hsp
        _ = s.perimeter := heven
  have hone : (1 : ℚ) ≤ (s.num_drones : ℚ) := by exact_mod_cast hnpos
  have hle : s.nominal_spacing ≤ s.perimeter := by
    rw [← heven]
    nlinarith
  rw [gap_pass_gap_living s _ i hi (hal i hi)]
  rcases Nat.eq_zero_or_pos i with h0 | h0
  · subst h0
    rcases Nat.lt_or_ge 1 s.num_drones.toNat with hn | hn
    · rw [find_pred_wrap _ _ 0 (s.num_drones.toNat - 1) (by omega) (by omega)
        (hal _ (by omega)) (fun j hj => by omega) (fun j h1 h2 => by omega),
        hx _ (by omega), hx 0 hi]
      have hc : ((s.num_drones.toNat - 1 : ℕ) : ℚ) = (s.num_drones : ℚ) - 1 := by
        rw [Nat.cast_sub (by omega), hcast]
        push_cast
        rfl
      rw [hc]
      have harg : ((s.num_drones : ℚ) - 1) * s.nominal_spacing
            - ((0 : ℕ) : ℚ) * s.nominal_spacing + s.perimeter
          = (s.perimeter - s.nominal_spacing) + s.perimeter := by
        rw [← heven]
        push_cast
        ring
      rw [harg]
      exact Baseline.fmod_shift_lt _ _ hP (by linarith) (by linarith)
    · have hn1 : s.num_drones.toNat = 1 := by omega
      have hfp : find_pred (initialize_fleet f0 s) s.num_drones.toNat 0 = 0 := by
        have h := find_pred_eq (initialize_fleet f0 s) s.num_drones.toNat 0
          s.num_drones.toNat hi (by omega) (le_refl _)
          (by rw [back_self _ 0 hi]; exact hal 0 hi)
          (fun e h1 h2 => by omega)
        rw [h, back_self _ 0 hi]
      rw [hfp, sub_self, zero_add]
      have hq1 : (s.num_drones : ℚ) = 1 := by
        rw [← hcast, hn1]
        norm_num
      have hspP : s.nominal_spacing = s.perimeter := by
        rw [← heven, hq1, one_mul]
      have h := Baseline.fmod_shift_lt 0 s.perimeter hP (le_refl 0) hP
      rw [zero_add] at h
      rw [h, hspP, sub_self]
  · obtain ⟨j, rfl⟩ : ∃ j, i = j + 1 := ⟨i - 1, by omega⟩
    rw [find_pred_prev _ _ (j + 1) j hi (by omega) (hal j (by omega))
        (fun k h1 h2 => by omega),
      hx j (by omega), hx (j + 1) hi]
    have harg : (j : ℚ) * s.nominal_spacing - ((j + 1 : ℕ) : ℚ) * s.nominal_spacing
          + s.perimeter = s.perimeter - s.nominal_spacing := by
      push_cast
      ring
    rw [harg]
    exact fmod_small _ _ (by linarith) (by linarith)

/-- C36. On a ring with at least two living agents whose positions lie in
`[0, perimeter)` and strictly increase with the slot index, the sum of
`gap_to_pred` over the living agents after the gap pass, and after the whole
of `update_drone_positions`, is the number of living agents less one, times
the perimeter.  On the initial fleet with every slot active,
`num_drones * nominal_spacing = perimeter` and a positive perimeter, the gap
pass gives every agent `gap_to_pred = perimeter - nominal_spacing`. -/
theorem index_ring_gap_total (s : Scenario) (dt : ℚ) :
    (∀ f : Fleet, 2 ≤ living_count f s.num_drones.toNat →
      (∀ i, i < s.num_drones.toNat → (f i).alive = true →
        0 ≤ (f i).x ∧ (f i).x < s.perimeter) →
      (∀ j, j < s.num_drones.toNat → ∀ i, i < j → (f i).alive = true →
        (f j).alive = true → (f i).x < (f j).x) →
      sum_gap_to_pred (gap_pass s f) s.num_drones.toNat =
        ((living_count f s.num_drones.toNat : ℚ) - 1) * s.perimeter ∧
      sum_gap_to_pred (update_drone_positions f s dt) s.num_drones.toNat =
        ((living_count f s.num_drones.toNat : ℚ) - 1) * s.perimeter) ∧
    (∀ f0 : Fleet, 0 < s.perimeter → s.num_drones ≤ s.initial_active →
      (s.num_drones : ℚ) * s.nominal_spacing = s.perimeter →
      ∀ i, i < s.num_drones.toNat →
        (initialize_fleet f0 s i).alive = true ∧
        (gap_pass s (initialize_fleet f0 s) i).gap_to_pred =
          s.perimeter - s.nominal_spacing ∧
        (update_drone_positions (initialize_fleet f0 s) s dt i).gap_to_pred =
          s.perimeter - s.nominal_spacing) := by
  constructor
  · intro f hm hpos hinc
    have hsum := gap_pass_sum_increasing s f hm hpos
      (fun i j hij hj hia hja => hinc j hj i hij hia hja)
    refine ⟨hsum, ?_⟩
    rw [← hsum]
    unfold sum_gap_to_pred
    simp only [update_drone_positions_alive, update_drone_positions_gap, gap_pass_alive]
  · intro f0 hP hall heven i hi
    have hg := gap_pass_evenly_spaced s f0 hP hall heven i hi
    refine ⟨?_, hg, ?_⟩
    · rw [initialize_fleet_alive f0 s i hi, decide_eq_true_eq]
      omega
    · rw [update_drone_positions_gap, hg]

/-- C36 on `wideFleet` (agents at 0, 10, 20 on a ring of perimeter 40, slot 3
dormant), where the sum is 80, and on the initial fleet of four agents spaced
by 10 on the same ring, where agent 2 has `gap_to_pred = 30`. -/
theorem index_ring_gap_total_witness :
    living_count wideFleet 4 = 3 ∧
    sum_gap_to_pred (gap_pass (demoScenario 4 40 0) wideFleet) 4 = 80 ∧
    (gap_pass (demoScenario 4 40 0)
      (initialize_fleet blankFleet (demoScenario 4 40 0)) 2).gap_to_pred = 30 :=
  ⟨by decide!,
    (((index_ring_gap_total (demoScenario 4 40 0) (1/10)).1 wideFleet
      (by decide!) (by decide!) (by decide!)).1).trans (by decide!),
    (((index_ring_gap_total (demoScenario 4 40 0) (1/10)).2 blankFleet
      (by decide!) (by decide!) (by decide!) 2 (by decide!)).2.1).trans (by decide!)⟩

end FleetSim

/-! ### Uniform spacing under the baseline controller -/

namespace Baseline

theorem range_fold_apply (step : Fleet → Nat → Fleet)
    (hlocal : ∀ f i j, j ≠ i → step f i j = f j) (f : Fleet) (n j : Nat) :
    ((List.range n).foldl step f) j =
      if j < n then step ((List.range j).foldl step f) j j else f j := by
  induction n with
  | zero => simp
  | succ k ih =>
    rw [List.range_succ, List.foldl_append]
    simp only [List.foldl_cons, List.foldl_nil]
    by_cases hjk : j = k
    · subst hjk
      rw [if_pos (Nat.lt_succ_self j)]
    · rw [hlocal _ _ _ hjk, ih]
      by_cases hlt : j < k
      · rw [if_pos hlt, if_pos (Nat.lt_succ_of_lt hlt)]
      · rw [if_neg hlt, if_neg (by omega)]

/-- The stores of `compute_gaps` leave every field other than the two gaps:
`proj` is any function of a drone that does not depend on `gap_f` and
`gap_b`. -/
theorem set_gap_proj {α : Type} (proj : Drone → α)
    (hf : ∀ (d : Drone) (g : ℚ), proj { d with gap_f := g } = proj d)
    (hb : ∀ (d : Drone) (g : ℚ), proj { d with gap_b := g } = proj d)
    (f : Fleet) (i j : Nat) (g : ℚ) :
    proj (set_gap_f f i g j) = proj (f j) ∧ proj (set_gap_b f i g j) = proj (f j) := by
  unfold set_gap_f set_gap_b
  by_cases h : j = i
  · subst h
    rw [Function.update_same, Function.update_same]
    exact ⟨hf _ _, hb _ _⟩
  · rw [Function.update_noteq h, Function.update_noteq h]
    exact ⟨rfl, rfl⟩

theorem compute_gaps_proj {α : Type} (proj : Drone → α)
    (hf : ∀ (d : Drone) (g : ℚ), proj { d with gap_f := g } = proj d)
    (hb : ∀ (d : Drone) (g : ℚ), proj { d with gap_b := g } = proj d)
    (fleet : Fleet) (s : Scenario) (i : Nat) :
    proj (compute_gaps fleet s i) = proj (fleet i) := by
  have hsf := fun f i j g => (set_gap_proj proj hf hb f i j g).1
  have hsb := fun f i j g => (set_gap_proj proj hf hb f i j g).2
  have hreset : ∀ n, proj (reset_gaps fleet n i) = proj (fleet i) := by
    intro n
    unfold reset_gaps
    induction n with
    | zero => simp
    | succ k ih =>
      rw [List.range_succ, List.foldl_append]
      simp only [List.foldl_cons, List.foldl_nil]
      rw [hsb, hsf, ih]
  have hstep : ∀ (st : GapScan) (o : Ordered),
      proj ((gap_scan_step st o).fleet i) = proj (st.fleet i) := by
    intro st o
    cases h : (st.fleet o.idx).alive with
    | false => rw [gap_scan_step_dead st o h]
    | true =>
      rw [(gap_scan_step_live st o h).2.2.2.2]
      cases st.prev_alive with
      | none => rfl
      | some p => simp only [hsf, hsb]
  have hscan : ∀ (l : List Ordered) (st : GapScan),
      proj ((l.foldl gap_scan_step st).fleet i) = proj (st.fleet i) := by
    intro l
    induction l with
    | nil => intro st; rfl
    | cons o rest ih =>
      intro st
      rw [List.foldl_cons, ih, hstep]
  have hback : ∀ (order0 : Nat) (pa : Option Nat) (w : ℚ) (l : List Ordered) (f : Fleet),
      proj ((l.foldl (back_fix_step order0 pa w) f) i) = proj (f i) := by
    intro order0 pa w l
    induction l with
    | nil => intro f; rfl
    | cons o rest ih =>
      intro f
      rw [List.foldl_cons, ih]
      unfold back_fix_step
      split
      · rfl
      · split
        · exact hsb _ _ _ _
        · rfl
  have hfirst : ∀ (order0 : Nat) (w : ℚ) (l : List Ordered) (f : Fleet),
      proj (set_first_back order0 w l f i) = proj (f i) := by
    intro order0 w l
    induction l with
    | nil => intro f; rfl
    | cons o rest ih =>
      intro f
      unfold set_first_back
      split
      · exact ih f
      · split
        · exact hsb _ _ _ _
        · exact ih f
  have hst : proj (((qsort_pos (init_order fleet s.n.toNat)).foldl gap_scan_step
      { fleet := reset_gaps fleet s.n.toNat, prev_alive := none, prev_pos := 0,
        first_pos := -1, last_pos := -1 }).fleet i) = proj (fleet i) := by
    rw [hscan]
    exact hreset _
  unfold compute_gaps compute_gaps_sorted
  simp only
  revert hst
  generalize (qsort_pos (init_order fleet s.n.toNat)).foldl gap_scan_step
      { fleet := reset_gaps fleet s.n.toNat, prev_alive := none, prev_pos := 0,
        first_pos := -1, last_pos := -1 } = st
  intro hst
  split
  · rw [hfirst, hback]
    cases st.prev_alive with
    | none => exact hst
    | some p =>
      simp only
      rw [hsf]
      exact hst
  · exact hst

end Baseline

namespace Baseline

/-- The pairing loop of `compute_gaps` over a list `A` of living slots with
distinct indices and non-negative positions, from a state with no previous
living slot: each slot of `A` but the first gets as `gap_b` the distance from
the one before, and the `gap_b` of the first is left as it was. -/
theorem gap_scan_prefix_back (fleet : Fleet) (st0 : GapScan)
    (hf0 : st0.first_pos < 0) (hnone : st0.prev_alive = none)
    (hal0 : ∀ i, (st0.fleet i).alive = (fleet i).alive)
    (A : List Ordered) :
    (∀ o ∈ A, (fleet o.idx).alive = true ∧ 0 ≤ o.pos) →
    A.Pairwise (fun a b => a.idx ≠ b.idx) →
    (∀ k u v, A[k]? = some u → A[k + 1]? = some v →
      ((A.foldl gap_scan_step st0).fleet v.idx).gap_b = v.pos - u.pos) ∧
    (∀ h, A[0]? = some h →
      ((A.foldl gap_scan_step st0).fleet h.idx).gap_b = (st0.fleet h.idx).gap_b) := by
  induction A using List.reverseRecOn with
  | nil =>
    intro _ _
    refine ⟨?_, ?_⟩
    · intro k u v hu; simp at hu
    · intro h hh; simp at hh
  | append_singleton B o ih =>
    intro hA hnd
    have hAB : ∀ x ∈ B, (fleet x.idx).alive = true ∧ 0 ≤ x.pos :=
      fun x hx => hA x (List.mem_append_left _ hx)
    have hndB := (List.pairwise_append.mp hnd).1
    have hcross : ∀ a ∈ B, a.idx ≠ o.idx :=
      fun a ha => (List.pairwise_append.mp hnd).2.2 a ha o (by simp)
    have hB := ih hAB hndB
    have hpre := gap_scan_prefix fleet st0 hf0 hal0 B hAB hndB
    have ho := hA o (by simp)
    have hlive : ((B.foldl gap_scan_step st0).fleet o.idx).alive = true := by
      rw [hpre.1]; exact ho.1
    obtain ⟨_, _, _, _, e5⟩ := gap_scan_step_live (B.foldl gap_scan_step st0) o hlive
    rw [List.foldl_append]
    simp only [List.foldl_cons, List.foldl_nil]
    by_cases hB0 : B = []
    · subst hB0
      simp only [List.foldl_nil] at e5 ⊢
      rw [hnone] at e5
      simp only at e5
      refine ⟨?_, ?_⟩
      · intro k u v _ hv
        simp at hv
      · intro h _
        rw [e5]
    · have hlen : 0 < B.length := List.length_pos.mpr hB0
      have hlast : B[B.length - 1]? = some (B[B.length - 1]) :=
        List.getElem?_eq_getElem (by omega)
      obtain ⟨p1, p2, _⟩ := hpre.2.2.1 _ hlast
      rw [e5, p1]
      simp only
      refine ⟨?_, ?_⟩
      · intro k u v hu hv
        rw [set_gap_f_gap_b, set_gap_b_gap_b]
        rcases snoc_index_cases B o v (k + 1) hv with ⟨hk1, hv'⟩ | ⟨hk1, hvo⟩
        · have hvB : v ∈ B := List.mem_iff_getElem?.mpr ⟨k + 1, hv'⟩
          rw [if_neg (hcross v hvB)]
          have hu' : B[k]? = some u := by
            rw [List.getElem?_append_left (by omega)] at hu
            exact hu
          exact hB.1 k u v hu' hv'
        · rw [hvo, if_pos rfl, p2]
          have hu' : B[k]? = some u := by
            rw [List.getElem?_append_left (by omega)] at hu
            exact hu
          have h2 : B[B.length - 1]? = some u := by
            rw [show B.length - 1 = k by omega]; exact hu'
          rw [hlast] at h2
          rw [Option.some.inj h2]
      · intro h hh
        rw [List.getElem?_append_left hlen] at hh
        have hhB : h ∈ B := List.mem_iff_getElem?.mpr ⟨0, hh⟩
        rw [set_gap_f_gap_b, set_gap_b_gap_b, if_neg (hcross h hhB)]
        exact hB.2 h hh

theorem back_fix_fold_gap_b (order0 : Nat) (pa : Option Nat) (w : ℚ) (l : List Ordered) :
    ∀ (f : Fleet) (j : Nat), j ≠ order0 →
      ((l.foldl (back_fix_step order0 pa w) f) j).gap_b = (f j).gap_b := by
  induction l with
  | nil => intro f j _; rfl
  | cons o rest ih =>
    intro f j hj
    rw [List.foldl_cons, ih _ j hj]
    unfold back_fix_step
    split
    · rfl
    · split
      · rw [set_gap_b_gap_b]
        by_cases h : j = o.idx
        · rw [if_pos h, if_neg (by rw [← h]; exact hj), h]
        · rw [if_neg h]
      · rfl

theorem set_first_back_gap_b (order0 : Nat) (w : ℚ) (l : List Ordered) :
    ∀ (f : Fleet) (j : Nat), j ≠ order0 →
      (set_first_back order0 w l f j).gap_b = (f j).gap_b := by
  induction l with
  | nil => intro f j _; rfl
  | cons o rest ih =>
    intro f j hj
    unfold set_first_back
    split
    · exact ih f j hj
    · split
      · rename_i h
        rw [set_gap_b_gap_b, if_neg (by rw [h]; exact hj)]
      · exact ih f j hj

theorem set_first_back_head (w : ℚ) (o : Ordered) (rest : List Ordered) (f : Fleet)
    (hal : (f o.idx).alive = true) :
    (set_first_back o.idx w (o :: rest) f o.idx).gap_b = w := by
  unfold set_first_back
  simp only [hal, Bool.not_true, Bool.false_eq_true, if_false, if_true]
  rw [set_gap_b_gap_b, if_pos rfl]

end Baseline

namespace Baseline

/-- The gaps that `compute_gaps` stores when every slot is living, read on a
sorted arrangement of the `order` array: each slot gets as `gap_f` the
distance to the next slot and as `gap_b` the distance from the one before,
around the ring. -/
theorem compute_gaps_sorted_all_alive (order : List Ordered) (fleet : Fleet) (s : Scenario)
    (hperm : order.Perm (init_order fleet s.n.toNat))
    (hsorted : order.Pairwise (fun a b => a.pos ≤ b.pos))
    (h2 : 2 ≤ s.n.toNat)
    (hall : ∀ i, i < s.n.toNat → (fleet i).alive = true)
    (hpos : ∀ i, i < s.n.toNat → 0 ≤ (fleet i).s ∧ (fleet i).s < s.perimeter) :
    (∀ k u v, order[k]? = some u → order[k + 1]? = some v →
      (compute_gaps_sorted order fleet s u.idx).gap_f = v.pos - u.pos ∧
      (compute_gaps_sorted order fleet s v.idx).gap_b = v.pos - u.pos) ∧
    (∀ u h, order[s.n.toNat - 1]? = some u → order[0]? = some h →
      (compute_gaps_sorted order fleet s u.idx).gap_f = s.perimeter - u.pos + h.pos ∧
      (compute_gaps_sorted order fleet s h.idx).gap_b = s.perimeter - u.pos + h.pos) := by
  obtain ⟨_, hndf, hmem, hlenf⟩ := living_order_facts order fleet s.n.toNat hperm hsorted
  have hmemo : ∀ o ∈ order, o.idx < s.n.toNat ∧ o.pos = (fleet o.idx).s := by
    intro o ho
    exact (init_order_mem fleet _ o).mp (hperm.mem_iff.mp ho)
  have hfil : order.filter (is_living fleet) = order := by
    rw [List.filter_eq_self]
    intro o ho
    unfold is_living
    exact hall _ (hmemo o ho).1
  rw [hfil] at hndf hlenf
  have hlen : order.length = s.n.toNat := by
    rw [hperm.length_eq]
    unfold init_order
    rw [List.length_map, List.length_range]
  have hcnt2 : 2 ≤ alive_count fleet s.n.toNat := by omega
  have hcnt : alive_count fleet s.n.toNat > 1 := by omega
  have hgf := compute_gaps_sorted_gap_f order fleet s hperm hsorted hcnt2
    (fun i hi _ => hpos i hi)
  rw [hfil] at hgf
  have hA : ∀ o ∈ order, (fleet o.idx).alive = true ∧ 0 ≤ o.pos := by
    intro o ho
    obtain ⟨h1, h2'⟩ := hmemo o ho
    rw [h2']
    exact ⟨hall _ h1, (hpos _ h1).1⟩
  obtain ⟨g1, _, g3, g4⟩ := gap_scan_prefix fleet
    { fleet := reset_gaps fleet s.n.toNat, prev_alive := none, prev_pos := 0,
      first_pos := -1, last_pos := -1 } (by norm_num)
    (fun i => reset_gaps_alive fleet _ i) order hA hndf
  obtain ⟨b1, _⟩ := gap_scan_prefix_back fleet
    { fleet := reset_gaps fleet s.n.toNat, prev_alive := none, prev_pos := 0,
      first_pos := -1, last_pos := -1 } (by norm_num) rfl
    (fun i => reset_gaps_alive fleet _ i) order hA hndf
  have hlast : order[order.length - 1]? = some (order[order.length - 1]) :=
    List.getElem?_eq_getElem (by omega)
  have hfirst : order[0]? = some (order[0]) := List.getElem?_eq_getElem (by omega)
  obtain ⟨q1, _, q3⟩ := g3 _ hlast
  have q4 := g4 _ hfirst
  have hhead : (order.headD { idx := 0, pos := 0 }).idx = (order[0]).idx := by
    cases order with
    | nil => simp at hlen; omega
    | cons a rest => rfl
  constructor
  · intro k u v hu hv
    refine ⟨hgf.1 k u v hu hv, ?_⟩
    obtain ⟨hkv, hve⟩ := List.getElem?_eq_some.mp hv
    have hne : v.idx ≠ (order[0]).idx := by
      rw [← hve]
      exact Ne.symm ((List.pairwise_iff_getElem.mp hndf) 0 (k + 1) (by omega) hkv (by omega))
    unfold compute_gaps_sorted
    simp only [hcnt, if_true, q1]
    rw [hhead, set_first_back_gap_b _ _ _ _ _ hne, back_fix_fold_gap_b _ _ _ _ _ _ hne,
      set_gap_f_gap_b]
    exact b1 k u v hu hv
  · intro u h hu hh
    have hu2 : order[order.length - 1]? = some u := by rw [hlen]; exact hu
    refine ⟨hgf.2 u h hu2 hh, ?_⟩
    rw [hlast] at hu2
    rw [hfirst] at hh
    have hu' := Option.some.inj hu2
    have hh' := Option.some.inj hh
    unfold compute_gaps_sorted
    simp only [hcnt, if_true, q1]
    rw [hhead, q3, q4, hu', hh']
    cases horder : order with
    | nil => rw [horder] at hlen; simp at hlen; omega
    | cons a rest =>
      have ha : a = h := by
        have := hh'
        simp only [horder, List.getElem_cons_zero] at this
        exact this
      subst ha
      apply set_first_back_head
      rw [(back_fix_fold_frame _ _ _ _ _ _).1, set_gap_f_alive, ← horder, g1]
      exact hall _ (hmemo a (by rw [horder]; simp)).1

end Baseline

namespace Baseline

theorem range_rotate_perm (n q : Nat) :
    ((List.range n).map (fun i => (i + q) % n)).Perm (List.range n) := by
  have h : (List.range n).map (fun i => (i + q) % n) = (List.range n).rotate q := by
    apply List.ext_getElem
    · simp
    · intro k h1 h2
      simp [List.getElem_rotate]
  rw [h]
  exact List.rotate_perm _ _

/-- The positions of a sorted arrangement of the `order` array when the
slots sit on the grid `c, c + g, c + 2g, ...`, slot `i` at place
`(i + q) % n`: the `k`-th entry is at `k * g + c`. -/
theorem even_sorted_pos (f : Fleet) (n q : Nat) (g c : ℚ) (hg : 0 < g)
    (hx : ∀ i, i < n → (f i).s = (((i + q) % n : ℕ) : ℚ) * g + c)
    (order : List Ordered) (hperm : order.Perm (init_order f n))
    (hsorted : order.Pairwise (fun a b => a.pos ≤ b.pos)) :
    ∀ (k : Nat) (u : Ordered), order[k]? = some u → u.pos = (k : ℚ) * g + c := by
  have hmap : order.map (fun o => o.pos) = (List.range n).map (fun k : Nat => (k : ℚ) * g + c) := by
    apply List.eq_of_perm_of_sorted (r := fun a b : ℚ => a ≤ b)
    · refine (hperm.map _).trans ?_
      have h1 : (init_order f n).map (fun o => o.pos)
          = ((List.range n).map (fun i => (i + q) % n)).map (fun k : Nat => (k : ℚ) * g + c) := by
        unfold init_order
        rw [List.map_map, List.map_map]
        apply List.map_congr_left
        intro i hi
        simp only [Function.comp]
        exact hx i (List.mem_range.mp hi)
      rw [h1]
      exact (range_rotate_perm n q).map _
    · exact List.pairwise_map.mpr hsorted
    · rw [List.Sorted, List.pairwise_map]
      refine (List.pairwise_lt_range n).imp ?_
      intro a b hab
      have : (a : ℚ) < (b : ℚ) := by exact_mod_cast hab
      nlinarith
  intro k u hu
  have h1 : (order.map (fun o => o.pos))[k]? = some u.pos := by
    rw [List.getElem?_map, hu]
    rfl
  rw [hmap, List.getElem?_map] at h1
  have hk : k < n := by
    by_contra hc
    rw [List.getElem?_eq_none (by rw [List.length_range]; omega)] at h1
    simp at h1
  rw [List.getElem?_range hk] at h1
  simp only [Option.map_some', Option.some.injEq] at h1
  exact h1.symm

end Baseline

namespace Baseline

/-- The gaps that `compute_gaps` stores when every slot is living and the
slots sit on the grid `c, c + g, ...` with `perimeter = n * g`: all equal to
`g`. -/
theorem compute_gaps_even (f : Fleet) (s : Scenario) (q : Nat) (g c : ℚ)
    (hN : 2 ≤ s.n.toNat) (hg : 0 < g) (hPg : s.perimeter = (s.n.toNat : ℚ) * g)
    (hc0 : 0 ≤ c) (hcg : c < g)
    (hall : ∀ i, i < s.n.toNat → (f i).alive = true)
    (hx : ∀ i, i < s.n.toNat → (f i).s = (((i + q) % s.n.toNat : ℕ) : ℚ) * g + c)
    (i : Nat) (hi : i < s.n.toNat) :
    (compute_gaps f s i).gap_f = g ∧ (compute_gaps f s i).gap_b = g := by
  have hpos : ∀ j, j < s.n.toNat → 0 ≤ (f j).s ∧ (f j).s < s.perimeter := by
    intro j hj
    rw [hx j hj, hPg]
    have hm : (j + q) % s.n.toNat < s.n.toNat := Nat.mod_lt _ (by omega)
    have hm1 : (((j + q) % s.n.toNat : ℕ) : ℚ) + 1 ≤ (s.n.toNat : ℚ) := by
      exact_mod_cast hm
    have hm0 : (0 : ℚ) ≤ (((j + q) % s.n.toNat : ℕ) : ℚ) := Nat.cast_nonneg _
    constructor
    · nlinarith
    · nlinarith
  have hperm := qsort_pos_perm (init_order f s.n.toNat)
  have hsorted := qsort_pos_sorted (init_order f s.n.toNat)
  have hlen : (qsort_pos (init_order f s.n.toNat)).length = s.n.toNat := by
    rw [hperm.length_eq]
    unfold init_order
    rw [List.length_map, List.length_range]
  have hgrid := even_sorted_pos f s.n.toNat q g c hg hx _ hperm hsorted
  obtain ⟨hpair, hwrap⟩ := compute_gaps_sorted_all_alive _ f s hperm hsorted hN hall hpos
  have hmem : ({ idx := i, pos := (f i).s } : Ordered) ∈ qsort_pos (init_order f s.n.toNat) := by
    rw [hperm.mem_iff, init_order_mem]
    exact ⟨hi, rfl⟩
  obtain ⟨k, hk⟩ := List.mem_iff_getElem?.mp hmem
  have hkN : k < s.n.toNat := by
    rw [← hlen]
    exact (List.getElem?_eq_some.mp hk).1
  have hfirst : (qsort_pos (init_order f s.n.toNat))[0]?
      = some ((qsort_pos (init_order f s.n.toNat))[0]) :=
    List.getElem?_eq_getElem (by omega)
  have hlast : (qsort_pos (init_order f s.n.toNat))[s.n.toNat - 1]?
      = some ((qsort_pos (init_order f s.n.toNat))[s.n.toNat - 1]) :=
    List.getElem?_eq_getElem (by omega)
  have hpk := hgrid k _ hk
  have hp0 := hgrid 0 _ hfirst
  have hpl := hgrid (s.n.toNat - 1) _ hlast
  have hcl : ((s.n.toNat - 1 : ℕ) : ℚ) = (s.n.toNat : ℚ) - 1 := by
    rw [Nat.cast_sub (by omega)]
    norm_num
  unfold compute_gaps
  constructor
  · rcases Nat.lt_or_ge (k + 1) s.n.toNat with h | h
    · have hnext : (qsort_pos (init_order f s.n.toNat))[k + 1]?
          = some ((qsort_pos (init_order f s.n.toNat))[k + 1]) :=
        List.getElem?_eq_getElem (by omega)
      have hpn := hgrid (k + 1) _ hnext
      have := (hpair k _ _ hk hnext).1
      simp only at this
      rw [this, hpn, hx i hi]
      simp only at hpk
      rw [hx i hi] at hpk
      rw [hpk]
      push_cast
      ring
    · have hkl : k = s.n.toNat - 1 := by omega
      rw [hkl] at hk
      have := (hwrap _ _ hk hfirst).1
      simp only at this
      rw [this, hp0, hPg]
      simp only at hpk
      rw [hpk, hkl, hcl]
      push_cast
      ring
  · rcases Nat.eq_zero_or_pos k with h | h
    · rw [h] at hk
      have := (hwrap _ _ hlast hk).2
      simp only at this
      rw [this, hpl, hPg, hcl]
      simp only at hpk
      rw [hpk, h]
      push_cast
      ring
    · obtain ⟨k', rfl⟩ : ∃ k', k = k' + 1 := ⟨k - 1, by omega⟩
      have hprev : (qsort_pos (init_order f s.n.toNat))[k']?
          = some ((qsort_pos (init_order f s.n.toNat))[k']) :=
        List.getElem?_eq_getElem (by omega)
      have hpp := hgrid k' _ hprev
      have := (hpair k' _ _ hprev hk).2
      simp only at this
      rw [this, hpp]
      simp only at hpk
      rw [hpk]
      push_cast
      ring

end Baseline

namespace Baseline

/-- The remainder of a grid point `K * g + c` on a ring of `n` cells of
width `g`. -/
theorem fmod_grid (K n : Nat) (g c : ℚ) (hn : 0 < n) (hg : 0 < g) (hc0 : 0 ≤ c)
    (hcg : c < g) :
    fmod ((K : ℚ) * g + c) ((n : ℚ) * g) = ((K % n : ℕ) : ℚ) * g + c := by
  have hnq : (0 : ℚ) < (n : ℚ) := by exact_mod_cast hn
  have hP : 0 < (n : ℚ) * g := mul_pos hnq hg
  have hKn : K = n * (K / n) + K % n := (Nat.div_add_mod K n).symm
  have hRn : K % n < n := Nat.mod_lt K hn
  generalize K / n = D at hKn
  generalize K % n = R at hKn hRn ⊢
  have hK : (K : ℚ) = (n : ℚ) * (D : ℚ) + (R : ℚ) := by exact_mod_cast hKn
  have hr : (R : ℚ) + 1 ≤ (n : ℚ) := by exact_mod_cast hRn
  have hr0 : (0 : ℚ) ≤ (R : ℚ) := Nat.cast_nonneg _
  have hd0 : (0 : ℚ) ≤ (D : ℚ) := Nat.cast_nonneg _
  have hrg0 : 0 ≤ (R : ℚ) * g := mul_nonneg hr0 (le_of_lt hg)
  have hrg : (R : ℚ) * g + g ≤ (n : ℚ) * g := by nlinarith
  have hnum : 0 ≤ (K : ℚ) * g + c := by
    have : (0 : ℚ) ≤ (K : ℚ) := Nat.cast_nonneg _
    nlinarith
  unfold fmod truncQ
  have hq : 0 ≤ ((K : ℚ) * g + c) / ((n : ℚ) * g) := div_nonneg hnum (le_of_lt hP)
  rw [if_pos hq]
  have hfl : ⌊((K : ℚ) * g + c) / ((n : ℚ) * g)⌋ = ((D : ℕ) : ℤ) := by
    rw [Int.floor_eq_iff]
    constructor
    · rw [le_div_iff₀ hP, Int.cast_natCast, hK]
      nlinarith
    · rw [div_lt_iff₀ hP, Int.cast_natCast, hK]
      nlinarith
  rw [hfl, Int.cast_natCast, hK]
  ring

theorem speed_cmd_even (s : Scenario) (g : ℚ) (hsafe : s.d_safe ≤ g) (hV0 : 0 ≤ s.V)
    (hVmax : s.V ≤ s.Vmax) (hVcap : s.V ≤ s.V_cap) : speed_cmd s g g = s.V := by
  unfold speed_cmd
  have hcap : ¬ (s.V > s.V_cap) := not_lt.mpr hVcap
  have h0 : ¬ (s.V < 0) := not_lt.mpr hV0
  have hmax : ¬ (s.V > s.Vmax) := not_lt.mpr hVmax
  simp only [sub_self, mul_zero, add_zero, if_neg (not_lt.mpr hsafe), hcap, and_false,
    if_false, h0, hmax]

end Baseline

namespace Baseline

theorem speed_step_local (s : Scenario) (f : Fleet) (i j : Nat) (h : j ≠ i) :
    speed_step s f i j = f j := by
  unfold speed_step
  split
  · rfl
  · split
    · rw [Function.update_noteq h]
    · rw [Function.update_noteq h]

theorem advance_step_local (s : Scenario) (f : Fleet) (i j : Nat) (h : j ≠ i) :
    advance_step s f i j = f j := by
  unfold advance_step
  split
  · rfl
  · rw [Function.update_noteq h]

/-- The speed update on a living slot in mode 0. -/
theorem speed_fold_slot (s : Scenario) (f : Fleet) (i : Nat) (hi : i < s.n.toNat)
    (hal : (f i).alive = true) (hmode : (f i).mode = 0) :
    ((List.range s.n.toNat).foldl (speed_step s) f) i =
      { f i with v := speed_cmd s (f i).gap_f (f i).gap_b } := by
  have hF : ((List.range i).foldl (speed_step s) f) i = f i := by
    rw [range_fold_apply _ (speed_step_local s), if_neg (lt_irrefl i)]
  rw [range_fold_apply _ (speed_step_local s), if_pos hi]
  revert hF
  generalize (List.range i).foldl (speed_step s) f = F
  intro hF
  have hm : ¬ ((f i).mode = 1 ∧ (f i).incoming_timer > 0) := by
    rw [hmode]
    intro h
    exact absurd h.1 (by decide)
  unfold speed_step
  rw [hF]
  simp only [hal, Bool.not_true, Bool.false_eq_true, if_false, if_neg hm]
  rw [Function.update_same]

/-- The position advance on a living slot. -/
theorem advance_fold_slot (s : Scenario) (f : Fleet) (i : Nat) (hi : i < s.n.toNat)
    (hal : (f i).alive = true) :
    ((List.range s.n.toNat).foldl (advance_step s) f) i =
      { f i with s := fmod ((f i).s + (f i).v * s.dt + s.perimeter) s.perimeter } := by
  have hF : ((List.range i).foldl (advance_step s) f) i = f i := by
    rw [range_fold_apply _ (advance_step_local s), if_neg (lt_irrefl i)]
  rw [range_fold_apply _ (advance_step_local s), if_pos hi]
  revert hF
  generalize (List.range i).foldl (advance_step s) f = F
  intro hF
  unfold advance_step
  rw [hF]
  simp only [hal, Bool.not_true, Bool.false_eq_true, if_false]
  rw [Function.update_same]

theorem init_fleet_slot (s : Scenario) (i : Nat) (hi : i < s.n.toNat) :
    (init_fleet s i).s = fmod ((i : ℚ) * (s.perimeter / (s.n : ℚ))) s.perimeter ∧
    (init_fleet s i).v = s.V ∧ (init_fleet s i).alive = true ∧
    (init_fleet s i).mode = 0 := by
  unfold init_fleet
  rw [range_fold_apply _ (fun f i j h => Function.update_noteq h _ _), if_pos hi,
    Function.update_same]
  exact ⟨rfl, rfl, rfl, rfl⟩

/-- With an empty schedule the loss loop does not run. -/
theorem loss_phase_empty (s : Scenario) (losses : Losses) (st : RunState) (step : Nat) :
    loss_phase s losses 0 st step =
      { fleet := st.fleet, loss_idx := st.loss_idx, loss_this_step := false,
        last_loss_step := st.last_loss_step } := by
  unfold loss_phase
  have h : ((0 : Int) - (st.loss_idx : Int)).toNat = 0 := by omega
  rw [h]
  rfl

theorem dead_count_zero (f : Fleet) (n : Nat) (h : ∀ i, i < n → (f i).alive = true) :
    dead_count f n = 0 := by
  unfold dead_count
  rw [List.length_eq_zero, List.filter_eq_nil_iff]
  intro i hi
  rw [h i (List.mem_range.mp hi)]
  simp

/-- With no dead slot and no loss seen so far, the spare phase changes
nothing. -/
theorem spare_phase_none (s : Scenario) (step : Int) (lts : Bool) (last : Int) (f : Fleet)
    (h : ∀ i, i < s.n.toNat → (f i).alive = true) :
    spare_phase s step lts last f 0 0 = (f, 0, 0) := by
  unfold spare_phase
  rw [dead_count_zero f _ h]
  simp

end Baseline

namespace Baseline

/-- The position advance of a grid point by `δ ≥ 0`: the point moves
`⌊(c + δ) / g⌋` cells on and keeps the remainder as its offset. -/
theorem advance_grid (P g c δ : ℚ) (N k : Nat) (hN : 0 < N) (hg : 0 < g)
    (hP : P = (N : ℚ) * g) (hc0 : 0 ≤ c) (hδ : 0 ≤ δ) :
    fmod ((k : ℚ) * g + c + δ + P) P =
      (((k + ⌊(c + δ) / g⌋.toNat) % N : ℕ) : ℚ) * g
        + (c + δ - (⌊(c + δ) / g⌋.toNat : ℚ) * g) ∧
    0 ≤ c + δ - (⌊(c + δ) / g⌋.toNat : ℚ) * g ∧
    c + δ - (⌊(c + δ) / g⌋.toNat : ℚ) * g < g := by
  have hT0 : 0 ≤ (c + δ) / g := div_nonneg (by linarith) (le_of_lt hg)
  have hfl0 : 0 ≤ ⌊(c + δ) / g⌋ := Int.floor_nonneg.mpr hT0
  have hmz : ((⌊(c + δ) / g⌋.toNat : ℕ) : ℤ) = ⌊(c + δ) / g⌋ := Int.toNat_of_nonneg hfl0
  have hmq : ((⌊(c + δ) / g⌋.toNat : ℕ) : ℚ) = ((⌊(c + δ) / g⌋ : ℤ) : ℚ) := by
    exact_mod_cast hmz
  have hle : ((⌊(c + δ) / g⌋ : ℤ) : ℚ) ≤ (c + δ) / g := Int.floor_le _
  have hlt : (c + δ) / g < ((⌊(c + δ) / g⌋ : ℤ) : ℚ) + 1 := Int.lt_floor_add_one _
  rw [← hmq] at hle hlt
  generalize ⌊(c + δ) / g⌋.toNat = m at hle hlt ⊢
  rw [le_div_iff₀ hg] at hle
  rw [div_lt_iff₀ hg] at hlt
  have h0 : 0 ≤ c + δ - (m : ℚ) * g := by linarith
  have h1 : c + δ - (m : ℚ) * g < g := by linarith
  refine ⟨?_, h0, h1⟩
  have harg : (k : ℚ) * g + c + δ + P
      = ((k + m + N : ℕ) : ℚ) * g + (c + δ - (m : ℚ) * g) := by
    rw [hP]
    push_cast
    ring
  rw [harg, hP, fmod_grid _ N g _ hN hg h0 h1, Nat.add_mod_right]

/-- One step of `simulate` with an empty schedule on a fleet whose slots are
all living, in mode 0, and on the grid of width `g = perimeter / n`: no spare
is inserted, every drone gets the velocity `V` and both gaps `g`, and the
fleet is on the grid again. -/
theorem step_body_even (s : Scenario) (losses : Losses) (st : RunState) (t : Nat) (g : ℚ)
    (hN : 2 ≤ s.n.toNat) (hg : 0 < g) (hPg : s.perimeter = (s.n.toNat : ℚ) * g)
    (hsafe : s.d_safe ≤ g) (hV0 : 0 ≤ s.V) (hVmax : s.V ≤ s.Vmax) (hVcap : s.V ≤ s.V_cap)
    (hdt : 0 ≤ s.dt)
    (h1 : st.total_losses_seen = 0) (h2 : st.total_spares_inserted = 0)
    (hal : ∀ i, i < s.n.toNat → (st.fleet i).alive = true ∧ (st.fleet i).mode = 0)
    (q : Nat) (c : ℚ) (hc0 : 0 ≤ c) (hcg : c < g)
    (hx : ∀ i, i < s.n.toNat →
      (st.fleet i).s = (((i + q) % s.n.toNat : ℕ) : ℚ) * g + c) :
    (step_body s losses 0 st t).total_losses_seen = 0 ∧
    (step_body s losses 0 st t).total_spares_inserted = 0 ∧
    (∀ i, i < s.n.toNat →
      ((step_body s losses 0 st t).fleet i).alive = true ∧
      ((step_body s losses 0 st t).fleet i).mode = 0 ∧
      ((step_body s losses 0 st t).fleet i).v = s.V ∧
      ((step_body s losses 0 st t).fleet i).gap_f = g ∧
      ((step_body s losses 0 st t).fleet i).gap_b = g) ∧
    ∃ (q' : Nat) (c' : ℚ), 0 ≤ c' ∧ c' < g ∧ ∀ i, i < s.n.toNat →
      ((step_body s losses 0 st t).fleet i).s
        = (((i + q') % s.n.toNat : ℕ) : ℚ) * g + c' := by
  have hf1al : ∀ i, i < s.n.toNat → (compute_gaps st.fleet s i).alive = true := by
    intro i hi
    rw [compute_gaps_proj (fun d => d.alive) (fun _ _ => rfl) (fun _ _ => rfl)]
    exact (hal i hi).1
  have hbody : step_body s losses 0 st t =
      { fleet := (List.range s.n.toNat).foldl (advance_step s)
          ((List.range s.n.toNat).foldl (speed_step s) (compute_gaps st.fleet s))
        loss_idx := st.loss_idx
        total_losses_seen := 0
        total_spares_inserted := 0
        last_loss_step := st.last_loss_step } := by
    unfold step_body
    simp only [loss_phase_empty]
    rw [h1, h2, spare_phase_none s _ _ _ _ hf1al]
  have hslot : ∀ i, i < s.n.toNat →
      ((step_body s losses 0 st t).fleet i) =
        { compute_gaps st.fleet s i with
          v := s.V
          s := fmod ((st.fleet i).s + s.V * s.dt + s.perimeter) s.perimeter } ∧
      (compute_gaps st.fleet s i).gap_f = g ∧ (compute_gaps st.fleet s i).gap_b = g := by
    intro i hi
    obtain ⟨e1, e2⟩ := compute_gaps_even st.fleet s q g c hN hg hPg hc0 hcg
      (fun j hj => (hal j hj).1) hx i hi
    have hm : (compute_gaps st.fleet s i).mode = 0 := by
      rw [compute_gaps_proj (fun d => d.mode) (fun _ _ => rfl) (fun _ _ => rfl)]
      exact (hal i hi).2
    have hs : (compute_gaps st.fleet s i).s = (st.fleet i).s :=
      compute_gaps_proj (fun d => d.s) (fun _ _ => rfl) (fun _ _ => rfl) _ _ _
    have hsp := speed_fold_slot s (compute_gaps st.fleet s) i hi (hf1al i hi) hm
    rw [e1, e2, speed_cmd_even s g hsafe hV0 hVmax hVcap] at hsp
    have hadv := advance_fold_slot s
      ((List.range s.n.toNat).foldl (speed_step s) (compute_gaps st.fleet s)) i hi
      (by rw [hsp]; exact hf1al i hi)
    refine ⟨?_, e1, e2⟩
    rw [hbody]
    simp only
    rw [hadv, hsp]
    simp only [hs]
  refine ⟨by rw [hbody], by rw [hbody], ?_, ?_⟩
  · intro i hi
    obtain ⟨e, e1, e2⟩ := hslot i hi
    rw [e]
    refine ⟨hf1al i hi, ?_, rfl, e1, e2⟩
    simp only
    rw [compute_gaps_proj (fun d => d.mode) (fun _ _ => rfl) (fun _ _ => rfl)]
    exact (hal i hi).2
  · refine ⟨q + ⌊(c + s.V * s.dt) / g⌋.toNat,
      c + s.V * s.dt - (⌊(c + s.V * s.dt) / g⌋.toNat : ℚ) * g, ?_, ?_, ?_⟩
    · exact (advance_grid s.perimeter g c (s.V * s.dt) s.n.toNat 0 (by omega) hg hPg hc0
        (mul_nonneg hV0 hdt)).2.1
    · exact (advance_grid s.perimeter g c (s.V * s.dt) s.n.toNat 0 (by omega) hg hPg hc0
        (mul_nonneg hV0 hdt)).2.2
    · intro i hi
      obtain ⟨e, _, _⟩ := hslot i hi
      rw [e]
      simp only
      rw [hx i hi]
      have h := (advance_grid s.perimeter g c (s.V * s.dt) s.n.toNat
        ((i + q) % s.n.toNat) (by omega) hg hPg hc0 (mul_nonneg hV0 hdt)).1
      rw [h, Nat.mod_add_mod, Nat.add_assoc]

end Baseline

namespace Baseline

/-- The state of `simulate` with an empty schedule after any number of
steps: no loss seen, no spare inserted, every slot living, in mode 0, with
velocity `V` and on the grid of width `g = perimeter / n`; after at least one
step both gaps of every slot are `g`. -/
theorem run_steps_even (s : Scenario) (losses : Losses)
    (hn : 2 ≤ s.n) (hP : 0 < s.perimeter) (hsafe : s.d_safe ≤ s.perimeter / (s.n : ℚ))
    (hV0 : 0 ≤ s.V) (hVmax : s.V ≤ s.Vmax) (hVcap : s.V ≤ s.V_cap) (hdt : 0 ≤ s.dt) :
    ∀ t : Nat,
      (run_steps s losses 0 t).total_losses_seen = 0 ∧
      (run_steps s losses 0 t).total_spares_inserted = 0 ∧
      (∀ i, i < s.n.toNat →
        ((run_steps s losses 0 t).fleet i).alive = true ∧
        ((run_steps s losses 0 t).fleet i).mode = 0 ∧
        ((run_steps s losses 0 t).fleet i).v = s.V ∧
        (1 ≤ t → ((run_steps s losses 0 t).fleet i).gap_f = s.perimeter / (s.n : ℚ) ∧
          ((run_steps s losses 0 t).fleet i).gap_b = s.perimeter / (s.n : ℚ))) ∧
      ∃ (q : Nat) (c : ℚ), 0 ≤ c ∧ c < s.perimeter / (s.n : ℚ) ∧ ∀ i, i < s.n.toNat →
        ((run_steps s losses 0 t).fleet i).s
          = (((i + q) % s.n.toNat : ℕ) : ℚ) * (s.perimeter / (s.n : ℚ)) + c := by
  have hN : 2 ≤ s.n.toNat := by omega
  have hcast : ((s.n.toNat : ℕ) : ℚ) = (s.n : ℚ) := by
    have h : ((s.n.toNat : ℕ) : ℤ) = s.n := Int.toNat_of_nonneg (by omega)
    exact_mod_cast h
  have hnq : (0 : ℚ) < (s.n : ℚ) := by
    have : (0 : ℤ) < s.n := by omega
    exact_mod_cast this
  have hg : 0 < s.perimeter / (s.n : ℚ) := div_pos hP hnq
  have hPg : s.perimeter = (s.n.toNat : ℚ) * (s.perimeter / (s.n : ℚ)) := by
    rw [hcast]
    field_simp
  intro t
  induction t with
  | zero =>
    refine ⟨rfl, rfl, ?_, 0, 0, le_refl 0, hg, ?_⟩
    · intro i hi
      obtain ⟨_, e2, e3, e4⟩ := init_fleet_slot s i hi
      exact ⟨e3, e4, e2, fun h => absurd h (by omega)⟩
    · intro i hi
      obtain ⟨e1, _⟩ := init_fleet_slot s i hi
      have h := fmod_grid i s.n.toNat (s.perimeter / (s.n : ℚ)) 0 (by omega) hg (le_refl 0) hg
      rw [add_zero, ← hPg] at h
      show (init_fleet s i).s = _
      rw [e1, h, Nat.add_zero, add_zero]
  | succ t ih =>
    obtain ⟨h1, h2, hal, q, c, hc0, hcg, hx⟩ := ih
    rw [run_steps_succ]
    obtain ⟨r1, r2, r3, r4⟩ := step_body_even s losses (run_steps s losses 0 t) t
      (s.perimeter / (s.n : ℚ)) hN hg hPg hsafe hV0 hVmax hVcap hdt h1 h2
      (fun i hi => ⟨(hal i hi).1, (hal i hi).2.1⟩) q c hc0 hcg hx
    refine ⟨r1, r2, ?_, r4⟩
    intro i hi
    obtain ⟨a1, a2, a3, a4, a5⟩ := r3 i hi
    exact ⟨a1, a2, a3, fun _ => ⟨a4, a5⟩⟩

/-- C33. Uniform spacing is a fixed point of the baseline controller, in
exact arithmetic: in `simulate` with an empty loss schedule, `n ≥ 2`,
`perimeter > 0`, `perimeter / n ≥ d_safe`, `0 ≤ V ≤ Vmax`, `V ≤ V_cap` and
`dt ≥ 0`, after every step `t ≥ 1` every drone is alive with velocity `V` and
`gap_f = gap_b = perimeter / n`, and no spare has been inserted; the same
holds of the fleet from which the final metrics are computed. -/
theorem uniform_spacing_fixed_point (s : Scenario) (losses : Losses)
    (hn : 2 ≤ s.n) (hP : 0 < s.perimeter) (hsafe : s.d_safe ≤ s.perimeter / (s.n : ℚ))
    (hV0 : 0 ≤ s.V) (hVmax : s.V ≤ s.Vmax) (hVcap : s.V ≤ s.V_cap) (hdt : 0 ≤ s.dt)
    (t : Nat) (ht : 1 ≤ t) (i : Nat) (hi : i < s.n.toNat) :
    ((run_steps s losses 0 t).fleet i).alive = true ∧
    ((run_steps s losses 0 t).fleet i).v = s.V ∧
    ((run_steps s losses 0 t).fleet i).gap_f = s.perimeter / (s.n : ℚ) ∧
    ((run_steps s losses 0 t).fleet i).gap_b = s.perimeter / (s.n : ℚ) ∧
    (run_steps s losses 0 t).total_spares_inserted = 0 ∧
    (simulate s losses 0 i).alive = true ∧
    (simulate s losses 0 i).v = s.V ∧
    (simulate s losses 0 i).gap_f = s.perimeter / (s.n : ℚ) ∧
    (simulate s losses 0 i).gap_b = s.perimeter / (s.n : ℚ) := by
  obtain ⟨_, h2, hal, _⟩ := run_steps_even s losses hn hP hsafe hV0 hVmax hVcap hdt t
  obtain ⟨a1, _, a3, a4⟩ := hal i hi
  obtain ⟨a5, a6⟩ := a4 ht
  obtain ⟨_, _, fal, q, c, hc0, hcg, hx⟩ :=
    run_steps_even s losses hn hP hsafe hV0 hVmax hVcap hdt s.steps.toNat
  have hN : 2 ≤ s.n.toNat := by omega
  have hcast : ((s.n.toNat : ℕ) : ℚ) = (s.n : ℚ) := by
    have h : ((s.n.toNat : ℕ) : ℤ) = s.n := Int.toNat_of_nonneg (by omega)
    exact_mod_cast h
  have hnq : (0 : ℚ) < (s.n : ℚ) := by
    have : (0 : ℤ) < s.n := by omega
    exact_mod_cast this
  have hg : 0 < s.perimeter / (s.n : ℚ) := div_pos hP hnq
  have hPg : s.perimeter = (s.n.toNat : ℚ) * (s.perimeter / (s.n : ℚ)) := by
    rw [hcast]
    field_simp
  obtain ⟨e1, e2⟩ := compute_gaps_even (run_steps s losses 0 s.steps.toNat).fleet s q
    (s.perimeter / (s.n : ℚ)) c hN hg hPg hc0 hcg (fun j hj => (fal j hj).1) hx i hi
  refine ⟨a1, a3, a5, a6, h2, ?_, ?_, e1, e2⟩
  · unfold simulate
    rw [compute_gaps_proj (fun d => d.alive) (fun _ _ => rfl) (fun _ _ => rfl)]
    exact (fal i hi).1
  · unfold simulate
    rw [compute_gaps_proj (fun d => d.v) (fun _ _ => rfl) (fun _ _ => rfl)]
    exact (fal i hi).2.2.1

/-- C33 on four drones on a ring of perimeter 40: after 3 steps drone 2 is
alive with velocity 1 and both gaps 10. -/
theorem uniform_spacing_fixed_point_witness :
    ((run_steps (demoScenario 4 40) spacedLosses 0 3).fleet 2).alive = true ∧
    ((run_steps (demoScenario 4 40) spacedLosses 0 3).fleet 2).v = 1 ∧
    ((run_steps (demoScenario 4 40) spacedLosses 0 3).fleet 2).gap_f = 10 ∧
    ((run_steps (demoScenario 4 40) spacedLosses 0 3).fleet 2).gap_b = 10 :=
  ⟨(uniform_spacing_fixed_point (demoScenario 4 40) spacedLosses (by decide) (by decide!)
      (by decide!) (by decide!) (by decide!) (by decide!) (by decide!) 3 (by decide) 2
      (by decide)).1,
    (uniform_spacing_fixed_point (demoScenario 4 40) spacedLosses (by decide) (by decide!)
      (by decide!) (by decide!) (by decide!) (by decide!) (by decide!) 3 (by decide) 2
      (by decide)).2.1,
    (uniform_spacing_fixed_point (demoScenario 4 40) spacedLosses (by decide) (by decide!)
      (by decide!) (by decide!) (by decide!) (by decide!) (by decide!) 3 (by decide) 2
      (by decide)).2.2.1.trans (by decide!),
    (uniform_spacing_fixed_point (demoScenario 4 40) spacedLosses (by decide) (by decide!)
      (by decide!) (by decide!) (by decide!) (by decide!) (by decide!) 3 (by decide) 2
      (by decide)).2.2.2.1.trans (by decide!)⟩

end Baseline
